import Mathlib

/-!
A verification development of `MappingFEField`.

Shallow embedding of `include/deal.II/fe/mapping_fe_field.templates.h`.

Conventions of the embedding.

* `UpdateFlags` is an unsigned bit mask and is embedded as `Nat` with the
  bitwise operations `&&&` and `|||`; a C++ condition `if (a & b)` is
  `a &&& b ≠ 0`.  The numeric values of the enumerators live in
  `fe_update_flags.h`, which is not part of the sources at hand, so every
  definition takes them as a parameter `F : UpdateFlagValues`.
* `double` is embedded as `ℚ` with exact arithmetic.
* `std::vector<T>` is embedded as `List T`.
* `Assert`/`AssertDimension`/`AssertIndexRange` are debug-mode checks of
  preconditions; unless stated otherwise they are not part of the embedding.
-/

namespace dealii

/-! ## Update flags -/

/-- The enumerators of `UpdateFlags` used by the mapping.  Their numeric values
are declared in `fe_update_flags.h`; here they are parameters. -/
structure UpdateFlagValues where
  update_boundary_forms : Nat
  update_quadrature_points : Nat
  update_JxW_values : Nat
  update_normal_vectors : Nat
  update_jacobians : Nat
  update_jacobian_grads : Nat
  update_inverse_jacobians : Nat
  update_covariant_transformation : Nat
  update_contravariant_transformation : Nat
  update_volume_elements : Nat
  update_jacobian_pushed_forward_grads : Nat
  update_jacobian_2nd_derivatives : Nat
  update_jacobian_pushed_forward_2nd_derivatives : Nat
  update_jacobian_3rd_derivatives : Nat
  update_jacobian_pushed_forward_3rd_derivatives : Nat

/-- The assignment of one bit per enumerator made by deal.II's
`fe_update_flags.h`.  It is used to evaluate the definitions on concrete
inputs; no general theorem depends on it. -/
def dealiiFlags : UpdateFlagValues where
  update_boundary_forms := 0x0010
  update_quadrature_points := 0x0020
  update_JxW_values := 0x0040
  update_normal_vectors := 0x0080
  update_jacobians := 0x0100
  update_jacobian_grads := 0x0200
  update_inverse_jacobians := 0x0400
  update_covariant_transformation := 0x0800
  update_contravariant_transformation := 0x1000
  update_volume_elements := 0x10000
  update_jacobian_pushed_forward_grads := 0x100000
  update_jacobian_2nd_derivatives := 0x200000
  update_jacobian_pushed_forward_2nd_derivatives := 0x400000
  update_jacobian_3rd_derivatives := 0x800000
  update_jacobian_pushed_forward_3rd_derivatives := 0x1000000

/-- The statement `if (out & cond) out |= add;`. -/
def or_if (cond add out : Nat) : Nat :=
  if out &&& cond ≠ 0 then out ||| add else out

/-- The body of the `for` loop of `requires_update_flags` (lines 578-602):
the five `if` statements in source order. -/
def requires_update_flags_pass (F : UpdateFlagValues) (out : Nat) : Nat :=
  let out := or_if (F.update_JxW_values ||| F.update_normal_vectors)
    F.update_boundary_forms out
  let out := or_if
    (F.update_covariant_transformation ||| F.update_jacobian_grads |||
      F.update_jacobians ||| F.update_boundary_forms ||| F.update_normal_vectors)
    F.update_contravariant_transformation out
  let out := or_if
    (F.update_inverse_jacobians ||| F.update_jacobian_pushed_forward_grads |||
      F.update_jacobian_pushed_forward_2nd_derivatives |||
      F.update_jacobian_pushed_forward_3rd_derivatives)
    F.update_covariant_transformation out
  let out := or_if F.update_contravariant_transformation F.update_volume_elements out
  let out := or_if F.update_normal_vectors F.update_volume_elements out
  out

/-- `MappingFEField::requires_update_flags` (lines 555-606):
`out = in; for (i = 0; i < 5; ++i) { ... } return out;`. -/
def requires_update_flags (F : UpdateFlagValues) (in_flags : Nat) : Nat :=
  (requires_update_flags_pass F)^[5] in_flags

/-- The number of the four flags a pass can add that `out` does not contain yet. -/
def missing_targets (F : UpdateFlagValues) (out : Nat) : Nat :=
  (if out ||| F.update_boundary_forms = out then 0 else 1) +
  (if out ||| F.update_contravariant_transformation = out then 0 else 1) +
  (if out ||| F.update_covariant_transformation = out then 0 else 1) +
  (if out ||| F.update_volume_elements = out then 0 else 1)


/-- A flag set `out` is closed under the rules of `requires_update_flags`: for each of
the five `if` statements of the rule block, when `out` meets the tested flags it
contains the flag the statement adds. -/
def closed_under_rules (F : UpdateFlagValues) (out : Nat) : Prop :=
  (out &&& (F.update_JxW_values ||| F.update_normal_vectors) ≠ 0 →
    out ||| F.update_boundary_forms = out) ∧
  (out &&& (F.update_covariant_transformation ||| F.update_jacobian_grads |||
      F.update_jacobians ||| F.update_boundary_forms ||| F.update_normal_vectors) ≠ 0 →
    out ||| F.update_contravariant_transformation = out) ∧
  (out &&& (F.update_inverse_jacobians ||| F.update_jacobian_pushed_forward_grads |||
      F.update_jacobian_pushed_forward_2nd_derivatives |||
      F.update_jacobian_pushed_forward_3rd_derivatives) ≠ 0 →
    out ||| F.update_covariant_transformation = out) ∧
  (out &&& F.update_contravariant_transformation ≠ 0 →
    out ||| F.update_volume_elements = out) ∧
  (out &&& F.update_normal_vectors ≠ 0 → out ||| F.update_volume_elements = out)

instance (F : UpdateFlagValues) (out : Nat) : Decidable (closed_under_rules F out) := by
  unfold closed_under_rules
  infer_instance

/-! ## Tensors, points and the collaborators of the mapping -/

/-- `Point<n>`. -/
abbrev Point (n : Nat) := Fin n → ℚ

/-- `Tensor<1, n>`. -/
abbrev Tensor1 (n : Nat) := Fin n → ℚ

/-- `Tensor<2, n>`. -/
abbrev Tensor2 (n : Nat) := Matrix (Fin n) (Fin n) ℚ

/-- `Tensor<3, n>`. -/
abbrev Tensor3 (n : Nat) := Fin n → Fin n → Fin n → ℚ

/-- `Tensor<4, n>`. -/
abbrev Tensor4 (n : Nat) := Fin n → Fin n → Fin n → Fin n → ℚ

/-- `DerivativeForm<1, dim, spacedim>`: `spacedim` rows, each a `Tensor<1, dim>`. -/
abbrev DerivativeForm1 (dim spacedim : Nat) := Matrix (Fin spacedim) (Fin dim) ℚ

/-- `Tensor<1, n>::operator*`: the scalar product of two rank-1 tensors. -/
def scalar_product {n : Nat} (a b : Tensor1 n) : ℚ := ∑ i, a i * b i

/-- `Tensor<1, n>::norm_square`.  The comparison `a.norm() < b.norm()` of the
source is embedded as `norm_square a < norm_square b`, the square root being
strictly monotone. -/
def norm_square {n : Nat} (a : Tensor1 n) : ℚ := ∑ i, a i * a i

/-- Modelled from the spec: `invert(Tensor<2, n>)` of `tensor.h`, the inverse
used to "solve the normal-equations system"; it is the adjugate divided by the
determinant (a singular argument gives the zero matrix in exact arithmetic). -/
def invert {n : Nat} (A : Tensor2 n) : Tensor2 n := A.det⁻¹ • A.adjugate

/-- Modelled from the spec: `DerivativeForm<1, dim, spacedim>::covariant_form` of
`derivative_form.h`, "Covariant form = transpose of the (pseudo-)inverse of the
contravariant matrix (exact inverse-transpose when `dim == spacedim`)".  For
`dim < spacedim` the pseudo-inverse of `J` is `(JᵀJ)⁻¹ Jᵀ`, whose transpose is
`J (JᵀJ)⁻ᵀ`. -/
def covariant_form {dim spacedim : Nat} (J : DerivativeForm1 dim spacedim) :
    DerivativeForm1 dim spacedim :=
  if h : dim = spacedim then
    ((invert (J.submatrix (Fin.cast h) id)).transpose).submatrix (Fin.cast h.symm) id
  else
    J * (invert (J.transpose * J)).transpose

/-- Modelled from the spec: `DerivativeForm<1, dim, spacedim>::determinant` of
`derivative_form.h`, "Volume element = determinant (dim==spacedim) or square root
of the Gram determinant of the contravariant columns".  The square root of
`<cmath>` is the parameter `sqrt`. -/
def determinant {dim spacedim : Nat} (sqrt : ℚ → ℚ) (J : DerivativeForm1 dim spacedim) : ℚ :=
  if h : dim = spacedim then
    (J.submatrix (Fin.cast h) id).det
  else
    sqrt (J.transpose * J).det

/-- What the mapping uses of `FiniteElement<dim, spacedim>`: the number of shape
functions and the evaluators of their values and derivatives at a reference
point. -/
structure FiniteElement (dim : Nat) where
  n_dofs_per_cell : Nat
  shape_value : Nat → Point dim → ℚ
  shape_grad : Nat → Point dim → Tensor1 dim
  shape_grad_grad : Nat → Point dim → Tensor2 dim
  shape_3rd_derivative : Nat → Point dim → Tensor3 dim
  shape_4th_derivative : Nat → Point dim → Tensor4 dim
  /-- The value of `n_components()`. -/
  n_components : Nat := 1
  /-- The value of `get_nonzero_components(dof)[component]`. -/
  nonzero_components : Nat → Nat → Bool := fun _ component => component == 0
  /-- The value of `component_to_base_index(component).first`. -/
  component_to_base_index : Nat → Nat := fun _ => 0
  /-- The value of `base_element(base_no).is_primitive()`. -/
  base_element_is_primitive : Nat → Bool := fun _ => true
  /-- The value of `shape_value_component(i, p, component)`; for a primitive shape
  function it is the scalar value in its nonzero component and zero elsewhere. -/
  shape_value_component : Nat → Point dim → Nat → ℚ :=
    fun i p component => if nonzero_components i component then shape_value i p else 0

/-- `Quadrature<dim>`: points and weights. -/
structure Quadrature (dim : Nat) where
  points : List (Point dim)
  weights : List ℚ

/-- `Quadrature::size`. -/
def Quadrature.size {dim : Nat} (q : Quadrature dim) : Nat := q.points.length

/-- `Quadrature<dim>(const Point<dim> &)`: the one-point rule with weight one. -/
def Quadrature.of_point {dim : Nat} (p : Point dim) : Quadrature dim := ⟨[p], [1]⟩

/-! ## Loops and vectors -/

/-- `for (unsigned int i = 0; i < n; ++i) body(i);` on the state `s`. -/
def for_loop {σ : Type} (n : Nat) (body : Nat → σ → σ) (s : σ) : σ :=
  (List.range n).foldl (fun s i => body i s) s

/-- `std::vector::resize(n)`: truncate or pad with value-initialised entries. -/
def resize {α : Type} (v : List α) (n : Nat) (zero : α) : List α :=
  v.take n ++ List.replicate (n - v.length) zero

/-- `for (point = 0; point < n; ++point) out[point] = value(point);`. -/
def assign_each {α : Type} (n : Nat) (value : Nat → α) (out : List α) : List α :=
  for_loop n (fun point out => out.set point (value point)) out

/-- The double loop of `InternalData::reinit` over a flattened table:
`for (point < n_q_points) for (i < n_shape_functions)
   table[point * n_shape_functions + i] = value(i, point);`. -/
def fill_table {α : Type} (n_shape_functions n_q_points : Nat) (value : Nat → Nat → α)
    (table : List α) : List α :=
  for_loop n_q_points (fun point table =>
    for_loop n_shape_functions (fun i table =>
      table.set (point * n_shape_functions + i) (value i point)) table) table

/-- The failures the embedded functions can signal.  `ExcDistortedMappedCell`
carries the cell center (as the list of its coordinates), the determinant and the
index of the quadrature point. -/
inductive Exc where
  | ExcInactiveCell
  | ExcIndexRange
  | ExcDimensionMismatch
  | ExcTransformationFailed
  | ExcNotImplemented
  | ExcAccessToUninitializedField
  | ExcInternalError
  | ExcDistortedMappedCell (center : List ℚ) (det : ℚ) (point : Nat)
  deriving DecidableEq, Repr

/-! ## `internal::ComponentDoFs` -/

/-- The data members of `internal::ComponentDoFs<dim, spacedim>`; `offsets` is the
`std::array<unsigned int, spacedim + 1>`. -/
structure ComponentDoFs where
  component_dofs : List Nat
  offsets : List Nat
  all_components_primitive : Bool

/-- `ComponentDoFs::operator[]` (lines 105-115): the view of `component_dofs` from
`offsets[component]` to `offsets[component + 1]`. -/
def ComponentDoFs.get (c : ComponentDoFs) (component : Nat) : List Nat :=
  (c.component_dofs.drop (c.offsets.getD component 0)).take
    (c.offsets.getD (component + 1) 0 - c.offsets.getD component 0)

/-- `ComponentMask::operator[]` of `component_mask.h` on the stored
`std::vector<bool>`: an empty mask stands for "all components selected". -/
def ComponentMask.get (mask : List Bool) (component_index : Nat) : Bool :=
  if mask.isEmpty then true else mask.getD component_index false

/-- `ComponentMask::n_selected_components(n)` of `component_mask.h`: `n` for the
empty mask, else the number of `true` entries. -/
def ComponentMask.n_selected_components (mask : List Bool) (n : Nat) : Nat :=
  if mask.isEmpty then n else mask.count true

/-- The state of the constructor of `ComponentDoFs` while it runs: the three data
members, the counter `d`, and a ghost log of the indices at which `offsets` has been
written. -/
structure ComponentDoFsConstruction where
  component_dofs : List Nat
  offsets : List Nat
  all_components_primitive : Bool
  d : Nat
  offsets_writes : List Nat

/-- The inner loop of the constructor (lines 83-88) for one component:
`for (dof < fe.n_dofs_per_cell()) if (fe.get_nonzero_components(dof)[component_no])
   { component_dofs.push_back(dof); ++n_component_dofs; }`,
on the pair `(component_dofs, n_component_dofs)`. -/
def ComponentDoFs.push_component_dofs {dim : Nat} (fe : FiniteElement dim) (component_no : Nat)
    (component_dofs : List Nat) : List Nat × Nat :=
  for_loop fe.n_dofs_per_cell (fun dof s =>
    if fe.nonzero_components dof component_no then (s.1 ++ [dof], s.2 + 1) else s)
    (component_dofs, 0)

/-- The body of the constructor between its assertions (lines 74-91):
`offsets.fill(0u)` and the loop over the components of the mask.  A write to
`offsets[d]` with `d > spacedim` leaves the list as it is and shows in
`offsets_writes`. -/
def ComponentDoFs.construct {dim : Nat} (spacedim : Nat) (fe : FiniteElement dim)
    (mask : List Bool) : ComponentDoFsConstruction :=
  for_loop mask.length (fun component_no s =>
    if ComponentMask.get mask component_no then
      { component_dofs := (ComponentDoFs.push_component_dofs fe component_no s.component_dofs).1
        offsets := s.offsets.set (s.d + 1)
          (s.offsets.getD s.d 0
            + (ComponentDoFs.push_component_dofs fe component_no s.component_dofs).2)
        all_components_primitive := s.all_components_primitive
          && fe.base_element_is_primitive (fe.component_to_base_index component_no)
        d := s.d + 1
        offsets_writes := s.offsets_writes ++ [s.d + 1] }
    else s)
    { component_dofs := []
      offsets := List.replicate (spacedim + 1) 0
      all_components_primitive := true
      d := 0
      offsets_writes := [] }

/-- The constructor `ComponentDoFs(fe, mask)` (lines 64-92) with its three
`AssertDimension` checks: the constructed object or the failure, together with the
log of the writes to `offsets` made before the constructor returned or failed. -/
def ComponentDoFs.init_run {dim : Nat} (spacedim : Nat) (fe : FiniteElement dim)
    (mask : List Bool) : Except Exc ComponentDoFs × List Nat :=
  if mask.length ≠ fe.n_components then (.error .ExcDimensionMismatch, [])
  else if ComponentMask.n_selected_components mask fe.n_components ≠ spacedim then
    (.error .ExcDimensionMismatch, [])
  else
    if (ComponentDoFs.construct spacedim fe mask).d ≠ spacedim then
      (.error .ExcDimensionMismatch, (ComponentDoFs.construct spacedim fe mask).offsets_writes)
    else
      (.ok { component_dofs := (ComponentDoFs.construct spacedim fe mask).component_dofs
             offsets := (ComponentDoFs.construct spacedim fe mask).offsets
             all_components_primitive :=
               (ComponentDoFs.construct spacedim fe mask).all_components_primitive },
        (ComponentDoFs.construct spacedim fe mask).offsets_writes)

/-- The constructor `ComponentDoFs(fe, mask)`: the constructed object or the
failure. -/
def ComponentDoFs.init {dim : Nat} (spacedim : Nat) (fe : FiniteElement dim)
    (mask : List Bool) : Except Exc ComponentDoFs :=
  (ComponentDoFs.init_run spacedim fe mask).1

/-- The components selected by a mask, in increasing order. -/
def selected_components (mask : List Bool) : List Nat :=
  (List.range mask.length).filter (ComponentMask.get mask)

/-- The local shape-function indices whose nonzero-component set contains
`component_no`, in increasing order. -/
def dofs_of_component {dim : Nat} (fe : FiniteElement dim) (component_no : Nat) : List Nat :=
  (List.range fe.n_dofs_per_cell).filter (fun dof => fe.nonzero_components dof component_no)

/-- The running totals `0, l₀, l₀ + l₁, …` of a list of lengths, in an array of
`spacedim + 1` entries that is zero past the last total. -/
def running_offsets (lengths : List Nat) (spacedim : Nat) : List Nat :=
  (List.range (spacedim + 1)).map (fun j =>
    if j ≤ lengths.length then (lengths.take j).sum else 0)

/-! ## `MappingFEField::InternalData` -/

/-- The data members of `MappingFEField::InternalData`. -/
@[ext]
structure InternalData (dim spacedim : Nat) where
  fe : FiniteElement dim
  unit_tangentials : List (List (Tensor1 dim))
  n_shape_functions : Nat
  mask : List Bool
  local_dof_indices : List Nat
  local_dof_values : List ℚ
  shape_values : List ℚ
  shape_derivatives : List (Tensor1 dim)
  shape_second_derivatives : List (Tensor2 dim)
  shape_third_derivatives : List (Tensor3 dim)
  shape_fourth_derivatives : List (Tensor4 dim)
  covariant : List (DerivativeForm1 dim spacedim)
  contravariant : List (DerivativeForm1 dim spacedim)
  volume_elements : List ℚ
  aux : List (List (Tensor1 spacedim))
  quadrature_weights : List ℚ
  update_each : Nat

/-- `InternalData::InternalData(fe, mask)` (lines 119-129).  `unit_tangentials` is
a `std::array` of `GeometryInfo<dim>::faces_per_cell * (dim - 1)` empty vectors. -/
def InternalData.init {dim : Nat} (spacedim : Nat) (fe : FiniteElement dim) (mask : List Bool) :
    InternalData dim spacedim where
  fe := fe
  unit_tangentials := List.replicate (2 * dim * (dim - 1)) []
  n_shape_functions := fe.n_dofs_per_cell
  mask := mask
  local_dof_indices := List.replicate fe.n_dofs_per_cell 0
  local_dof_values := List.replicate fe.n_dofs_per_cell 0
  shape_values := []
  shape_derivatives := []
  shape_second_derivatives := []
  shape_third_derivatives := []
  shape_fourth_derivatives := []
  covariant := []
  contravariant := []
  volume_elements := []
  aux := []
  quadrature_weights := []
  update_each := 0

/-- `InternalData::shape(qpoint, shape_nr)` (lines 224-232, 448-456). -/
def InternalData.shape {dim spacedim : Nat} (data : InternalData dim spacedim)
    (qpoint shape_nr : Nat) : ℚ :=
  data.shape_values.getD (qpoint * data.n_shape_functions + shape_nr) 0

/-- `InternalData::derivative(qpoint, shape_nr)` (lines 235-257). -/
def InternalData.derivative {dim spacedim : Nat} (data : InternalData dim spacedim)
    (qpoint shape_nr : Nat) : Tensor1 dim :=
  data.shape_derivatives.getD (qpoint * data.n_shape_functions + shape_nr) 0

/-- `InternalData::reinit(update_flags, quadrature)` (lines 133-209).  Every `if`
block of the source tests `update_flags` only and writes one member, so the blocks are
given member by member, in source order. -/
def InternalData.reinit {dim spacedim : Nat} (F : UpdateFlagValues)
    (data : InternalData dim spacedim) (update_flags : Nat) (quadrature : Quadrature dim) :
    InternalData dim spacedim :=
  let n_q_points := quadrature.size
  let points := quadrature.points
  let n_shape_functions := data.n_shape_functions
  { data with
    update_each := update_flags
    shape_values :=
      if update_flags &&& F.update_quadrature_points ≠ 0 then
        fill_table n_shape_functions n_q_points
          (fun i point => data.fe.shape_value i (points.getD point 0))
          (resize data.shape_values (n_shape_functions * n_q_points) 0)
      else data.shape_values
    shape_derivatives :=
      if update_flags &&&
          (F.update_covariant_transformation ||| F.update_contravariant_transformation |||
            F.update_JxW_values ||| F.update_boundary_forms ||| F.update_normal_vectors |||
            F.update_jacobians ||| F.update_jacobian_grads |||
            F.update_inverse_jacobians) ≠ 0 then
        fill_table n_shape_functions n_q_points
          (fun i point => data.fe.shape_grad i (points.getD point 0))
          (resize data.shape_derivatives (n_shape_functions * n_q_points) 0)
      else data.shape_derivatives
    covariant :=
      if update_flags &&& F.update_covariant_transformation ≠ 0 then
        resize data.covariant n_q_points 0
      else data.covariant
    contravariant :=
      if update_flags &&& F.update_contravariant_transformation ≠ 0 then
        resize data.contravariant n_q_points 0
      else data.contravariant
    volume_elements :=
      if update_flags &&& F.update_volume_elements ≠ 0 then
        resize data.volume_elements n_q_points 0
      else data.volume_elements
    shape_second_derivatives :=
      if update_flags &&&
          (F.update_jacobian_grads ||| F.update_jacobian_pushed_forward_grads) ≠ 0 then
        fill_table n_shape_functions n_q_points
          (fun i point => data.fe.shape_grad_grad i (points.getD point 0))
          (resize data.shape_second_derivatives (n_shape_functions * n_q_points) 0)
      else data.shape_second_derivatives
    shape_third_derivatives :=
      if update_flags &&&
          (F.update_jacobian_2nd_derivatives |||
            F.update_jacobian_pushed_forward_2nd_derivatives) ≠ 0 then
        fill_table n_shape_functions n_q_points
          (fun i point => data.fe.shape_3rd_derivative i (points.getD point 0))
          (resize data.shape_third_derivatives (n_shape_functions * n_q_points) 0)
      else data.shape_third_derivatives
    shape_fourth_derivatives :=
      if update_flags &&&
          (F.update_jacobian_3rd_derivatives |||
            F.update_jacobian_pushed_forward_3rd_derivatives) ≠ 0 then
        fill_table n_shape_functions n_q_points
          (fun i point => data.fe.shape_4th_derivative i (points.getD point 0))
          (resize data.shape_fourth_derivatives (n_shape_functions * n_q_points) 0)
      else data.shape_fourth_derivatives
    quadrature_weights := quadrature.weights }

/-! ## The geometric evaluation engine -/

/-- `MappingFEField::do_transform_unit_to_real_cell` (lines 2100-2112):
`p_real[d] += data.local_dof_values[i] * data.shape(0, i)` for `i` in
`component_dofs[d]`. -/
def do_transform_unit_to_real_cell {dim spacedim : Nat} (component_dofs : ComponentDoFs)
    (data : InternalData dim spacedim) : Point spacedim :=
  fun d => (component_dofs.get d).foldl
    (fun p_real_d i => p_real_d + data.local_dof_values.getD i 0 * data.shape 0 i) 0

/-- `maybe_compute_q_points` (lines 726-752).  `shape` points to the entry
`data.shape(point + data_set, 0)` of `shape_values`, so `shape[i]` is the entry
`(point + data_set) * n_shape_functions + 0 + i`. -/
def maybe_compute_q_points {dim spacedim : Nat} (F : UpdateFlagValues) (data_set : Nat)
    (data : InternalData dim spacedim) (component_dofs : ComponentDoFs)
    (quadrature_points : List (Point spacedim)) : List (Point spacedim) :=
  let update_flags := data.update_each
  if update_flags &&& F.update_quadrature_points ≠ 0 then
    assign_each quadrature_points.length
      (fun point d => (component_dofs.get d).foldl
        (fun result_d i => result_d + data.local_dof_values.getD i 0 *
          data.shape_values.getD ((point + data_set) * data.n_shape_functions + 0 + i) 0) 0)
      quadrature_points
  else quadrature_points

/-- `maybe_update_Jacobians` (lines 761-813).  `data_derv` points to the entry
`data.derivative(point + data_set, 0)` of `shape_derivatives`.  The members
`contravariant`, `covariant` and `volume_elements` are `mutable`; the updated cache
is returned. -/
def maybe_update_Jacobians {dim spacedim : Nat} (F : UpdateFlagValues) (sqrt : ℚ → ℚ)
    (data_set : Nat) (data : InternalData dim spacedim) (component_dofs : ComponentDoFs) :
    InternalData dim spacedim :=
  let update_flags := data.update_each
  let data :=
    if update_flags &&& F.update_contravariant_transformation ≠ 0 then
      let n_q_points := data.contravariant.length
      { data with contravariant := (
        assign_each n_q_points
          (fun point d => (component_dofs.get d).foldl
            (fun result_d i => result_d + data.local_dof_values.getD i 0 •
              data.shape_derivatives.getD
                ((point + data_set) * data.n_shape_functions + 0 + i) 0) 0)
          data.contravariant) }
    else data
  let data :=
    if update_flags &&& F.update_covariant_transformation ≠ 0 then
      { data with covariant := (
        assign_each data.contravariant.length
          (fun point => covariant_form (data.contravariant.getD point 0)) data.covariant) }
    else data
  let data :=
    if update_flags &&& F.update_volume_elements ≠ 0 then
      { data with volume_elements := (
        assign_each data.contravariant.length
          (fun point => determinant sqrt (data.contravariant.getD point 0))
          data.volume_elements) }
    else data
  data

/-- `MappingFEField::fill_fe_values`, lines 1555-1561: the copy of the contravariant
matrices of the cache to the output `jacobians`. -/
def fill_fe_values_jacobians {dim spacedim : Nat} (F : UpdateFlagValues)
    (data : InternalData dim spacedim) (n_q_points : Nat)
    (jacobians : List (DerivativeForm1 dim spacedim)) : List (DerivativeForm1 dim spacedim) :=
  if data.update_each &&& F.update_jacobians ≠ 0 then
    assign_each n_q_points (fun point => data.contravariant.getD point 0) jacobians
  else jacobians

/-- `MappingFEField::fill_fe_values`, lines 1563-1570: the output
`inverse_jacobians[point] = data.covariant[point].transpose()`. -/
def fill_fe_values_inverse_jacobians {dim spacedim : Nat} (F : UpdateFlagValues)
    (data : InternalData dim spacedim) (n_q_points : Nat)
    (inverse_jacobians : List (DerivativeForm1 spacedim dim)) :
    List (DerivativeForm1 spacedim dim) :=
  if data.update_each &&& F.update_inverse_jacobians ≠ 0 then
    assign_each n_q_points (fun point => (data.covariant.getD point 0).transpose)
      inverse_jacobians
  else inverse_jacobians

/-! ## The inverse-map solver -/

/-- The local variables of `do_transform_real_to_unit_cell` that live across Newton
iterations, with the cache `mdata`.  `trials` is a ghost variable, not a program
variable: for every line search started so far, the step lengths at which a trial
point was evaluated, in order. -/
structure NewtonState (dim spacedim : Nat) where
  p_unit : Point dim
  p_real : Point spacedim
  p_minus_F : Tensor1 spacedim
  newton_iteration : Nat
  mdata : InternalData dim spacedim
  trials : List (List ℚ)

/-- How the `do ... while (true)` line search is left: by `break` with the accepted
trial, or by `goto failure`.  `trials` is the ghost list of the step lengths tried. -/
inductive LineSearchResult (dim spacedim : Nat) where
  | accepted (trials : List ℚ) (p_unit : Point dim) (p_real : Point spacedim)
      (p_minus_F : Tensor1 spacedim) (mdata : InternalData dim spacedim)
  | failure (trials : List ℚ) (mdata : InternalData dim spacedim)

/-- How `do_transform_real_to_unit_cell` is left: `return p_unit` or the label
`failure`, which throws `ExcTransformationFailed`; both with the final state. -/
inductive SolverResult (dim spacedim : Nat) where
  | returned (s : NewtonState dim spacedim)
  | failure (s : NewtonState dim spacedim)

/-- `const unsigned int newton_iteration_limit = 20;` (line 2188). -/
def newton_iteration_limit : Nat := 20

/-- The line search of `do_transform_real_to_unit_cell` (lines 2213-2248), entered
with the given `step_length`; `trials` accumulates the ghost list. -/
def line_search {dim spacedim : Nat} (F : UpdateFlagValues) (component_dofs : ComponentDoFs)
    (p : Point spacedim) (p_unit : Point dim) (p_minus_F : Tensor1 spacedim)
    (delta : Tensor1 dim) (step_length : ℚ) (mdata : InternalData dim spacedim)
    (trials : List ℚ) : LineSearchResult dim spacedim :=
  let p_unit_trial : Point dim := fun i => p_unit i - step_length * delta i
  let mdata := mdata.reinit F mdata.update_each (Quadrature.of_point p_unit_trial)
  let p_real_trial := do_transform_unit_to_real_cell component_dofs mdata
  let f_trial : Tensor1 spacedim := p - p_real_trial
  let trials := trials ++ [step_length]
  if norm_square f_trial < norm_square p_minus_F then
    LineSearchResult.accepted trials p_unit_trial p_real_trial f_trial mdata
  else if step_length > 0.05 then
    line_search F component_dofs p p_unit p_minus_F delta (step_length / 2) mdata trials
  else
    LineSearchResult.failure trials mdata
termination_by ⌈20 * step_length⌉₊
decreasing_by
  rename_i hstep
  have h : (1 : ℚ) < 20 * step_length := by
    norm_num at hstep
    linarith
  have e : 20 * (step_length / 2) = 20 * step_length / 2 := by ring
  rw [e]
  generalize 20 * step_length = y at h
  have h2 : (2 : ℕ) ≤ ⌈y⌉₊ := by
    rw [Nat.succ_le, Nat.lt_ceil]
    exact_mod_cast h
  have h3 : ⌈y / 2⌉₊ ≤ ⌈y⌉₊ - 1 := by
    rw [Nat.ceil_le]
    have h4 : y ≤ (⌈y⌉₊ : ℚ) := Nat.le_ceil y
    have h5 : ((⌈y⌉₊ - 1 : ℕ) : ℚ) = (⌈y⌉₊ : ℚ) - 1 := by
      rw [Nat.cast_sub (by omega)]
      simp
    have h6 : (2 : ℚ) ≤ (⌈y⌉₊ : ℚ) := by exact_mod_cast h2
    rw [h5]
    linarith
  omega

/-- The `while` loop of `do_transform_real_to_unit_cell` (lines 2190-2252), from the
state `s`; `eps` is the tolerance `1e-12 * cell->diameter()`. -/
def newton_loop {dim spacedim : Nat} (F : UpdateFlagValues) (component_dofs : ComponentDoFs)
    (p : Point spacedim) (eps : ℚ) (s : NewtonState dim spacedim) : SolverResult dim spacedim :=
  if norm_square s.p_minus_F > eps * eps then
    let DF : Fin dim → Point spacedim := fun j d => (component_dofs.get d).foldl
      (fun DF_j_d i => DF_j_d + s.mdata.local_dof_values.getD i 0 * s.mdata.derivative 0 i j) 0
    let f : Point dim := fun j => scalar_product (DF j) s.p_minus_F
    let df : Tensor2 dim := fun j l => -scalar_product (DF j) (DF l)
    let delta : Tensor1 dim := (invert df).mulVec f
    match line_search F component_dofs p s.p_unit s.p_minus_F delta 1 s.mdata [] with
    | LineSearchResult.accepted trials p_unit p_real p_minus_F mdata =>
      let newton_iteration := s.newton_iteration + 1
      if newton_iteration > newton_iteration_limit then
        SolverResult.failure
          ⟨p_unit, p_real, p_minus_F, newton_iteration, mdata, s.trials ++ [trials]⟩
      else
        newton_loop F component_dofs p eps
          ⟨p_unit, p_real, p_minus_F, newton_iteration, mdata, s.trials ++ [trials]⟩
    | LineSearchResult.failure trials mdata =>
      SolverResult.failure
        ⟨s.p_unit, s.p_real, s.p_minus_F, s.newton_iteration, mdata, s.trials ++ [trials]⟩
  else
    SolverResult.returned s
termination_by newton_iteration_limit + 1 - s.newton_iteration
decreasing_by
  rename_i hlimit
  simp only [newton_iteration_limit] at hlimit ⊢
  omega

/-- `MappingFEField::do_transform_real_to_unit_cell` (lines 2158-2264).  The second
argument is `cell->diameter()`. -/
def do_transform_real_to_unit_cell {dim spacedim : Nat} (F : UpdateFlagValues)
    (component_dofs : ComponentDoFs) (diameter : ℚ) (p : Point spacedim)
    (starting_guess : Point dim) (mdata : InternalData dim spacedim) :
    SolverResult dim spacedim :=
  let p_unit := starting_guess
  let mdata := mdata.reinit F mdata.update_each (Quadrature.of_point starting_guess)
  let p_real := do_transform_unit_to_real_cell component_dofs mdata
  let p_minus_F : Tensor1 spacedim := p - p_real
  let eps := 1e-12 * diameter
  newton_loop F component_dofs p eps ⟨p_unit, p_real, p_minus_F, 0, mdata, []⟩

/-! ## The mapping and its point maps -/

/-- What the mapping reads through a cell iterator: the cell's level and activity,
its diameter, its dof indices from the DoF handler, the closest-point projection of
its reference cell, and the inverse of the default linear mapping of its
triangulation on it (`none` stands for `ExcTransformationFailed`). -/
structure Cell (dim spacedim : Nat) where
  level : Nat
  is_active : Bool
  diameter : ℚ
  dof_indices : List Nat
  mg_dof_indices : List Nat
  closest_point : Point dim → Point dim
  linear_transform_real_to_unit_cell : Point spacedim → Option (Point dim)
  /-- The value of `cell->center()`. -/
  center : Point spacedim := 0
  /-- The value of `cell->direction_flag()`. -/
  direction_flag : Bool := true
  /-- The value of `cell->n_faces()`. -/
  n_faces : Nat := 2 * dim
  /-- The value of
  `GeometryInfo<dim>::subface_ratio(cell->subface_case(face_no), subface_no)`. -/
  subface_ratio : Nat → Nat → ℚ := fun _ _ => 1
  /-- The value of `cell->n_vertices()`. -/
  n_vertices : Nat := 2 ^ dim
  /-- The value of `fe_values.shape_value(i, v)` after `fe_values.reinit(dof_cell)`,
  for the member `fe_values` of the mapping, whose quadrature points are the vertices
  of the reference cell. -/
  fe_values_shape_value : Nat → Nat → ℚ := fun _ _ => 0
  /-- The value of `fe_values.shape_value_component(i, v, component)` after
  `fe_values.reinit(dof_cell)`. -/
  fe_values_shape_value_component : Nat → Nat → Nat → ℚ := fun _ _ _ => 0

/-- The data members of `MappingFEField<dim, spacedim, VectorType>` read by the
embedded functions; `fe`, `n_dofs` and `n_dofs_level` are what `euler_dof_handler`
reports. -/
structure MappingFEField (dim spacedim : Nat) where
  uses_level_dofs : Bool
  euler_vector : List (List ℚ)
  fe : FiniteElement dim
  n_dofs : Nat
  n_dofs_level : Nat → Nat
  fe_mask : List Bool
  component_dofs : ComponentDoFs
  /-- The value of `reference_cell.n_faces()`. -/
  reference_cell_n_faces : Nat := 2 * dim
  /-- The value of `reference_cell.face_tangent_vector<dim>(face_no, i)`. -/
  reference_cell_face_tangent_vector : Nat → Nat → Tensor1 dim := fun _ _ => 0
  /-- The value of `fe_values.n_quadrature_points`, the number of points of
  `reference_cell.get_nodal_type_quadrature<dim>()`. -/
  fe_values_n_quadrature_points : Nat := 2 ^ dim

/-- `MappingFEField::update_internal_dofs` (lines 2292-2326), with its assertions. -/
def MappingFEField.update_internal_dofs {dim spacedim : Nat} (m : MappingFEField dim spacedim)
    (cell : Cell dim spacedim) (data : InternalData dim spacedim) :
    Except Exc (InternalData dim spacedim) :=
  if ¬ (m.uses_level_dofs || cell.is_active) then
    Except.error Exc.ExcInactiveCell
  else if m.uses_level_dofs ∧ ¬ cell.level < m.euler_vector.length then
    Except.error Exc.ExcIndexRange
  else if m.uses_level_dofs ∧
      (m.euler_vector.getD cell.level []).length ≠ m.n_dofs_level cell.level then
    Except.error Exc.ExcDimensionMismatch
  else if ¬ m.uses_level_dofs ∧ (m.euler_vector.getD 0 []).length ≠ m.n_dofs then
    Except.error Exc.ExcDimensionMismatch
  else
    let local_dof_indices :=
      if m.uses_level_dofs then cell.mg_dof_indices else cell.dof_indices
    let vector :=
      if m.uses_level_dofs then m.euler_vector.getD cell.level [] else m.euler_vector.getD 0 []
    Except.ok { data with
      local_dof_indices := local_dof_indices
      local_dof_values := (
        assign_each data.local_dof_values.length
          (fun i => vector.getD (local_dof_indices.getD i 0) 0) data.local_dof_values) }

/-- `MappingFEField::update_internal_dofs` (lines 2292-2326) as a transformer of its
argument `data`: how the call is left, and `data` as it stands at that moment.  The
assertions are the first statements of the function; the writes to
`data.local_dof_indices` and `data.local_dof_values` follow them. -/
def MappingFEField.update_internal_dofs_run {dim spacedim : Nat}
    (m : MappingFEField dim spacedim) (cell : Cell dim spacedim)
    (data : InternalData dim spacedim) : Except Exc Unit × InternalData dim spacedim :=
  if ¬ (m.uses_level_dofs || cell.is_active) then
    (Except.error Exc.ExcInactiveCell, data)
  else if m.uses_level_dofs ∧ ¬ cell.level < m.euler_vector.length then
    (Except.error Exc.ExcIndexRange, data)
  else if m.uses_level_dofs ∧
      (m.euler_vector.getD cell.level []).length ≠ m.n_dofs_level cell.level then
    (Except.error Exc.ExcDimensionMismatch, data)
  else if ¬ m.uses_level_dofs ∧ (m.euler_vector.getD 0 []).length ≠ m.n_dofs then
    (Except.error Exc.ExcDimensionMismatch, data)
  else
    let data := { data with
      local_dof_indices :=
        if m.uses_level_dofs then cell.mg_dof_indices else cell.dof_indices }
    let vector :=
      if m.uses_level_dofs then m.euler_vector.getD cell.level [] else m.euler_vector.getD 0 []
    let data := for_loop data.local_dof_values.length
      (fun i data => { data with
        local_dof_values :=
          data.local_dof_values.set i (vector.getD (data.local_dof_indices.getD i 0) 0) })
      data
    (Except.ok (), data)

/-- `MappingFEField::get_vertices` (lines 484-553), with its assertions.  The
statements `vertices[v][d] += …` of the loops over `d`, the shape functions `i` of
`component_dofs[d]` and the vertices `v` accumulate in the entry `vertices[v][d]`,
which starts at zero. -/
def MappingFEField.get_vertices {dim spacedim : Nat} (m : MappingFEField dim spacedim)
    (cell : Cell dim spacedim) : Except Exc (List (Point spacedim)) :=
  if ¬ (m.uses_level_dofs || cell.is_active) then
    Except.error Exc.ExcInactiveCell
  else if cell.n_vertices ≠ m.fe_values_n_quadrature_points then
    Except.error Exc.ExcDimensionMismatch
  else if m.uses_level_dofs ∧ ¬ cell.level < m.euler_vector.length then
    Except.error Exc.ExcIndexRange
  else if m.uses_level_dofs ∧
      (m.euler_vector.getD cell.level []).length ≠ m.n_dofs_level cell.level then
    Except.error Exc.ExcDimensionMismatch
  else if ¬ m.uses_level_dofs ∧ (m.euler_vector.getD 0 []).length ≠ m.n_dofs then
    Except.error Exc.ExcDimensionMismatch
  else
    let dof_indices :=
      if m.uses_level_dofs then cell.mg_dof_indices else cell.dof_indices
    let vector :=
      if m.uses_level_dofs then m.euler_vector.getD cell.level [] else m.euler_vector.getD 0 []
    Except.ok ((List.range cell.n_vertices).map (fun v d =>
      (m.component_dofs.get d).foldl
        (fun vertices_v_d i =>
          let value := vector.getD (dof_indices.getD i 0) 0
          if m.component_dofs.all_components_primitive then
            vertices_v_d + cell.fe_values_shape_value i v * value
          else
            vertices_v_d + cell.fe_values_shape_value_component i v d * value) 0))

/-- `MappingFEField::get_data` (lines 660-671). -/
def MappingFEField.get_data {dim spacedim : Nat} (F : UpdateFlagValues)
    (m : MappingFEField dim spacedim) (update_flags : Nat) (quadrature : Quadrature dim) :
    InternalData dim spacedim :=
  (InternalData.init spacedim m.fe m.fe_mask).reinit F
    (requires_update_flags F update_flags) quadrature

/-- `MappingFEField::transform_unit_to_real_cell` (lines 2079-2097). -/
def MappingFEField.transform_unit_to_real_cell {dim spacedim : Nat} (F : UpdateFlagValues)
    (m : MappingFEField dim spacedim) (cell : Cell dim spacedim) (p : Point dim) :
    Except Exc (Point spacedim) :=
  let mdata := m.get_data F (F.update_quadrature_points ||| F.update_jacobians)
    (Quadrature.of_point p)
  match m.update_internal_dofs cell mdata with
  | Except.error e => Except.error e
  | Except.ok mdata => Except.ok (do_transform_unit_to_real_cell m.component_dofs mdata)

/-- `MappingFEField::transform_real_to_unit_cell` (lines 2116-2155). -/
def MappingFEField.transform_real_to_unit_cell {dim spacedim : Nat} (F : UpdateFlagValues)
    (m : MappingFEField dim spacedim) (cell : Cell dim spacedim) (p : Point spacedim) :
    Except Exc (Point dim) :=
  let initial_p_unit : Point dim :=
    match cell.linear_transform_real_to_unit_cell p with
    | some x => x
    | none => fun _ => 0.5
  let initial_p_unit := cell.closest_point initial_p_unit
  let update_flags := F.update_quadrature_points ||| F.update_jacobians
  let update_flags :=
    if spacedim > dim then update_flags ||| F.update_jacobian_grads else update_flags
  let mdata := m.get_data F update_flags (Quadrature.of_point initial_p_unit)
  match m.update_internal_dofs cell mdata with
  | Except.error e => Except.error e
  | Except.ok mdata =>
    match do_transform_real_to_unit_cell F m.component_dofs cell.diameter p initial_p_unit
        mdata with
    | SolverResult.returned s => Except.ok s.p_unit
    | SolverResult.failure _ => Except.error Exc.ExcTransformationFailed

/-! ## The tensor transforms -/

/-- `MappingKind` of `mapping.h`. -/
inductive MappingKind where
  | mapping_none
  | mapping_covariant
  | mapping_contravariant
  | mapping_covariant_gradient
  | mapping_contravariant_gradient
  | mapping_piola
  | mapping_piola_gradient
  | mapping_nedelec
  | mapping_raviart_thomas
  | mapping_bdm
  | mapping_covariant_hessian
  | mapping_contravariant_hessian
  | mapping_piola_hessian
  deriving DecidableEq, Repr

/-- `DerivativeForm<2, dim, spacedim>`: one `Tensor<2, dim>` per spatial component. -/
abbrev DerivativeForm2 (dim spacedim : Nat) := Fin spacedim → Fin dim → Fin dim → ℚ

/-- Modelled from the spec: `apply_transformation(grad_F, d_x)` of
`derivative_form.h` for a `Tensor<1, dim>`, which the sources at hand only call.
"Contract with the matrix": `dest[i] = Σ_j grad_F[i][j] * d_x[j]`. -/
def apply_transformation {dim spacedim : Nat} (grad_F : DerivativeForm1 dim spacedim)
    (d_x : Tensor1 dim) : Tensor1 spacedim :=
  grad_F.mulVec d_x

/-- Modelled from the spec: `apply_transformation(grad_F, D_X)` of
`derivative_form.h` for a `DerivativeForm<1, dim, spacedim>`, which the sources at
hand only call.  Every row of `D_X` is contracted with the matrix:
`dest[i][j] = Σ_k grad_F[j][k] * D_X[i][k]`. -/
def apply_transformation_DerivativeForm {dim spacedim : Nat}
    (grad_F : DerivativeForm1 dim spacedim) (D_X : DerivativeForm1 dim spacedim) :
    Tensor2 spacedim :=
  fun i j => ∑ k, grad_F j k * D_X i k

/-- Modelled from the spec: `internal::apply_covariant_gradient(covariant, input)`,
which the sources at hand only call.  "A two-step contraction handling a
differential form's extra index":
`dest[i][j][k] = Σ_J Σ_K covariant[j][J] * covariant[k][K] * input[i][J][K]`. -/
def apply_covariant_gradient {dim spacedim : Nat} (covariant : DerivativeForm1 dim spacedim)
    (input : DerivativeForm2 dim spacedim) : Tensor3 spacedim :=
  fun i j k => ∑ J, ∑ K, covariant j J * covariant k K * input i J K

/-- `transform_fields<dim, spacedim, rank>` (lines 1857-1927) for `rank = 1`, the
only rank it is called with, with its assertions on the update flags of the cache;
`DEAL_II_NOT_IMPLEMENTED()` raises `ExcNotImplemented`. -/
def transform_fields {dim spacedim : Nat} (F : UpdateFlagValues) (input : List (Tensor1 dim))
    (mapping_kind : MappingKind) (data : InternalData dim spacedim)
    (output : List (Tensor1 spacedim)) : Except Exc (List (Tensor1 spacedim)) :=
  match mapping_kind with
  | .mapping_contravariant =>
    if data.update_each &&& F.update_contravariant_transformation = 0 then
      .error .ExcAccessToUninitializedField
    else
      .ok (assign_each output.length (fun i =>
        apply_transformation (data.contravariant.getD i 0) (input.getD i 0)) output)
  | .mapping_piola =>
    if data.update_each &&& F.update_contravariant_transformation = 0 then
      .error .ExcAccessToUninitializedField
    else if data.update_each &&& F.update_volume_elements = 0 then
      .error .ExcAccessToUninitializedField
    else
      .ok (assign_each output.length (fun i k =>
        apply_transformation (data.contravariant.getD i 0) (input.getD i 0) k
          / data.volume_elements.getD i 0) output)
  | .mapping_covariant =>
    if data.update_each &&& F.update_contravariant_transformation = 0 then
      .error .ExcAccessToUninitializedField
    else
      .ok (assign_each output.length (fun i =>
        apply_transformation (data.covariant.getD i 0) (input.getD i 0)) output)
  | _ => .error .ExcNotImplemented

/-- `transform_differential_forms<dim, spacedim, rank>` (lines 1930-1964) for
`rank = 1`, the only rank it is called with, with its assertion on the update flags
of the cache. -/
def transform_differential_forms {dim spacedim : Nat} (F : UpdateFlagValues)
    (input : List (DerivativeForm1 dim spacedim)) (mapping_kind : MappingKind)
    (data : InternalData dim spacedim) (output : List (Tensor2 spacedim)) :
    Except Exc (List (Tensor2 spacedim)) :=
  match mapping_kind with
  | .mapping_covariant =>
    if data.update_each &&& F.update_contravariant_transformation = 0 then
      .error .ExcAccessToUninitializedField
    else
      .ok (assign_each output.length (fun i =>
        apply_transformation_DerivativeForm (data.covariant.getD i 0) (input.getD i 0)) output)
  | _ => .error .ExcNotImplemented

/-- `MappingFEField::transform` for `Tensor<1, dim>` inputs (lines 1970-1985). -/
def MappingFEField.transform_Tensor1 {dim spacedim : Nat} (F : UpdateFlagValues)
    (input : List (Tensor1 dim)) (mapping_kind : MappingKind)
    (mapping_data : InternalData dim spacedim) (output : List (Tensor1 spacedim)) :
    Except Exc (List (Tensor1 spacedim)) :=
  transform_fields F input mapping_kind mapping_data output

/-- `MappingFEField::transform` for `DerivativeForm<1, dim, spacedim>` inputs
(lines 1989-2004). -/
def MappingFEField.transform_DerivativeForm1 {dim spacedim : Nat} (F : UpdateFlagValues)
    (input : List (DerivativeForm1 dim spacedim)) (mapping_kind : MappingKind)
    (mapping_data : InternalData dim spacedim) (output : List (Tensor2 spacedim)) :
    Except Exc (List (Tensor2 spacedim)) :=
  transform_differential_forms F input mapping_kind mapping_data output

/-- `MappingFEField::transform` for `Tensor<2, dim>` inputs (lines 2008-2022):
`AssertThrow(false, ExcNotImplemented())`. -/
def MappingFEField.transform_Tensor2 {dim spacedim : Nat} (_input : List (Tensor2 dim))
    (_mapping_kind : MappingKind) (_mapping_data : InternalData dim spacedim)
    (_output : List (Tensor2 spacedim)) : Except Exc (List (Tensor2 spacedim)) :=
  .error .ExcNotImplemented

/-- `MappingFEField::transform` for `DerivativeForm<2, dim, spacedim>` inputs
(lines 2026-2056), with its assertion on the update flags of the cache. -/
def MappingFEField.transform_DerivativeForm2 {dim spacedim : Nat} (F : UpdateFlagValues)
    (input : List (DerivativeForm2 dim spacedim)) (mapping_kind : MappingKind)
    (mapping_data : InternalData dim spacedim) (output : List (Tensor3 spacedim)) :
    Except Exc (List (Tensor3 spacedim)) :=
  match mapping_kind with
  | .mapping_covariant_gradient =>
    if mapping_data.update_each &&& F.update_covariant_transformation = 0 then
      .error .ExcAccessToUninitializedField
    else
      .ok (assign_each output.length (fun q =>
        apply_covariant_gradient (mapping_data.covariant.getD q 0) (input.getD q 0)) output)
  | _ => .error .ExcNotImplemented

/-- `MappingFEField::transform` for `Tensor<3, dim>` inputs (lines 2060-2074):
`AssertThrow(false, ExcNotImplemented())`. -/
def MappingFEField.transform_Tensor3 {dim spacedim : Nat} (_input : List (Tensor3 dim))
    (_mapping_kind : MappingKind) (_mapping_data : InternalData dim spacedim)
    (_output : List (Tensor3 spacedim)) : Except Exc (List (Tensor3 spacedim)) :=
  .error .ExcNotImplemented

/-! ## The derivatives of the Jacobian -/

/-- `DerivativeForm<3, dim, spacedim>`: one `Tensor<3, dim>` per spatial component. -/
abbrev DerivativeForm3 (dim spacedim : Nat) :=
  Fin spacedim → Fin dim → Fin dim → Fin dim → ℚ

/-- `DerivativeForm<4, dim, spacedim>`: one `Tensor<4, dim>` per spatial component. -/
abbrev DerivativeForm4 (dim spacedim : Nat) :=
  Fin spacedim → Fin dim → Fin dim → Fin dim → Fin dim → ℚ

/-- `Tensor<5, n>`. -/
abbrev Tensor5 (n : Nat) := Fin n → Fin n → Fin n → Fin n → Fin n → ℚ

/-- An array of `double` of any rank, `a[i][j][l]…`, as the function of the tuple of
its indices.  Entries outside the declared bounds are never accessed. -/
abbrev MultiArray := List Nat → ℚ

/-- The statement `a[idx] = value;`. -/
def array_write (a : MultiArray) (idx : List Nat) (value : ℚ) : MultiArray :=
  fun x => if x = idx then value else a x

/-- The statements `a[idx] = f(0); for (unsigned int r = 1; r < n; ++r) a[idx] += f(r);`
with which the push-forward routines contract one index; the loop variable is
`r + 1` in the `r`-th of the `n - 1` iterations. -/
def accumulate (a : MultiArray) (idx : List Nat) (n : Nat) (f : Nat → ℚ) : MultiArray :=
  for_loop (n - 1) (fun r a => array_write a idx (a idx + f (r + 1))) (array_write a idx (f 0))

/-- The entry `t[i][j]` of a `DerivativeForm<1, dim, spacedim>` at run-time indices. -/
def DerivativeForm1_entry {dim spacedim : Nat} (t : DerivativeForm1 dim spacedim)
    (i j : Nat) : ℚ :=
  if h : i < spacedim ∧ j < dim then t ⟨i, h.1⟩ ⟨j, h.2⟩ else 0

/-- The entry `t[d][j][l]` of a `DerivativeForm<2, dim, spacedim>` at run-time
indices. -/
def DerivativeForm2_entry {dim spacedim : Nat} (t : DerivativeForm2 dim spacedim)
    (d j l : Nat) : ℚ :=
  if h : d < spacedim ∧ j < dim ∧ l < dim then t ⟨d, h.1⟩ ⟨j, h.2.1⟩ ⟨l, h.2.2⟩ else 0

/-- The entry `t[d][j][l][m]` of a `DerivativeForm<3, dim, spacedim>` at run-time
indices. -/
def DerivativeForm3_entry {dim spacedim : Nat} (t : DerivativeForm3 dim spacedim)
    (d j l m : Nat) : ℚ :=
  if h : d < spacedim ∧ j < dim ∧ l < dim ∧ m < dim then
    t ⟨d, h.1⟩ ⟨j, h.2.1⟩ ⟨l, h.2.2.1⟩ ⟨m, h.2.2.2⟩
  else 0

/-- The entry `t[d][j][l][m][n]` of a `DerivativeForm<4, dim, spacedim>` at run-time
indices. -/
def DerivativeForm4_entry {dim spacedim : Nat} (t : DerivativeForm4 dim spacedim)
    (d j l m n : Nat) : ℚ :=
  if h : d < spacedim ∧ j < dim ∧ l < dim ∧ m < dim ∧ n < dim then
    t ⟨d, h.1⟩ ⟨j, h.2.1⟩ ⟨l, h.2.2.1⟩ ⟨m, h.2.2.2.1⟩ ⟨n, h.2.2.2.2⟩
  else 0

/-- The entries of a `Tensor<3, n>` as an array. -/
def Tensor3_array {n : Nat} (t : Tensor3 n) : MultiArray :=
  fun idx =>
    match idx with
    | [i, j, l] => if h : i < n ∧ j < n ∧ l < n then t ⟨i, h.1⟩ ⟨j, h.2.1⟩ ⟨l, h.2.2⟩ else 0
    | _ => 0

/-- The entries of a `Tensor<4, n>` as an array. -/
def Tensor4_array {n : Nat} (t : Tensor4 n) : MultiArray :=
  fun idx =>
    match idx with
    | [i, j, l, m] =>
      if h : i < n ∧ j < n ∧ l < n ∧ m < n then
        t ⟨i, h.1⟩ ⟨j, h.2.1⟩ ⟨l, h.2.2.1⟩ ⟨m, h.2.2.2⟩
      else 0
    | _ => 0

/-- The entries of a `Tensor<5, n>` as an array. -/
def Tensor5_array {n : Nat} (t : Tensor5 n) : MultiArray :=
  fun idx =>
    match idx with
    | [i, j, l, m, k] =>
      if h : i < n ∧ j < n ∧ l < n ∧ m < n ∧ k < n then
        t ⟨i, h.1⟩ ⟨j, h.2.1⟩ ⟨l, h.2.2.1⟩ ⟨m, h.2.2.2.1⟩ ⟨k, h.2.2.2.2⟩
      else 0
    | _ => 0

/-- The local `result` of `maybe_update_jacobian_grads` and of
`maybe_update_jacobian_pushed_forward_grads` at a point (lines 837-847, 882-892):
`result[d][j][l] += second[i][j][l] * data.local_dof_values[i]` over the shape
functions `i` of `component_dofs[d]`, with `second` pointing to the entry
`data.second_derivative(point + data_set, 0)`. -/
def jacobian_grads_result {dim spacedim : Nat} (data_set : Nat)
    (data : InternalData dim spacedim) (component_dofs : ComponentDoFs) (point : Nat) :
    DerivativeForm2 dim spacedim :=
  fun d j l => (component_dofs.get d).foldl
    (fun result_d_j_l i => result_d_j_l +
      data.shape_second_derivatives.getD
          ((point + data_set) * data.n_shape_functions + 0 + i) 0 j l *
        data.local_dof_values.getD i 0) 0

/-- The local `result` of `maybe_update_jacobian_2nd_derivatives` and of
`maybe_update_jacobian_pushed_forward_2nd_derivatives` at a point (lines 947-958,
997-1008), with `third` pointing to `data.third_derivative(point + data_set, 0)`. -/
def jacobian_2nd_derivatives_result {dim spacedim : Nat} (data_set : Nat)
    (data : InternalData dim spacedim) (component_dofs : ComponentDoFs) (point : Nat) :
    DerivativeForm3 dim spacedim :=
  fun d j l m => (component_dofs.get d).foldl
    (fun result_d_j_l_m i => result_d_j_l_m +
      data.shape_third_derivatives.getD
          ((point + data_set) * data.n_shape_functions + 0 + i) 0 j l m *
        data.local_dof_values.getD i 0) 0

/-- The local `result` of `maybe_update_jacobian_3rd_derivatives` and of
`maybe_update_jacobian_pushed_forward_3rd_derivatives` at a point (lines 1082-1094,
1135-1147), with `fourth` pointing to `data.fourth_derivative(point + data_set, 0)`. -/
def jacobian_3rd_derivatives_result {dim spacedim : Nat} (data_set : Nat)
    (data : InternalData dim spacedim) (component_dofs : ComponentDoFs) (point : Nat) :
    DerivativeForm4 dim spacedim :=
  fun d j l m n => (component_dofs.get d).foldl
    (fun result_d_j_l_m_n i => result_d_j_l_m_n +
      data.shape_fourth_derivatives.getD
          ((point + data_set) * data.n_shape_functions + 0 + i) 0 j l m n *
        data.local_dof_values.getD i 0) 0

/-- `maybe_update_jacobian_grads` (lines 821-857): the loops over `i`, `j`, `l` copy
every entry of `result` to `jacobian_grads[point]`. -/
def maybe_update_jacobian_grads {dim spacedim : Nat} (F : UpdateFlagValues) (data_set : Nat)
    (data : InternalData dim spacedim) (component_dofs : ComponentDoFs)
    (jacobian_grads : List (DerivativeForm2 dim spacedim)) :
    List (DerivativeForm2 dim spacedim) :=
  let update_flags := data.update_each
  if update_flags &&& F.update_jacobian_grads ≠ 0 then
    let n_q_points := jacobian_grads.length
    assign_each n_q_points
      (fun point => jacobian_grads_result data_set data component_dofs point) jacobian_grads
  else jacobian_grads

/-- `maybe_update_jacobian_2nd_derivatives` (lines 931-970). -/
def maybe_update_jacobian_2nd_derivatives {dim spacedim : Nat} (F : UpdateFlagValues)
    (data_set : Nat) (data : InternalData dim spacedim) (component_dofs : ComponentDoFs)
    (jacobian_2nd_derivatives : List (DerivativeForm3 dim spacedim)) :
    List (DerivativeForm3 dim spacedim) :=
  let update_flags := data.update_each
  if update_flags &&& F.update_jacobian_2nd_derivatives ≠ 0 then
    let n_q_points := jacobian_2nd_derivatives.length
    assign_each n_q_points
      (fun point => jacobian_2nd_derivatives_result data_set data component_dofs point)
      jacobian_2nd_derivatives
  else jacobian_2nd_derivatives

/-- `maybe_update_jacobian_3rd_derivatives` (lines 1066-1108). -/
def maybe_update_jacobian_3rd_derivatives {dim spacedim : Nat} (F : UpdateFlagValues)
    (data_set : Nat) (data : InternalData dim spacedim) (component_dofs : ComponentDoFs)
    (jacobian_3rd_derivatives : List (DerivativeForm4 dim spacedim)) :
    List (DerivativeForm4 dim spacedim) :=
  let update_flags := data.update_each
  if update_flags &&& F.update_jacobian_3rd_derivatives ≠ 0 then
    let n_q_points := jacobian_3rd_derivatives.length
    assign_each n_q_points
      (fun point => jacobian_3rd_derivatives_result data_set data component_dofs point)
      jacobian_3rd_derivatives
  else jacobian_3rd_derivatives

/-- `maybe_update_jacobian_pushed_forward_grads` (lines 865-923) on the pair of the
local array `tmp`, which is declared before the loop over the points and not
initialised, and of the output; the entry `jacobian_pushed_forward_grads[point]` is
handled as the array of its entries while the point is processed. -/
def maybe_update_jacobian_pushed_forward_grads_run {dim spacedim : Nat}
    (F : UpdateFlagValues) (data_set : Nat) (data : InternalData dim spacedim)
    (component_dofs : ComponentDoFs) (tmp : MultiArray)
    (jacobian_pushed_forward_grads : List (Tensor3 spacedim)) :
    MultiArray × List (Tensor3 spacedim) :=
  let update_flags := data.update_each
  if update_flags &&& F.update_jacobian_pushed_forward_grads ≠ 0 then
    let n_q_points := jacobian_pushed_forward_grads.length
    for_loop n_q_points (fun point s =>
      let result := jacobian_grads_result data_set data component_dofs point
      let covariant := data.covariant.getD point 0
      -- first push forward the j-components
      let tmp :=
        for_loop spacedim (fun i tmp =>
          for_loop spacedim (fun j tmp =>
            for_loop dim (fun l tmp =>
              accumulate tmp [i, j, l] dim (fun jr =>
                DerivativeForm2_entry result i jr l * DerivativeForm1_entry covariant j jr))
              tmp) tmp) s.1
      -- now, pushing forward the l-components
      let out :=
        for_loop spacedim (fun i out =>
          for_loop spacedim (fun j out =>
            for_loop spacedim (fun l out =>
              accumulate out [i, j, l] dim (fun lr =>
                tmp [i, j, lr] * DerivativeForm1_entry covariant l lr))
              out) out) (Tensor3_array (s.2.getD point 0))
      (tmp, s.2.set point (fun i j l => out [i, j, l])))
      (tmp, jacobian_pushed_forward_grads)
  else (tmp, jacobian_pushed_forward_grads)

/-- `maybe_update_jacobian_pushed_forward_2nd_derivatives` (lines 979-1058) on the
pair of the local array `tmp` and of the output, whose entry at the point is also
the scratch array of the first stage. -/
def maybe_update_jacobian_pushed_forward_2nd_derivatives_run {dim spacedim : Nat}
    (F : UpdateFlagValues) (data_set : Nat) (data : InternalData dim spacedim)
    (component_dofs : ComponentDoFs) (tmp : MultiArray)
    (jacobian_pushed_forward_2nd_derivatives : List (Tensor4 spacedim)) :
    MultiArray × List (Tensor4 spacedim) :=
  let update_flags := data.update_each
  if update_flags &&& F.update_jacobian_pushed_forward_2nd_derivatives ≠ 0 then
    let n_q_points := jacobian_pushed_forward_2nd_derivatives.length
    for_loop n_q_points (fun point s =>
      let result := jacobian_2nd_derivatives_result data_set data component_dofs point
      let covariant := data.covariant.getD point 0
      -- push forward the j-coordinate
      let out :=
        for_loop spacedim (fun i out =>
          for_loop spacedim (fun j out =>
            for_loop dim (fun l out =>
              for_loop dim (fun m out =>
                accumulate out [i, j, l, m] dim (fun jr =>
                  DerivativeForm3_entry result i jr l m * DerivativeForm1_entry covariant j jr))
                out) out) out) (Tensor4_array (s.2.getD point 0))
      -- push forward the l-coordinate
      let tmp :=
        for_loop spacedim (fun i tmp =>
          for_loop spacedim (fun j tmp =>
            for_loop spacedim (fun l tmp =>
              for_loop dim (fun m tmp =>
                accumulate tmp [i, j, l, m] dim (fun lr =>
                  out [i, j, lr, m] * DerivativeForm1_entry covariant l lr))
                tmp) tmp) tmp) s.1
      -- push forward the m-coordinate
      let out :=
        for_loop spacedim (fun i out =>
          for_loop spacedim (fun j out =>
            for_loop spacedim (fun l out =>
              for_loop spacedim (fun m out =>
                accumulate out [i, j, l, m] dim (fun mr =>
                  tmp [i, j, l, mr] * DerivativeForm1_entry covariant m mr))
                out) out) out) out
      (tmp, s.2.set point (fun i j l m => out [i, j, l, m])))
      (tmp, jacobian_pushed_forward_2nd_derivatives)
  else (tmp, jacobian_pushed_forward_2nd_derivatives)

/-- `maybe_update_jacobian_pushed_forward_3rd_derivatives` (lines 1117-1217) on the
pair of the local array `tmp` and of the output; the two arrays take turns as source
and destination of the four stages. -/
def maybe_update_jacobian_pushed_forward_3rd_derivatives_run {dim spacedim : Nat}
    (F : UpdateFlagValues) (data_set : Nat) (data : InternalData dim spacedim)
    (component_dofs : ComponentDoFs) (tmp : MultiArray)
    (jacobian_pushed_forward_3rd_derivatives : List (Tensor5 spacedim)) :
    MultiArray × List (Tensor5 spacedim) :=
  let update_flags := data.update_each
  if update_flags &&& F.update_jacobian_pushed_forward_3rd_derivatives ≠ 0 then
    let n_q_points := jacobian_pushed_forward_3rd_derivatives.length
    for_loop n_q_points (fun point s =>
      let result := jacobian_3rd_derivatives_result data_set data component_dofs point
      let covariant := data.covariant.getD point 0
      -- push-forward the j-coordinate
      let tmp :=
        for_loop spacedim (fun i tmp =>
          for_loop spacedim (fun j tmp =>
            for_loop dim (fun l tmp =>
              for_loop dim (fun m tmp =>
                for_loop dim (fun n tmp =>
                  accumulate tmp [i, j, l, m, n] dim (fun jr =>
                    DerivativeForm4_entry result i jr l m n *
                      DerivativeForm1_entry covariant j jr))
                  tmp) tmp) tmp) tmp) s.1
      -- push-forward the l-coordinate
      let out :=
        for_loop spacedim (fun i out =>
          for_loop spacedim (fun j out =>
            for_loop spacedim (fun l out =>
              for_loop dim (fun m out =>
                for_loop dim (fun n out =>
                  accumulate out [i, j, l, m, n] dim (fun lr =>
                    tmp [i, j, lr, m, n] * DerivativeForm1_entry covariant l lr))
                  out) out) out) out) (Tensor5_array (s.2.getD point 0))
      -- push-forward the m-coordinate
      let tmp :=
        for_loop spacedim (fun i tmp =>
          for_loop spacedim (fun j tmp =>
            for_loop spacedim (fun l tmp =>
              for_loop spacedim (fun m tmp =>
                for_loop dim (fun n tmp =>
                  accumulate tmp [i, j, l, m, n] dim (fun mr =>
                    out [i, j, l, mr, n] * DerivativeForm1_entry covariant m mr))
                  tmp) tmp) tmp) tmp) tmp
      -- push-forward the n-coordinate
      let out :=
        for_loop spacedim (fun i out =>
          for_loop spacedim (fun j out =>
            for_loop spacedim (fun l out =>
              for_loop spacedim (fun m out =>
                for_loop spacedim (fun n out =>
                  accumulate out [i, j, l, m, n] dim (fun nr =>
                    tmp [i, j, l, m, nr] * DerivativeForm1_entry covariant n nr))
                  out) out) out) out) out
      (tmp, s.2.set point (fun i j l m n => out [i, j, l, m, n])))
      (tmp, jacobian_pushed_forward_3rd_derivatives)
  else (tmp, jacobian_pushed_forward_3rd_derivatives)

/-- The output of `maybe_update_jacobian_pushed_forward_grads`.  The local array
`tmp` starts with indeterminate contents, for which zero stands here: every entry
the function reads has been written at the same point. -/
def maybe_update_jacobian_pushed_forward_grads {dim spacedim : Nat}
    (F : UpdateFlagValues) (data_set : Nat) (data : InternalData dim spacedim)
    (component_dofs : ComponentDoFs)
    (jacobian_pushed_forward_grads : List (Tensor3 spacedim)) : List (Tensor3 spacedim) :=
  (maybe_update_jacobian_pushed_forward_grads_run F data_set data component_dofs
    (fun _ => 0) jacobian_pushed_forward_grads).2

/-- The output of `maybe_update_jacobian_pushed_forward_2nd_derivatives`, with zero
for the indeterminate initial contents of `tmp`. -/
def maybe_update_jacobian_pushed_forward_2nd_derivatives {dim spacedim : Nat}
    (F : UpdateFlagValues) (data_set : Nat) (data : InternalData dim spacedim)
    (component_dofs : ComponentDoFs)
    (jacobian_pushed_forward_2nd_derivatives : List (Tensor4 spacedim)) :
    List (Tensor4 spacedim) :=
  (maybe_update_jacobian_pushed_forward_2nd_derivatives_run F data_set data component_dofs
    (fun _ => 0) jacobian_pushed_forward_2nd_derivatives).2

/-- The output of `maybe_update_jacobian_pushed_forward_3rd_derivatives`, with zero
for the indeterminate initial contents of `tmp`. -/
def maybe_update_jacobian_pushed_forward_3rd_derivatives {dim spacedim : Nat}
    (F : UpdateFlagValues) (data_set : Nat) (data : InternalData dim spacedim)
    (component_dofs : ComponentDoFs)
    (jacobian_pushed_forward_3rd_derivatives : List (Tensor5 spacedim)) :
    List (Tensor5 spacedim) :=
  (maybe_update_jacobian_pushed_forward_3rd_derivatives_run F data_set data component_dofs
    (fun _ => 0) jacobian_pushed_forward_3rd_derivatives).2

/-! ## The fill routines -/

/-- The loop `for (unsigned int i = 0; i < n; ++i) body(i);` whose body can raise:
the first failure ends the loop. -/
def for_loop_e {σ : Type} (n : Nat) (body : Nat → σ → Except Exc σ) (s : σ) : Except Exc σ :=
  match n with
  | 0 => .ok s
  | n + 1 =>
    match for_loop_e n body s with
    | .error e => .error e
    | .ok t => body n t

/-- Component `k` of a tensor of rank 1, `a[k]`. -/
def tensor_component {n : Nat} (a : Tensor1 n) (k : Nat) : ℚ :=
  if h : k < n then a ⟨k, h⟩ else 0

/-- Modelled from the spec: `cross_product_2d(src)` of `tensor.h`, which the sources
at hand only call: the vector `(src[1], -src[0])`, orthogonal to `src`. -/
def cross_product_2d {n : Nat} (src : Tensor1 n) : Tensor1 n :=
  fun i =>
    if i.val = 0 then tensor_component src 1
    else if i.val = 1 then - tensor_component src 0
    else 0

/-- Modelled from the spec: `cross_product_3d(src1, src2)` of `tensor.h`, which the
sources at hand only call: the vector product, orthogonal to both arguments. -/
def cross_product_3d {n : Nat} (src1 src2 : Tensor1 n) : Tensor1 n :=
  fun i =>
    if i.val = 0 then
      tensor_component src1 1 * tensor_component src2 2
        - tensor_component src1 2 * tensor_component src2 1
    else if i.val = 1 then
      tensor_component src1 2 * tensor_component src2 0
        - tensor_component src1 0 * tensor_component src2 2
    else if i.val = 2 then
      tensor_component src1 0 * tensor_component src2 1
        - tensor_component src1 1 * tensor_component src2 0
    else 0

/-- `Tensor<1, n>::norm()`, with the square root of `<cmath>` as the parameter
`sqrt`. -/
def norm {n : Nat} (sqrt : ℚ → ℚ) (a : Tensor1 n) : ℚ := sqrt (norm_square a)

/-- The rows `DX_t[j][i] = contravariant[i][j]` of the transposed Jacobian, as
filled in lines 1515-1518 and 1301-1304; `DX_t[j]` for `j` out of range is never
read. -/
def DX_t {dim spacedim : Nat} (contravariant : DerivativeForm1 dim spacedim) (j : Nat) :
    Tensor1 spacedim :=
  fun i => if h : j < dim then contravariant i ⟨j, h⟩ else 0

/-- The members of `internal::FEValuesImplementation::MappingRelatedData` written by
the embedded functions.  The members for the derivatives of the Jacobian are empty
vectors unless given. -/
structure MappingRelatedData (dim spacedim : Nat) where
  quadrature_points : List (Point spacedim)
  JxW_values : List ℚ
  normal_vectors : List (Tensor1 spacedim)
  boundary_forms : List (Tensor1 spacedim)
  jacobians : List (DerivativeForm1 dim spacedim)
  inverse_jacobians : List (DerivativeForm1 spacedim dim)
  jacobian_grads : List (DerivativeForm2 dim spacedim) := []
  jacobian_pushed_forward_grads : List (Tensor3 spacedim) := []
  jacobian_2nd_derivatives : List (DerivativeForm3 dim spacedim) := []
  jacobian_pushed_forward_2nd_derivatives : List (Tensor4 spacedim) := []
  jacobian_3rd_derivatives : List (DerivativeForm4 dim spacedim) := []
  jacobian_pushed_forward_3rd_derivatives : List (Tensor5 spacedim) := []

/-- `MappingFEField::fill_fe_values`, lines 1479-1553: the loop that writes
`JxW_values` and, in codimension one, the cell normals, on the pair
`(JxW_values, normal_vectors)`; the assertion on the determinant is embedded and
raises `ExcDistortedMappedCell(cell->center(), det, point)`. -/
def fill_fe_values_JxW {dim spacedim : Nat} (F : UpdateFlagValues) (sqrt : ℚ → ℚ)
    (cell : Cell dim spacedim) (n_q_points : Nat) (weights : List ℚ)
    (data : InternalData dim spacedim) (JxW_values : List ℚ)
    (normal_vectors : List (Tensor1 spacedim)) :
    Except Exc (List ℚ × List (Tensor1 spacedim)) :=
  let update_flags := data.update_each
  if update_flags &&& (F.update_normal_vectors ||| F.update_JxW_values) ≠ 0 then
    for_loop_e n_q_points (fun point out =>
      if dim = spacedim then
        let det := data.volume_elements.getD point 0
        if ¬ (det > 1e-12 * (cell.diameter / sqrt (dim : ℚ)) ^ dim) then
          .error (.ExcDistortedMappedCell (List.ofFn cell.center) det point)
        else
          .ok (out.1.set point (weights.getD point 0 * det), out.2)
      else
        let G : Tensor2 dim := fun i j =>
          scalar_product (DX_t (data.contravariant.getD point 0) i)
            (DX_t (data.contravariant.getD point 0) j)
        let JxW_values := out.1.set point (sqrt G.det * weights.getD point 0)
        if update_flags &&& F.update_normal_vectors ≠ 0 then
          let normal : Tensor1 spacedim :=
            if dim = 1 then
              cross_product_2d (- DX_t (data.contravariant.getD point 0) 0)
            else
              cross_product_3d (DX_t (data.contravariant.getD point 0) 0)
                (DX_t (data.contravariant.getD point 0) (dim - 1))
          let normal : Tensor1 spacedim := fun i => normal i / norm sqrt normal
          let normal : Tensor1 spacedim :=
            if cell.direction_flag = false then fun i => normal i * (-1) else normal
          .ok (JxW_values, out.2.set point normal)
        else .ok (JxW_values, out.2)) (JxW_values, normal_vectors)
  else .ok (JxW_values, normal_vectors)

/-- `MappingFEField::fill_fe_values` (lines 1446-1627): `update_internal_dofs`, the
quadrature points, the Jacobian data of the cache, `JxW_values` and the normals, the
copies of the Jacobians and of their inverses, and the six derivatives of the
Jacobian.  `QProjector::DataSetDescriptor::cell()` is the offset `0`. -/
def MappingFEField.fill_fe_values {dim spacedim : Nat} (F : UpdateFlagValues) (sqrt : ℚ → ℚ)
    (m : MappingFEField dim spacedim) (cell : Cell dim spacedim) (quadrature : Quadrature dim)
    (internal_data : InternalData dim spacedim) (output_data : MappingRelatedData dim spacedim) :
    Except Exc (InternalData dim spacedim × MappingRelatedData dim spacedim) :=
  let n_q_points := quadrature.size
  match m.update_internal_dofs cell internal_data with
  | Except.error e => Except.error e
  | Except.ok data =>
    let quadrature_points :=
      maybe_compute_q_points F 0 data m.component_dofs output_data.quadrature_points
    let data := maybe_update_Jacobians F sqrt 0 data m.component_dofs
    match fill_fe_values_JxW F sqrt cell n_q_points quadrature.weights data
        output_data.JxW_values output_data.normal_vectors with
    | Except.error e => Except.error e
    | Except.ok out =>
      Except.ok (data,
        { output_data with
          quadrature_points := quadrature_points
          JxW_values := out.1
          normal_vectors := out.2
          jacobians := fill_fe_values_jacobians F data n_q_points output_data.jacobians
          inverse_jacobians :=
            fill_fe_values_inverse_jacobians F data n_q_points output_data.inverse_jacobians
          jacobian_grads :=
            maybe_update_jacobian_grads F 0 data m.component_dofs output_data.jacobian_grads
          jacobian_pushed_forward_grads :=
            maybe_update_jacobian_pushed_forward_grads F 0 data m.component_dofs
              output_data.jacobian_pushed_forward_grads
          jacobian_2nd_derivatives :=
            maybe_update_jacobian_2nd_derivatives F 0 data m.component_dofs
              output_data.jacobian_2nd_derivatives
          jacobian_pushed_forward_2nd_derivatives :=
            maybe_update_jacobian_pushed_forward_2nd_derivatives F 0 data m.component_dofs
              output_data.jacobian_pushed_forward_2nd_derivatives
          jacobian_3rd_derivatives :=
            maybe_update_jacobian_3rd_derivatives F 0 data m.component_dofs
              output_data.jacobian_3rd_derivatives
          jacobian_pushed_forward_3rd_derivatives :=
            maybe_update_jacobian_pushed_forward_3rd_derivatives F 0 data m.component_dofs
              output_data.jacobian_pushed_forward_3rd_derivatives })

/-- `numbers::invalid_unsigned_int` of `types.h`: `static_cast<unsigned int>(-1)`. -/
def invalid_unsigned_int : Nat := 2 ^ 32 - 1

/-- `MappingFEField::compute_face_data` (lines 609-656).  `std::fill` after
`resize(n)` leaves `n` copies of the tangent vector. -/
def MappingFEField.compute_face_data {dim spacedim : Nat} (F : UpdateFlagValues)
    (m : MappingFEField dim spacedim) (n_original_q_points : Nat)
    (data : InternalData dim spacedim) : InternalData dim spacedim :=
  { data with
    covariant :=
      if data.update_each &&& F.update_covariant_transformation ≠ 0 then
        resize data.covariant n_original_q_points 0
      else data.covariant
    contravariant :=
      if data.update_each &&& F.update_contravariant_transformation ≠ 0 then
        resize data.contravariant n_original_q_points 0
      else data.contravariant
    volume_elements :=
      if data.update_each &&& F.update_volume_elements ≠ 0 then
        resize data.volume_elements n_original_q_points 0
      else data.volume_elements
    aux :=
      if dim > 1 ∧ data.update_each &&& F.update_boundary_forms ≠ 0 then
        resize data.aux (dim - 1) (List.replicate n_original_q_points 0)
      else data.aux
    unit_tangentials :=
      if dim > 1 ∧ data.update_each &&& F.update_boundary_forms ≠ 0 then
        for_loop m.reference_cell_n_faces (fun i unit_tangentials =>
          let unit_tangentials := unit_tangentials.set i
            (List.replicate n_original_q_points (m.reference_cell_face_tangent_vector i 0))
          if dim > 2 then
            unit_tangentials.set (m.reference_cell_n_faces + i)
              (List.replicate n_original_q_points (m.reference_cell_face_tangent_vector i 1))
          else unit_tangentials) data.unit_tangentials
      else data.unit_tangentials }

/-- `MappingFEField::get_face_data` (lines 676-693).  `q` is the value of
`QProjector<dim>::project_to_all_faces(reference_cell, quadrature[0])` and
`n_original_q_points` that of `quadrature[0].size()`. -/
def MappingFEField.get_face_data {dim spacedim : Nat} (F : UpdateFlagValues)
    (m : MappingFEField dim spacedim) (update_flags : Nat) (q : Quadrature dim)
    (n_original_q_points : Nat) : InternalData dim spacedim :=
  m.compute_face_data F n_original_q_points
    ((InternalData.init spacedim m.fe m.fe_mask).reinit F
      (requires_update_flags F update_flags) q)

/-- `MappingFEField::get_subface_data` (lines 696-712).  `q` is the value of
`QProjector<dim>::project_to_all_subfaces(reference_cell, quadrature)` and
`n_original_q_points` that of `quadrature.size()`. -/
def MappingFEField.get_subface_data {dim spacedim : Nat} (F : UpdateFlagValues)
    (m : MappingFEField dim spacedim) (update_flags : Nat) (q : Quadrature dim)
    (n_original_q_points : Nat) : InternalData dim spacedim :=
  m.compute_face_data F n_original_q_points
    ((InternalData.init spacedim m.fe m.fe_mask).reinit F
      (requires_update_flags F update_flags) q)

/-- `maybe_compute_face_data`, lines 1250-1267: the loop
`for (d = 0; d != dim - 1; ++d)` that maps the unit tangentials of the face to the
real cell with `mapping.transform(…, mapping_contravariant, data, data.aux[d])`, on
the member `aux`. -/
def maybe_compute_face_data_tangentials {dim spacedim : Nat} (F : UpdateFlagValues)
    (cell : Cell dim spacedim) (face_no : Nat) (data : InternalData dim spacedim) :
    Except Exc (List (List (Tensor1 spacedim))) :=
  for_loop_e (dim - 1) (fun d aux =>
    match MappingFEField.transform_Tensor1 F
        (data.unit_tangentials.getD (face_no + cell.n_faces * d) [])
        .mapping_contravariant data (aux.getD d []) with
    | .error e => .error e
    | .ok output => .ok (aux.set d output)) data.aux

/-- `maybe_compute_face_data`, lines 1271-1337: the boundary forms, from the mapped
tangentials `aux` for `dim == spacedim` and from the cell normal in codimension
one. -/
def maybe_compute_face_data_boundary_forms {dim spacedim : Nat} (sqrt : ℚ → ℚ)
    (face_no : Nat) (data : InternalData dim spacedim)
    (boundary_forms : List (Tensor1 spacedim)) : Except Exc (List (Tensor1 spacedim)) :=
  let n_q_points := boundary_forms.length
  if dim = spacedim then
    for_loop_e n_q_points (fun i boundary_forms =>
      if dim = 1 then
        .ok (boundary_forms.set i (fun k =>
          if k.val = 0 then (if face_no = 0 then -1 else 1) else boundary_forms.getD i 0 k))
      else if dim = 2 then
        .ok (boundary_forms.set i (cross_product_2d ((data.aux.getD 0 []).getD i 0)))
      else if dim = 3 then
        .ok (boundary_forms.set i
          (cross_product_3d ((data.aux.getD 0 []).getD i 0) ((data.aux.getD 1 []).getD i 0)))
      else .error .ExcNotImplemented) boundary_forms
  else
    .ok (for_loop n_q_points (fun point boundary_forms =>
      let boundary_forms :=
        if dim = 1 then
          boundary_forms.set point (fun k =>
            DX_t (data.contravariant.getD point 0) 0 k /
              ((if face_no = 0 then -1 else 1) *
                norm sqrt (DX_t (data.contravariant.getD point 0) 0)))
        else boundary_forms
      if dim = 2 then
        boundary_forms.set point
          (cross_product_3d ((data.aux.getD 0 []).getD point 0)
            (fun k =>
              cross_product_3d (DX_t (data.contravariant.getD point 0) 0)
                  (DX_t (data.contravariant.getD point 0) 1) k /
                norm sqrt (cross_product_3d (DX_t (data.contravariant.getD point 0) 0)
                  (DX_t (data.contravariant.getD point 0) 1))))
      else boundary_forms) boundary_forms)

/-- `maybe_compute_face_data`, lines 1339-1362: `JxW_values` and `normal_vectors`
from the boundary forms, on the pair `(JxW_values, normal_vectors)`. -/
def maybe_compute_face_data_JxW {dim spacedim : Nat} (F : UpdateFlagValues) (sqrt : ℚ → ℚ)
    (cell : Cell dim spacedim) (face_no subface_no data_set : Nat)
    (data : InternalData dim spacedim) (boundary_forms : List (Tensor1 spacedim))
    (JxW_values : List ℚ) (normal_vectors : List (Tensor1 spacedim)) :
    List ℚ × List (Tensor1 spacedim) :=
  let update_flags := data.update_each
  if update_flags &&& (F.update_normal_vectors ||| F.update_JxW_values) ≠ 0 then
    for_loop boundary_forms.length (fun i out =>
      (if update_flags &&& F.update_JxW_values ≠ 0 then
          out.1.set i
            (if subface_no ≠ invalid_unsigned_int then
              norm sqrt (boundary_forms.getD i 0) * data.quadrature_weights.getD (i + data_set) 0
                * cell.subface_ratio face_no subface_no
            else
              norm sqrt (boundary_forms.getD i 0)
                * data.quadrature_weights.getD (i + data_set) 0)
        else out.1,
       if update_flags &&& F.update_normal_vectors ≠ 0 then
          out.2.set i (fun k => boundary_forms.getD i 0 k / norm sqrt (boundary_forms.getD i 0))
        else out.2)) (JxW_values, normal_vectors)
  else (JxW_values, normal_vectors)

/-- `maybe_compute_face_data` (lines 1229-1364).  The cache is passed by reference
to const and its member `aux` is `mutable`; the updated cache is returned with the
outputs.  `mapping.transform` is `MappingFEField::transform`. -/
def maybe_compute_face_data {dim spacedim : Nat} (F : UpdateFlagValues) (sqrt : ℚ → ℚ)
    (cell : Cell dim spacedim) (face_no subface_no data_set : Nat)
    (data : InternalData dim spacedim) (output_data : MappingRelatedData dim spacedim) :
    Except Exc (InternalData dim spacedim × MappingRelatedData dim spacedim) :=
  if data.update_each &&& F.update_boundary_forms ≠ 0 then
    match maybe_compute_face_data_tangentials F cell face_no data with
    | .error e => .error e
    | .ok aux =>
      match maybe_compute_face_data_boundary_forms sqrt face_no { data with aux := aux }
          output_data.boundary_forms with
      | .error e => .error e
      | .ok boundary_forms =>
        .ok ({ data with aux := aux },
          { output_data with
            boundary_forms := boundary_forms
            JxW_values :=
              (maybe_compute_face_data_JxW F sqrt cell face_no subface_no data_set
                { data with aux := aux } boundary_forms output_data.JxW_values
                output_data.normal_vectors).1
            normal_vectors :=
              (maybe_compute_face_data_JxW F sqrt cell face_no subface_no data_set
                { data with aux := aux } boundary_forms output_data.JxW_values
                output_data.normal_vectors).2 })
  else .ok (data, output_data)

/-- `do_fill_fe_face_values` (lines 1372-1437). -/
def do_fill_fe_face_values {dim spacedim : Nat} (F : UpdateFlagValues) (sqrt : ℚ → ℚ)
    (cell : Cell dim spacedim) (face_no subface_no data_set : Nat)
    (data : InternalData dim spacedim) (component_dofs : ComponentDoFs)
    (output_data : MappingRelatedData dim spacedim) :
    Except Exc (InternalData dim spacedim × MappingRelatedData dim spacedim) :=
  maybe_compute_face_data F sqrt cell face_no subface_no data_set
    (maybe_update_Jacobians F sqrt data_set data component_dofs)
    { output_data with
      quadrature_points :=
        maybe_compute_q_points F data_set data component_dofs output_data.quadrature_points
      jacobians :=
        fill_fe_values_jacobians F (maybe_update_Jacobians F sqrt data_set data component_dofs)
          (maybe_update_Jacobians F sqrt data_set data component_dofs).contravariant.length
          output_data.jacobians
      inverse_jacobians :=
        fill_fe_values_inverse_jacobians F
          (maybe_update_Jacobians F sqrt data_set data component_dofs)
          (maybe_update_Jacobians F sqrt data_set data component_dofs).contravariant.length
          output_data.inverse_jacobians
      jacobian_grads :=
        maybe_update_jacobian_grads F data_set
          (maybe_update_Jacobians F sqrt data_set data component_dofs) component_dofs
          output_data.jacobian_grads
      jacobian_pushed_forward_grads :=
        maybe_update_jacobian_pushed_forward_grads F data_set
          (maybe_update_Jacobians F sqrt data_set data component_dofs) component_dofs
          output_data.jacobian_pushed_forward_grads
      jacobian_2nd_derivatives :=
        maybe_update_jacobian_2nd_derivatives F data_set
          (maybe_update_Jacobians F sqrt data_set data component_dofs) component_dofs
          output_data.jacobian_2nd_derivatives
      jacobian_pushed_forward_2nd_derivatives :=
        maybe_update_jacobian_pushed_forward_2nd_derivatives F data_set
          (maybe_update_Jacobians F sqrt data_set data component_dofs) component_dofs
          output_data.jacobian_pushed_forward_2nd_derivatives
      jacobian_3rd_derivatives :=
        maybe_update_jacobian_3rd_derivatives F data_set
          (maybe_update_Jacobians F sqrt data_set data component_dofs) component_dofs
          output_data.jacobian_3rd_derivatives
      jacobian_pushed_forward_3rd_derivatives :=
        maybe_update_jacobian_pushed_forward_3rd_derivatives F data_set
          (maybe_update_Jacobians F sqrt data_set data component_dofs) component_dofs
          output_data.jacobian_pushed_forward_3rd_derivatives }

/-- `MappingFEField::fill_fe_face_values` (lines 1632-1664).  `data_set` is the
value of `QProjector<dim>::DataSetDescriptor::face(reference_cell, face_no,
cell->combined_face_orientation(face_no), quadrature[0].size())`. -/
def MappingFEField.fill_fe_face_values {dim spacedim : Nat} (F : UpdateFlagValues)
    (sqrt : ℚ → ℚ) (m : MappingFEField dim spacedim) (cell : Cell dim spacedim)
    (face_no data_set : Nat) (internal_data : InternalData dim spacedim)
    (output_data : MappingRelatedData dim spacedim) :
    Except Exc (InternalData dim spacedim × MappingRelatedData dim spacedim) :=
  match m.update_internal_dofs cell internal_data with
  | Except.error e => Except.error e
  | Except.ok data =>
    do_fill_fe_face_values F sqrt cell face_no invalid_unsigned_int data_set data
      m.component_dofs output_data

/-- `MappingFEField::fill_fe_subface_values` (lines 1668-1704).  `data_set` is the
value of `QProjector<dim>::DataSetDescriptor::subface(reference_cell, face_no,
subface_no, cell->combined_face_orientation(face_no), quadrature.size(),
cell->subface_case(face_no))`, the only use of `subface_no`. -/
def MappingFEField.fill_fe_subface_values {dim spacedim : Nat} (F : UpdateFlagValues)
    (sqrt : ℚ → ℚ) (m : MappingFEField dim spacedim) (cell : Cell dim spacedim)
    (face_no _subface_no data_set : Nat) (internal_data : InternalData dim spacedim)
    (output_data : MappingRelatedData dim spacedim) :
    Except Exc (InternalData dim spacedim × MappingRelatedData dim spacedim) :=
  match m.update_internal_dofs cell internal_data with
  | Except.error e => Except.error e
  | Except.ok data =>
    do_fill_fe_face_values F sqrt cell face_no invalid_unsigned_int data_set data
      m.component_dofs output_data

/-- `NonMatching::ImmersedSurfaceQuadrature<dim>`: the points, the weights and the
normals to the surface at the points, in reference coordinates. -/
structure ImmersedSurfaceQuadrature (dim : Nat) where
  points : List (Point dim)
  weights : List ℚ
  normals : List (Tensor1 dim)

/-- `Quadrature::size` of an immersed surface rule. -/
def ImmersedSurfaceQuadrature.size {dim : Nat} (q : ImmersedSurfaceQuadrature dim) : Nat :=
  q.points.length

/-- `MappingFEField::fill_fe_immersed_surface_values`, lines 1750-1777: the loop over
the points that checks the determinant and writes `JxW_values` and the normals, on
the pair `(JxW_values, normal_vectors)`. -/
def fill_fe_immersed_surface_values_JxW {dim spacedim : Nat} (F : UpdateFlagValues)
    (sqrt : ℚ → ℚ) (cell : Cell dim spacedim) (quadrature : ImmersedSurfaceQuadrature dim)
    (data : InternalData dim spacedim) (JxW_values : List ℚ)
    (normal_vectors : List (Tensor1 spacedim)) :
    Except Exc (List ℚ × List (Tensor1 spacedim)) :=
  let update_flags := data.update_each
  for_loop_e quadrature.size (fun point out =>
    let det := data.volume_elements.getD point 0
    if ¬ (det > 1e-12 * (cell.diameter / sqrt (dim : ℚ)) ^ dim) then
      .error (.ExcDistortedMappedCell (List.ofFn cell.center) det point)
    else
      let normal : Tensor1 spacedim := fun d =>
        scalar_product (fun j => data.covariant.getD point 0 d j)
          (quadrature.normals.getD point 0)
      let JxW_values :=
        out.1.set point (quadrature.weights.getD point 0 * det * norm sqrt normal)
      if update_flags &&& F.update_normal_vectors ≠ 0 then
        .ok (JxW_values, out.2.set point (fun d => normal d / norm sqrt normal))
      else .ok (JxW_values, out.2)) (JxW_values, normal_vectors)

/-- `MappingFEField::fill_fe_immersed_surface_values` (lines 1708-1851), with its
assertion `AssertDimension(dim, spacedim)`.  The block of
`if (update_flags & (update_normal_vectors | update_JxW_values))` ends after the last
of the calls for the derivatives of the Jacobian. -/
def MappingFEField.fill_fe_immersed_surface_values {dim spacedim : Nat}
    (F : UpdateFlagValues) (sqrt : ℚ → ℚ) (m : MappingFEField dim spacedim)
    (cell : Cell dim spacedim) (quadrature : ImmersedSurfaceQuadrature dim)
    (internal_data : InternalData dim spacedim)
    (output_data : MappingRelatedData dim spacedim) :
    Except Exc (InternalData dim spacedim × MappingRelatedData dim spacedim) :=
  if dim ≠ spacedim then Except.error Exc.ExcDimensionMismatch
  else
    let n_q_points := quadrature.size
    match m.update_internal_dofs cell internal_data with
    | Except.error e => Except.error e
    | Except.ok data =>
      let quadrature_points :=
        maybe_compute_q_points F 0 data m.component_dofs output_data.quadrature_points
      let data := maybe_update_Jacobians F sqrt 0 data m.component_dofs
      let update_flags := data.update_each
      if update_flags &&& (F.update_normal_vectors ||| F.update_JxW_values) ≠ 0 then
        match fill_fe_immersed_surface_values_JxW F sqrt cell quadrature data
            output_data.JxW_values output_data.normal_vectors with
        | Except.error e => Except.error e
        | Except.ok out =>
          Except.ok (data,
            { output_data with
              quadrature_points := quadrature_points
              JxW_values := out.1
              normal_vectors := out.2
              jacobians := fill_fe_values_jacobians F data n_q_points output_data.jacobians
              inverse_jacobians :=
                fill_fe_values_inverse_jacobians F data n_q_points
                  output_data.inverse_jacobians
              jacobian_grads :=
                maybe_update_jacobian_grads F 0 data m.component_dofs
                  output_data.jacobian_grads
              jacobian_pushed_forward_grads :=
                maybe_update_jacobian_pushed_forward_grads F 0 data m.component_dofs
                  output_data.jacobian_pushed_forward_grads
              jacobian_2nd_derivatives :=
                maybe_update_jacobian_2nd_derivatives F 0 data m.component_dofs
                  output_data.jacobian_2nd_derivatives
              jacobian_pushed_forward_2nd_derivatives :=
                maybe_update_jacobian_pushed_forward_2nd_derivatives F 0 data m.component_dofs
                  output_data.jacobian_pushed_forward_2nd_derivatives
              jacobian_3rd_derivatives :=
                maybe_update_jacobian_3rd_derivatives F 0 data m.component_dofs
                  output_data.jacobian_3rd_derivatives
              jacobian_pushed_forward_3rd_derivatives :=
                maybe_update_jacobian_pushed_forward_3rd_derivatives F 0 data m.component_dofs
                  output_data.jacobian_pushed_forward_3rd_derivatives })
      else Except.ok (data, { output_data with quadrature_points := quadrature_points })

/-! ## The assertions on the tables of the cache -/

/-- The `AssertIndexRange` of `InternalData::derivative(qpoint, shape_nr)`
(lines 241-242). -/
def InternalData.derivative_AssertIndexRange {dim spacedim : Nat}
    (data : InternalData dim spacedim) (qpoint shape_nr : Nat) : Except Exc Unit :=
  if qpoint * data.n_shape_functions + shape_nr < data.shape_derivatives.length then .ok ()
  else .error .ExcIndexRange

/-- The `AssertIndexRange` of `InternalData::second_derivative(qpoint, shape_nr)`
(lines 266-267). -/
def InternalData.second_derivative_AssertIndexRange {dim spacedim : Nat}
    (data : InternalData dim spacedim) (qpoint shape_nr : Nat) : Except Exc Unit :=
  if qpoint * data.n_shape_functions + shape_nr < data.shape_second_derivatives.length then
    .ok ()
  else .error .ExcIndexRange

/-- The `AssertIndexRange` of `InternalData::third_derivative(qpoint, shape_nr)`
(lines 291-292). -/
def InternalData.third_derivative_AssertIndexRange {dim spacedim : Nat}
    (data : InternalData dim spacedim) (qpoint shape_nr : Nat) : Except Exc Unit :=
  if qpoint * data.n_shape_functions + shape_nr < data.shape_third_derivatives.length then
    .ok ()
  else .error .ExcIndexRange

/-- The `AssertIndexRange` of `InternalData::fourth_derivative(qpoint, shape_nr)`
(lines 316-317). -/
def InternalData.fourth_derivative_AssertIndexRange {dim spacedim : Nat}
    (data : InternalData dim spacedim) (qpoint shape_nr : Nat) : Except Exc Unit :=
  if qpoint * data.n_shape_functions + shape_nr < data.shape_fourth_derivatives.length then
    .ok ()
  else .error .ExcIndexRange

/-- The assertions a run of `maybe_update_Jacobians` (lines 761-813) meets, in source
order, on the cache as the function finds it (the function resizes no table): the
first assertion that fails, or `ok`.  In the block of the contravariant
transformation these are `Assert(data.n_shape_functions > 0, ExcInternalError())`
and, for every point, the `AssertIndexRange` of the call
`data.derivative(point + data_set, 0)`; the other two blocks start with an
`AssertDimension`. -/
def maybe_update_Jacobians_assertions {dim spacedim : Nat} (F : UpdateFlagValues)
    (data_set : Nat) (data : InternalData dim spacedim) : Except Exc Unit :=
  let update_flags := data.update_each
  let contravariant_block : Except Exc Unit :=
    if update_flags &&& F.update_contravariant_transformation ≠ 0 then
      let n_q_points := data.contravariant.length
      if ¬ data.n_shape_functions > 0 then .error .ExcInternalError
      else
        for_loop_e n_q_points
          (fun point _ => data.derivative_AssertIndexRange (point + data_set) 0) ()
    else .ok ()
  match contravariant_block with
  | .error e => .error e
  | .ok _ =>
    if update_flags &&& F.update_covariant_transformation ≠ 0 ∧
        data.covariant.length ≠ data.contravariant.length then
      .error .ExcDimensionMismatch
    else if update_flags &&& F.update_volume_elements ≠ 0 ∧
        data.contravariant.length ≠ data.volume_elements.length then
      .error .ExcDimensionMismatch
    else .ok ()

/-- The assertions a run of `maybe_update_jacobian_pushed_forward_grads`
(lines 865-923) meets: for every point of the output, the `AssertIndexRange` of the
call `data.second_derivative(point + data_set, 0)`. -/
def maybe_update_jacobian_pushed_forward_grads_assertions {dim spacedim : Nat}
    (F : UpdateFlagValues) (data_set : Nat) (data : InternalData dim spacedim)
    (jacobian_pushed_forward_grads : List (Tensor3 spacedim)) : Except Exc Unit :=
  let update_flags := data.update_each
  if update_flags &&& F.update_jacobian_pushed_forward_grads ≠ 0 then
    let n_q_points := jacobian_pushed_forward_grads.length
    for_loop_e n_q_points
      (fun point _ => data.second_derivative_AssertIndexRange (point + data_set) 0) ()
  else .ok ()

/-- The assertions a run of `maybe_update_jacobian_pushed_forward_2nd_derivatives`
(lines 979-1058) meets: for every point of the output, the `AssertIndexRange` of the
call `data.third_derivative(point + data_set, 0)`. -/
def maybe_update_jacobian_pushed_forward_2nd_derivatives_assertions {dim spacedim : Nat}
    (F : UpdateFlagValues) (data_set : Nat) (data : InternalData dim spacedim)
    (jacobian_pushed_forward_2nd_derivatives : List (Tensor4 spacedim)) : Except Exc Unit :=
  let update_flags := data.update_each
  if update_flags &&& F.update_jacobian_pushed_forward_2nd_derivatives ≠ 0 then
    let n_q_points := jacobian_pushed_forward_2nd_derivatives.length
    for_loop_e n_q_points
      (fun point _ => data.third_derivative_AssertIndexRange (point + data_set) 0) ()
  else .ok ()

/-- The assertions a run of `maybe_update_jacobian_pushed_forward_3rd_derivatives`
(lines 1117-1217) meets: for every point of the output, the `AssertIndexRange` of the
call `data.fourth_derivative(point + data_set, 0)`. -/
def maybe_update_jacobian_pushed_forward_3rd_derivatives_assertions {dim spacedim : Nat}
    (F : UpdateFlagValues) (data_set : Nat) (data : InternalData dim spacedim)
    (jacobian_pushed_forward_3rd_derivatives : List (Tensor5 spacedim)) : Except Exc Unit :=
  let update_flags := data.update_each
  if update_flags &&& F.update_jacobian_pushed_forward_3rd_derivatives ≠ 0 then
    let n_q_points := jacobian_pushed_forward_3rd_derivatives.length
    for_loop_e n_q_points
      (fun point _ => data.fourth_derivative_AssertIndexRange (point + data_set) 0) ()
  else .ok ()

/-! ## Quantities used to state the behaviour of the solver -/

/-- The forward map of the cell evaluated from the shape functions themselves:
`map(x)[d] = Σ_{i ∈ component_dofs[d]} local_dof_values[i] * N_i(x)`. -/
def forward_map {dim : Nat} (spacedim : Nat) (fe : FiniteElement dim)
    (local_dof_values : List ℚ) (component_dofs : ComponentDoFs) (x : Point dim) :
    Point spacedim :=
  fun d => ((component_dofs.get d).map
    (fun i => local_dof_values.getD i 0 * fe.shape_value i x)).sum

/-- The trial point `p_unit_trial = p_unit - step_length * delta` of the line search. -/
def trial_point {dim : Nat} (p_unit : Point dim) (delta : Tensor1 dim) (step_length : ℚ) :
    Point dim :=
  fun i => p_unit i - step_length * delta i

/-- The cache after `mdata.reinit(mdata.update_each, Quadrature<dim>(x))`. -/
def cache_at {dim spacedim : Nat} (F : UpdateFlagValues) (mdata : InternalData dim spacedim)
    (x : Point dim) : InternalData dim spacedim :=
  mdata.reinit F mdata.update_each (Quadrature.of_point x)

/-- The residual `f_trial = p - p_real_trial` the line search computes at the step
length `t`. -/
def trial_residual {dim spacedim : Nat} (F : UpdateFlagValues) (component_dofs : ComponentDoFs)
    (p : Point spacedim) (p_unit : Point dim) (delta : Tensor1 dim)
    (mdata : InternalData dim spacedim) (t : ℚ) : Tensor1 spacedim :=
  p - do_transform_unit_to_real_cell component_dofs (cache_at F mdata (trial_point p_unit delta t))

/-- The way the line search is left when the trial at step length `t` is accepted. -/
def line_search_accept {dim spacedim : Nat} (F : UpdateFlagValues)
    (component_dofs : ComponentDoFs) (p : Point spacedim) (p_unit : Point dim)
    (delta : Tensor1 dim) (mdata : InternalData dim spacedim) (trials : List ℚ) (t : ℚ) :
    LineSearchResult dim spacedim :=
  LineSearchResult.accepted trials (trial_point p_unit delta t)
    (do_transform_unit_to_real_cell component_dofs (cache_at F mdata (trial_point p_unit delta t)))
    (trial_residual F component_dofs p p_unit delta mdata t)
    (cache_at F mdata (trial_point p_unit delta t))

/-- The Newton update `delta = invert(df) * f` computed at the head of an iteration
(lines 2193-2210) from the cache and the residual. -/
def newton_delta {dim spacedim : Nat} (component_dofs : ComponentDoFs)
    (mdata : InternalData dim spacedim) (p_minus_F : Tensor1 spacedim) : Tensor1 dim :=
  let DF : Fin dim → Point spacedim := fun j d => (component_dofs.get d).foldl
    (fun DF_j_d i => DF_j_d + mdata.local_dof_values.getD i 0 * mdata.derivative 0 i j) 0
  let f : Point dim := fun j => scalar_product (DF j) p_minus_F
  let df : Tensor2 dim := fun j l => -scalar_product (DF j) (DF l)
  (invert df).mulVec f

/-- The step lengths the line search can try, in order. -/
def halving_steps : List ℚ := [1, 1 / 2, 1 / 4, 1 / 8, 1 / 16, 1 / 32]

/-- The final state carried by a result of the solver. -/
def SolverResult.state {dim spacedim : Nat} : SolverResult dim spacedim → NewtonState dim spacedim
  | SolverResult.returned s => s
  | SolverResult.failure s => s

/-- The state of the Newton loop at the iterate `x`: the cache is re-initialised at
`x`, `p_real` is read from it and `p_minus_F = p - p_real`. -/
def newton_state_at {dim spacedim : Nat} (F : UpdateFlagValues) (component_dofs : ComponentDoFs)
    (p : Point spacedim) (mdata : InternalData dim spacedim) (x : Point dim)
    (newton_iteration : Nat) (trials : List (List ℚ)) : NewtonState dim spacedim :=
  ⟨x, do_transform_unit_to_real_cell component_dofs (cache_at F mdata x),
    p - do_transform_unit_to_real_cell component_dofs (cache_at F mdata x),
    newton_iteration, cache_at F mdata x, trials⟩

/-- The loop invariant of the Newton iteration: the cache is the one re-initialised at
the current iterate, and `p_real`, `p_minus_F` are read from it. -/
def cache_consistent {dim spacedim : Nat} (F : UpdateFlagValues) (component_dofs : ComponentDoFs)
    (p : Point spacedim) (mdata : InternalData dim spacedim) (s : NewtonState dim spacedim) :
    Prop :=
  s.mdata = cache_at F mdata s.p_unit ∧
    s.p_real = do_transform_unit_to_real_cell component_dofs s.mdata ∧
    s.p_minus_F = p - s.p_real

/-- Every recorded line search tried a nonempty initial segment of `halving_steps`. -/
def trials_admissible (trials : List (List ℚ)) : Prop :=
  ∀ tr ∈ trials, tr ≠ [] ∧ tr <+: halving_steps

/-- The Jacobian read from the cache at the head of a Newton iteration:
`J[d][j] = Σ_{i ∈ component_dofs[d]} local_dof_values[i] * derivative(0, i)[j]`. -/
def newton_jacobian {dim spacedim : Nat} (component_dofs : ComponentDoFs)
    (mdata : InternalData dim spacedim) : Matrix (Fin spacedim) (Fin dim) ℚ :=
  fun d j => ((component_dofs.get d).map
    (fun i => mdata.local_dof_values.getD i 0 * mdata.derivative 0 i j)).sum

/-- One pass through the body of the `while` loop of `do_transform_real_to_unit_cell`
(lines 2190-2252) from its head, in the state `s`: the state at the next head of the
loop, or `none` when the loop is left, which happens when the test of the residual
fails, when the line search ends in `goto failure`, and when the incremented counter
exceeds `newton_iteration_limit`. -/
def newton_step {dim spacedim : Nat} (F : UpdateFlagValues) (component_dofs : ComponentDoFs)
    (p : Point spacedim) (eps : ℚ) (s : NewtonState dim spacedim) :
    Option (NewtonState dim spacedim) :=
  if norm_square s.p_minus_F > eps * eps then
    match line_search F component_dofs p s.p_unit s.p_minus_F
        (newton_delta component_dofs s.mdata s.p_minus_F) 1 s.mdata [] with
    | LineSearchResult.accepted trials p_unit p_real p_minus_F mdata =>
      let newton_iteration := s.newton_iteration + 1
      if newton_iteration > newton_iteration_limit then none
      else some ⟨p_unit, p_real, p_minus_F, newton_iteration, mdata, s.trials ++ [trials]⟩
    | LineSearchResult.failure _ _ => none
  else none

/-- The state at the head of the Newton iteration number `k` (counted from zero) of
the run of the `while` loop from the state `s`, when the run comes to that head. -/
def newton_head {dim spacedim : Nat} (F : UpdateFlagValues) (component_dofs : ComponentDoFs)
    (p : Point spacedim) (eps : ℚ) (s : NewtonState dim spacedim) :
    Nat → Option (NewtonState dim spacedim)
  | 0 => some s
  | k + 1 =>
    match newton_head F component_dofs p eps s k with
    | some t => newton_step F component_dofs p eps t
    | none => none

/-! ## Quantities used to state the behaviour of the fill routines -/

/-- The raw reference-coordinate second-derivative tensor at a point:
`R[d][j][l] = Σ_{i ∈ component_dofs[d]} local_dof_values[i] * second_derivative(point + data_set, i)[j][l]`. -/
def raw_second_derivatives {dim spacedim : Nat} (data_set : Nat)
    (data : InternalData dim spacedim) (component_dofs : ComponentDoFs) (point : Nat) :
    DerivativeForm2 dim spacedim :=
  fun d j l => ((component_dofs.get d).map (fun i =>
    data.local_dof_values.getD i 0 *
      data.shape_second_derivatives.getD
        ((point + data_set) * data.n_shape_functions + i) 0 j l)).sum

/-- The raw reference-coordinate third-derivative tensor at a point. -/
def raw_third_derivatives {dim spacedim : Nat} (data_set : Nat)
    (data : InternalData dim spacedim) (component_dofs : ComponentDoFs) (point : Nat) :
    DerivativeForm3 dim spacedim :=
  fun d j l m => ((component_dofs.get d).map (fun i =>
    data.local_dof_values.getD i 0 *
      data.shape_third_derivatives.getD
        ((point + data_set) * data.n_shape_functions + i) 0 j l m)).sum

/-- The raw reference-coordinate fourth-derivative tensor at a point. -/
def raw_fourth_derivatives {dim spacedim : Nat} (data_set : Nat)
    (data : InternalData dim spacedim) (component_dofs : ComponentDoFs) (point : Nat) :
    DerivativeForm4 dim spacedim :=
  fun d j l m n => ((component_dofs.get d).map (fun i =>
    data.local_dof_values.getD i 0 *
      data.shape_fourth_derivatives.getD
        ((point + data_set) * data.n_shape_functions + i) 0 j l m n)).sum

/-- The simultaneous contraction of the two reference indices of `R` with the
matrix `C`: `out[d][a][b] = Σ_{j, l < dim} R[d][j][l] * C[a][j] * C[b][l]`. -/
def simultaneous_contraction_2 {dim spacedim : Nat} (R : DerivativeForm2 dim spacedim)
    (C : DerivativeForm1 dim spacedim) : Tensor3 spacedim :=
  fun d a b => ∑ j, ∑ l, R d j l * C a j * C b l

/-- The simultaneous contraction of the three reference indices of `R` with `C`:
`out[d][a][b][c] = Σ_{j, l, m < dim} R[d][j][l][m] * C[a][j] * C[b][l] * C[c][m]`. -/
def simultaneous_contraction_3 {dim spacedim : Nat} (R : DerivativeForm3 dim spacedim)
    (C : DerivativeForm1 dim spacedim) : Tensor4 spacedim :=
  fun d a b c => ∑ j, ∑ l, ∑ m, R d j l m * C a j * C b l * C c m

/-- The simultaneous contraction of the four reference indices of `R` with `C`:
`out[d][a][b][c][e] = Σ_{j, l, m, n < dim} R[d][j][l][m][n] * C[a][j] * C[b][l] *
C[c][m] * C[e][n]`. -/
def simultaneous_contraction_4 {dim spacedim : Nat} (R : DerivativeForm4 dim spacedim)
    (C : DerivativeForm1 dim spacedim) : Tensor5 spacedim :=
  fun d a b c e => ∑ j, ∑ l, ∑ m, ∑ n, R d j l m n * C a j * C b l * C c m * C e n

/-- The frame of a fill routine between the output bundle `before` and `after` the
call, for a cache with the flags `update_each`: every slot whose flag is absent is
unchanged; `JxW_flags` are the flags under which the routine writes `JxW_values`. -/
def slots_unchanged {dim spacedim : Nat} (F : UpdateFlagValues) (update_each JxW_flags : Nat)
    (before after : MappingRelatedData dim spacedim) : Prop :=
  (update_each &&& F.update_quadrature_points = 0 →
    after.quadrature_points = before.quadrature_points) ∧
  (update_each &&& JxW_flags = 0 → after.JxW_values = before.JxW_values) ∧
  (update_each &&& F.update_normal_vectors = 0 →
    after.normal_vectors = before.normal_vectors) ∧
  (update_each &&& F.update_boundary_forms = 0 →
    after.boundary_forms = before.boundary_forms) ∧
  (update_each &&& F.update_jacobians = 0 → after.jacobians = before.jacobians) ∧
  (update_each &&& F.update_inverse_jacobians = 0 →
    after.inverse_jacobians = before.inverse_jacobians) ∧
  (update_each &&& F.update_jacobian_grads = 0 →
    after.jacobian_grads = before.jacobian_grads) ∧
  (update_each &&& F.update_jacobian_pushed_forward_grads = 0 →
    after.jacobian_pushed_forward_grads = before.jacobian_pushed_forward_grads) ∧
  (update_each &&& F.update_jacobian_2nd_derivatives = 0 →
    after.jacobian_2nd_derivatives = before.jacobian_2nd_derivatives) ∧
  (update_each &&& F.update_jacobian_pushed_forward_2nd_derivatives = 0 →
    after.jacobian_pushed_forward_2nd_derivatives =
      before.jacobian_pushed_forward_2nd_derivatives) ∧
  (update_each &&& F.update_jacobian_3rd_derivatives = 0 →
    after.jacobian_3rd_derivatives = before.jacobian_3rd_derivatives) ∧
  (update_each &&& F.update_jacobian_pushed_forward_3rd_derivatives = 0 →
    after.jacobian_pushed_forward_3rd_derivatives =
      before.jacobian_pushed_forward_3rd_derivatives)

/-! ## Concrete inputs -/

/-- The shape functions of the linear Lagrange element on the unit interval:
`1 - x` and `x`. -/
def exampleQ1 : FiniteElement 1 where
  n_dofs_per_cell := 2
  shape_value := fun i p => if i = 0 then 1 - p 0 else p 0
  shape_grad := fun i _ _ => if i = 0 then -1 else 1
  shape_grad_grad := fun _ _ => 0
  shape_3rd_derivative := fun _ _ => 0
  shape_4th_derivative := fun _ _ => 0

/-- The component index of a scalar element with two shape functions. -/
def exampleComponentDoFs : ComponentDoFs := ⟨[0, 1], [0, 2], true⟩

/-- The cache of `exampleQ1` at the one-point rule `{1/2}` on the cell `[1, 3]`
(coefficients `1` and `3`), as `get_data` sizes it for the request
`update_quadrature_points | update_jacobians | update_inverse_jacobians`. -/
def exampleData : InternalData 1 1 where
  fe := exampleQ1
  unit_tangentials := []
  n_shape_functions := 2
  mask := [true]
  local_dof_indices := [0, 1]
  local_dof_values := [1, 3]
  shape_values := [1 / 2, 1 / 2]
  shape_derivatives := [fun _ => -1, fun _ => 1]
  shape_second_derivatives := []
  shape_third_derivatives := []
  shape_fourth_derivatives := []
  covariant := [0]
  contravariant := [0]
  volume_elements := [0]
  aux := []
  quadrature_weights := [1]
  update_each := 0x11D20

/-- The component index of a two-component element on a curve: shape functions `0, 1`
carry the first coordinate, `2, 3` the second. -/
def exampleCurveComponentDoFs : ComponentDoFs := ⟨[0, 1, 2, 3], [0, 2, 4], true⟩

/-- A cache for a straight curve in the plane (`dim = 1`, `spacedim = 2`) from `(0, 0)`
to `(3, 4)`, at one point, for the same request as `exampleData`. -/
def exampleCurveData : InternalData 1 2 where
  fe :=
    { n_dofs_per_cell := 4
      shape_value := fun i p => if i % 2 = 0 then 1 - p 0 else p 0
      shape_grad := fun i _ _ => if i % 2 = 0 then -1 else 1
      shape_grad_grad := fun _ _ => 0
      shape_3rd_derivative := fun _ _ => 0
      shape_4th_derivative := fun _ _ => 0
      n_components := 2
      nonzero_components := fun dof component => decide (dof / 2 = component) }
  unit_tangentials := []
  n_shape_functions := 4
  mask := [true, true]
  local_dof_indices := [0, 1, 2, 3]
  local_dof_values := [0, 3, 0, 4]
  shape_values := [1 / 2, 1 / 2, 1 / 2, 1 / 2]
  shape_derivatives := [fun _ => -1, fun _ => 1, fun _ => -1, fun _ => 1]
  shape_second_derivatives := []
  shape_third_derivatives := []
  shape_fourth_derivatives := []
  covariant := [0]
  contravariant := [0]
  volume_elements := [0]
  aux := []
  quadrature_weights := [1]
  update_each := 0x11D20

/-- The point of the line with coordinate `a`. -/
def pt (a : ℚ) : Point 1 := fun _ => a

/-- The shape functions of the quadratic Lagrange element on the unit interval, the two
vertex functions first: `(1 - x)(1 - 2x)`, `x(2x - 1)` and `4x(1 - x)`. -/
def exampleQ2 : FiniteElement 1 where
  n_dofs_per_cell := 3
  shape_value := fun i p =>
    if i = 0 then (1 - p 0) * (1 - 2 * p 0) else if i = 1 then p 0 * (2 * p 0 - 1)
    else 4 * p 0 * (1 - p 0)
  shape_grad := fun i p _ =>
    if i = 0 then 4 * p 0 - 3 else if i = 1 then 4 * p 0 - 1 else 4 - 8 * p 0
  shape_grad_grad := fun i _ _ _ => if i = 0 then 4 else if i = 1 then 4 else -8
  shape_3rd_derivative := fun _ _ => 0
  shape_4th_derivative := fun _ _ => 0

/-- The component index of a scalar element with three shape functions. -/
def exampleQ2ComponentDoFs : ComponentDoFs := ⟨[0, 1, 2], [0, 3], true⟩

/-- The cache of `exampleQ2` with the coefficients `0, 1, 1/4` (vertices at `0` and `1`,
midpoint at `1/4`), for which the forward map is `x ↦ x²`, with the flags of the request
`update_quadrature_points | update_jacobians` closed by `requires_update_flags`. -/
def exampleQ2Data : InternalData 1 1 :=
  { InternalData.init 1 exampleQ2 [true] with
    local_dof_indices := [0, 1, 2]
    local_dof_values := [0, 1, 1 / 4]
    update_each := 0x11120 }

/-- The coefficient snapshot `update_internal_dofs` loads into a cache fresh from
`InternalData::InternalData`: entry `i` is the owning vector's entry at the cell's `i`-th
dof index. -/
def MappingFEField.cell_dof_values {dim spacedim : Nat} (m : MappingFEField dim spacedim)
    (cell : Cell dim spacedim) : List ℚ :=
  let local_dof_indices :=
    if m.uses_level_dofs then cell.mg_dof_indices else cell.dof_indices
  let vector :=
    if m.uses_level_dofs then m.euler_vector.getD cell.level [] else m.euler_vector.getD 0 []
  assign_each m.fe.n_dofs_per_cell (fun i => vector.getD (local_dof_indices.getD i 0) 0)
    (List.replicate m.fe.n_dofs_per_cell 0)

/-- A mapping over `exampleQ1` whose coefficient vector `(0, 1/1000)` maps the unit
interval affinely onto `[0, 1/1000]`. -/
def exampleScaledMapping : MappingFEField 1 1 where
  uses_level_dofs := false
  euler_vector := [[0, 1 / 1000]]
  fe := exampleQ1
  n_dofs := 2
  n_dofs_level := fun _ => 0
  fe_mask := [true]
  component_dofs := exampleComponentDoFs

/-- An active cell of a triangulation whose own geometry is the unit interval: diameter
`1`, the default linear mapping is the identity, and the closest point of the reference
cell clamps the coordinate to `[0, 1]`. -/
def exampleUnitCell : Cell 1 1 where
  level := 0
  is_active := true
  diameter := 1
  dof_indices := [0, 1]
  mg_dof_indices := []
  closest_point := fun x _ => max 0 (min 1 (x 0))
  linear_transform_real_to_unit_cell := fun p => some p

/-- The cache of the cell `[1, 3]` with its Jacobian data: the contravariant matrix
`2`, the covariant matrix `1 / 2` and the volume element `2`. -/
def exampleJacobianData : InternalData 1 1 :=
  { exampleData with
    contravariant := [fun _ _ => 2]
    covariant := [fun _ _ => 1 / 2]
    volume_elements := [2] }

/-- The derivative along the directions `ds` of the degree-1 Lagrange shape function
of the vertex `v` of the unit hypercube (coordinate `k` of the vertex is bit `k` of
`v`): the shape function is `∏ k, (if bit k then x_k else 1 - x_k)`, which is affine
in each coordinate. -/
def exampleQ1_derivative {dim : Nat} (v : Nat) (p : Point dim) (ds : List (Fin dim)) : ℚ :=
  if ds.Nodup then
    (ds.map (fun k => if v.testBit k then (1 : ℚ) else -1)).prod *
      ∏ k : Fin dim, if k ∈ ds then 1 else (if v.testBit k then p k else 1 - p k)
  else 0

/-- The vector-valued degree-1 Lagrange element on the unit hypercube,
`FESystem(FE_Q(1), dim)`: shape function `i` belongs to the vertex `i / dim` and to
the component `i % dim`. -/
def exampleQ1System (dim : Nat) : FiniteElement dim where
  n_dofs_per_cell := 2 ^ dim * dim
  shape_value := fun i p => exampleQ1_derivative (i / dim) p []
  shape_grad := fun i p j => exampleQ1_derivative (i / dim) p [j]
  shape_grad_grad := fun i p j l => exampleQ1_derivative (i / dim) p [j, l]
  shape_3rd_derivative := fun i p j l m => exampleQ1_derivative (i / dim) p [j, l, m]
  shape_4th_derivative := fun i p j l m n => exampleQ1_derivative (i / dim) p [j, l, m, n]
  n_components := dim
  nonzero_components := fun dof component => dof % dim == component

/-- The tangent vectors of the faces of the unit square and cube, as
`ReferenceCell::face_tangent_vector<dim>(face_no, i)` returns them: component `k`
of the `i`-th tangent of the face. -/
def exampleHypercube_face_tangent_vector (dim face_no i : Nat) : Tensor1 dim :=
  fun k =>
    if dim = 2 then
      match face_no, k.val with
      | 0, 1 => -1
      | 1, 1 => 1
      | 2, 0 => 1
      | 3, 0 => -1
      | _, _ => 0
    else if dim = 3 then
      match face_no, i, k.val with
      | 0, 0, 1 => -1
      | 0, 1, 2 => 1
      | 1, 0, 1 => 1
      | 1, 1, 2 => 1
      | 2, 0, 2 => -1
      | 2, 1, 0 => 1
      | 3, 0, 2 => 1
      | 3, 1, 0 => 1
      | 4, 0, 0 => -1
      | 4, 1, 1 => 1
      | 5, 0, 0 => 1
      | 5, 1, 1 => 1
      | _, _, _ => 0
    else 0

/-- The mapping over `exampleQ1System dim` whose coefficient field is the degree-1
interpolant of `x ↦ s * x`: the coefficient of shape function `i` is `s` times
coordinate `i % dim` of the vertex `i / dim`. -/
def exampleScalingMapping (dim : Nat) (s : ℚ) : MappingFEField dim dim where
  reference_cell_face_tangent_vector := exampleHypercube_face_tangent_vector dim
  uses_level_dofs := false
  euler_vector :=
    [(List.range (2 ^ dim * dim)).map (fun i => if (i / dim).testBit (i % dim) then s else 0)]
  fe := exampleQ1System dim
  n_dofs := 2 ^ dim * dim
  n_dofs_level := fun _ => 0
  fe_mask := List.replicate dim true
  component_dofs :=
    match ComponentDoFs.init dim (exampleQ1System dim) (List.replicate dim true) with
    | .ok component_dofs => component_dofs
    | .error _ => ⟨[], [], true⟩

/-- An active cell of diameter `3 / 2` with the eight dof indices `0, …, 7` of
`exampleQ1System 2`. -/
def exampleSquareCell : Cell 2 2 where
  level := 0
  is_active := true
  diameter := 3 / 2
  dof_indices := List.range (2 ^ 2 * 2)
  mg_dof_indices := []
  closest_point := fun x k => max 0 (min 1 (x k))
  linear_transform_real_to_unit_cell := fun p => some p

/-- Output buffers for one quadrature point of a cell of the plane. -/
def exampleSquareOutput : MappingRelatedData 2 2 where
  quadrature_points := [0]
  JxW_values := [0]
  normal_vectors := []
  boundary_forms := []
  jacobians := [0]
  inverse_jacobians := [0]

/-- A square root that is exact on the squares met in the examples:
`sqrt 25 = 5`, `sqrt 4 = 2`, `sqrt 1 = 1`. -/
def exampleSqrt : ℚ → ℚ :=
  fun x => if x = 25 then 5 else if x = 4 then 2 else if x = 1 then 1 else 0

/-- Output buffers for one quadrature point of a face of a cell of the plane. -/
def exampleFaceOutput : MappingRelatedData 2 2 where
  quadrature_points := [0]
  JxW_values := [0]
  normal_vectors := [0]
  boundary_forms := [0]
  jacobians := [0]
  inverse_jacobians := [0]

/-- The cell `exampleSquareCell` with refined faces: each subface is half of its
face. -/
def exampleRefinedCell : Cell 2 2 :=
  { exampleSquareCell with subface_ratio := fun _ _ => 1 / 2 }

/-- The one-point rule of weight `1` at the midpoint of an edge, projected to the
eight subfaces of the unit square: the value of
`QProjector<2>::project_to_all_subfaces`, whose weights are those of the rule. -/
def exampleSubfaceRule : Quadrature 2 where
  points := [![0, 1 / 4], ![0, 3 / 4], ![1, 1 / 4], ![1, 3 / 4],
    ![1 / 4, 0], ![3 / 4, 0], ![1 / 4, 1], ![3 / 4, 1]]
  weights := [1, 1, 1, 1, 1, 1, 1, 1]

/-- A mapping built with level vectors: two levels over `exampleQ1`, with two and
three degrees of freedom. -/
def exampleLevelMapping : MappingFEField 1 1 :=
  { exampleScaledMapping with
    uses_level_dofs := true
    euler_vector := [[0, 1], [0, 1 / 2, 1]]
    n_dofs_level := fun level => if level = 0 then 2 else 3 }

/-- The refined (not active) cell of level 0 of a triangulation of the unit interval. -/
def exampleParentCell : Cell 1 1 :=
  { exampleUnitCell with
    is_active := false
    dof_indices := []
    mg_dof_indices := [0, 1] }

/-- The mapping `exampleScaledMapping` with a coefficient vector of one entry too
many for its DoF handler. -/
def exampleLongVectorMapping : MappingFEField 1 1 :=
  { exampleScaledMapping with euler_vector := [[0, 1 / 1000, 7]] }

/-- The mapping `exampleLevelMapping` whose vector of level 0 has three entries for
the two degrees of freedom of that level. -/
def exampleLongLevelVectorMapping : MappingFEField 1 1 :=
  { exampleLevelMapping with euler_vector := [[0, 1, 2], [0, 1 / 2, 1]] }

/-- A scalar element on the interval with the single shape function `x ↦ x⁴`. -/
def exampleQuartic : FiniteElement 1 where
  n_dofs_per_cell := 1
  shape_value := fun _ p => p 0 ^ 4
  shape_grad := fun _ p _ => 4 * p 0 ^ 3
  shape_grad_grad := fun _ p _ _ => 12 * p 0 ^ 2
  shape_3rd_derivative := fun _ p _ _ _ => 24 * p 0
  shape_4th_derivative := fun _ _ _ _ _ _ => 24

/-- The cache of `exampleQuartic` with the coefficient `1` at the one-point rule `{1}`,
for all six flags of the derivatives of the Jacobian closed by `requires_update_flags`:
the forward map is `x ↦ x⁴`, with the derivatives `4, 12, 24, 24` at the point and the
covariant matrix `1/4`. -/
def exampleQuarticData : InternalData 1 1 where
  fe := exampleQuartic
  unit_tangentials := []
  n_shape_functions := 1
  mask := [true]
  local_dof_indices := [0]
  local_dof_values := [1]
  shape_values := [1]
  shape_derivatives := [fun _ => 4]
  shape_second_derivatives := [fun _ _ => 12]
  shape_third_derivatives := [fun _ _ _ => 24]
  shape_fourth_derivatives := [fun _ _ _ _ => 24]
  covariant := [fun _ _ => 1 / 4]
  contravariant := [fun _ _ => 4]
  volume_elements := [4]
  aux := []
  quadrature_weights := [1]
  update_each := 0x1F11A00

/-- The component index of a scalar element with one shape function. -/
def exampleQuarticComponentDoFs : ComponentDoFs := ⟨[0], [0, 1], true⟩

/-- An immersed surface rule with one point, the centre of the unit square, with
weight `1` and the reference normal `(1, 0)`. -/
def exampleSurfaceRule : ImmersedSurfaceQuadrature 2 where
  points := [fun _ => 1 / 2]
  weights := [1]
  normals := [![1, 0]]

/-- An active cell of diameter `2` with the twenty-four dof indices `0, …, 23` of
`exampleQ1System 3`, with centre `(1/2, 1/2, 1/2)`. -/
def exampleCubeCell : Cell 3 3 where
  level := 0
  is_active := true
  diameter := 2
  dof_indices := List.range (2 ^ 3 * 3)
  mg_dof_indices := []
  closest_point := fun x k => max 0 (min 1 (x k))
  linear_transform_real_to_unit_cell := fun p => some p
  center := fun _ => 1 / 2

/-- Output buffers for one quadrature point of a cell of space. -/
def exampleCubeOutput : MappingRelatedData 3 3 where
  quadrature_points := [0]
  JxW_values := [0]
  normal_vectors := []
  boundary_forms := []
  jacobians := [0]
  inverse_jacobians := [0]

/-- The cache of the straight curve of `exampleCurveData` for the data of a face: the
contravariant matrix is the tangent `(3, 4)`, and the flags are those of the request
`update_normal_vectors`, resolved. -/
def exampleCurveFaceData : InternalData 1 2 :=
  { exampleCurveData with
    contravariant := [!![3; 4]]
    quadrature_weights := [1, 1]
    update_each := 0x11090 }

/-- A cell of a curve in the plane whose stored direction flag is `false`. -/
def exampleFlippedCurveCell : Cell 1 2 where
  level := 0
  is_active := true
  diameter := 5
  dof_indices := [0, 1, 2, 3]
  mg_dof_indices := []
  closest_point := fun x _ => max 0 (min 1 (x 0))
  linear_transform_real_to_unit_cell := fun _ => none
  direction_flag := false
  n_faces := 2

/-- Output buffers for one quadrature point of a face of a curve in the plane. -/
def exampleCurveFaceOutput : MappingRelatedData 1 2 where
  quadrature_points := [0]
  JxW_values := [0]
  normal_vectors := [0]
  boundary_forms := [0]
  jacobians := [0]
  inverse_jacobians := [0]

/-- The value in the component `component` of the shape function `i` of the element
`exampleNonPrimitive`, whose two shape functions are the vector fields `(1 - x, x)` and
`(x, 1 - x)`. -/
def exampleNonPrimitive_shape_value_component (i : Nat) (p : Point 1) (component : Nat) : ℚ :=
  if i = 0 then (if component = 0 then 1 - p 0 else p 0)
  else (if component = 0 then p 0 else 1 - p 0)

/-- A two-component element on the interval with one base element that is not
primitive: each of its two shape functions is nonzero in both components.  The scalar
evaluators `shape_value`, `shape_grad`, … are those of the argument `e`. -/
def exampleNonPrimitive (e : FiniteElement 1) : FiniteElement 1 :=
  { e with
    n_dofs_per_cell := 2
    n_components := 2
    nonzero_components := fun _ _ => true
    component_to_base_index := fun _ => 0
    base_element_is_primitive := fun _ => false
    shape_value_component := exampleNonPrimitive_shape_value_component }

/-- The component index of `exampleNonPrimitive` for the mask `(false, true)`, which
selects the component `1` for the one coordinate. -/
def exampleNonPrimitiveComponentDoFs : ComponentDoFs := ⟨[0, 1], [0, 2], false⟩

/-- A mapping of the interval over `exampleNonPrimitive` with the mask `(false, true)`
and the coefficients `1` and `2`. -/
def exampleNonPrimitiveMapping (e : FiniteElement 1) : MappingFEField 1 1 where
  uses_level_dofs := false
  euler_vector := [[1, 2]]
  fe := exampleNonPrimitive e
  n_dofs := 2
  n_dofs_level := fun _ => 0
  fe_mask := [false, true]
  component_dofs := exampleNonPrimitiveComponentDoFs

/-- An active cell with the values of the shape functions of `exampleNonPrimitive` at
its two vertices, the points `0` and `1` of the reference interval; the scalar values
`fe_values.shape_value(i, v)` are those of the argument. -/
def exampleNonPrimitiveCell (shape_value : Nat → Nat → ℚ) : Cell 1 1 where
  level := 0
  is_active := true
  diameter := 1
  dof_indices := [0, 1]
  mg_dof_indices := []
  closest_point := fun x _ => max 0 (min 1 (x 0))
  linear_transform_real_to_unit_cell := fun p => some p
  fe_values_shape_value := shape_value
  fe_values_shape_value_component := fun i v component =>
    exampleNonPrimitive_shape_value_component i (pt v) component

/-- The cache `get_data` builds over `exampleScaledMapping` for the request
`update_volume_elements` alone, at the one-point rule `{1/2}`. -/
def exampleVolumeElementsCache : InternalData 1 1 :=
  exampleScaledMapping.get_data dealiiFlags dealiiFlags.update_volume_elements
    (Quadrature.of_point (pt (1 / 2)))

/-- The cache `get_data` builds over `exampleScaledMapping` for the request
`update_jacobians`, at the one-point rule `{1/2}`. -/
def exampleJacobiansCache : InternalData 1 1 :=
  exampleScaledMapping.get_data dealiiFlags dealiiFlags.update_jacobians
    (Quadrature.of_point (pt (1 / 2)))

/-- The cache `get_data` builds over the unit square scaled by `2` for the request
`update_JxW_values`, at the points and weights of `exampleSurfaceRule`. -/
def exampleJxWCache : InternalData 2 2 :=
  (exampleScalingMapping 2 2).get_data dealiiFlags dealiiFlags.update_JxW_values
    ⟨exampleSurfaceRule.points, exampleSurfaceRule.weights⟩

theorem or_if_eq_or (cond add out : Nat) (h : out &&& cond ≠ 0) :
    or_if cond add out = out ||| add := by
  simp [or_if, h]

theorem or_if_of_contains (cond add out : Nat) (h : out ||| add = out) :
    or_if cond add out = out := by
  unfold or_if
  split
  · exact h
  · rfl

theorem or_if_keeps (cond add b out : Nat) (h : out ||| b = out) :
    or_if cond add out ||| b = or_if cond add out := by
  unfold or_if
  split
  · rw [Nat.lor_assoc, Nat.lor_comm add b, ← Nat.lor_assoc, h]
  · exact h

theorem or_if_testBit_le (cond add out i : Nat) (h : out.testBit i = true) :
    (or_if cond add out).testBit i = true := by
  unfold or_if
  split
  · simp [Nat.testBit_lor, h]
  · exact h

theorem or_if_changes (cond add out : Nat) (h : or_if cond add out ≠ out) :
    out ||| add ≠ out ∧ or_if cond add out ||| add = or_if cond add out := by
  unfold or_if at h ⊢
  split
  · rename_i hc
    rw [if_pos hc] at h
    exact ⟨h, by rw [Nat.lor_assoc, Nat.or_self]⟩
  · rename_i hc
    rw [if_neg hc] at h
    exact absurd rfl h

theorem or_if_missing_le (F : UpdateFlagValues) (cond add out : Nat) :
    missing_targets F (or_if cond add out) ≤ missing_targets F out := by
  unfold missing_targets
  have h1 := or_if_keeps cond add F.update_boundary_forms out
  have h2 := or_if_keeps cond add F.update_contravariant_transformation out
  have h3 := or_if_keeps cond add F.update_covariant_transformation out
  have h4 := or_if_keeps cond add F.update_volume_elements out
  split_ifs <;> simp_all

theorem or_if_missing_lt (F : UpdateFlagValues) (cond add out : Nat)
    (hadd : add = F.update_boundary_forms ∨ add = F.update_contravariant_transformation ∨
      add = F.update_covariant_transformation ∨ add = F.update_volume_elements)
    (h : or_if cond add out ≠ out) :
    missing_targets F (or_if cond add out) < missing_targets F out := by
  obtain ⟨hne, hnew⟩ := or_if_changes cond add out h
  have h1 := or_if_keeps cond add F.update_boundary_forms out
  have h2 := or_if_keeps cond add F.update_contravariant_transformation out
  have h3 := or_if_keeps cond add F.update_covariant_transformation out
  have h4 := or_if_keeps cond add F.update_volume_elements out
  unfold missing_targets
  rcases hadd with rfl | rfl | rfl | rfl
  · rw [if_pos hnew, if_neg hne]
    split_ifs <;> simp_all
  · rw [if_pos hnew, if_neg hne]
    split_ifs <;> simp_all
  · rw [if_pos hnew, if_neg hne]
    split_ifs <;> simp_all
  · rw [if_pos hnew, if_neg hne]
    split_ifs <;> simp_all

theorem or_if_step (F : UpdateFlagValues) (cond add out : Nat)
    (hadd : add = F.update_boundary_forms ∨ add = F.update_contravariant_transformation ∨
      add = F.update_covariant_transformation ∨ add = F.update_volume_elements) :
    (or_if cond add out = out ∧ missing_targets F (or_if cond add out) ≤ missing_targets F out) ∨
      missing_targets F (or_if cond add out) < missing_targets F out := by
  by_cases h : or_if cond add out = out
  · exact Or.inl ⟨h, or_if_missing_le F cond add out⟩
  · exact Or.inr (or_if_missing_lt F cond add out hadd h)

theorem pass_fixed_or_lt (F : UpdateFlagValues) (out : Nat) :
    requires_update_flags_pass F out = out ∨
      missing_targets F (requires_update_flags_pass F out) < missing_targets F out := by
  unfold requires_update_flags_pass
  generalize (F.update_JxW_values ||| F.update_normal_vectors) = c1
  generalize (F.update_covariant_transformation ||| F.update_jacobian_grads |||
      F.update_jacobians ||| F.update_boundary_forms ||| F.update_normal_vectors) = c2
  generalize (F.update_inverse_jacobians ||| F.update_jacobian_pushed_forward_grads |||
      F.update_jacobian_pushed_forward_2nd_derivatives |||
      F.update_jacobian_pushed_forward_3rd_derivatives) = c3
  simp only []
  have s1 := or_if_step F c1 F.update_boundary_forms out (by simp)
  generalize or_if c1 F.update_boundary_forms out = x1 at s1 ⊢
  have s2 := or_if_step F c2 F.update_contravariant_transformation x1 (by simp)
  generalize or_if c2 F.update_contravariant_transformation x1 = x2 at s2 ⊢
  have s3 := or_if_step F c3 F.update_covariant_transformation x2 (by simp)
  generalize or_if c3 F.update_covariant_transformation x2 = x3 at s3 ⊢
  have s4 := or_if_step F F.update_contravariant_transformation F.update_volume_elements x3
    (by simp)
  generalize or_if F.update_contravariant_transformation F.update_volume_elements x3 = x4
    at s4 ⊢
  have s5 := or_if_step F F.update_normal_vectors F.update_volume_elements x4 (by simp)
  generalize or_if F.update_normal_vectors F.update_volume_elements x4 = x5 at s5 ⊢
  have l1 : missing_targets F x1 ≤ missing_targets F out := by
    rcases s1 with h | h
    · exact h.2
    · exact h.le
  have l2 : missing_targets F x2 ≤ missing_targets F x1 := by
    rcases s2 with h | h
    · exact h.2
    · exact h.le
  have l3 : missing_targets F x3 ≤ missing_targets F x2 := by
    rcases s3 with h | h
    · exact h.2
    · exact h.le
  have l4 : missing_targets F x4 ≤ missing_targets F x3 := by
    rcases s4 with h | h
    · exact h.2
    · exact h.le
  have l5 : missing_targets F x5 ≤ missing_targets F x4 := by
    rcases s5 with h | h
    · exact h.2
    · exact h.le
  rcases s1 with ⟨e1, -⟩ | h
  · rcases s2 with ⟨e2, -⟩ | h
    · rcases s3 with ⟨e3, -⟩ | h
      · rcases s4 with ⟨e4, -⟩ | h
        · rcases s5 with ⟨e5, -⟩ | h
          · left
            rw [e5, e4, e3, e2, e1]
          · right; omega
        · right; omega
      · right; omega
    · right; omega
  · right; omega

theorem missing_targets_le_four (F : UpdateFlagValues) (out : Nat) :
    missing_targets F out ≤ 4 := by
  unfold missing_targets
  split_ifs <;> omega

theorem pass_fixed_of_missing_zero (F : UpdateFlagValues) (out : Nat)
    (h : missing_targets F out = 0) : requires_update_flags_pass F out = out := by
  rcases pass_fixed_or_lt F out with h1 | h1
  · exact h1
  · omega

theorem pass_iterate_fixed (F : UpdateFlagValues) :
    ∀ (n out : Nat), missing_targets F out ≤ n →
      requires_update_flags_pass F ((requires_update_flags_pass F)^[n] out) =
        (requires_update_flags_pass F)^[n] out := by
  intro n
  induction n with
  | zero =>
    intro out h
    exact pass_fixed_of_missing_zero F out (by omega)
  | succ n ih =>
    intro out h
    rw [Function.iterate_succ_apply]
    rcases pass_fixed_or_lt F out with h1 | h1
    · rw [h1, Function.iterate_fixed h1 n]
      exact h1
    · exact ih _ (by omega)

/-- Four passes reach a fixed point of the rule block, for every input. -/
theorem pass_four_fixed (F : UpdateFlagValues) (out : Nat) :
    requires_update_flags_pass F ((requires_update_flags_pass F)^[4] out) =
      (requires_update_flags_pass F)^[4] out :=
  pass_iterate_fixed F 4 out (missing_targets_le_four F out)

theorem requires_update_flags_eq_four (F : UpdateFlagValues) (x : Nat) :
    requires_update_flags F x = (requires_update_flags_pass F)^[4] x := by
  unfold requires_update_flags
  rw [Function.iterate_succ_apply']
  exact pass_four_fixed F x

theorem pass_requires_update_flags (F : UpdateFlagValues) (x : Nat) :
    requires_update_flags_pass F (requires_update_flags F x) = requires_update_flags F x := by
  rw [requires_update_flags_eq_four]
  exact pass_four_fixed F x

/-- C1: `requires_update_flags` is idempotent, whatever the numeric values of the
flags are: resolving an already resolved flag set returns it unchanged. -/
theorem requires_update_flags_idempotent (F : UpdateFlagValues) (x : Nat) :
    requires_update_flags F (requires_update_flags F x) = requires_update_flags F x := by
  have h := pass_requires_update_flags F x
  generalize requires_update_flags F x = r at h
  unfold requires_update_flags
  exact Function.iterate_fixed h 5

theorem pass_testBit_le (F : UpdateFlagValues) (out i : Nat) (h : out.testBit i = true) :
    (requires_update_flags_pass F out).testBit i = true := by
  unfold requires_update_flags_pass
  simp only []
  exact or_if_testBit_le _ _ _ _ (or_if_testBit_le _ _ _ _ (or_if_testBit_le _ _ _ _
    (or_if_testBit_le _ _ _ _ (or_if_testBit_le _ _ _ _ h))))

theorem pass_iterate_testBit_le (F : UpdateFlagValues) (i : Nat) :
    ∀ (n out : Nat), out.testBit i = true →
      ((requires_update_flags_pass F)^[n] out).testBit i = true := by
  intro n
  induction n with
  | zero => intro out h; exact h
  | succ n ih =>
    intro out h
    rw [Function.iterate_succ_apply]
    exact ih _ (pass_testBit_le F out i h)

/-- C2: `requires_update_flags` only adds flags: every bit set in `x` is set in
`requires_update_flags x`. -/
theorem requires_update_flags_superset (F : UpdateFlagValues) (x i : Nat)
    (h : x.testBit i = true) : (requires_update_flags F x).testBit i = true :=
  pass_iterate_testBit_le F i 5 x h

/-- Witness of C2 on the flag values of deal.II: bit 5 (`update_quadrature_points`)
of the request `update_quadrature_points | update_jacobians` survives. -/
theorem requires_update_flags_superset_witness :
    (0x120 : Nat).testBit 5 = true ∧
      (requires_update_flags dealiiFlags 0x120).testBit 5 = true :=
  ⟨by decide, requires_update_flags_superset dealiiFlags 0x120 5 (by decide)⟩

theorem or_if_contains_arg (cond add out : Nat) : out ||| or_if cond add out = or_if cond add out := by
  unfold or_if
  split
  · rw [← Nat.lor_assoc, Nat.or_self]
  · exact Nat.or_self out

theorem lor_sub_trans (a b c : Nat) (hab : a ||| b = b) (hbc : b ||| c = c) : a ||| c = c := by
  rw [← hbc, ← Nat.lor_assoc, hab]

theorem lor_sub_antisymm (a b : Nat) (hab : a ||| b = b) (hba : b ||| a = a) : a = b := by
  rw [← hba, Nat.lor_comm, hab]

theorem land_eq_of_lor_eq (r a : Nat) (h : r ||| a = r) : r &&& a = a := by
  apply Nat.eq_of_testBit_eq
  intro i
  have hi : (r ||| a).testBit i = r.testBit i := by rw [h]
  rw [Nat.testBit_lor] at hi
  rw [Nat.testBit_land]
  cases hr : r.testBit i <;> cases ha : a.testBit i <;> simp_all

theorem or_if_fixed_contains (cond add r : Nat) (hfix : or_if cond add r = r)
    (hc : r &&& cond ≠ 0) : r &&& add = add := by
  rw [or_if_eq_or cond add r hc] at hfix
  exact land_eq_of_lor_eq r add hfix

/-- A fixed point of the rule block is a fixed point of each of its five statements. -/
theorem pass_fixed_each (F : UpdateFlagValues) (r : Nat)
    (h : requires_update_flags_pass F r = r) :
    or_if (F.update_JxW_values ||| F.update_normal_vectors) F.update_boundary_forms r = r ∧
    or_if (F.update_covariant_transformation ||| F.update_jacobian_grads |||
      F.update_jacobians ||| F.update_boundary_forms ||| F.update_normal_vectors)
      F.update_contravariant_transformation r = r ∧
    or_if (F.update_inverse_jacobians ||| F.update_jacobian_pushed_forward_grads |||
      F.update_jacobian_pushed_forward_2nd_derivatives |||
      F.update_jacobian_pushed_forward_3rd_derivatives)
      F.update_covariant_transformation r = r ∧
    or_if F.update_contravariant_transformation F.update_volume_elements r = r ∧
    or_if F.update_normal_vectors F.update_volume_elements r = r := by
  unfold requires_update_flags_pass at h
  generalize (F.update_JxW_values ||| F.update_normal_vectors) = c1 at h ⊢
  generalize (F.update_covariant_transformation ||| F.update_jacobian_grads |||
      F.update_jacobians ||| F.update_boundary_forms ||| F.update_normal_vectors) = c2 at h ⊢
  generalize (F.update_inverse_jacobians ||| F.update_jacobian_pushed_forward_grads |||
      F.update_jacobian_pushed_forward_2nd_derivatives |||
      F.update_jacobian_pushed_forward_3rd_derivatives) = c3 at h ⊢
  simp only [] at h
  have s1 := or_if_contains_arg c1 F.update_boundary_forms r
  generalize hx1 : or_if c1 F.update_boundary_forms r = x1 at s1 h
  have s2 := or_if_contains_arg c2 F.update_contravariant_transformation x1
  generalize hx2 : or_if c2 F.update_contravariant_transformation x1 = x2 at s2 h
  have s3 := or_if_contains_arg c3 F.update_covariant_transformation x2
  generalize hx3 : or_if c3 F.update_covariant_transformation x2 = x3 at s3 h
  have s4 := or_if_contains_arg F.update_contravariant_transformation F.update_volume_elements x3
  generalize hx4 : or_if F.update_contravariant_transformation F.update_volume_elements x3 = x4
    at s4 h
  have s5 := or_if_contains_arg F.update_normal_vectors F.update_volume_elements x4
  rw [h] at s5
  have e4 : x4 = r :=
    lor_sub_antisymm x4 r s5 (lor_sub_trans r x3 x4 (lor_sub_trans r x2 x3
      (lor_sub_trans r x1 x2 s1 s2) s3) s4)
  subst e4
  have e3 : x3 = x4 :=
    lor_sub_antisymm x3 x4 s4 (lor_sub_trans x4 x2 x3 (lor_sub_trans x4 x1 x2 s1 s2) s3)
  subst e3
  have e2 : x2 = x3 := lor_sub_antisymm x2 x3 s3 (lor_sub_trans x3 x1 x2 s1 s2)
  subst e2
  have e1 : x1 = x2 := lor_sub_antisymm x1 x2 s2 s1
  subst e1
  exact ⟨rfl, hx2, hx3, hx4, h⟩

theorem land_lor_ne_zero (r a b : Nat) (h : r &&& (a ||| b) ≠ 0) :
    r &&& a ≠ 0 ∨ r &&& b ≠ 0 := by
  by_contra hcon
  push_neg at hcon
  apply h
  rw [Nat.and_or_distrib_left, hcon.1, hcon.2]
  rfl

/-- C3: the result `r = requires_update_flags x` is closed under all four
implication rules.  A premise "r contains one of the flags" is the source's test
`r & (flags) != 0`; a conclusion "r contains the flag" is `r & flag == flag`. -/
theorem requires_update_flags_closed (F : UpdateFlagValues) (x : Nat) :
    (requires_update_flags F x &&& (F.update_JxW_values ||| F.update_normal_vectors) ≠ 0 →
      requires_update_flags F x &&& F.update_boundary_forms = F.update_boundary_forms) ∧
    (requires_update_flags F x &&&
        (F.update_covariant_transformation ||| F.update_jacobian_grads |||
          F.update_jacobians ||| F.update_boundary_forms ||| F.update_normal_vectors) ≠ 0 →
      requires_update_flags F x &&& F.update_contravariant_transformation =
        F.update_contravariant_transformation) ∧
    (requires_update_flags F x &&&
        (F.update_inverse_jacobians ||| F.update_jacobian_pushed_forward_grads |||
          F.update_jacobian_pushed_forward_2nd_derivatives |||
          F.update_jacobian_pushed_forward_3rd_derivatives) ≠ 0 →
      requires_update_flags F x &&& F.update_covariant_transformation =
        F.update_covariant_transformation) ∧
    (requires_update_flags F x &&&
        (F.update_contravariant_transformation ||| F.update_normal_vectors) ≠ 0 →
      requires_update_flags F x &&& F.update_volume_elements = F.update_volume_elements) := by
  obtain ⟨h1, h2, h3, h4, h5⟩ :=
    pass_fixed_each F (requires_update_flags F x) (pass_requires_update_flags F x)
  refine ⟨or_if_fixed_contains _ _ _ h1, or_if_fixed_contains _ _ _ h2,
    or_if_fixed_contains _ _ _ h3, ?_⟩
  intro hc
  rcases land_lor_ne_zero _ _ _ hc with hc | hc
  · exact or_if_fixed_contains _ _ _ h4 hc
  · exact or_if_fixed_contains _ _ _ h5 hc

/-- Witness of C3 on the flag values of deal.II: for the request
`update_normal_vectors | update_inverse_jacobians` all four premises hold and the
result contains boundary forms, both transformations and the volume elements. -/
theorem requires_update_flags_closed_witness :
    requires_update_flags dealiiFlags 0x480 = 0x11C90 ∧
    (requires_update_flags dealiiFlags 0x480 &&& 0x0010 = 0x0010) ∧
    (requires_update_flags dealiiFlags 0x480 &&& 0x1000 = 0x1000) ∧
    (requires_update_flags dealiiFlags 0x480 &&& 0x0800 = 0x0800) ∧
    (requires_update_flags dealiiFlags 0x480 &&& 0x10000 = 0x10000) :=
  ⟨by decide,
   (requires_update_flags_closed dealiiFlags 0x480).1 (by decide),
   (requires_update_flags_closed dealiiFlags 0x480).2.1 (by decide),
   (requires_update_flags_closed dealiiFlags 0x480).2.2.1 (by decide),
   (requires_update_flags_closed dealiiFlags 0x480).2.2.2 (by decide)⟩

/-! ## Loops, vectors and tables -/

theorem for_loop_zero {σ : Type} (body : Nat → σ → σ) (s : σ) : for_loop 0 body s = s := rfl

theorem for_loop_succ {σ : Type} (n : Nat) (body : Nat → σ → σ) (s : σ) :
    for_loop (n + 1) body s = body n (for_loop n body s) := by
  unfold for_loop
  rw [List.range_succ, List.foldl_append]
  rfl

theorem resize_length {α : Type} (v : List α) (n : Nat) (zero : α) :
    (resize v n zero).length = n := by
  unfold resize
  rw [List.length_append, List.length_take, List.length_replicate]
  omega

theorem assign_each_length {α : Type} (n : Nat) (value : Nat → α) (out : List α) :
    (assign_each n value out).length = out.length := by
  unfold assign_each
  induction n with
  | zero => rfl
  | succ n ih => rw [for_loop_succ, List.length_set, ih]

theorem assign_each_getElem? {α : Type} (n : Nat) (value : Nat → α) (out : List α) (k : Nat) :
    (assign_each n value out)[k]? =
      if k < n then (out[k]?).map (fun _ => value k) else out[k]? := by
  unfold assign_each
  induction n with
  | zero => simp [for_loop_zero]
  | succ n ih =>
    rw [for_loop_succ, List.getElem?_set, ih]
    have hlen := assign_each_length n value out
    unfold assign_each at hlen
    rw [hlen]
    by_cases hk : n = k
    · subst hk
      by_cases hn : n < out.length
      · simp [hn, List.getElem?_eq_getElem hn]
      · have : out[n]? = none := List.getElem?_eq_none (by omega)
        simp [hn, this]
    · by_cases hk2 : k < n
      · simp [hk, hk2, Nat.lt_succ_of_lt hk2]
      · have : ¬ k < n + 1 := by omega
        simp [hk, hk2, this]

theorem assign_each_getD {α : Type} (n : Nat) (value : Nat → α) (out : List α) (k : Nat)
    (zero : α) (hk : k < n) (hlen : k < out.length) :
    (assign_each n value out).getD k zero = value k := by
  rw [List.getD_eq_getElem?_getD, assign_each_getElem?, if_pos hk,
    List.getElem?_eq_getElem hlen]
  rfl

theorem for_loop_set_getElem? {α : Type} (n base : Nat) (value : Nat → α) (table : List α)
    (k : Nat) :
    (for_loop n (fun i table => table.set (base + i) (value i)) table)[k]? =
      if base ≤ k ∧ k < base + n then (table[k]?).map (fun _ => value (k - base))
      else table[k]? := by
  induction n with
  | zero =>
    have : ¬ (base ≤ k ∧ k < base + 0) := by omega
    rw [for_loop_zero, if_neg this]
  | succ n ih =>
    rw [for_loop_succ, List.getElem?_set, ih]
    have hlen : (for_loop n (fun i table => table.set (base + i) (value i)) table).length =
        table.length := by
      clear ih
      induction n with
      | zero => rfl
      | succ n ih2 => rw [for_loop_succ, List.length_set, ih2]
    rw [hlen]
    by_cases hk : base + n = k
    · subst hk
      have h1 : base ≤ base + n ∧ base + n < base + (n + 1) := by omega
      rw [if_pos rfl, if_pos h1]
      by_cases hn : base + n < table.length
      · simp [hn, List.getElem?_eq_getElem hn]
      · have : table[base + n]? = none := List.getElem?_eq_none (by omega)
        simp [hn, this]
    · rw [if_neg hk]
      by_cases hk2 : base ≤ k ∧ k < base + n
      · have h1 : base ≤ k ∧ k < base + (n + 1) := by omega
        rw [if_pos hk2, if_pos h1]
      · have h1 : ¬ (base ≤ k ∧ k < base + (n + 1)) := by omega
        rw [if_neg hk2, if_neg h1]

theorem for_loop_set_length {α : Type} (n base : Nat) (value : Nat → α) (table : List α) :
    (for_loop n (fun i table => table.set (base + i) (value i)) table).length =
      table.length := by
  induction n with
  | zero => rfl
  | succ n ih => rw [for_loop_succ, List.length_set, ih]

theorem fill_table_length {α : Type} (n nq : Nat) (value : Nat → Nat → α) (table : List α) :
    (fill_table n nq value table).length = table.length := by
  unfold fill_table
  induction nq with
  | zero => rfl
  | succ m ih => rw [for_loop_succ, for_loop_set_length, ih]

theorem fill_table_getElem? {α : Type} (n nq : Nat) (value : Nat → Nat → α) (table : List α)
    (k : Nat) :
    (fill_table n nq value table)[k]? =
      if k < nq * n then (table[k]?).map (fun _ => value (k % n) (k / n)) else table[k]? := by
  unfold fill_table
  induction nq with
  | zero => simp [for_loop_zero]
  | succ m ih =>
    rw [for_loop_succ, for_loop_set_getElem?, ih]
    have hlen := fill_table_length n m value table
    unfold fill_table at hlen
    have hmul : (m + 1) * n = m * n + n := Nat.succ_mul m n
    by_cases hk : m * n ≤ k ∧ k < m * n + n
    · have h1 : k < (m + 1) * n := by omega
      have h2 : ¬ k < m * n := by omega
      rw [if_pos hk, if_pos h1, if_neg h2]
      have hn : 0 < n := by omega
      obtain ⟨r, hr⟩ : ∃ r, k = m * n + r := ⟨k - m * n, by omega⟩
      have hr2 : r < n := by omega
      have hmod : k % n = r := by
        rw [hr, Nat.mul_comm m n, Nat.mul_add_mod, Nat.mod_eq_of_lt hr2]
      have hdiv : k / n = m := by
        rw [hr, Nat.mul_comm m n, Nat.mul_add_div hn, Nat.div_eq_of_lt hr2, Nat.add_zero]
      have hsub : k - m * n = r := by omega
      rw [hmod, hdiv, hsub]
    · rw [if_neg hk]
      by_cases hk2 : k < m * n
      · have h1 : k < (m + 1) * n := by omega
        rw [if_pos hk2, if_pos h1]
      · have h1 : ¬ k < (m + 1) * n := by omega
        rw [if_neg hk2, if_neg h1]

/-- The table written by the double loop of `reinit` does not depend on the previous
contents of a vector of the right size. -/
theorem fill_table_eq_map {α : Type} (n nq : Nat) (value : Nat → Nat → α) (table : List α)
    (hlen : table.length = n * nq) :
    fill_table n nq value table =
      (List.range (n * nq)).map (fun k => value (k % n) (k / n)) := by
  apply List.ext_getElem?
  intro k
  rw [fill_table_getElem?, List.getElem?_map]
  by_cases hk : k < nq * n
  · have hk2 : k < table.length := by rw [hlen, Nat.mul_comm]; exact hk
    have hk3 : k < n * nq := by rw [Nat.mul_comm]; exact hk
    rw [if_pos hk, List.getElem?_eq_getElem hk2, List.getElem?_range hk3]
    rfl
  · have hk2 : table.length ≤ k := by rw [hlen, Nat.mul_comm]; omega
    have hk3 : (List.range (n * nq)).length ≤ k := by
      rw [List.length_range, Nat.mul_comm]; omega
    rw [if_neg hk, List.getElem?_eq_none hk2, List.getElem?_eq_none hk3]
    rfl

theorem foldl_add_eq_sum {ι M : Type} [AddCommMonoid M] (l : List ι) (g : ι → M) (init : M) :
    l.foldl (fun acc i => acc + g i) init = init + (l.map g).sum := by
  induction l generalizing init with
  | nil => simp
  | cons a l ih =>
    rw [List.foldl_cons, ih, List.map_cons, List.sum_cons, add_assoc]

/-! ## Quadrature points and Jacobians -/

/-- C8: when `update_quadrature_points` is set, `maybe_compute_q_points` writes, for
every output point `q` and every spatial dimension `d`,
`quadrature_points[q][d] = Σ_{i ∈ component_dofs[d]} local_dof_values[i] * shape(q + data_set, i)`,
and it keeps the number of output points. -/
theorem maybe_compute_q_points_spec {dim spacedim : Nat} (F : UpdateFlagValues)
    (data_set : Nat) (data : InternalData dim spacedim) (component_dofs : ComponentDoFs)
    (quadrature_points : List (Point spacedim)) (q : Nat) (d : Fin spacedim)
    (hflag : data.update_each &&& F.update_quadrature_points ≠ 0)
    (hq : q < quadrature_points.length) :
    (maybe_compute_q_points F data_set data component_dofs quadrature_points).getD q 0 d =
        ((component_dofs.get d).map
          (fun i => data.local_dof_values.getD i 0 * data.shape (q + data_set) i)).sum ∧
      (maybe_compute_q_points F data_set data component_dofs quadrature_points).length =
        quadrature_points.length := by
  unfold maybe_compute_q_points
  simp only []
  rw [if_pos hflag, assign_each_length, assign_each_getD _ _ _ _ _ hq hq, foldl_add_eq_sum,
    zero_add]
  simp only [InternalData.shape, Nat.add_zero, and_self]

theorem maybe_update_Jacobians_update_each {dim spacedim : Nat} (F : UpdateFlagValues)
    (sqrt : ℚ → ℚ) (data_set : Nat) (data : InternalData dim spacedim)
    (component_dofs : ComponentDoFs) :
    (maybe_update_Jacobians F sqrt data_set data component_dofs).update_each =
      data.update_each := by
  unfold maybe_update_Jacobians
  simp only []
  split_ifs <;> rfl

theorem maybe_update_Jacobians_contravariant {dim spacedim : Nat} (F : UpdateFlagValues)
    (sqrt : ℚ → ℚ) (data_set : Nat) (data : InternalData dim spacedim)
    (component_dofs : ComponentDoFs) :
    (maybe_update_Jacobians F sqrt data_set data component_dofs).contravariant =
      if data.update_each &&& F.update_contravariant_transformation ≠ 0 then
        assign_each data.contravariant.length
          (fun point (d : Fin spacedim) => (component_dofs.get d).foldl
            (fun result_d i => result_d + data.local_dof_values.getD i 0 •
              data.shape_derivatives.getD
                ((point + data_set) * data.n_shape_functions + 0 + i) 0) (0 : Tensor1 dim))
          data.contravariant
      else data.contravariant := by
  unfold maybe_update_Jacobians
  simp only []
  split_ifs <;> rfl

theorem maybe_update_Jacobians_contravariant_length {dim spacedim : Nat} (F : UpdateFlagValues)
    (sqrt : ℚ → ℚ) (data_set : Nat) (data : InternalData dim spacedim)
    (component_dofs : ComponentDoFs) :
    (maybe_update_Jacobians F sqrt data_set data component_dofs).contravariant.length =
      data.contravariant.length := by
  rw [maybe_update_Jacobians_contravariant]
  split_ifs
  · exact assign_each_length _ _ _
  · rfl

theorem maybe_update_Jacobians_covariant {dim spacedim : Nat} (F : UpdateFlagValues)
    (sqrt : ℚ → ℚ) (data_set : Nat) (data : InternalData dim spacedim)
    (component_dofs : ComponentDoFs) :
    (maybe_update_Jacobians F sqrt data_set data component_dofs).covariant =
      if data.update_each &&& F.update_covariant_transformation ≠ 0 then
        assign_each
          (maybe_update_Jacobians F sqrt data_set data component_dofs).contravariant.length
          (fun point => covariant_form
            ((maybe_update_Jacobians F sqrt data_set data component_dofs).contravariant.getD
              point 0))
          data.covariant
      else data.covariant := by
  unfold maybe_update_Jacobians
  simp only []
  split_ifs <;> rfl

/-- Row `d` of the contravariant matrix written by `maybe_update_Jacobians`. -/
theorem maybe_update_Jacobians_contravariant_row {dim spacedim : Nat} (F : UpdateFlagValues)
    (sqrt : ℚ → ℚ) (data_set : Nat) (data : InternalData dim spacedim)
    (component_dofs : ComponentDoFs) (q : Nat)
    (hflag : data.update_each &&& F.update_contravariant_transformation ≠ 0)
    (hq : q < data.contravariant.length) (d : Fin spacedim) :
    (maybe_update_Jacobians F sqrt data_set data component_dofs).contravariant.getD q 0 d =
      ((component_dofs.get d).map
        (fun i => data.local_dof_values.getD i 0 • data.derivative (q + data_set) i)).sum := by
  rw [maybe_update_Jacobians_contravariant, if_pos hflag, assign_each_getD _ _ _ _ _ hq hq,
    foldl_add_eq_sum, zero_add]
  simp only [InternalData.derivative, Nat.add_zero]

/-- C9: when `update_contravariant_transformation` is set, `maybe_update_Jacobians`
sets row `d` of `contravariant[q]` to
`Σ_{i ∈ component_dofs[d]} local_dof_values[i] * derivative(q + data_set, i)`
for every point `q` of the cache and every `d`; and with `update_jacobians` the copy in
`fill_fe_values` makes the output `jacobians[q]` equal to `contravariant[q]`. -/
theorem maybe_update_Jacobians_spec {dim spacedim : Nat} (F : UpdateFlagValues)
    (sqrt : ℚ → ℚ) (data_set : Nat) (data : InternalData dim spacedim)
    (component_dofs : ComponentDoFs) (q : Nat)
    (hflag : data.update_each &&& F.update_contravariant_transformation ≠ 0)
    (hq : q < data.contravariant.length) :
    (∀ d : Fin spacedim,
      (maybe_update_Jacobians F sqrt data_set data component_dofs).contravariant.getD q 0 d =
        ((component_dofs.get d).map
          (fun i => data.local_dof_values.getD i 0 • data.derivative (q + data_set) i)).sum) ∧
    (∀ (n_q_points : Nat) (jacobians : List (DerivativeForm1 dim spacedim)),
      data.update_each &&& F.update_jacobians ≠ 0 → q < n_q_points → q < jacobians.length →
      (fill_fe_values_jacobians F (maybe_update_Jacobians F sqrt data_set data component_dofs)
          n_q_points jacobians).getD q 0 =
        (maybe_update_Jacobians F sqrt data_set data component_dofs).contravariant.getD q 0) := by
  constructor
  · intro d
    rw [maybe_update_Jacobians_contravariant, if_pos hflag, assign_each_getD _ _ _ _ _ hq hq,
      foldl_add_eq_sum, zero_add]
    simp only [InternalData.derivative, Nat.add_zero]
  · intro n_q_points jacobians hjac hqn hqj
    unfold fill_fe_values_jacobians
    rw [maybe_update_Jacobians_update_each, if_pos hjac, assign_each_getD _ _ _ _ _ hqn hqj]

/-- Witness of C8: the midpoint of the cell `[1, 3]` is `2`. -/
theorem maybe_compute_q_points_spec_witness :
    exampleData.update_each &&& dealiiFlags.update_quadrature_points ≠ 0 ∧
    0 < [(0 : Point 1)].length ∧
    (maybe_compute_q_points dealiiFlags 0 exampleData exampleComponentDoFs [0]).getD 0 0 0 = 2 ∧
    (maybe_compute_q_points dealiiFlags 0 exampleData exampleComponentDoFs [0]).length = 1 := by
  have h := maybe_compute_q_points_spec dealiiFlags 0 exampleData exampleComponentDoFs
    [(0 : Point 1)] 0 0 (by decide) (by decide)
  refine ⟨by decide, by decide, ?_, h.2⟩
  rw [h.1]
  simp [exampleComponentDoFs, ComponentDoFs.get, exampleData, InternalData.shape]
  norm_num

/-- Witness of C9: on the cell `[1, 3]` the Jacobian is `2`, and it is the output. -/
theorem maybe_update_Jacobians_spec_witness :
    exampleData.update_each &&& dealiiFlags.update_contravariant_transformation ≠ 0 ∧
    0 < exampleData.contravariant.length ∧
    (maybe_update_Jacobians dealiiFlags id 0 exampleData
        exampleComponentDoFs).contravariant.getD 0 0 0 0 = 2 ∧
    (fill_fe_values_jacobians dealiiFlags
        (maybe_update_Jacobians dealiiFlags id 0 exampleData exampleComponentDoFs)
        1 [0]).getD 0 0 0 0 = 2 := by
  have h := maybe_update_Jacobians_spec dealiiFlags id 0 exampleData exampleComponentDoFs 0
    (by decide) (by decide)
  have h1 : (maybe_update_Jacobians dealiiFlags id 0 exampleData
      exampleComponentDoFs).contravariant.getD 0 0 0 0 = 2 := by
    rw [h.1 0]
    simp [exampleComponentDoFs, ComponentDoFs.get, exampleData, InternalData.derivative]
    norm_num
  refine ⟨by decide, by decide, h1, ?_⟩
  rw [h.2 1 [0] (by decide) (by decide) (by decide)]
  exact h1

/-! ## The covariant form and the inverse Jacobian -/

theorem invert_eq_inv {n : Nat} (A : Tensor2 n) : invert A = A⁻¹ := by
  rw [Matrix.inv_def, Ring.inverse_eq_inv']
  rfl

theorem covariant_form_square {n : Nat} (J : DerivativeForm1 n n) :
    covariant_form J = (J⁻¹).transpose := by
  unfold covariant_form
  rw [dif_pos rfl, invert_eq_inv]
  ext i j
  simp

theorem covariant_form_codim {dim spacedim : Nat} (J : DerivativeForm1 dim spacedim)
    (h : dim ≠ spacedim) : covariant_form J = J * ((J.transpose * J)⁻¹).transpose := by
  unfold covariant_form
  rw [dif_neg h, invert_eq_inv]

theorem isUnit_of_rank_eq {n : Nat} (B : Matrix (Fin n) (Fin n) ℚ) (h : B.rank = n) :
    IsUnit B := by
  rw [← Matrix.mulVec_surjective_iff_isUnit]
  have h1 : LinearMap.range B.mulVecLin = ⊤ := by
    apply Submodule.eq_top_of_finrank_eq
    rw [Module.finrank_fin_fun]
    exact h
  intro y
  have hy : y ∈ LinearMap.range B.mulVecLin := by rw [h1]; trivial
  obtain ⟨x, hx⟩ := hy
  exact ⟨x, hx⟩

/-- A matrix of full column rank has an invertible Gram matrix. -/
theorem gram_det_ne_zero {dim spacedim : Nat} (J : Matrix (Fin spacedim) (Fin dim) ℚ)
    (h : J.rank = dim) : (J.transpose * J).det ≠ 0 := by
  have h1 : (J.transpose * J).rank = dim := by rw [Matrix.rank_transpose_mul_self, h]
  have h2 := isUnit_of_rank_eq _ h1
  rw [Matrix.isUnit_iff_isUnit_det] at h2
  exact h2.ne_zero

theorem covariant_form_transpose_mul_square {n : Nat} (J : DerivativeForm1 n n)
    (h : J.det ≠ 0) : (covariant_form J).transpose * J = 1 := by
  rw [covariant_form_square, Matrix.transpose_transpose]
  exact Matrix.nonsing_inv_mul _ (isUnit_iff_ne_zero.mpr h)

theorem covariant_form_transpose_mul_codim {dim spacedim : Nat}
    (J : DerivativeForm1 dim spacedim) (hdim : dim ≠ spacedim) (h : J.rank = dim) :
    (covariant_form J).transpose * J = 1 := by
  rw [covariant_form_codim J hdim, Matrix.transpose_mul, Matrix.transpose_transpose,
    Matrix.mul_assoc]
  exact Matrix.nonsing_inv_mul _ (isUnit_iff_ne_zero.mpr (gram_det_ne_zero J h))

theorem inverse_jacobians_mul_jacobians {dim spacedim : Nat} (F : UpdateFlagValues)
    (sqrt : ℚ → ℚ) (data_set : Nat) (data : InternalData dim spacedim)
    (component_dofs : ComponentDoFs) (q n_q_points : Nat)
    (jacobians : List (DerivativeForm1 dim spacedim))
    (inverse_jacobians : List (DerivativeForm1 spacedim dim))
    (hcov : data.update_each &&& F.update_covariant_transformation ≠ 0)
    (hjac : data.update_each &&& F.update_jacobians ≠ 0)
    (hinv : data.update_each &&& F.update_inverse_jacobians ≠ 0)
    (hq1 : q < data.contravariant.length) (hq2 : q < data.covariant.length)
    (hq3 : q < n_q_points) (hq4 : q < jacobians.length) (hq5 : q < inverse_jacobians.length) :
    (maybe_update_Jacobians F sqrt data_set data component_dofs).covariant.getD q 0 =
      covariant_form
        ((maybe_update_Jacobians F sqrt data_set data component_dofs).contravariant.getD q 0) ∧
    (fill_fe_values_inverse_jacobians F
        (maybe_update_Jacobians F sqrt data_set data component_dofs) n_q_points
        inverse_jacobians).getD q 0 *
      (fill_fe_values_jacobians F
        (maybe_update_Jacobians F sqrt data_set data component_dofs) n_q_points
        jacobians).getD q 0 =
    (covariant_form
        ((maybe_update_Jacobians F sqrt data_set data component_dofs).contravariant.getD q
          0)).transpose *
      (maybe_update_Jacobians F sqrt data_set data component_dofs).contravariant.getD q 0 := by
  have hlen := maybe_update_Jacobians_contravariant_length F sqrt data_set data component_dofs
  have hc : (maybe_update_Jacobians F sqrt data_set data component_dofs).covariant.getD q 0 =
      covariant_form
        ((maybe_update_Jacobians F sqrt data_set data component_dofs).contravariant.getD
          q 0) := by
    rw [maybe_update_Jacobians_covariant, if_pos hcov,
      assign_each_getD _ _ _ _ _ (by rw [hlen]; exact hq1) hq2]
  refine ⟨hc, ?_⟩
  unfold fill_fe_values_inverse_jacobians fill_fe_values_jacobians
  rw [maybe_update_Jacobians_update_each, if_pos hjac, if_pos hinv,
    assign_each_getD _ _ _ _ _ hq3 hq4, assign_each_getD _ _ _ _ _ hq3 hq5, hc]

/-- C10: for `dim == spacedim` and a point `q` whose contravariant matrix `J` is
nonsingular, the covariant matrix computed by `maybe_update_Jacobians` is the inverse
transpose of `J`, and the outputs of `fill_fe_values` satisfy
`inverse_jacobians[q] * jacobians[q] = 1`; for `dim < spacedim` and `J` of full column
rank, `inverse_jacobians[q]` is a left inverse of `jacobians[q]`. -/
theorem inverse_jacobians_spec (F : UpdateFlagValues) (sqrt : ℚ → ℚ) (data_set : Nat)
    (component_dofs : ComponentDoFs) (q n_q_points : Nat) :
    (∀ (n : Nat) (data : InternalData n n) (jacobians inverse_jacobians : List (DerivativeForm1 n n)),
      data.update_each &&& F.update_covariant_transformation ≠ 0 →
      data.update_each &&& F.update_jacobians ≠ 0 →
      data.update_each &&& F.update_inverse_jacobians ≠ 0 →
      q < data.contravariant.length → q < data.covariant.length → q < n_q_points →
      q < jacobians.length → q < inverse_jacobians.length →
      ((maybe_update_Jacobians F sqrt data_set data component_dofs).contravariant.getD q 0).det
        ≠ 0 →
      (maybe_update_Jacobians F sqrt data_set data component_dofs).covariant.getD q 0 =
        (((maybe_update_Jacobians F sqrt data_set data component_dofs).contravariant.getD q
          0)⁻¹).transpose ∧
      (fill_fe_values_inverse_jacobians F
          (maybe_update_Jacobians F sqrt data_set data component_dofs) n_q_points
          inverse_jacobians).getD q 0 *
        (fill_fe_values_jacobians F
          (maybe_update_Jacobians F sqrt data_set data component_dofs) n_q_points
          jacobians).getD q 0 = 1) ∧
    (∀ (dim spacedim : Nat) (data : InternalData dim spacedim)
      (jacobians : List (DerivativeForm1 dim spacedim))
      (inverse_jacobians : List (DerivativeForm1 spacedim dim)),
      dim < spacedim →
      data.update_each &&& F.update_covariant_transformation ≠ 0 →
      data.update_each &&& F.update_jacobians ≠ 0 →
      data.update_each &&& F.update_inverse_jacobians ≠ 0 →
      q < data.contravariant.length → q < data.covariant.length → q < n_q_points →
      q < jacobians.length → q < inverse_jacobians.length →
      ((maybe_update_Jacobians F sqrt data_set data component_dofs).contravariant.getD q
        0).rank = dim →
      (fill_fe_values_inverse_jacobians F
          (maybe_update_Jacobians F sqrt data_set data component_dofs) n_q_points
          inverse_jacobians).getD q 0 *
        (fill_fe_values_jacobians F
          (maybe_update_Jacobians F sqrt data_set data component_dofs) n_q_points
          jacobians).getD q 0 = 1) := by
  constructor
  · intro n data jacobians inverse_jacobians hcov hjac hinv hq1 hq2 hq3 hq4 hq5 hdet
    obtain ⟨hc, hm⟩ := inverse_jacobians_mul_jacobians F sqrt data_set data component_dofs q
      n_q_points jacobians inverse_jacobians hcov hjac hinv hq1 hq2 hq3 hq4 hq5
    refine ⟨?_, ?_⟩
    · rw [hc, covariant_form_square]
    · rw [hm]
      exact covariant_form_transpose_mul_square _ hdet
  · intro dim spacedim data jacobians inverse_jacobians hdim hcov hjac hinv hq1 hq2 hq3 hq4
      hq5 hrank
    obtain ⟨-, hm⟩ := inverse_jacobians_mul_jacobians F sqrt data_set data component_dofs q
      n_q_points jacobians inverse_jacobians hcov hjac hinv hq1 hq2 hq3 hq4 hq5
    rw [hm]
    exact covariant_form_transpose_mul_codim _ (Nat.ne_of_lt hdim) hrank

theorem exampleData_contravariant :
    (maybe_update_Jacobians dealiiFlags id 0 exampleData
        exampleComponentDoFs).contravariant.getD 0 0 0 0 = 2 := by
  rw [maybe_update_Jacobians_contravariant_row dealiiFlags id 0 exampleData exampleComponentDoFs 0
    (by decide) (by decide) 0]
  simp [exampleComponentDoFs, ComponentDoFs.get, exampleData, InternalData.derivative]
  norm_num

theorem exampleCurveData_contravariant (d : Fin 2) :
    (maybe_update_Jacobians dealiiFlags id 0 exampleCurveData
        exampleCurveComponentDoFs).contravariant.getD 0 0 d 0 = if d = 0 then 3 else 4 := by
  rw [maybe_update_Jacobians_contravariant_row dealiiFlags id 0 exampleCurveData
    exampleCurveComponentDoFs 0 (by decide) (by decide) d]
  fin_cases d <;>
    simp [exampleCurveComponentDoFs, ComponentDoFs.get, exampleCurveData,
      InternalData.derivative]

theorem exampleCurveData_rank :
    ((maybe_update_Jacobians dealiiFlags id 0 exampleCurveData
        exampleCurveComponentDoFs).contravariant.getD 0 0).rank = 1 := by
  rw [← Matrix.rank_transpose_mul_self]
  refine (Matrix.rank_of_isUnit _ ?_).trans (by simp)
  rw [Matrix.isUnit_iff_isUnit_det, Matrix.det_fin_one, isUnit_iff_ne_zero]
  simp only [Matrix.mul_apply, Matrix.transpose_apply, Fin.sum_univ_two,
    exampleCurveData_contravariant]
  norm_num

/-- Witness of C10: on the cell `[1, 3]` (Jacobian `2`, nonsingular) and on the straight
curve from `(0, 0)` to `(3, 4)` (Jacobian of rank one) the output inverse Jacobian times
the output Jacobian is the identity. -/
theorem inverse_jacobians_spec_witness :
    ((maybe_update_Jacobians dealiiFlags id 0 exampleData
        exampleComponentDoFs).contravariant.getD 0 0).det ≠ 0 ∧
    (fill_fe_values_inverse_jacobians dealiiFlags
        (maybe_update_Jacobians dealiiFlags id 0 exampleData exampleComponentDoFs) 1
        [0]).getD 0 0 *
      (fill_fe_values_jacobians dealiiFlags
        (maybe_update_Jacobians dealiiFlags id 0 exampleData exampleComponentDoFs) 1
        [0]).getD 0 0 = 1 ∧
    ((maybe_update_Jacobians dealiiFlags id 0 exampleCurveData
        exampleCurveComponentDoFs).contravariant.getD 0 0).rank = 1 ∧
    (fill_fe_values_inverse_jacobians dealiiFlags
        (maybe_update_Jacobians dealiiFlags id 0 exampleCurveData exampleCurveComponentDoFs) 1
        [0]).getD 0 0 *
      (fill_fe_values_jacobians dealiiFlags
        (maybe_update_Jacobians dealiiFlags id 0 exampleCurveData exampleCurveComponentDoFs) 1
        [0]).getD 0 0 = 1 := by
  have hdet : ((maybe_update_Jacobians dealiiFlags id 0 exampleData
      exampleComponentDoFs).contravariant.getD 0 0).det ≠ 0 := by
    rw [Matrix.det_fin_one, exampleData_contravariant]
    norm_num
  exact ⟨hdet,
    ((inverse_jacobians_spec dealiiFlags id 0 exampleComponentDoFs 0 1).1 1 exampleData [0] [0]
      (by decide) (by decide) (by decide) (by decide) (by decide) (by decide) (by decide)
      (by decide) hdet).2,
    exampleCurveData_rank,
    (inverse_jacobians_spec dealiiFlags id 0 exampleCurveComponentDoFs 0 1).2 1 2
      exampleCurveData [0] [0] (by decide) (by decide) (by decide) (by decide) (by decide)
      (by decide) (by decide) (by decide) (by decide) exampleCurveData_rank⟩

/-! ## The cache after `reinit` -/

theorem reinit_fe {dim spacedim : Nat} (F : UpdateFlagValues)
    (data : InternalData dim spacedim) (update_flags : Nat) (quadrature : Quadrature dim) :
    (data.reinit F update_flags quadrature).fe = data.fe := by
  rfl

theorem reinit_unit_tangentials {dim spacedim : Nat} (F : UpdateFlagValues)
    (data : InternalData dim spacedim) (update_flags : Nat) (quadrature : Quadrature dim) :
    (data.reinit F update_flags quadrature).unit_tangentials = data.unit_tangentials := by
  rfl

theorem reinit_n_shape_functions {dim spacedim : Nat} (F : UpdateFlagValues)
    (data : InternalData dim spacedim) (update_flags : Nat) (quadrature : Quadrature dim) :
    (data.reinit F update_flags quadrature).n_shape_functions = data.n_shape_functions := by
  rfl

theorem reinit_mask {dim spacedim : Nat} (F : UpdateFlagValues)
    (data : InternalData dim spacedim) (update_flags : Nat) (quadrature : Quadrature dim) :
    (data.reinit F update_flags quadrature).mask = data.mask := by
  rfl

theorem reinit_local_dof_indices {dim spacedim : Nat} (F : UpdateFlagValues)
    (data : InternalData dim spacedim) (update_flags : Nat) (quadrature : Quadrature dim) :
    (data.reinit F update_flags quadrature).local_dof_indices = data.local_dof_indices := by
  rfl

theorem reinit_local_dof_values {dim spacedim : Nat} (F : UpdateFlagValues)
    (data : InternalData dim spacedim) (update_flags : Nat) (quadrature : Quadrature dim) :
    (data.reinit F update_flags quadrature).local_dof_values = data.local_dof_values := by
  rfl

theorem reinit_aux {dim spacedim : Nat} (F : UpdateFlagValues)
    (data : InternalData dim spacedim) (update_flags : Nat) (quadrature : Quadrature dim) :
    (data.reinit F update_flags quadrature).aux = data.aux := by
  rfl

theorem reinit_update_each {dim spacedim : Nat} (F : UpdateFlagValues)
    (data : InternalData dim spacedim) (update_flags : Nat) (quadrature : Quadrature dim) :
    (data.reinit F update_flags quadrature).update_each = update_flags := by
  rfl

theorem reinit_quadrature_weights {dim spacedim : Nat} (F : UpdateFlagValues)
    (data : InternalData dim spacedim) (update_flags : Nat) (quadrature : Quadrature dim) :
    (data.reinit F update_flags quadrature).quadrature_weights = quadrature.weights := by
  rfl

theorem reinit_shape_values {dim spacedim : Nat} (F : UpdateFlagValues)
    (data : InternalData dim spacedim) (update_flags : Nat) (quadrature : Quadrature dim) :
    (data.reinit F update_flags quadrature).shape_values =
      if update_flags &&& F.update_quadrature_points ≠ 0 then
        fill_table data.n_shape_functions quadrature.size
          (fun i point => data.fe.shape_value i (quadrature.points.getD point 0))
          (resize data.shape_values (data.n_shape_functions * quadrature.size) 0)
      else data.shape_values := by
  rfl

theorem reinit_shape_derivatives {dim spacedim : Nat} (F : UpdateFlagValues)
    (data : InternalData dim spacedim) (update_flags : Nat) (quadrature : Quadrature dim) :
    (data.reinit F update_flags quadrature).shape_derivatives =
      if update_flags &&&
          (F.update_covariant_transformation ||| F.update_contravariant_transformation |||
            F.update_JxW_values ||| F.update_boundary_forms ||| F.update_normal_vectors |||
            F.update_jacobians ||| F.update_jacobian_grads |||
            F.update_inverse_jacobians) ≠ 0 then
        fill_table data.n_shape_functions quadrature.size
          (fun i point => data.fe.shape_grad i (quadrature.points.getD point 0))
          (resize data.shape_derivatives (data.n_shape_functions * quadrature.size) 0)
      else data.shape_derivatives := by
  rfl

theorem reinit_shape_second_derivatives {dim spacedim : Nat} (F : UpdateFlagValues)
    (data : InternalData dim spacedim) (update_flags : Nat) (quadrature : Quadrature dim) :
    (data.reinit F update_flags quadrature).shape_second_derivatives =
      if update_flags &&&
          (F.update_jacobian_grads ||| F.update_jacobian_pushed_forward_grads) ≠ 0 then
        fill_table data.n_shape_functions quadrature.size
          (fun i point => data.fe.shape_grad_grad i (quadrature.points.getD point 0))
          (resize data.shape_second_derivatives (data.n_shape_functions * quadrature.size) 0)
      else data.shape_second_derivatives := by
  rfl

theorem reinit_shape_third_derivatives {dim spacedim : Nat} (F : UpdateFlagValues)
    (data : InternalData dim spacedim) (update_flags : Nat) (quadrature : Quadrature dim) :
    (data.reinit F update_flags quadrature).shape_third_derivatives =
      if update_flags &&&
          (F.update_jacobian_2nd_derivatives |||
            F.update_jacobian_pushed_forward_2nd_derivatives) ≠ 0 then
        fill_table data.n_shape_functions quadrature.size
          (fun i point => data.fe.shape_3rd_derivative i (quadrature.points.getD point 0))
          (resize data.shape_third_derivatives (data.n_shape_functions * quadrature.size) 0)
      else data.shape_third_derivatives := by
  rfl

theorem reinit_shape_fourth_derivatives {dim spacedim : Nat} (F : UpdateFlagValues)
    (data : InternalData dim spacedim) (update_flags : Nat) (quadrature : Quadrature dim) :
    (data.reinit F update_flags quadrature).shape_fourth_derivatives =
      if update_flags &&&
          (F.update_jacobian_3rd_derivatives |||
            F.update_jacobian_pushed_forward_3rd_derivatives) ≠ 0 then
        fill_table data.n_shape_functions quadrature.size
          (fun i point => data.fe.shape_4th_derivative i (quadrature.points.getD point 0))
          (resize data.shape_fourth_derivatives (data.n_shape_functions * quadrature.size) 0)
      else data.shape_fourth_derivatives := by
  rfl

theorem reinit_covariant {dim spacedim : Nat} (F : UpdateFlagValues)
    (data : InternalData dim spacedim) (update_flags : Nat) (quadrature : Quadrature dim) :
    (data.reinit F update_flags quadrature).covariant =
      if update_flags &&& F.update_covariant_transformation ≠ 0 then
        resize data.covariant quadrature.size 0
      else data.covariant := by
  rfl

theorem reinit_contravariant {dim spacedim : Nat} (F : UpdateFlagValues)
    (data : InternalData dim spacedim) (update_flags : Nat) (quadrature : Quadrature dim) :
    (data.reinit F update_flags quadrature).contravariant =
      if update_flags &&& F.update_contravariant_transformation ≠ 0 then
        resize data.contravariant quadrature.size 0
      else data.contravariant := by
  rfl

theorem reinit_volume_elements {dim spacedim : Nat} (F : UpdateFlagValues)
    (data : InternalData dim spacedim) (update_flags : Nat) (quadrature : Quadrature dim) :
    (data.reinit F update_flags quadrature).volume_elements =
      if update_flags &&& F.update_volume_elements ≠ 0 then
        resize data.volume_elements quadrature.size 0
      else data.volume_elements := by
  rfl

theorem resize_of_length {α : Type} (v : List α) (n : Nat) (zero : α) (h : v.length = n) :
    resize v n zero = v := by
  unfold resize
  rw [List.take_of_length_le (le_of_eq h), h, Nat.sub_self]
  simp

theorem resize_resize {α : Type} (v : List α) (n : Nat) (zero : α) :
    resize (resize v n zero) n zero = resize v n zero :=
  resize_of_length _ _ _ (resize_length v n zero)

theorem fill_table_resize_eq {α : Type} (n nq : Nat) (value : Nat → Nat → α)
    (v w : List α) (zero : α) :
    fill_table n nq value (resize v (n * nq) zero) =
      fill_table n nq value (resize w (n * nq) zero) := by
  rw [fill_table_eq_map _ _ _ _ (resize_length _ _ _),
    fill_table_eq_map _ _ _ _ (resize_length _ _ _)]

/-- Re-initialising a cache twice for quadratures of the same size is
re-initialising it once: `reinit` overwrites what it has written before. -/
theorem reinit_reinit {dim spacedim : Nat} (F : UpdateFlagValues)
    (data : InternalData dim spacedim) (update_flags : Nat) (q1 q2 : Quadrature dim)
    (h : q1.size = q2.size) :
    (data.reinit F update_flags q1).reinit F update_flags q2 =
      data.reinit F update_flags q2 := by
  apply InternalData.ext
  any_goals rfl
  · simp only [reinit_shape_values, reinit_n_shape_functions, reinit_fe]
    split_ifs
    · exact fill_table_resize_eq _ _ _ _ _ _
    · rfl
  · simp only [reinit_shape_derivatives, reinit_n_shape_functions, reinit_fe]
    split_ifs
    · exact fill_table_resize_eq _ _ _ _ _ _
    · rfl
  · simp only [reinit_shape_second_derivatives, reinit_n_shape_functions, reinit_fe]
    split_ifs
    · exact fill_table_resize_eq _ _ _ _ _ _
    · rfl
  · simp only [reinit_shape_third_derivatives, reinit_n_shape_functions, reinit_fe]
    split_ifs
    · exact fill_table_resize_eq _ _ _ _ _ _
    · rfl
  · simp only [reinit_shape_fourth_derivatives, reinit_n_shape_functions, reinit_fe]
    split_ifs
    · exact fill_table_resize_eq _ _ _ _ _ _
    · rfl
  · simp only [reinit_covariant]
    split_ifs
    · rw [h, resize_resize]
    · rfl
  · simp only [reinit_contravariant]
    split_ifs
    · rw [h, resize_resize]
    · rfl
  · simp only [reinit_volume_elements]
    split_ifs
    · rw [h, resize_resize]
    · rfl

theorem cache_at_update_each {dim spacedim : Nat} (F : UpdateFlagValues)
    (mdata : InternalData dim spacedim) (x : Point dim) :
    (cache_at F mdata x).update_each = mdata.update_each := rfl

theorem cache_at_cache_at {dim spacedim : Nat} (F : UpdateFlagValues)
    (mdata : InternalData dim spacedim) (x y : Point dim) :
    cache_at F (cache_at F mdata x) y = cache_at F mdata y := by
  unfold cache_at
  rw [reinit_update_each]
  exact reinit_reinit F mdata mdata.update_each _ _ rfl

theorem cache_at_shape {dim spacedim : Nat} (F : UpdateFlagValues)
    (mdata : InternalData dim spacedim) (x : Point dim) (i : Nat)
    (hq : mdata.update_each &&& F.update_quadrature_points ≠ 0)
    (hi : i < mdata.n_shape_functions) :
    (cache_at F mdata x).shape 0 i = mdata.fe.shape_value i x := by
  unfold cache_at InternalData.shape
  rw [reinit_shape_values, if_pos hq, reinit_n_shape_functions,
    fill_table_eq_map _ _ _ _ (resize_length _ _ _), List.getD_eq_getElem?_getD,
    List.getElem?_map, List.getElem?_range (by simp [Quadrature.size, Quadrature.of_point, hi])]
  simp [Quadrature.of_point, Nat.mod_eq_of_lt hi, Nat.div_eq_of_lt hi]

theorem cache_at_derivative {dim spacedim : Nat} (F : UpdateFlagValues)
    (mdata : InternalData dim spacedim) (x : Point dim) (i : Nat)
    (hd : mdata.update_each &&&
      (F.update_covariant_transformation ||| F.update_contravariant_transformation |||
        F.update_JxW_values ||| F.update_boundary_forms ||| F.update_normal_vectors |||
        F.update_jacobians ||| F.update_jacobian_grads ||| F.update_inverse_jacobians) ≠ 0)
    (hi : i < mdata.n_shape_functions) :
    (cache_at F mdata x).derivative 0 i = mdata.fe.shape_grad i x := by
  unfold cache_at InternalData.derivative
  rw [reinit_shape_derivatives, if_pos hd, reinit_n_shape_functions,
    fill_table_eq_map _ _ _ _ (resize_length _ _ _), List.getD_eq_getElem?_getD,
    List.getElem?_map, List.getElem?_range (by simp [Quadrature.size, Quadrature.of_point, hi])]
  simp [Quadrature.of_point, Nat.mod_eq_of_lt hi, Nat.div_eq_of_lt hi]

/-- On a cache re-initialised at `x` with `update_quadrature_points` set,
`do_transform_unit_to_real_cell` is the forward map at `x`. -/
theorem do_transform_cache_at {dim spacedim : Nat} (F : UpdateFlagValues)
    (component_dofs : ComponentDoFs) (mdata : InternalData dim spacedim) (x : Point dim)
    (hq : mdata.update_each &&& F.update_quadrature_points ≠ 0)
    (hcd : ∀ d : Fin spacedim, ∀ i ∈ component_dofs.get d, i < mdata.n_shape_functions) :
    do_transform_unit_to_real_cell component_dofs (cache_at F mdata x) =
      forward_map spacedim mdata.fe mdata.local_dof_values component_dofs x := by
  funext d
  unfold do_transform_unit_to_real_cell forward_map
  rw [foldl_add_eq_sum, zero_add]
  congr 1
  apply List.map_congr_left
  intro i hi
  rw [cache_at_shape F mdata x i hq (hcd d i hi)]
  rfl

/-! ## The line search -/

theorem line_search_cache_at {dim spacedim : Nat} (F : UpdateFlagValues)
    (component_dofs : ComponentDoFs) (p : Point spacedim) (p_unit : Point dim)
    (p_minus_F : Tensor1 spacedim) (delta : Tensor1 dim) (step_length : ℚ)
    (mdata : InternalData dim spacedim) (trials : List ℚ) (x : Point dim) :
    line_search F component_dofs p p_unit p_minus_F delta step_length (cache_at F mdata x)
        trials =
      line_search F component_dofs p p_unit p_minus_F delta step_length mdata trials := by
  rw [line_search]
  conv_rhs => rw [line_search]
  have h := cache_at_cache_at F mdata x (trial_point p_unit delta step_length)
  unfold cache_at trial_point at h
  unfold cache_at
  simp only [h]

/-- One pass of the body of the line search. -/
theorem line_search_step {dim spacedim : Nat} (F : UpdateFlagValues)
    (component_dofs : ComponentDoFs) (p : Point spacedim) (p_unit : Point dim)
    (p_minus_F : Tensor1 spacedim) (delta : Tensor1 dim) (step_length : ℚ)
    (mdata : InternalData dim spacedim) (trials : List ℚ) :
    line_search F component_dofs p p_unit p_minus_F delta step_length mdata trials =
      if norm_square (trial_residual F component_dofs p p_unit delta mdata step_length) <
          norm_square p_minus_F then
        line_search_accept F component_dofs p p_unit delta mdata (trials ++ [step_length])
          step_length
      else if step_length > 0.05 then
        line_search F component_dofs p p_unit p_minus_F delta (step_length / 2) mdata
          (trials ++ [step_length])
      else
        LineSearchResult.failure (trials ++ [step_length])
          (cache_at F mdata (trial_point p_unit delta step_length)) := by
  rw [line_search]
  have h := line_search_cache_at F component_dofs p p_unit p_minus_F delta (step_length / 2)
    mdata (trials ++ [step_length]) (trial_point p_unit delta step_length)
  unfold cache_at trial_point at h
  simp only [h]
  rfl

theorem line_search_from_one {dim spacedim : Nat} (F : UpdateFlagValues)
    (component_dofs : ComponentDoFs) (p : Point spacedim) (p_unit : Point dim)
    (p_minus_F : Tensor1 spacedim) (delta : Tensor1 dim) (mdata : InternalData dim spacedim) :
    line_search F component_dofs p p_unit p_minus_F delta 1 mdata [] =
      if norm_square (trial_residual F component_dofs p p_unit delta mdata 1) <
          norm_square p_minus_F then
        line_search_accept F component_dofs p p_unit delta mdata [1] 1
      else if norm_square (trial_residual F component_dofs p p_unit delta mdata (1 / 2)) <
          norm_square p_minus_F then
        line_search_accept F component_dofs p p_unit delta mdata [1, 1 / 2] (1 / 2)
      else if norm_square (trial_residual F component_dofs p p_unit delta mdata (1 / 4)) <
          norm_square p_minus_F then
        line_search_accept F component_dofs p p_unit delta mdata [1, 1 / 2, 1 / 4] (1 / 4)
      else if norm_square (trial_residual F component_dofs p p_unit delta mdata (1 / 8)) <
          norm_square p_minus_F then
        line_search_accept F component_dofs p p_unit delta mdata [1, 1 / 2, 1 / 4, 1 / 8] (1 / 8)
      else if norm_square (trial_residual F component_dofs p p_unit delta mdata (1 / 16)) <
          norm_square p_minus_F then
        line_search_accept F component_dofs p p_unit delta mdata
          [1, 1 / 2, 1 / 4, 1 / 8, 1 / 16] (1 / 16)
      else if norm_square (trial_residual F component_dofs p p_unit delta mdata (1 / 32)) <
          norm_square p_minus_F then
        line_search_accept F component_dofs p p_unit delta mdata
          [1, 1 / 2, 1 / 4, 1 / 8, 1 / 16, 1 / 32] (1 / 32)
      else
        LineSearchResult.failure [1, 1 / 2, 1 / 4, 1 / 8, 1 / 16, 1 / 32]
          (cache_at F mdata (trial_point p_unit delta (1 / 32))) := by
  have h1 : (1 : ℚ) > 0.05 := by norm_num
  have h2 : (1 : ℚ) / 2 > 0.05 := by norm_num
  have h3 : (1 : ℚ) / 4 > 0.05 := by norm_num
  have h4 : (1 : ℚ) / 8 > 0.05 := by norm_num
  have h5 : (1 : ℚ) / 16 > 0.05 := by norm_num
  have h6 : ¬ (1 : ℚ) / 32 > 0.05 := by norm_num
  have e2 : (1 : ℚ) / 2 / 2 = 1 / 4 := by norm_num
  have e3 : (1 : ℚ) / 4 / 2 = 1 / 8 := by norm_num
  have e4 : (1 : ℚ) / 8 / 2 = 1 / 16 := by norm_num
  have e5 : (1 : ℚ) / 16 / 2 = 1 / 32 := by norm_num
  rw [line_search_step, if_pos h1, line_search_step, if_pos h2, e2, line_search_step, if_pos h3,
    e3, line_search_step, if_pos h4, e4, line_search_step, if_pos h5, e5, line_search_step,
    if_neg h6]
  rfl

/-! ## The Newton loop -/

theorem newton_loop_of_converged {dim spacedim : Nat} (F : UpdateFlagValues)
    (component_dofs : ComponentDoFs) (p : Point spacedim) (eps : ℚ)
    (s : NewtonState dim spacedim) (h : ¬ norm_square s.p_minus_F > eps * eps) :
    newton_loop F component_dofs p eps s = SolverResult.returned s := by
  rw [newton_loop, if_neg h]

theorem newton_loop_of_accepted {dim spacedim : Nat} (F : UpdateFlagValues)
    (component_dofs : ComponentDoFs) (p : Point spacedim) (eps : ℚ)
    (s : NewtonState dim spacedim) (h : norm_square s.p_minus_F > eps * eps)
    (trials : List ℚ) (p_unit : Point dim) (p_real : Point spacedim)
    (p_minus_F : Tensor1 spacedim) (mdata : InternalData dim spacedim)
    (hls : line_search F component_dofs p s.p_unit s.p_minus_F
        (newton_delta component_dofs s.mdata s.p_minus_F) 1 s.mdata [] =
      LineSearchResult.accepted trials p_unit p_real p_minus_F mdata) :
    newton_loop F component_dofs p eps s =
      if s.newton_iteration + 1 > newton_iteration_limit then
        SolverResult.failure
          ⟨p_unit, p_real, p_minus_F, s.newton_iteration + 1, mdata, s.trials ++ [trials]⟩
      else
        newton_loop F component_dofs p eps
          ⟨p_unit, p_real, p_minus_F, s.newton_iteration + 1, mdata, s.trials ++ [trials]⟩ := by
  rw [newton_loop, if_pos h]
  unfold newton_delta at hls
  simp only [] at hls ⊢
  rw [hls]

theorem newton_loop_of_failure {dim spacedim : Nat} (F : UpdateFlagValues)
    (component_dofs : ComponentDoFs) (p : Point spacedim) (eps : ℚ)
    (s : NewtonState dim spacedim) (h : norm_square s.p_minus_F > eps * eps)
    (trials : List ℚ) (mdata : InternalData dim spacedim)
    (hls : line_search F component_dofs p s.p_unit s.p_minus_F
        (newton_delta component_dofs s.mdata s.p_minus_F) 1 s.mdata [] =
      LineSearchResult.failure trials mdata) :
    newton_loop F component_dofs p eps s =
      SolverResult.failure
        ⟨s.p_unit, s.p_real, s.p_minus_F, s.newton_iteration, mdata, s.trials ++ [trials]⟩ := by
  rw [newton_loop, if_pos h]
  unfold newton_delta at hls
  simp only [] at hls ⊢
  rw [hls]

theorem line_search_accepted_inv {dim spacedim : Nat} (F : UpdateFlagValues)
    (component_dofs : ComponentDoFs) (p : Point spacedim) (p_unit : Point dim)
    (p_minus_F : Tensor1 spacedim) (delta : Tensor1 dim) (mdata : InternalData dim spacedim)
    (trials : List ℚ) (p_unit' : Point dim) (p_real' : Point spacedim)
    (p_minus_F' : Tensor1 spacedim) (mdata' : InternalData dim spacedim)
    (h : line_search F component_dofs p p_unit p_minus_F delta 1 mdata [] =
      LineSearchResult.accepted trials p_unit' p_real' p_minus_F' mdata') :
    mdata' = cache_at F mdata p_unit' ∧
      p_real' = do_transform_unit_to_real_cell component_dofs mdata' ∧
      p_minus_F' = p - p_real' ∧
      norm_square p_minus_F' < norm_square p_minus_F ∧
      (trials ≠ [] ∧ trials <+: halving_steps) ∧
      ∃ t ∈ trials, p_unit' = trial_point p_unit delta t := by
  rw [line_search_from_one] at h
  unfold line_search_accept at h
  split_ifs at h with h1 h2 h3 h4 h5 h6
  · injection h with e1 e2 e3 e4 e5
    subst e1 e2 e3 e4 e5
    exact ⟨rfl, rfl, rfl, h1, ⟨by simp, ⟨[1 / 2, 1 / 4, 1 / 8, 1 / 16, 1 / 32], rfl⟩⟩,
      1, by simp, rfl⟩
  · injection h with e1 e2 e3 e4 e5
    subst e1 e2 e3 e4 e5
    exact ⟨rfl, rfl, rfl, h2, ⟨by simp, ⟨[1 / 4, 1 / 8, 1 / 16, 1 / 32], rfl⟩⟩,
      1 / 2, by simp, rfl⟩
  · injection h with e1 e2 e3 e4 e5
    subst e1 e2 e3 e4 e5
    exact ⟨rfl, rfl, rfl, h3, ⟨by simp, ⟨[1 / 8, 1 / 16, 1 / 32], rfl⟩⟩, 1 / 4, by simp, rfl⟩
  · injection h with e1 e2 e3 e4 e5
    subst e1 e2 e3 e4 e5
    exact ⟨rfl, rfl, rfl, h4, ⟨by simp, ⟨[1 / 16, 1 / 32], rfl⟩⟩, 1 / 8, by simp, rfl⟩
  · injection h with e1 e2 e3 e4 e5
    subst e1 e2 e3 e4 e5
    exact ⟨rfl, rfl, rfl, h5, ⟨by simp, ⟨[1 / 32], rfl⟩⟩, 1 / 16, by simp, rfl⟩
  · injection h with e1 e2 e3 e4 e5
    subst e1 e2 e3 e4 e5
    exact ⟨rfl, rfl, rfl, h6, ⟨by simp, ⟨[], rfl⟩⟩, 1 / 32, by simp, rfl⟩

theorem line_search_failure_inv {dim spacedim : Nat} (F : UpdateFlagValues)
    (component_dofs : ComponentDoFs) (p : Point spacedim) (p_unit : Point dim)
    (p_minus_F : Tensor1 spacedim) (delta : Tensor1 dim) (mdata : InternalData dim spacedim)
    (trials : List ℚ) (mdata' : InternalData dim spacedim)
    (h : line_search F component_dofs p p_unit p_minus_F delta 1 mdata [] =
      LineSearchResult.failure trials mdata') :
    trials = halving_steps ∧
      ∀ t ∈ halving_steps,
        ¬ norm_square (trial_residual F component_dofs p p_unit delta mdata t) <
          norm_square p_minus_F := by
  rw [line_search_from_one] at h
  unfold line_search_accept at h
  split_ifs at h with h1 h2 h3 h4 h5 h6
  injection h with e1 e2
  subst e1
  refine ⟨rfl, ?_⟩
  intro t ht
  simp only [halving_steps, List.mem_cons, List.mem_singleton, List.not_mem_nil, or_false] at ht
  rcases ht with rfl | rfl | rfl | rfl | rfl | rfl
  · exact h1
  · exact h2
  · exact h3
  · exact h4
  · exact h5
  · exact h6

theorem trials_admissible_append (trials : List (List ℚ)) (tr : List ℚ)
    (h : trials_admissible trials) (htr : tr ≠ [] ∧ tr <+: halving_steps) :
    trials_admissible (trials ++ [tr]) := by
  intro e he
  rw [List.mem_append, List.mem_singleton] at he
  rcases he with he | rfl
  · exact h e he
  · exact htr

/-- The invariants of the Newton loop, from any state that satisfies them. -/
theorem newton_loop_invariant {dim spacedim : Nat} (F : UpdateFlagValues)
    (component_dofs : ComponentDoFs) (p : Point spacedim) (eps : ℚ)
    (mdata : InternalData dim spacedim) (s : NewtonState dim spacedim) :
    cache_consistent F component_dofs p mdata s → trials_admissible s.trials →
      trials_admissible (newton_loop F component_dofs p eps s).state.trials ∧
      s.trials <+: (newton_loop F component_dofs p eps s).state.trials ∧
      (newton_loop F component_dofs p eps s).state.newton_iteration ≤
        max (s.newton_iteration + 1) (newton_iteration_limit + 1) ∧
      ∀ s', newton_loop F component_dofs p eps s = SolverResult.returned s' →
        cache_consistent F component_dofs p mdata s' ∧
          norm_square s'.p_minus_F ≤ eps * eps ∧
          s'.newton_iteration ≤ max s.newton_iteration newton_iteration_limit := by
  refine newton_loop.induct F component_dofs p eps
    (motive := fun s => cache_consistent F component_dofs p mdata s →
      trials_admissible s.trials →
      trials_admissible (newton_loop F component_dofs p eps s).state.trials ∧
      s.trials <+: (newton_loop F component_dofs p eps s).state.trials ∧
      (newton_loop F component_dofs p eps s).state.newton_iteration ≤
        max (s.newton_iteration + 1) (newton_iteration_limit + 1) ∧
      ∀ s', newton_loop F component_dofs p eps s = SolverResult.returned s' →
        cache_consistent F component_dofs p mdata s' ∧
          norm_square s'.p_minus_F ≤ eps * eps ∧
          s'.newton_iteration ≤ max s.newton_iteration newton_iteration_limit)
    ?_ ?_ ?_ ?_ s
  · intro s hgt DF f df delta trials p_unit p_real p_minus_F mdata' hls newton_iteration hlim
      hinv hadm
    have hls' : line_search F component_dofs p s.p_unit s.p_minus_F
        (newton_delta component_dofs s.mdata s.p_minus_F) 1 s.mdata [] =
        LineSearchResult.accepted trials p_unit p_real p_minus_F mdata' := hls
    rw [newton_loop_of_accepted F component_dofs p eps s hgt _ _ _ _ _ hls', if_pos hlim]
    obtain ⟨-, -, -, -, hgood, -⟩ := line_search_accepted_inv _ _ _ _ _ _ _ _ _ _ _ _ hls'
    refine ⟨trials_admissible_append _ _ hadm hgood, List.prefix_append _ _, ?_, ?_⟩
    · simp only [SolverResult.state]
      exact le_max_left _ _
    · intro s' hs'
      exact absurd hs' (by simp)
  · intro s hgt DF f df delta trials p_unit p_real p_minus_F mdata' hls newton_iteration hlim
      ih hinv hadm
    have hls' : line_search F component_dofs p s.p_unit s.p_minus_F
        (newton_delta component_dofs s.mdata s.p_minus_F) 1 s.mdata [] =
        LineSearchResult.accepted trials p_unit p_real p_minus_F mdata' := hls
    rw [newton_loop_of_accepted F component_dofs p eps s hgt _ _ _ _ _ hls', if_neg hlim]
    obtain ⟨hm, hr, hf, -, hgood, -⟩ :=
      line_search_accepted_inv _ _ _ _ _ _ _ _ _ _ _ _ hls'
    have hinv' : cache_consistent F component_dofs p mdata
        ⟨p_unit, p_real, p_minus_F, s.newton_iteration + 1, mdata', s.trials ++ [trials]⟩ := by
      refine ⟨?_, hr, hf⟩
      show mdata' = cache_at F mdata p_unit
      rw [hm, hinv.1, cache_at_cache_at]
    obtain ⟨h1, h2, h3, h4⟩ := ih hinv' (trials_admissible_append _ _ hadm hgood)
    refine ⟨h1, (List.prefix_append _ _).trans h2, ?_, ?_⟩
    · refine le_trans h3 ?_
      simp only [newton_iteration_limit] at hlim ⊢
      have : newton_iteration = s.newton_iteration + 1 := rfl
      simp only [ge_iff_le, le_max_iff, max_le_iff]
      omega
    · intro s' hs'
      obtain ⟨h5, h6, h7⟩ := h4 s' hs'
      refine ⟨h5, h6, le_trans h7 ?_⟩
      simp only [newton_iteration_limit] at hlim ⊢
      have : newton_iteration = s.newton_iteration + 1 := rfl
      simp only [ge_iff_le, le_max_iff, max_le_iff]
      omega
  · intro s hgt DF f df delta trials mdata' hls hinv hadm
    have hls' : line_search F component_dofs p s.p_unit s.p_minus_F
        (newton_delta component_dofs s.mdata s.p_minus_F) 1 s.mdata [] =
        LineSearchResult.failure trials mdata' := hls
    rw [newton_loop_of_failure F component_dofs p eps s hgt _ _ hls']
    obtain ⟨htr, -⟩ := line_search_failure_inv _ _ _ _ _ _ _ _ _ hls'
    refine ⟨trials_admissible_append _ _ hadm ?_, List.prefix_append _ _, ?_, ?_⟩
    · rw [htr]
      exact ⟨by simp [halving_steps], List.prefix_refl _⟩
    · simp only [SolverResult.state]
      exact le_trans (Nat.le_succ _) (le_max_left _ _)
    · intro s' hs'
      exact absurd hs' (by simp)
  · intro s hconv hinv hadm
    rw [newton_loop_of_converged F component_dofs p eps s hconv]
    refine ⟨hadm, List.prefix_refl _, le_trans (Nat.le_succ _) (le_max_left _ _), ?_⟩
    intro s' hs'
    injection hs' with hs'
    subst hs'
    exact ⟨hinv, not_lt.mp hconv, le_max_left _ _⟩

/-! ## The solver on the quadratic example -/

theorem pt_sub (a b : ℚ) : pt a - pt b = pt (a - b) := rfl

theorem trial_point_pt (a d t : ℚ) : trial_point (pt a) (pt d) t = pt (a - t * d) := rfl

theorem norm_square_pt (r : ℚ) : norm_square (pt r) = r * r := by
  simp [norm_square, pt]

/-- In one dimension the Newton update is `-(J²)⁻¹ (J r)` with `J` the derivative read
from the cache. -/
theorem newton_delta_1d (component_dofs : ComponentDoFs) (mdata : InternalData 1 1)
    (r : Tensor1 1) :
    newton_delta component_dofs mdata r =
      pt ((-(((component_dofs.get 0).map
            (fun i => mdata.local_dof_values.getD i 0 * mdata.derivative 0 i 0)).sum *
          ((component_dofs.get 0).map
            (fun i => mdata.local_dof_values.getD i 0 * mdata.derivative 0 i 0)).sum))⁻¹ *
        (((component_dofs.get 0).map
            (fun i => mdata.local_dof_values.getD i 0 * mdata.derivative 0 i 0)).sum * r 0)) := by
  funext j
  have hj : j = 0 := Subsingleton.elim _ _
  subst hj
  unfold newton_delta
  simp only [foldl_add_eq_sum, zero_add]
  simp [invert, Matrix.mulVec, Matrix.dotProduct, scalar_product, Matrix.det_fin_one,
    Matrix.adjugate_fin_one, pt]

theorem exampleQ2_get : exampleQ2ComponentDoFs.get 0 = [0, 1, 2] := by decide

theorem exampleQ2_transform (a : ℚ) :
    do_transform_unit_to_real_cell exampleQ2ComponentDoFs
      (cache_at dealiiFlags exampleQ2Data (pt a)) = pt (a ^ 2) := by
  rw [do_transform_cache_at dealiiFlags exampleQ2ComponentDoFs exampleQ2Data (pt a) (by decide)
    (by decide)]
  funext d
  simp [forward_map, exampleQ2ComponentDoFs, ComponentDoFs.get, exampleQ2Data, exampleQ2,
    InternalData.init, pt]
  ring

theorem exampleQ2_delta (a r : ℚ) (ha : a ≠ 0) :
    newton_delta exampleQ2ComponentDoFs (cache_at dealiiFlags exampleQ2Data (pt a)) (pt r) =
      pt (-r / (2 * a)) := by
  have h0 := cache_at_derivative dealiiFlags exampleQ2Data (pt a) 0 (by decide) (by decide)
  have h1 := cache_at_derivative dealiiFlags exampleQ2Data (pt a) 1 (by decide) (by decide)
  have h2 := cache_at_derivative dealiiFlags exampleQ2Data (pt a) 2 (by decide) (by decide)
  rw [newton_delta_1d, exampleQ2_get]
  simp only [List.map_cons, List.map_nil, List.sum_cons, List.sum_nil, h0, h1, h2]
  have hl : (cache_at dealiiFlags exampleQ2Data (pt a)).local_dof_values = [0, 1, 1 / 4] := rfl
  rw [hl]
  simp [exampleQ2, exampleQ2Data, InternalData.init]
  refine congrArg pt ?_
  simp only [pt]
  have hJ : 4 * a - 1 + 4⁻¹ * (4 - 8 * a) = 2 * a := by ring
  rw [hJ]
  field_simp
  ring

theorem exampleQ2_residual (p a d t : ℚ) :
    trial_residual dealiiFlags exampleQ2ComponentDoFs (pt p) (pt a) (pt d) exampleQ2Data t =
      pt (p - (a - t * d) ^ 2) := by
  unfold trial_residual
  rw [trial_point_pt, exampleQ2_transform, pt_sub]

theorem exampleQ2_state (p a : ℚ) (k : Nat) (trials : List (List ℚ)) :
    newton_state_at dealiiFlags exampleQ2ComponentDoFs (pt p) exampleQ2Data (pt a) k trials =
      ⟨pt a, pt (a ^ 2), pt (p - a ^ 2), k, cache_at dealiiFlags exampleQ2Data (pt a), trials⟩ := by
  unfold newton_state_at
  rw [exampleQ2_transform, pt_sub]

/-- On the quadratic example with target `0`, a Newton iteration from `a > 0` accepts the
full step and halves the iterate. -/
theorem exampleQ2_iteration (eps a : ℚ) (k : Nat) (trials : List (List ℚ)) (ha : 0 < a)
    (hgt : (a ^ 2) * (a ^ 2) > eps * eps) :
    newton_loop dealiiFlags exampleQ2ComponentDoFs (pt 0) eps
        (newton_state_at dealiiFlags exampleQ2ComponentDoFs (pt 0) exampleQ2Data (pt a) k
          trials) =
      if k + 1 > newton_iteration_limit then
        SolverResult.failure
          (newton_state_at dealiiFlags exampleQ2ComponentDoFs (pt 0) exampleQ2Data (pt (a / 2))
            (k + 1) (trials ++ [[1]]))
      else
        newton_loop dealiiFlags exampleQ2ComponentDoFs (pt 0) eps
          (newton_state_at dealiiFlags exampleQ2ComponentDoFs (pt 0) exampleQ2Data (pt (a / 2))
            (k + 1) (trials ++ [[1]])) := by
  have hne : a ≠ 0 := ne_of_gt ha
  have hls : line_search dealiiFlags exampleQ2ComponentDoFs (pt 0) (pt a) (pt (0 - a ^ 2))
      (newton_delta exampleQ2ComponentDoFs (cache_at dealiiFlags exampleQ2Data (pt a))
        (pt (0 - a ^ 2))) 1 (cache_at dealiiFlags exampleQ2Data (pt a)) [] =
      LineSearchResult.accepted [1] (pt (a / 2)) (pt ((a / 2) ^ 2)) (pt (0 - (a / 2) ^ 2))
        (cache_at dealiiFlags exampleQ2Data (pt (a / 2))) := by
    rw [line_search_cache_at, line_search_from_one, exampleQ2_delta _ _ hne, exampleQ2_residual,
      norm_square_pt, norm_square_pt]
    have e : a - 1 * (-(0 - a ^ 2) / (2 * a)) = a / 2 := by
      field_simp
      ring
    rw [e]
    have hlt : (0 - (a / 2) ^ 2) * (0 - (a / 2) ^ 2) < (0 - a ^ 2) * (0 - a ^ 2) := by
      have h4 : 0 < a ^ 4 := by positivity
      nlinarith
    rw [if_pos hlt]
    unfold line_search_accept
    rw [trial_point_pt, exampleQ2_residual, exampleQ2_transform, e]
  rw [exampleQ2_state, exampleQ2_state]
  rw [newton_loop_of_accepted dealiiFlags exampleQ2ComponentDoFs (pt 0) eps _
    (by rw [norm_square_pt]; simpa using hgt) _ _ _ _ _ hls]

theorem do_transform_real_to_unit_cell_eq {dim spacedim : Nat} (F : UpdateFlagValues)
    (component_dofs : ComponentDoFs) (diameter : ℚ) (p : Point spacedim)
    (starting_guess : Point dim) (mdata : InternalData dim spacedim) :
    do_transform_real_to_unit_cell F component_dofs diameter p starting_guess mdata =
      newton_loop F component_dofs p (1e-12 * diameter)
        (newton_state_at F component_dofs p mdata starting_guess 0 []) := rfl

theorem newton_state_at_consistent {dim spacedim : Nat} (F : UpdateFlagValues)
    (component_dofs : ComponentDoFs) (p : Point spacedim) (mdata : InternalData dim spacedim)
    (x : Point dim) (k : Nat) (trials : List (List ℚ)) :
    cache_consistent F component_dofs p mdata
      (newton_state_at F component_dofs p mdata x k trials) :=
  ⟨rfl, rfl, rfl⟩

/-- C5: whenever `do_transform_real_to_unit_cell` returns a point `x = s.p_unit` instead
of failing, the forward map evaluated from the cache, which is the sum of local
coefficient times cached shape value per dimension, satisfies
`|p - map(x)|² ≤ (1e-12 * diameter)²`; the cache is the one re-initialised at `x`, so
with `update_quadrature_points` set the cached shape values are those of the shape
functions at `x` and the bound holds for the forward map at `x` itself. -/
theorem do_transform_real_to_unit_cell_postcondition {dim spacedim : Nat}
    (F : UpdateFlagValues) (component_dofs : ComponentDoFs) (diameter : ℚ) (p : Point spacedim)
    (starting_guess : Point dim) (mdata : InternalData dim spacedim)
    (s : NewtonState dim spacedim)
    (h : do_transform_real_to_unit_cell F component_dofs diameter p starting_guess mdata =
      SolverResult.returned s) :
    norm_square (p - do_transform_unit_to_real_cell component_dofs s.mdata) ≤
        (1e-12 * diameter) ^ 2 ∧
      (∀ d : Fin spacedim, do_transform_unit_to_real_cell component_dofs s.mdata d =
        ((component_dofs.get d).map
          (fun i => s.mdata.local_dof_values.getD i 0 * s.mdata.shape 0 i)).sum) ∧
      s.mdata = cache_at F mdata s.p_unit ∧
      (mdata.update_each &&& F.update_quadrature_points ≠ 0 →
        (∀ d : Fin spacedim, ∀ i ∈ component_dofs.get d, i < mdata.n_shape_functions) →
        norm_square (p - forward_map spacedim mdata.fe mdata.local_dof_values component_dofs
          s.p_unit) ≤ (1e-12 * diameter) ^ 2) := by
  rw [do_transform_real_to_unit_cell_eq] at h
  obtain ⟨-, -, -, hret⟩ := newton_loop_invariant F component_dofs p (1e-12 * diameter) mdata
    (newton_state_at F component_dofs p mdata starting_guess 0 [])
    (newton_state_at_consistent F component_dofs p mdata starting_guess 0 [])
    (by intro tr htr; simp [newton_state_at] at htr)
  obtain ⟨⟨hm, hr, hf⟩, hle, -⟩ := hret s h
  have hres : norm_square (p - do_transform_unit_to_real_cell component_dofs s.mdata) ≤
      (1e-12 * diameter) ^ 2 := by
    rw [← hr, ← hf, pow_two]
    exact hle
  refine ⟨hres, ?_, hm, ?_⟩
  · intro d
    unfold do_transform_unit_to_real_cell
    rw [foldl_add_eq_sum, zero_add]
  · intro hq hcd
    rw [← do_transform_cache_at F component_dofs mdata s.p_unit hq hcd, ← hm]
    exact hres

/-- Witness of C5: on the quadratic example (forward map `x ↦ x²`) with target `1/4` and
starting guess `1/2` the solver returns at once. -/
theorem do_transform_real_to_unit_cell_postcondition_witness :
    do_transform_real_to_unit_cell dealiiFlags exampleQ2ComponentDoFs 1 (pt (1 / 4)) (pt (1 / 2))
        exampleQ2Data =
      SolverResult.returned
        (newton_state_at dealiiFlags exampleQ2ComponentDoFs (pt (1 / 4)) exampleQ2Data
          (pt (1 / 2)) 0 []) ∧
    norm_square (pt (1 / 4) - do_transform_unit_to_real_cell exampleQ2ComponentDoFs
      (newton_state_at dealiiFlags exampleQ2ComponentDoFs (pt (1 / 4)) exampleQ2Data
        (pt (1 / 2)) 0 []).mdata) ≤ (1e-12 * 1) ^ 2 := by
  have h : do_transform_real_to_unit_cell dealiiFlags exampleQ2ComponentDoFs 1 (pt (1 / 4))
      (pt (1 / 2)) exampleQ2Data =
      SolverResult.returned
        (newton_state_at dealiiFlags exampleQ2ComponentDoFs (pt (1 / 4)) exampleQ2Data
          (pt (1 / 2)) 0 []) := by
    rw [do_transform_real_to_unit_cell_eq]
    apply newton_loop_of_converged
    rw [exampleQ2_state]
    simp only [norm_square_pt]
    norm_num
  exact ⟨h, (do_transform_real_to_unit_cell_postcondition dealiiFlags exampleQ2ComponentDoFs 1
    (pt (1 / 4)) (pt (1 / 2)) exampleQ2Data _ h).1⟩

theorem exampleQ2_run (eps : ℚ) (heps : eps * eps < 1 / 2 ^ 80) :
    ∀ j : Nat, j ≤ 20 →
      newton_loop dealiiFlags exampleQ2ComponentDoFs (pt 0) eps
          (newton_state_at dealiiFlags exampleQ2ComponentDoFs (pt 0) exampleQ2Data (pt 1) 0 []) =
        newton_loop dealiiFlags exampleQ2ComponentDoFs (pt 0) eps
          (newton_state_at dealiiFlags exampleQ2ComponentDoFs (pt 0) exampleQ2Data
            (pt (1 / 2 ^ j)) j (List.replicate j [1])) := by
  intro j
  induction j with
  | zero =>
    intro _
    norm_num
  | succ j ih =>
    intro hj
    rw [ih (by omega)]
    have hpos : (0 : ℚ) < 1 / 2 ^ j := by positivity
    have hgt : ((1 : ℚ) / 2 ^ j) ^ 2 * (1 / 2 ^ j) ^ 2 > eps * eps := by
      refine lt_of_lt_of_le heps ?_
      have e : ((1 : ℚ) / 2 ^ j) ^ 2 * (1 / 2 ^ j) ^ 2 = 1 / 2 ^ (j * 4) := by
        rw [pow_mul]
        ring
      rw [e]
      apply one_div_le_one_div_of_le (by positivity)
      exact pow_le_pow_right₀ (by norm_num) (by omega)
    rw [exampleQ2_iteration eps _ j _ hpos hgt,
      if_neg (by simp only [newton_iteration_limit]; omega)]
    have e2 : (1 : ℚ) / 2 ^ j / 2 = 1 / 2 ^ (j + 1) := by
      rw [pow_succ]
      field_simp
    rw [e2, ← List.replicate_succ']

/-- C6, evaluated at the failing input: on the quadratic example (forward map `x ↦ x²`)
with target `0`, starting guess `1` and cell diameter `1/2`, the solver performs 21
Newton iterations, each accepting the full step, and then fails although the iterate
`2⁻²¹` reached by the 21st iteration satisfies the convergence criterion. -/
theorem newton_iteration_limit_off_by_one :
    do_transform_real_to_unit_cell dealiiFlags exampleQ2ComponentDoFs (1 / 2) (pt 0) (pt 1)
        exampleQ2Data =
      SolverResult.failure
        (newton_state_at dealiiFlags exampleQ2ComponentDoFs (pt 0) exampleQ2Data
          (pt (1 / 2 ^ 21)) 21 (List.replicate 21 [1])) ∧
    (newton_state_at dealiiFlags exampleQ2ComponentDoFs (pt 0) exampleQ2Data
        (pt (1 / 2 ^ 21)) 21 (List.replicate 21 [1])).newton_iteration = 21 ∧
    norm_square (newton_state_at dealiiFlags exampleQ2ComponentDoFs (pt 0) exampleQ2Data
        (pt (1 / 2 ^ 21)) 21 (List.replicate 21 [1])).p_minus_F ≤
      (1e-12 * (1 / 2)) * (1e-12 * (1 / 2)) := by
  have heps : (1e-12 * (1 / 2) : ℚ) * (1e-12 * (1 / 2)) < 1 / 2 ^ 80 := by norm_num
  refine ⟨?_, rfl, ?_⟩
  · rw [do_transform_real_to_unit_cell_eq, exampleQ2_run _ heps 20 (le_refl _),
      exampleQ2_iteration _ _ 20 _ (by positivity)
        (lt_of_lt_of_le heps (by norm_num)),
      if_pos (by simp only [newton_iteration_limit]; omega)]
    have e2 : (1 : ℚ) / 2 ^ 20 / 2 = 1 / 2 ^ 21 := by norm_num
    rw [e2, ← List.replicate_succ']
  · rw [exampleQ2_state]
    simp only [norm_square_pt]
    norm_num

/-! ## The step lengths of the line search -/

theorem halving_steps_ge (t : ℚ) (h : t ∈ halving_steps) : (1 / 32 : ℚ) ≤ t := by
  simp only [halving_steps, List.mem_cons, List.mem_singleton, List.not_mem_nil, or_false] at h
  rcases h with rfl | rfl | rfl | rfl | rfl | rfl <;> norm_num

/-- The complete behaviour of the line search as each Newton iteration enters it: it is
left at the first of the six step lengths `1, 1/2, ..., 1/32` that decreases the
residual, and by failure when none does. -/
theorem line_search_cases {dim spacedim : Nat} (F : UpdateFlagValues)
    (component_dofs : ComponentDoFs) (p : Point spacedim) (p_unit : Point dim)
    (p_minus_F : Tensor1 spacedim) (delta : Tensor1 dim) (mdata : InternalData dim spacedim) :
    ∃ k, k < 6 ∧
      (∀ j, j < k →
        ¬ norm_square (trial_residual F component_dofs p p_unit delta mdata
            (halving_steps.getD j 0)) < norm_square p_minus_F) ∧
      ((norm_square (trial_residual F component_dofs p p_unit delta mdata
            (halving_steps.getD k 0)) < norm_square p_minus_F ∧
          line_search F component_dofs p p_unit p_minus_F delta 1 mdata [] =
            line_search_accept F component_dofs p p_unit delta mdata (halving_steps.take (k + 1))
              (halving_steps.getD k 0)) ∨
        (k = 5 ∧
          ¬ norm_square (trial_residual F component_dofs p p_unit delta mdata
            (halving_steps.getD k 0)) < norm_square p_minus_F ∧
          line_search F component_dofs p p_unit p_minus_F delta 1 mdata [] =
            LineSearchResult.failure halving_steps
              (cache_at F mdata (trial_point p_unit delta (1 / 32))))) := by
  rw [line_search_from_one]
  split_ifs with h1 h2 h3 h4 h5 h6
  · exact ⟨0, by omega, fun j hj => absurd hj (by omega), Or.inl ⟨h1, rfl⟩⟩
  · refine ⟨1, by omega, ?_, Or.inl ⟨h2, rfl⟩⟩
    intro j hj
    interval_cases j
    exact h1
  · refine ⟨2, by omega, ?_, Or.inl ⟨h3, rfl⟩⟩
    intro j hj
    interval_cases j
    · exact h1
    · exact h2
  · refine ⟨3, by omega, ?_, Or.inl ⟨h4, rfl⟩⟩
    intro j hj
    interval_cases j
    · exact h1
    · exact h2
    · exact h3
  · refine ⟨4, by omega, ?_, Or.inl ⟨h5, rfl⟩⟩
    intro j hj
    interval_cases j
    · exact h1
    · exact h2
    · exact h3
    · exact h4
  · refine ⟨5, by omega, ?_, Or.inl ⟨h6, rfl⟩⟩
    intro j hj
    interval_cases j
    · exact h1
    · exact h2
    · exact h3
    · exact h4
    · exact h5
  · refine ⟨5, by omega, ?_, Or.inr ⟨rfl, h6, rfl⟩⟩
    intro j hj
    interval_cases j
    · exact h1
    · exact h2
    · exact h3
    · exact h4
    · exact h5

theorem line_search_fails_of_no_decrease {dim spacedim : Nat} (F : UpdateFlagValues)
    (component_dofs : ComponentDoFs) (p : Point spacedim) (p_unit : Point dim)
    (p_minus_F : Tensor1 spacedim) (delta : Tensor1 dim) (mdata : InternalData dim spacedim)
    (h : ∀ t ∈ halving_steps,
      ¬ norm_square (trial_residual F component_dofs p p_unit delta mdata t) <
        norm_square p_minus_F) :
    line_search F component_dofs p p_unit p_minus_F delta 1 mdata [] =
      LineSearchResult.failure halving_steps
        (cache_at F mdata (trial_point p_unit delta (1 / 32))) := by
  rw [line_search_from_one, if_neg (h 1 (by simp [halving_steps])),
    if_neg (h (1 / 2) (by simp [halving_steps])), if_neg (h (1 / 4) (by simp [halving_steps])),
    if_neg (h (1 / 8) (by simp [halving_steps])), if_neg (h (1 / 16) (by simp [halving_steps])),
    if_neg (h (1 / 32) (by simp [halving_steps]))]
  rfl

/-- C7 as amended: in every Newton iteration of `do_transform_real_to_unit_cell` the step
length starts at `1` and is halved after each trial that does not decrease the residual,
as long as the step length just tried exceeds `0.05`: the step lengths of the evaluated
trial points form a nonempty initial segment of `1, 1/2, 1/4, 1/8, 1/16, 1/32`, so each is
at least `1/32`; the line search is left at the first of them that decreases the residual;
and when none of the six does, the solver fails. -/
theorem line_search_step_bound {dim spacedim : Nat} (F : UpdateFlagValues)
    (component_dofs : ComponentDoFs) (p : Point spacedim) :
    (∀ (diameter : ℚ) (starting_guess : Point dim) (mdata : InternalData dim spacedim),
      ∀ tr ∈ (do_transform_real_to_unit_cell F component_dofs diameter p starting_guess
          mdata).state.trials,
        tr ≠ [] ∧ tr <+: halving_steps ∧ ∀ t ∈ tr, (1 / 32 : ℚ) ≤ t) ∧
    (∀ (p_unit : Point dim) (p_minus_F : Tensor1 spacedim) (delta : Tensor1 dim)
      (mdata : InternalData dim spacedim),
      ∃ k, k < 6 ∧
        (∀ j, j < k →
          ¬ norm_square (trial_residual F component_dofs p p_unit delta mdata
              (halving_steps.getD j 0)) < norm_square p_minus_F) ∧
        ((norm_square (trial_residual F component_dofs p p_unit delta mdata
              (halving_steps.getD k 0)) < norm_square p_minus_F ∧
            line_search F component_dofs p p_unit p_minus_F delta 1 mdata [] =
              line_search_accept F component_dofs p p_unit delta mdata
                (halving_steps.take (k + 1)) (halving_steps.getD k 0)) ∨
          (k = 5 ∧
            ¬ norm_square (trial_residual F component_dofs p p_unit delta mdata
              (halving_steps.getD k 0)) < norm_square p_minus_F ∧
            line_search F component_dofs p p_unit p_minus_F delta 1 mdata [] =
              LineSearchResult.failure halving_steps
                (cache_at F mdata (trial_point p_unit delta (1 / 32)))))) ∧
    (∀ (eps : ℚ) (s : NewtonState dim spacedim),
      norm_square s.p_minus_F > eps * eps →
      (∀ t ∈ halving_steps,
        ¬ norm_square (trial_residual F component_dofs p s.p_unit
            (newton_delta component_dofs s.mdata s.p_minus_F) s.mdata t) <
          norm_square s.p_minus_F) →
      ∃ s', newton_loop F component_dofs p eps s = SolverResult.failure s') := by
  refine ⟨?_, ?_, ?_⟩
  · intro diameter starting_guess mdata tr htr
    rw [do_transform_real_to_unit_cell_eq] at htr
    obtain ⟨hadm, -, -, -⟩ := newton_loop_invariant F component_dofs p (1e-12 * diameter) mdata
      (newton_state_at F component_dofs p mdata starting_guess 0 [])
      (newton_state_at_consistent F component_dofs p mdata starting_guess 0 [])
      (by intro tr htr; simp [newton_state_at] at htr)
    obtain ⟨h1, h2⟩ := hadm tr htr
    exact ⟨h1, h2, fun t ht => halving_steps_ge t (h2.subset ht)⟩
  · intro p_unit p_minus_F delta mdata
    exact line_search_cases F component_dofs p p_unit p_minus_F delta mdata
  · intro eps s hgt hno
    exact ⟨_, newton_loop_of_failure F component_dofs p eps s hgt _ _
      (line_search_fails_of_no_decrease F component_dofs p _ _ _ _ hno)⟩

theorem exampleQ2_line_search_small_step :
    line_search dealiiFlags exampleQ2ComponentDoFs (pt 1) (pt (1 / 50)) (pt (1 - (1 / 50) ^ 2))
        (newton_delta exampleQ2ComponentDoFs (cache_at dealiiFlags exampleQ2Data (pt (1 / 50)))
          (pt (1 - (1 / 50) ^ 2))) 1 (cache_at dealiiFlags exampleQ2Data (pt (1 / 50))) [] =
      LineSearchResult.accepted halving_steps (pt (2563 / 3200)) (pt ((2563 / 3200) ^ 2))
        (pt (1 - (2563 / 3200) ^ 2)) (cache_at dealiiFlags exampleQ2Data (pt (2563 / 3200))) := by
  rw [line_search_cache_at, line_search_from_one, exampleQ2_delta _ _ (by norm_num)]
  simp only [exampleQ2_residual, norm_square_pt]
  have e : (1 : ℚ) / 50 - 1 / 32 * (-(1 - (1 / 50) ^ 2) / (2 * (1 / 50))) = 2563 / 3200 := by
    norm_num
  rw [if_neg (by norm_num), if_neg (by norm_num), if_neg (by norm_num), if_neg (by norm_num),
    if_neg (by norm_num), if_pos (by norm_num)]
  unfold line_search_accept
  rw [trial_point_pt, exampleQ2_residual, exampleQ2_transform, e]
  rfl

/-- On the quadratic example with target `1`, the first Newton iteration from the starting
guess `1/50` rejects the steps `1, 1/2, 1/4, 1/8, 1/16` and accepts the step `1/32`. -/
theorem exampleQ2_small_step_trials (diameter : ℚ) (hd : (1e-12 * diameter) * (1e-12 * diameter) < 1 / 2) :
    halving_steps ∈
      (do_transform_real_to_unit_cell dealiiFlags exampleQ2ComponentDoFs diameter (pt 1)
        (pt (1 / 50)) exampleQ2Data).state.trials := by
  have hstep : newton_loop dealiiFlags exampleQ2ComponentDoFs (pt 1) (1e-12 * diameter)
      (newton_state_at dealiiFlags exampleQ2ComponentDoFs (pt 1) exampleQ2Data (pt (1 / 50)) 0
        []) =
      newton_loop dealiiFlags exampleQ2ComponentDoFs (pt 1) (1e-12 * diameter)
        (newton_state_at dealiiFlags exampleQ2ComponentDoFs (pt 1) exampleQ2Data
          (pt (2563 / 3200)) 1 [halving_steps]) := by
    rw [exampleQ2_state, exampleQ2_state,
      newton_loop_of_accepted dealiiFlags exampleQ2ComponentDoFs (pt 1) (1e-12 * diameter) _
        (by rw [norm_square_pt]; exact lt_trans hd (by norm_num)) _ _ _ _ _
        exampleQ2_line_search_small_step,
      if_neg (by simp only [newton_iteration_limit]; omega)]
    rfl
  rw [do_transform_real_to_unit_cell_eq, hstep]
  obtain ⟨-, hpre, -, -⟩ := newton_loop_invariant dealiiFlags exampleQ2ComponentDoFs (pt 1)
    (1e-12 * diameter) exampleQ2Data
    (newton_state_at dealiiFlags exampleQ2ComponentDoFs (pt 1) exampleQ2Data
      (pt (2563 / 3200)) 1 [halving_steps])
    (newton_state_at_consistent _ _ _ _ _ _ _)
    (by
      intro tr htr
      simp only [newton_state_at, List.mem_singleton] at htr
      subst htr
      exact ⟨by simp [halving_steps], List.prefix_refl _⟩)
  exact hpre.subset (by simp [newton_state_at])

/-- Counterexample to C7 as stated: on the quadratic example (forward map `x ↦ x²`, cell
diameter `1`) with target `1` and starting guess `1/50`, a trial point is evaluated with
the step length `1/32 < 0.05`. -/
theorem line_search_step_below_minimum :
    ¬ ∀ tr ∈ (do_transform_real_to_unit_cell dealiiFlags exampleQ2ComponentDoFs 1 (pt 1)
        (pt (1 / 50)) exampleQ2Data).state.trials, ∀ t ∈ tr, (0.05 : ℚ) ≤ t := by
  intro h
  have h1 := h halving_steps (exampleQ2_small_step_trials 1 (by norm_num)) (1 / 32)
    (by simp [halving_steps])
  norm_num at h1

/-- Witness of C7 as amended, on the same example with cell diameter `2`: the line search
of the first Newton iteration tried all six step lengths, each at least `1/32`. -/
theorem line_search_step_bound_witness :
    halving_steps ∈
      (do_transform_real_to_unit_cell dealiiFlags exampleQ2ComponentDoFs 2 (pt 1)
        (pt (1 / 50)) exampleQ2Data).state.trials ∧
    halving_steps ≠ [] ∧ halving_steps <+: halving_steps ∧
    ∀ t ∈ halving_steps, (1 / 32 : ℚ) ≤ t :=
  ⟨exampleQ2_small_step_trials 2 (by norm_num),
    (line_search_step_bound dealiiFlags exampleQ2ComponentDoFs (pt 1)).1 2 (pt (1 / 50))
      exampleQ2Data halving_steps (exampleQ2_small_step_trials 2 (by norm_num))⟩

/-! ## The point maps of the mapping -/

theorem requires_update_flags_land_ne_zero (F : UpdateFlagValues) (x a : Nat) (ha : a ≠ 0)
    (hsub : ∀ i, a.testBit i = true → x.testBit i = true) :
    requires_update_flags F x &&& a ≠ 0 := by
  obtain ⟨i, hi⟩ := Nat.ne_zero_implies_bit_true ha
  intro h0
  have h2 : (requires_update_flags F x).testBit i = true :=
    pass_iterate_testBit_le F i 5 x (hsub i hi)
  have h1 : (requires_update_flags F x &&& a).testBit i = true := by
    rw [Nat.testBit_land, hi, h2]
    rfl
  rw [h0, Nat.zero_testBit] at h1
  exact absurd h1 (by simp)

theorem reinit_shape_at {dim spacedim : Nat} (F : UpdateFlagValues)
    (data : InternalData dim spacedim) (update_flags : Nat) (x : Point dim) (i : Nat)
    (hq : update_flags &&& F.update_quadrature_points ≠ 0)
    (hi : i < data.n_shape_functions) :
    (data.reinit F update_flags (Quadrature.of_point x)).shape 0 i = data.fe.shape_value i x := by
  unfold InternalData.shape
  rw [reinit_shape_values, if_pos hq, reinit_n_shape_functions,
    fill_table_eq_map _ _ _ _ (resize_length _ _ _), List.getD_eq_getElem?_getD,
    List.getElem?_map, List.getElem?_range (by simp [Quadrature.size, Quadrature.of_point, hi])]
  simp [Quadrature.of_point, Nat.mod_eq_of_lt hi, Nat.div_eq_of_lt hi]

/-- What a successful `update_internal_dofs` does to a cache, and that its success does
not depend on the cache. -/
theorem update_internal_dofs_ok {dim spacedim : Nat} (m : MappingFEField dim spacedim)
    (cell : Cell dim spacedim) (data data' : InternalData dim spacedim)
    (h : m.update_internal_dofs cell data = Except.ok data') (other : InternalData dim spacedim) :
    data'.fe = data.fe ∧ data'.n_shape_functions = data.n_shape_functions ∧
      data'.shape_values = data.shape_values ∧ data'.update_each = data.update_each ∧
      (data.local_dof_values = List.replicate m.fe.n_dofs_per_cell 0 →
        data'.local_dof_values = m.cell_dof_values cell) ∧
      ∃ other', m.update_internal_dofs cell other = Except.ok other' := by
  unfold MappingFEField.update_internal_dofs at h ⊢
  by_cases c1 : ¬ (m.uses_level_dofs || cell.is_active) = true
  · rw [if_pos c1] at h
    cases h
  rw [if_neg c1] at h ⊢
  by_cases c2 : m.uses_level_dofs = true ∧ ¬ cell.level < m.euler_vector.length
  · rw [if_pos c2] at h
    cases h
  rw [if_neg c2] at h ⊢
  by_cases c3 : m.uses_level_dofs = true ∧
      (m.euler_vector.getD cell.level []).length ≠ m.n_dofs_level cell.level
  · rw [if_pos c3] at h
    cases h
  rw [if_neg c3] at h ⊢
  by_cases c4 : ¬ m.uses_level_dofs = true ∧ (m.euler_vector.getD 0 []).length ≠ m.n_dofs
  · rw [if_pos c4] at h
    cases h
  rw [if_neg c4] at h ⊢
  injection h with h
  subst h
  refine ⟨rfl, rfl, rfl, rfl, ?_, ⟨_, rfl⟩⟩
  intro hl
  unfold MappingFEField.cell_dof_values
  simp only [hl, List.length_replicate]

theorem get_data_update_each {dim spacedim : Nat} (F : UpdateFlagValues)
    (m : MappingFEField dim spacedim) (update_flags : Nat) (quadrature : Quadrature dim) :
    (m.get_data F update_flags quadrature).update_each =
      requires_update_flags F update_flags := rfl

/-- The forward point map returns the forward map of the cell's coefficients. -/
theorem transform_unit_to_real_cell_eq {dim spacedim : Nat} (F : UpdateFlagValues)
    (m : MappingFEField dim spacedim) (cell : Cell dim spacedim) (x : Point dim)
    (hq : F.update_quadrature_points ≠ 0)
    (hcd : ∀ d : Fin spacedim, ∀ i ∈ m.component_dofs.get d, i < m.fe.n_dofs_per_cell)
    (data : InternalData dim spacedim)
    (h : m.update_internal_dofs cell
      (m.get_data F (F.update_quadrature_points ||| F.update_jacobians) (Quadrature.of_point x)) =
        Except.ok data) :
    m.transform_unit_to_real_cell F cell x =
      Except.ok (forward_map spacedim m.fe (m.cell_dof_values cell) m.component_dofs x) := by
  unfold MappingFEField.transform_unit_to_real_cell
  simp only [h]
  obtain ⟨hfe, hn, hsv, -, hl, -⟩ := update_internal_dofs_ok m cell _ data h data
  congr 1
  funext d
  unfold do_transform_unit_to_real_cell forward_map
  rw [foldl_add_eq_sum, zero_add, hl rfl]
  congr 1
  apply List.map_congr_left
  intro i hi
  have hshape : data.shape 0 i = m.fe.shape_value i x := by
    unfold InternalData.shape
    rw [hsv, hn]
    exact reinit_shape_at F (InternalData.init spacedim m.fe m.fe_mask) _ x i
      (requires_update_flags_land_ne_zero F _ _ hq
        (fun j hj => by rw [Nat.testBit_lor, hj]; rfl))
      (hcd d i hi)
  rw [hshape]

/-- C4 as amended: if the forward point map returns `y` at a reference point `x` and the
inverse point map returns `x'` at `y`, then the forward point map returns at `x'` a point
within `1e-12 * diameter` of `y` (in the Euclidean norm, stated for its square): the round
trip is accurate in real space, with the tolerance of the solver. -/
theorem round_trip_residual {dim spacedim : Nat} (F : UpdateFlagValues)
    (m : MappingFEField dim spacedim) (cell : Cell dim spacedim) (x : Point dim)
    (hq : F.update_quadrature_points ≠ 0)
    (hcd : ∀ d : Fin spacedim, ∀ i ∈ m.component_dofs.get d, i < m.fe.n_dofs_per_cell) :
    ∀ (y : Point spacedim) (x' : Point dim),
      m.transform_unit_to_real_cell F cell x = Except.ok y →
      m.transform_real_to_unit_cell F cell y = Except.ok x' →
      ∃ y', m.transform_unit_to_real_cell F cell x' = Except.ok y' ∧
        norm_square (y - y') ≤ (1e-12 * cell.diameter) ^ 2 := by
  intro y x' _ h2
  unfold MappingFEField.transform_real_to_unit_cell at h2
  simp only [] at h2
  split at h2
  · cases h2
  · rename_i mdata1 hu
    split at h2
    · rename_i s hs
      injection h2 with h2
      subst h2
      obtain ⟨hfe, hn, -, hue, hl, other, hother⟩ := update_internal_dofs_ok m cell _ mdata1 hu
        (m.get_data F (F.update_quadrature_points ||| F.update_jacobians)
          (Quadrature.of_point s.p_unit))
      refine ⟨_, transform_unit_to_real_cell_eq F m cell s.p_unit hq hcd other hother, ?_⟩
      rw [do_transform_real_to_unit_cell_eq] at hs
      obtain ⟨-, -, -, hret⟩ := newton_loop_invariant F m.component_dofs y
        (1e-12 * cell.diameter) mdata1 _
        (newton_state_at_consistent F m.component_dofs y mdata1 _ 0 [])
        (by intro tr htr; simp [newton_state_at] at htr)
      obtain ⟨⟨hm, hr, hf⟩, hle, -⟩ := hret s hs
      have hq1 : mdata1.update_each &&& F.update_quadrature_points ≠ 0 := by
        rw [hue, get_data_update_each]
        apply requires_update_flags_land_ne_zero F _ _ hq
        intro j hj
        split
        · rw [Nat.testBit_lor, Nat.testBit_lor, hj]
          rfl
        · rw [Nat.testBit_lor, hj]
          rfl
      have hcd1 : ∀ d : Fin spacedim, ∀ i ∈ m.component_dofs.get d,
          i < mdata1.n_shape_functions := by
        intro d i hi
        rw [hn]
        exact hcd d i hi
      have hfwd := do_transform_cache_at F m.component_dofs mdata1 s.p_unit hq1 hcd1
      have hfe2 : mdata1.fe = m.fe := hfe
      rw [hfe2, hl rfl] at hfwd
      rw [← hfwd, ← hm, ← hr, ← hf, pow_two]
      exact hle
    · cases h2

/-! ## The point maps on the scaled example -/

theorem exampleScaled_update_ok (data : InternalData 1 1) :
    ∃ data', exampleScaledMapping.update_internal_dofs exampleUnitCell data = Except.ok data' := by
  unfold MappingFEField.update_internal_dofs
  simp [exampleScaledMapping, exampleUnitCell]

theorem exampleScaled_cell_dof_values :
    exampleScaledMapping.cell_dof_values exampleUnitCell = [0, 1 / 1000] := by
  simp [MappingFEField.cell_dof_values, exampleScaledMapping, exampleUnitCell, exampleQ1,
    assign_each, for_loop, List.range_succ]

theorem exampleScaled_hcd :
    ∀ d : Fin 1, ∀ i ∈ exampleScaledMapping.component_dofs.get d,
      i < exampleScaledMapping.fe.n_dofs_per_cell := by decide

theorem exampleScaled_forward_map (a : ℚ) :
    forward_map 1 exampleScaledMapping.fe (exampleScaledMapping.cell_dof_values exampleUnitCell)
      exampleScaledMapping.component_dofs (pt a) = pt (a / 1000) := by
  rw [exampleScaled_cell_dof_values]
  funext d
  simp [forward_map, exampleScaledMapping, exampleComponentDoFs, ComponentDoFs.get, exampleQ1, pt]
  ring

theorem exampleScaled_forward (a : ℚ) :
    exampleScaledMapping.transform_unit_to_real_cell dealiiFlags exampleUnitCell (pt a) =
      Except.ok (pt (a / 1000)) := by
  obtain ⟨data, h⟩ := exampleScaled_update_ok
    (exampleScaledMapping.get_data dealiiFlags
      (dealiiFlags.update_quadrature_points ||| dealiiFlags.update_jacobians)
      (Quadrature.of_point (pt a)))
  rw [transform_unit_to_real_cell_eq dealiiFlags exampleScaledMapping exampleUnitCell (pt a)
    (by decide) exampleScaled_hcd data h, exampleScaled_forward_map]

theorem exampleScaled_inverse (b : ℚ) (hb0 : 0 ≤ b) (hb1 : b ≤ 1)
    (hres : (b - b / 1000) * (b - b / 1000) ≤ (1e-12 * 1) * (1e-12 * 1)) :
    exampleScaledMapping.transform_real_to_unit_cell dealiiFlags exampleUnitCell (pt b) =
      Except.ok (pt b) := by
  have hguess : exampleUnitCell.closest_point (pt b) = pt b := by
    funext i
    simp [exampleUnitCell, pt, hb0, hb1]
  obtain ⟨data, h⟩ := exampleScaled_update_ok
    (exampleScaledMapping.get_data dealiiFlags
      (dealiiFlags.update_quadrature_points ||| dealiiFlags.update_jacobians)
      (Quadrature.of_point (pt b)))
  obtain ⟨hfe, hn, -, hue, hl, -⟩ := update_internal_dofs_ok _ _ _ data h data
  have hfe2 : data.fe = exampleScaledMapping.fe := hfe
  have hq : data.update_each &&& dealiiFlags.update_quadrature_points ≠ 0 := by
    rw [hue, get_data_update_each]
    decide
  have hfwd := do_transform_cache_at dealiiFlags exampleScaledMapping.component_dofs data (pt b)
    hq (by rw [hn]; exact exampleScaled_hcd)
  rw [hfe2, hl rfl, exampleScaled_forward_map] at hfwd
  have hsolve : do_transform_real_to_unit_cell dealiiFlags exampleScaledMapping.component_dofs
      exampleUnitCell.diameter (pt b) (pt b) data =
      SolverResult.returned (newton_state_at dealiiFlags exampleScaledMapping.component_dofs
        (pt b) data (pt b) 0 []) := by
    rw [do_transform_real_to_unit_cell_eq]
    apply newton_loop_of_converged
    unfold newton_state_at
    simp only [hfwd, pt_sub, norm_square_pt]
    exact not_lt.mpr hres
  unfold MappingFEField.transform_real_to_unit_cell
  have hlin : exampleUnitCell.linear_transform_real_to_unit_cell (pt b) = some (pt b) := rfl
  simp only [hlin, hguess, gt_iff_lt, lt_self_iff_false, if_false, h, hsolve]
  rfl

/-- Counterexample to C4 as stated: on a cell of diameter `1` whose field maps the unit
interval affinely onto `[0, 1/1000]`, the reference point `x = 5e-10` is mapped to
`5e-13`, the inverse map returns `5e-13` (its starting guess already meets the residual
tolerance `1e-12 * diameter`), and `|5e-13 - 5e-10|` exceeds `1e-10 * diameter`. -/
theorem round_trip_counterexample :
    exampleScaledMapping.transform_unit_to_real_cell dealiiFlags exampleUnitCell
        (pt (1 / 2000000000)) = Except.ok (pt (1 / 2000000000 / 1000)) ∧
    exampleScaledMapping.transform_real_to_unit_cell dealiiFlags exampleUnitCell
        (pt (1 / 2000000000 / 1000)) = Except.ok (pt (1 / 2000000000 / 1000)) ∧
    ¬ norm_square (pt (1 / 2000000000 / 1000) - pt (1 / 2000000000)) ≤
      (1e-10 * exampleUnitCell.diameter) ^ 2 := by
  refine ⟨exampleScaled_forward _, exampleScaled_inverse _ (by norm_num) (by norm_num)
    (by norm_num), ?_⟩
  rw [pt_sub, norm_square_pt]
  simp only [exampleUnitCell]
  norm_num

/-- Witness of C4 as amended, on the same cell and reference point: both point maps
return, and the forward image of the returned point is within `1e-12 * diameter` of the
forward image of `x`. -/
theorem round_trip_residual_witness :
    dealiiFlags.update_quadrature_points ≠ 0 ∧
    exampleScaledMapping.transform_unit_to_real_cell dealiiFlags exampleUnitCell
        (pt (1 / 2000000000)) = Except.ok (pt (1 / 2000000000 / 1000)) ∧
    exampleScaledMapping.transform_real_to_unit_cell dealiiFlags exampleUnitCell
        (pt (1 / 2000000000 / 1000)) = Except.ok (pt (1 / 2000000000 / 1000)) ∧
    ∃ y', exampleScaledMapping.transform_unit_to_real_cell dealiiFlags exampleUnitCell
        (pt (1 / 2000000000 / 1000)) = Except.ok y' ∧
      norm_square (pt (1 / 2000000000 / 1000) - y') ≤ (1e-12 * exampleUnitCell.diameter) ^ 2 :=
  ⟨by decide, exampleScaled_forward _,
    exampleScaled_inverse _ (by norm_num) (by norm_num) (by norm_num),
    round_trip_residual dealiiFlags exampleScaledMapping exampleUnitCell (pt (1 / 2000000000))
      (by decide) exampleScaled_hcd _ _ (exampleScaled_forward _)
      (exampleScaled_inverse _ (by norm_num) (by norm_num) (by norm_num))⟩

/-! ## The constructor of `ComponentDoFs` -/

/-- The inner loop appends the dofs of the component and counts them. -/
theorem push_component_dofs_eq {dim : Nat} (fe : FiniteElement dim) (component_no : Nat)
    (component_dofs : List Nat) :
    ComponentDoFs.push_component_dofs fe component_no component_dofs
      = (component_dofs ++ dofs_of_component fe component_no,
          (dofs_of_component fe component_no).length) := by
  unfold ComponentDoFs.push_component_dofs dofs_of_component
  induction fe.n_dofs_per_cell with
  | zero => simp [for_loop_zero]
  | succ n ih =>
    rw [for_loop_succ, ih, List.range_succ, List.filter_append]
    by_cases h : fe.nonzero_components n component_no = true
    · simp [h, List.append_assoc]
    · simp [h]

theorem running_offsets_length (lengths : List Nat) (spacedim : Nat) :
    (running_offsets lengths spacedim).length = spacedim + 1 := by
  simp [running_offsets]

theorem running_offsets_getD (lengths : List Nat) (spacedim j : Nat) (hj : j ≤ spacedim) :
    (running_offsets lengths spacedim).getD j 0
      = if j ≤ lengths.length then (lengths.take j).sum else 0 := by
  unfold running_offsets
  rw [List.getD_eq_getElem _ _ (by simp; omega)]
  simp

/-- Writing the next total extends the list of lengths by one. -/
theorem running_offsets_set (lengths : List Nat) (spacedim n : Nat)
    (h : lengths.length + 1 ≤ spacedim) :
    (running_offsets lengths spacedim).set (lengths.length + 1)
        ((running_offsets lengths spacedim).getD lengths.length 0 + n)
      = running_offsets (lengths ++ [n]) spacedim := by
  rw [running_offsets_getD _ _ _ (by omega)]
  apply List.ext_getElem
  · simp [running_offsets]
  · intro j h1 h2
    have hj : j < spacedim + 1 := by simpa [running_offsets] using h2
    rw [List.getElem_set]
    by_cases hjd : lengths.length + 1 = j
    · subst hjd
      simp [running_offsets, List.take_append]
    · rw [if_neg hjd]
      simp only [running_offsets, List.getElem_map, List.getElem_range, List.length_append,
        List.length_singleton]
      by_cases hle : j ≤ lengths.length
      · rw [if_pos hle, if_pos (by omega), List.take_append_of_le_length hle]
      · rw [if_neg hle, if_neg (by omega)]
/-- The state of the constructor after the components below `k`, as long as no more
than `spacedim` of them are selected. -/
theorem construct_loop {dim : Nat} (spacedim : Nat) (fe : FiniteElement dim) (mask : List Bool)
    (k : Nat) (hk : ((List.range k).filter (ComponentMask.get mask)).length ≤ spacedim) :
    for_loop k (fun component_no (s : ComponentDoFsConstruction) =>
      if ComponentMask.get mask component_no then
        { component_dofs :=
            (ComponentDoFs.push_component_dofs fe component_no s.component_dofs).1
          offsets := s.offsets.set (s.d + 1)
            (s.offsets.getD s.d 0
              + (ComponentDoFs.push_component_dofs fe component_no s.component_dofs).2)
          all_components_primitive := s.all_components_primitive
            && fe.base_element_is_primitive (fe.component_to_base_index component_no)
          d := s.d + 1
          offsets_writes := s.offsets_writes ++ [s.d + 1] }
      else s)
      { component_dofs := []
        offsets := List.replicate (spacedim + 1) 0
        all_components_primitive := true
        d := 0
        offsets_writes := [] }
    = { component_dofs :=
          (((List.range k).filter (ComponentMask.get mask)).map (dofs_of_component fe)).flatten
        offsets := running_offsets
          (((List.range k).filter (ComponentMask.get mask)).map
            (fun c => (dofs_of_component fe c).length)) spacedim
        all_components_primitive := ((List.range k).filter (ComponentMask.get mask)).all
          (fun c => fe.base_element_is_primitive (fe.component_to_base_index c))
        d := ((List.range k).filter (ComponentMask.get mask)).length
        offsets_writes :=
          (List.range ((List.range k).filter (ComponentMask.get mask)).length).map (· + 1) } := by
  induction k with
  | zero =>
    rw [for_loop_zero]
    simp only [List.range_zero, List.filter_nil, List.map_nil, List.flatten_nil, List.all_nil,
      List.length_nil]
    congr 1
    apply List.ext_getElem
    · simp [running_offsets]
    · intro j h1 h2
      simp [running_offsets]
  | succ k ih =>
    rw [List.range_succ, List.filter_append] at hk ⊢
    rw [for_loop_succ]
    by_cases hm : ComponentMask.get mask k = true
    · have hsel : List.filter (ComponentMask.get mask) [k] = [k] := by simp [hm]
      rw [hsel] at hk ⊢
      rw [List.length_append, List.length_singleton] at hk
      rw [ih (by omega), if_pos hm]
      simp only [push_component_dofs_eq]
      congr 1
      · simp
      · have := running_offsets_set
          (((List.range k).filter (ComponentMask.get mask)).map
            (fun c => (dofs_of_component fe c).length)) spacedim
          (dofs_of_component fe k).length (by simpa using hk)
        simpa using this
      · simp [List.all_append]
      · simp
      · simp [List.range_succ]
    · have hsel : List.filter (ComponentMask.get mask) [k] = [] := by simp [hm]
      rw [hsel] at hk ⊢
      rw [List.append_nil] at hk ⊢
      rw [ih hk, if_neg hm]
/-- The slice of a flattened list of lists between two consecutive running
totals is the corresponding sublist. -/
theorem flatten_slice {α : Type} (L : List (List α)) (i : Nat) (h : i < L.length) :
    (L.flatten.drop ((L.map List.length).take i).sum).take
        (((L.map List.length).take (i + 1)).sum - ((L.map List.length).take i).sum)
      = L[i] := by
  induction L generalizing i with
  | nil => simp at h
  | cons head tail ih =>
    cases i with
    | zero => simp
    | succ i =>
      have h2 : i < tail.length := by simpa using h
      have := ih i h2
      simp only [List.map_cons, List.take_succ_cons, List.sum_cons, List.flatten_cons,
        List.getElem_cons_succ]
      rw [List.drop_append, Nat.add_sub_add_left]
      exact this

/-- The number of selected components of a mask as large as the element has
components. -/
theorem selected_components_length (mask : List Bool) (n : Nat) (h : mask.length = n) :
    (selected_components mask).length = ComponentMask.n_selected_components mask n := by
  unfold selected_components ComponentMask.n_selected_components
  by_cases he : mask.isEmpty = true
  · have : mask = [] := by simpa using he
    subst this
    simp at h
    simp [← h]
  · rw [if_neg he]
    have hg : ComponentMask.get mask = fun c => mask.getD c false := by
      funext c; simp [ComponentMask.get, he]
    rw [hg]
    clear hg he h
    induction mask using List.reverseRecOn with
    | nil => simp
    | append_singleton l a ih =>
      rw [List.length_append, List.length_singleton, List.range_succ, List.filter_append,
        List.length_append, List.count_append]
      have h1 : (List.range l.length).filter (fun c => (l ++ [a]).getD c false)
          = (List.range l.length).filter (fun c => l.getD c false) := by
        apply List.filter_congr
        intro c hc
        have hc2 : c < l.length := List.mem_range.mp hc
        simp [List.getD_eq_getElem?_getD, List.getElem?_append_left hc2]
      rw [h1, ih]
      cases a <;> simp [List.getD_eq_getElem?_getD]

/-- The constructor with a valid mask: its result in closed form. -/
theorem init_run_valid {dim : Nat} (spacedim : Nat) (fe : FiniteElement dim) (mask : List Bool)
    (h1 : mask.length = fe.n_components)
    (h2 : ComponentMask.n_selected_components mask fe.n_components = spacedim) :
    ComponentDoFs.init_run spacedim fe mask
      = (.ok { component_dofs :=
                 ((selected_components mask).map (dofs_of_component fe)).flatten
               offsets := running_offsets
                 ((selected_components mask).map (fun c => (dofs_of_component fe c).length))
                 spacedim
               all_components_primitive := (selected_components mask).all
                 (fun c => fe.base_element_is_primitive (fe.component_to_base_index c)) },
          (List.range spacedim).map (· + 1)) := by
  have hlen : (selected_components mask).length = spacedim := by
    rw [selected_components_length mask _ h1, h2]
  have hc := construct_loop spacedim fe mask mask.length (by
    have := hlen; unfold selected_components at this; omega)
  have hc2 : ComponentDoFs.construct spacedim fe mask = _ := hc
  unfold ComponentDoFs.init_run
  rw [if_neg (by simpa using h1), if_neg (by simpa using h2), hc2]
  unfold selected_components at hlen ⊢
  simp only [hlen, ne_eq, not_true_eq_false, if_false]

/-- The view of the constructed object for the `d`-th selected component. -/
theorem init_get {dim : Nat} (spacedim : Nat) (fe : FiniteElement dim) (mask : List Bool)
    (hlen : (selected_components mask).length = spacedim) (d : Nat) (hd : d < spacedim) :
    ComponentDoFs.get
        { component_dofs := ((selected_components mask).map (dofs_of_component fe)).flatten
          offsets := running_offsets
            ((selected_components mask).map (fun c => (dofs_of_component fe c).length)) spacedim
          all_components_primitive := (selected_components mask).all
            (fun c => fe.base_element_is_primitive (fe.component_to_base_index c)) } d
      = dofs_of_component fe ((selected_components mask).getD d 0) := by
  unfold ComponentDoFs.get
  simp only
  rw [running_offsets_getD _ _ _ (by omega), running_offsets_getD _ _ _ (by omega),
    if_pos (by simp; omega), if_pos (by simp; omega)]
  have h := flatten_slice ((selected_components mask).map (dofs_of_component fe)) d
    (by simp; omega)
  have hm : ((selected_components mask).map (dofs_of_component fe)).map List.length
      = (selected_components mask).map (fun c => (dofs_of_component fe c).length) := by
    simp [List.map_map, Function.comp_def]
  rw [hm] at h
  rw [h, List.getElem_map, List.getD_eq_getElem _ _ (by omega)]

theorem mem_dofs_of_component {dim : Nat} (fe : FiniteElement dim) (component_no i : Nat) :
    i ∈ dofs_of_component fe component_no
      ↔ i < fe.n_dofs_per_cell ∧ fe.nonzero_components i component_no = true := by
  simp [dofs_of_component]

theorem dofs_of_component_increasing {dim : Nat} (fe : FiniteElement dim) (component_no : Nat) :
    (dofs_of_component fe component_no).Pairwise (· < ·) :=
  List.Pairwise.filter _ (List.pairwise_lt_range _)

theorem running_offsets_mono (lengths : List Nat) (spacedim j : Nat)
    (hl : lengths.length = spacedim) (hj : j < spacedim) :
    (running_offsets lengths spacedim).getD j 0
      ≤ (running_offsets lengths spacedim).getD (j + 1) 0 := by
  rw [running_offsets_getD _ _ _ (by omega), running_offsets_getD _ _ _ (by omega),
    if_pos (by omega), if_pos (by omega)]
  have h2 : j < lengths.length := by omega
  rw [List.take_succ, List.sum_append, List.getElem?_eq_getElem h2]
  simp

theorem running_offsets_last (lengths : List Nat) (spacedim : Nat)
    (hl : lengths.length = spacedim) :
    (running_offsets lengths spacedim).getD spacedim 0 = lengths.sum := by
  rw [running_offsets_getD _ _ _ (le_refl _), if_pos (by omega), ← hl, List.take_length]

theorem running_offsets_first (lengths : List Nat) (spacedim : Nat) :
    (running_offsets lengths spacedim).getD 0 0 = 0 := by
  rw [running_offsets_getD _ _ _ (Nat.zero_le _)]
  simp

/-- C19: `ComponentDoFs(fe, mask)` with a valid mask succeeds, and then for every
`d < spacedim` the view `operator[](d)` is strictly increasing and holds exactly the
local shape-function indices `i < n_dofs_per_cell` whose nonzero-component set
contains the `d`-th selected component of the mask; the views are stored back to
back in `component_dofs`; `offsets` has `spacedim + 1` entries, starts at `0`, is
non-decreasing, and ends at the number of stored indices. -/
theorem component_dofs_definition {dim : Nat} (spacedim : Nat) (fe : FiniteElement dim)
    (mask : List Bool) (h1 : mask.length = fe.n_components)
    (h2 : ComponentMask.n_selected_components mask fe.n_components = spacedim) :
    ∃ cd, ComponentDoFs.init spacedim fe mask = .ok cd ∧
      (selected_components mask).length = spacedim ∧
      (∀ d, d < spacedim →
        (cd.get d).Pairwise (· < ·) ∧
        ∀ i, i ∈ cd.get d ↔ (i < fe.n_dofs_per_cell ∧
          fe.nonzero_components i ((selected_components mask).getD d 0) = true)) ∧
      cd.component_dofs = ((List.range spacedim).map cd.get).flatten ∧
      cd.offsets.length = spacedim + 1 ∧
      cd.offsets.getD 0 0 = 0 ∧
      (∀ j, j < spacedim → cd.offsets.getD j 0 ≤ cd.offsets.getD (j + 1) 0) ∧
      cd.offsets.getD spacedim 0 = cd.component_dofs.length := by
  have hlen : (selected_components mask).length = spacedim := by
    rw [selected_components_length mask _ h1, h2]
  refine ⟨_, congrArg Prod.fst (init_run_valid spacedim fe mask h1 h2), hlen, ?_, ?_,
    running_offsets_length _ _, running_offsets_first _ _, ?_, ?_⟩
  · intro d hd
    rw [init_get spacedim fe mask hlen d hd]
    exact ⟨dofs_of_component_increasing fe _, fun i => mem_dofs_of_component fe _ i⟩
  · have : (List.range spacedim).map (ComponentDoFs.get
          { component_dofs := ((selected_components mask).map (dofs_of_component fe)).flatten
            offsets := running_offsets
              ((selected_components mask).map (fun c => (dofs_of_component fe c).length))
              spacedim
            all_components_primitive := (selected_components mask).all
              (fun c => fe.base_element_is_primitive (fe.component_to_base_index c)) })
        = (selected_components mask).map (dofs_of_component fe) := by
      apply List.ext_getElem
      · simp [hlen]
      · intro d hd1 hd2
        have hd : d < spacedim := by simpa using hd1
        rw [List.getElem_map, List.getElem_range, init_get spacedim fe mask hlen d hd,
          List.getElem_map, List.getD_eq_getElem _ _ (by omega)]
    rw [this]
  · intro j hj
    exact running_offsets_mono _ _ _ (by simpa using hlen) hj
  · rw [running_offsets_last _ _ (by simpa using hlen)]
    simp [List.length_flatten, List.map_map, Function.comp_def]

/-- Witness of C19: the two-component element on the line with the full mask. -/
theorem component_dofs_definition_witness :
    [true, true].length = exampleCurveData.fe.n_components ∧
    ComponentMask.n_selected_components [true, true] exampleCurveData.fe.n_components = 2 ∧
    ∃ cd, ComponentDoFs.init 2 exampleCurveData.fe [true, true] = .ok cd ∧
      cd.offsets.getD 2 0 = cd.component_dofs.length :=
  ⟨by decide, by decide,
    (component_dofs_definition 2 exampleCurveData.fe [true, true] (by decide) (by decide)).imp
      (fun _ h => ⟨h.1, h.2.2.2.2.2.2.2⟩)⟩

/-- A mask that selects every component selects them in their order. -/
theorem selected_components_full (mask : List Bool)
    (hall : ∀ c, c < mask.length → ComponentMask.get mask c = true) :
    selected_components mask = List.range mask.length := by
  unfold selected_components
  rw [List.filter_eq_self]
  intro c hc
  exact hall c (List.mem_range.mp hc)

/-- C18: for a primitive element (every shape function has exactly one nonzero
component) and a mask that selects all of its `spacedim` components, the constructor
succeeds, every local shape-function index below `n_dofs_per_cell` lies in one of the
views `operator[](d)`, `d < spacedim`, every index in a view is below
`n_dofs_per_cell`, and two different views share no index. -/
theorem component_dofs_complete {dim : Nat} (spacedim : Nat) (fe : FiniteElement dim)
    (mask : List Bool) (h1 : mask.length = fe.n_components)
    (hall : ∀ c, c < mask.length → ComponentMask.get mask c = true)
    (hsd : fe.n_components = spacedim)
    (hprim : ∀ dof, dof < fe.n_dofs_per_cell →
      ∃! c, c < fe.n_components ∧ fe.nonzero_components dof c = true) :
    ∃ cd, ComponentDoFs.init spacedim fe mask = .ok cd ∧
      (∀ i, i < fe.n_dofs_per_cell ↔ ∃ d, d < spacedim ∧ i ∈ cd.get d) ∧
      (∀ d d2, d < spacedim → d2 < spacedim → d ≠ d2 →
        List.Disjoint (cd.get d) (cd.get d2)) := by
  have hsel := selected_components_full mask hall
  have hlen : (selected_components mask).length = spacedim := by
    rw [hsel, List.length_range, h1, hsd]
  have h2 : ComponentMask.n_selected_components mask fe.n_components = spacedim := by
    rw [← selected_components_length mask _ h1, hlen]
  have hget : ∀ d, d < spacedim → (selected_components mask).getD d 0 = d := by
    intro d hd
    rw [hsel, List.getD_eq_getElem _ _ (by rw [List.length_range, h1, hsd]; exact hd),
      List.getElem_range]
  refine ⟨_, congrArg Prod.fst (init_run_valid spacedim fe mask h1 h2), ?_, ?_⟩
  · intro i
    constructor
    · intro hi
      obtain ⟨c, ⟨hc, hnz⟩, -⟩ := hprim i hi
      refine ⟨c, hsd ▸ hc, ?_⟩
      rw [init_get spacedim fe mask hlen c (hsd ▸ hc), hget c (hsd ▸ hc),
        mem_dofs_of_component]
      exact ⟨hi, hnz⟩
    · rintro ⟨d, hd, hmem⟩
      rw [init_get spacedim fe mask hlen d hd, mem_dofs_of_component] at hmem
      exact hmem.1
  · intro d d2 hd hd2 hne i hi hi2
    rw [init_get spacedim fe mask hlen d hd, hget d hd, mem_dofs_of_component] at hi
    rw [init_get spacedim fe mask hlen d2 hd2, hget d2 hd2, mem_dofs_of_component] at hi2
    obtain ⟨c, -, huniq⟩ := hprim i hi.1
    have e1 := huniq d ⟨hsd ▸ hd, hi.2⟩
    have e2 := huniq d2 ⟨hsd ▸ hd2, hi2.2⟩
    exact hne (e1.trans e2.symm)

/-- Witness of C18: the two-component element on the line with the full mask. -/
theorem component_dofs_complete_witness :
    [true, true].length = exampleCurveData.fe.n_components ∧
    (∀ c, c < [true, true].length → ComponentMask.get [true, true] c = true) ∧
    exampleCurveData.fe.n_components = 2 ∧
    (∀ dof, dof < exampleCurveData.fe.n_dofs_per_cell →
      ∃! c, c < exampleCurveData.fe.n_components ∧
        exampleCurveData.fe.nonzero_components dof c = true) ∧
    ∃ cd, ComponentDoFs.init 2 exampleCurveData.fe [true, true] = .ok cd ∧
      (∀ i, i < exampleCurveData.fe.n_dofs_per_cell ↔ ∃ d, d < 2 ∧ i ∈ cd.get d) ∧
      (∀ d d2, d < 2 → d2 < 2 → d ≠ d2 → List.Disjoint (cd.get d) (cd.get d2)) := by
  have hall : ∀ c, c < [true, true].length → ComponentMask.get [true, true] c = true := by
    decide
  have hprim : ∀ dof, dof < exampleCurveData.fe.n_dofs_per_cell →
      ∃! c, c < exampleCurveData.fe.n_components ∧
        exampleCurveData.fe.nonzero_components dof c = true := by
    intro dof hdof
    refine ⟨dof / 2, ⟨?_, ?_⟩, ?_⟩
    · have : dof < 4 := hdof
      show dof / 2 < 2
      omega
    · show decide (dof / 2 = dof / 2) = true
      simp
    · rintro c ⟨-, hc⟩
      have : dof / 2 = c := of_decide_eq_true hc
      exact this.symm
  exact ⟨by decide, hall, by decide, hprim,
    component_dofs_complete 2 exampleCurveData.fe [true, true] (by decide) hall (by decide)
      hprim⟩

/-- C20: under its assertions the constructor `ComponentDoFs(fe, mask)` fails, with
a dimension mismatch, exactly when `mask.size()` differs from `fe.n_components()` or
the mask does not select exactly `spacedim` components; it fails in no other way, and
when it fails it has not written to `offsets` at all, so not past
`offsets[spacedim]` either. -/
theorem component_dofs_construction_failure {dim : Nat} (spacedim : Nat)
    (fe : FiniteElement dim) (mask : List Bool) :
    (ComponentDoFs.init spacedim fe mask = .error .ExcDimensionMismatch ↔
      (mask.length ≠ fe.n_components ∨
        ComponentMask.n_selected_components mask fe.n_components ≠ spacedim)) ∧
    (∀ e, ComponentDoFs.init spacedim fe mask = .error e →
      e = .ExcDimensionMismatch ∧ (ComponentDoFs.init_run spacedim fe mask).2 = [] ∧
      ∀ w, w ∈ (ComponentDoFs.init_run spacedim fe mask).2 → w ≤ spacedim) := by
  by_cases h1 : mask.length = fe.n_components
  · by_cases h2 : ComponentMask.n_selected_components mask fe.n_components = spacedim
    · have h := init_run_valid spacedim fe mask h1 h2
      have hi : ComponentDoFs.init spacedim fe mask = _ := congrArg Prod.fst h
      rw [hi]
      refine ⟨⟨fun h => (by cases h), fun h => (h.elim (fun a => a h1) (fun a => a h2)).elim⟩,
        fun e he => (by cases he)⟩
    · have h : ComponentDoFs.init_run spacedim fe mask = (.error .ExcDimensionMismatch, []) := by
        unfold ComponentDoFs.init_run
        rw [if_neg (by simpa using h1), if_pos h2]
      have hi : ComponentDoFs.init spacedim fe mask = _ := congrArg Prod.fst h
      rw [hi, h]
      refine ⟨⟨fun _ => Or.inr h2, fun _ => rfl⟩, fun e he => ?_⟩
      cases he
      exact ⟨rfl, rfl, fun w hw => by cases hw⟩
  · have h : ComponentDoFs.init_run spacedim fe mask = (.error .ExcDimensionMismatch, []) := by
      unfold ComponentDoFs.init_run
      rw [if_pos h1]
    have hi : ComponentDoFs.init spacedim fe mask = _ := congrArg Prod.fst h
    rw [hi, h]
    refine ⟨⟨fun _ => Or.inl h1, fun _ => rfl⟩, fun e he => ?_⟩
    cases he
    exact ⟨rfl, rfl, fun w hw => by cases hw⟩

/-- Witness of C20: a mask that selects both components of the two-component
element cannot serve `spacedim = 1`; the constructor fails before it writes, where
the loop alone would have written to `offsets[2]`. -/
theorem component_dofs_construction_failure_witness :
    ComponentDoFs.init 1 exampleCurveData.fe [true, true] = .error .ExcDimensionMismatch ∧
    (ComponentDoFs.init_run 1 exampleCurveData.fe [true, true]).2 = [] ∧
    (ComponentDoFs.construct 1 exampleCurveData.fe [true, true]).offsets_writes = [1, 2] := by
  have h := component_dofs_construction_failure 1 exampleCurveData.fe [true, true]
  have h1 : ComponentDoFs.init 1 exampleCurveData.fe [true, true]
      = .error .ExcDimensionMismatch := h.1.2 (Or.inr (by decide))
  exact ⟨h1, (h.2 _ h1).2.1, by decide⟩

/-! ## The tensor transforms -/

theorem transform_fields_contravariant {dim spacedim : Nat} (F : UpdateFlagValues)
    (u : List (Tensor1 dim)) (data : InternalData dim spacedim)
    (output : List (Tensor1 spacedim))
    (hc : data.update_each &&& F.update_contravariant_transformation ≠ 0) :
    transform_fields F u .mapping_contravariant data output
      = .ok (assign_each output.length (fun i =>
          apply_transformation (data.contravariant.getD i 0) (u.getD i 0)) output) := by
  unfold transform_fields
  simp only []
  rw [if_neg hc]

theorem transform_fields_mapping_piola {dim spacedim : Nat} (F : UpdateFlagValues)
    (u : List (Tensor1 dim)) (data : InternalData dim spacedim)
    (output : List (Tensor1 spacedim))
    (hc : data.update_each &&& F.update_contravariant_transformation ≠ 0)
    (hv : data.update_each &&& F.update_volume_elements ≠ 0) :
    transform_fields F u .mapping_piola data output
      = .ok (assign_each output.length (fun i k =>
          apply_transformation (data.contravariant.getD i 0) (u.getD i 0) k
            / data.volume_elements.getD i 0) output) := by
  unfold transform_fields
  simp only []
  rw [if_neg hc, if_neg hv]

theorem transform_fields_covariant {dim spacedim : Nat} (F : UpdateFlagValues)
    (u : List (Tensor1 dim)) (data : InternalData dim spacedim)
    (output : List (Tensor1 spacedim))
    (hc : data.update_each &&& F.update_contravariant_transformation ≠ 0) :
    transform_fields F u .mapping_covariant data output
      = .ok (assign_each output.length (fun i =>
          apply_transformation (data.covariant.getD i 0) (u.getD i 0)) output) := by
  unfold transform_fields
  simp only []
  rw [if_neg hc]

/-- C14: for rank-1 inputs and a cache whose flags hold the contravariant
transformation and the volume elements, the three supported kinds succeed; at every
index `i` of the output (with entries in the tables read) the Piola transform is the
contravariant transform divided by `volume_elements[i]`, the contravariant transform
is `contravariant[i] · u[i]`, and the covariant kind yields `covariant[i] · u[i]`;
the outputs keep their length. -/
theorem transform_fields_piola {dim spacedim : Nat} (F : UpdateFlagValues)
    (u : List (Tensor1 dim)) (data : InternalData dim spacedim)
    (output : List (Tensor1 spacedim))
    (hc : data.update_each &&& F.update_contravariant_transformation ≠ 0)
    (hv : data.update_each &&& F.update_volume_elements ≠ 0) :
    ∃ piola contravariant covariant,
      MappingFEField.transform_Tensor1 F u .mapping_piola data output = .ok piola ∧
      MappingFEField.transform_Tensor1 F u .mapping_contravariant data output
        = .ok contravariant ∧
      MappingFEField.transform_Tensor1 F u .mapping_covariant data output = .ok covariant ∧
      piola.length = output.length ∧ contravariant.length = output.length ∧
      covariant.length = output.length ∧
      ∀ i, i < output.length → i < u.length → i < data.contravariant.length →
        i < data.covariant.length → i < data.volume_elements.length →
        (∀ k, piola.getD i 0 k = contravariant.getD i 0 k / data.volume_elements.getD i 0) ∧
        contravariant.getD i 0 = (data.contravariant.getD i 0).mulVec (u.getD i 0) ∧
        (∀ k, piola.getD i 0 k
          = (data.contravariant.getD i 0).mulVec (u.getD i 0) k
              / data.volume_elements.getD i 0) ∧
        covariant.getD i 0 = (data.covariant.getD i 0).mulVec (u.getD i 0) := by
  refine ⟨_, _, _, transform_fields_mapping_piola F u data output hc hv,
    transform_fields_contravariant F u data output hc,
    transform_fields_covariant F u data output hc,
    assign_each_length _ _ _, assign_each_length _ _ _, assign_each_length _ _ _, ?_⟩
  intro i hi _ _ _ _
  rw [assign_each_getD _ _ _ _ _ hi hi, assign_each_getD _ _ _ _ _ hi hi,
    assign_each_getD _ _ _ _ _ hi hi]
  exact ⟨fun _ => rfl, rfl, fun _ => rfl, rfl⟩
/-- Witness of C14: on the cell `[1, 3]` the reference vector `3` is mapped to `3`
by the Piola transform, to `6` by the contravariant and to `3 / 2` by the covariant
transform. -/
theorem transform_fields_piola_witness :
    exampleJacobianData.update_each &&& dealiiFlags.update_contravariant_transformation ≠ 0 ∧
    exampleJacobianData.update_each &&& dealiiFlags.update_volume_elements ≠ 0 ∧
    ∃ piola contravariant covariant,
      MappingFEField.transform_Tensor1 dealiiFlags [pt 3] .mapping_piola exampleJacobianData
        [0] = .ok piola ∧
      MappingFEField.transform_Tensor1 dealiiFlags [pt 3] .mapping_contravariant
        exampleJacobianData [0] = .ok contravariant ∧
      MappingFEField.transform_Tensor1 dealiiFlags [pt 3] .mapping_covariant
        exampleJacobianData [0] = .ok covariant ∧
      piola.getD 0 0 0 = 3 ∧ contravariant.getD 0 0 0 = 6 ∧ covariant.getD 0 0 0 = 3 / 2 := by
  obtain ⟨p, c, v, h1, h2, h3, -, -, -, h⟩ :=
    transform_fields_piola dealiiFlags [pt 3] exampleJacobianData [0] (by decide) (by decide)
  obtain ⟨-, hc, hp, hv⟩ := h 0 (by decide) (by decide) (by decide) (by decide) (by decide)
  refine ⟨by decide, by decide, p, c, v, h1, h2, h3, ?_, ?_, ?_⟩
  · rw [hp 0]
    simp [exampleJacobianData, Matrix.mulVec, Matrix.dotProduct, pt]
  · rw [hc]
    simp [exampleJacobianData, Matrix.mulVec, Matrix.dotProduct, pt]
    norm_num
  · rw [hv]
    simp [exampleJacobianData, Matrix.mulVec, Matrix.dotProduct, pt]
    norm_num

/-- C15: `transform` fails with `ExcNotImplemented` for every pair outside the
supported set: rank-1 tensors with a kind other than contravariant, Piola or
covariant; rank-1 differential forms with a kind other than covariant; rank-2
differential forms with a kind other than covariant-gradient; rank-2 and rank-3
tensors with every kind.  For the supported pairs it does not fail with
`ExcNotImplemented`. -/
theorem transform_closed_set {dim spacedim : Nat} (F : UpdateFlagValues)
    (data : InternalData dim spacedim) (kind : MappingKind) :
    (∀ input output, (kind ≠ .mapping_contravariant ∧ kind ≠ .mapping_piola ∧
        kind ≠ .mapping_covariant ↔
      MappingFEField.transform_Tensor1 F input kind data output
        = .error .ExcNotImplemented)) ∧
    (∀ input output, (kind ≠ .mapping_covariant ↔
      MappingFEField.transform_DerivativeForm1 F input kind data output
        = .error .ExcNotImplemented)) ∧
    (∀ input output, (kind ≠ .mapping_covariant_gradient ↔
      MappingFEField.transform_DerivativeForm2 F input kind data output
        = .error .ExcNotImplemented)) ∧
    (∀ input output,
      MappingFEField.transform_Tensor2 input kind data output = .error .ExcNotImplemented) ∧
    (∀ input output,
      MappingFEField.transform_Tensor3 input kind data output = .error .ExcNotImplemented) := by
  refine ⟨?_, ?_, ?_, fun _ _ => rfl, fun _ _ => rfl⟩
  · intro input output
    unfold MappingFEField.transform_Tensor1 transform_fields
    cases kind <;> simp <;> split_ifs <;> simp
  · intro input output
    unfold MappingFEField.transform_DerivativeForm1 transform_differential_forms
    cases kind <;> simp
    split_ifs <;> simp
  · intro input output
    unfold MappingFEField.transform_DerivativeForm2
    cases kind <;> simp
    split_ifs <;> simp

/-- Witness of C15: on the cell `[1, 3]` the Nedelec kind is refused for a rank-1
tensor and the Piola kind is not. -/
theorem transform_closed_set_witness :
    MappingFEField.transform_Tensor1 dealiiFlags [pt 3] .mapping_nedelec exampleJacobianData [0]
      = .error .ExcNotImplemented ∧
    MappingFEField.transform_Tensor1 dealiiFlags [pt 3] .mapping_piola exampleJacobianData [0]
      ≠ .error .ExcNotImplemented :=
  ⟨((transform_closed_set dealiiFlags exampleJacobianData .mapping_nedelec).1 [pt 3] [0]).1
      (by decide),
    fun h => (((transform_closed_set dealiiFlags exampleJacobianData .mapping_piola).1
      [pt 3] [0]).2 h).2.1 rfl⟩

/-! ## The cache of a cell -/

theorem land_lor_ne_zero_left (r a b : Nat) (h : r &&& a ≠ 0) : r &&& (a ||| b) ≠ 0 := by
  obtain ⟨i, hi⟩ := Nat.ne_zero_implies_bit_true h
  intro h0
  have h1 : (r &&& (a ||| b)).testBit i = true := by
    rw [Nat.testBit_land, Bool.and_eq_true] at hi
    rw [Nat.testBit_land, Nat.testBit_lor, hi.1, hi.2]
    rfl
  rw [h0, Nat.zero_testBit] at h1
  exact absurd h1 (by simp)

theorem land_lor_ne_zero_right (r a b : Nat) (h : r &&& b ≠ 0) : r &&& (a ||| b) ≠ 0 := by
  rw [Nat.lor_comm]
  exact land_lor_ne_zero_left r b a h

/-- The gradient table of a re-initialised cache, at any point of the rule. -/
theorem reinit_derivative {dim spacedim : Nat} (F : UpdateFlagValues)
    (data : InternalData dim spacedim) (update_flags : Nat) (quadrature : Quadrature dim)
    (q i : Nat)
    (hd : update_flags &&&
      (F.update_covariant_transformation ||| F.update_contravariant_transformation |||
        F.update_JxW_values ||| F.update_boundary_forms ||| F.update_normal_vectors |||
        F.update_jacobians ||| F.update_jacobian_grads ||| F.update_inverse_jacobians) ≠ 0)
    (hq : q < quadrature.size) (hi : i < data.n_shape_functions) :
    (data.reinit F update_flags quadrature).derivative q i
      = data.fe.shape_grad i (quadrature.points.getD q 0) := by
  unfold InternalData.derivative
  have hk : q * data.n_shape_functions + i < data.n_shape_functions * quadrature.size := by
    calc q * data.n_shape_functions + i < q * data.n_shape_functions + data.n_shape_functions :=
          by omega
      _ = data.n_shape_functions * (q + 1) := by ring
      _ ≤ data.n_shape_functions * quadrature.size := Nat.mul_le_mul_left _ hq
  rw [reinit_shape_derivatives, if_pos hd, reinit_n_shape_functions,
    fill_table_eq_map _ _ _ _ (resize_length _ _ _), List.getD_eq_getElem?_getD,
    List.getElem?_map, List.getElem?_range hk]
  have h1 : (q * data.n_shape_functions + i) % data.n_shape_functions = i := by
    rw [Nat.mul_comm, Nat.mul_add_mod, Nat.mod_eq_of_lt hi]
  have h2 : (q * data.n_shape_functions + i) / data.n_shape_functions = q := by
    rw [Nat.mul_comm, Nat.mul_add_div (by omega), Nat.div_eq_of_lt hi, Nat.add_zero]
  simp [h1, h2]

/-- On an active cell `update_internal_dofs` succeeds when the coefficient vector
has the size of the DoF handler: it stores the cell's dof indices and reads their
coefficients. -/
theorem update_internal_dofs_active {dim spacedim : Nat} (m : MappingFEField dim spacedim)
    (cell : Cell dim spacedim) (data : InternalData dim spacedim)
    (hl : m.uses_level_dofs = false) (ha : cell.is_active = true)
    (hn : (m.euler_vector.getD 0 []).length = m.n_dofs) :
    m.update_internal_dofs cell data =
      .ok { data with
        local_dof_indices := cell.dof_indices
        local_dof_values := (
          assign_each data.local_dof_values.length
            (fun i => (m.euler_vector.getD 0 []).getD (cell.dof_indices.getD i 0) 0)
            data.local_dof_values) } := by
  unfold MappingFEField.update_internal_dofs
  rw [if_neg (by simp [ha]), if_neg (by simp [hl]), if_neg (by simp [hl]),
    if_neg (fun h => h.2 hn)]
  simp only [hl, Bool.false_eq_true, if_false]

theorem maybe_update_Jacobians_volume_elements {dim spacedim : Nat} (F : UpdateFlagValues)
    (sqrt : ℚ → ℚ) (data_set : Nat) (data : InternalData dim spacedim)
    (component_dofs : ComponentDoFs) :
    (maybe_update_Jacobians F sqrt data_set data component_dofs).volume_elements =
      if data.update_each &&& F.update_volume_elements ≠ 0 then
        assign_each
          (maybe_update_Jacobians F sqrt data_set data component_dofs).contravariant.length
          (fun point => determinant sqrt
            ((maybe_update_Jacobians F sqrt data_set data component_dofs).contravariant.getD
              point 0))
          data.volume_elements
      else data.volume_elements := by
  unfold maybe_update_Jacobians
  simp only []
  split_ifs <;> rfl

theorem maybe_update_Jacobians_quadrature_weights {dim spacedim : Nat} (F : UpdateFlagValues)
    (sqrt : ℚ → ℚ) (data_set : Nat) (data : InternalData dim spacedim)
    (component_dofs : ComponentDoFs) :
    (maybe_update_Jacobians F sqrt data_set data component_dofs).quadrature_weights =
      data.quadrature_weights := by
  unfold maybe_update_Jacobians
  simp only []
  split_ifs <;> rfl

/-- What `update_internal_dofs` changes when it succeeds: the dof indices and the
coefficient snapshot. -/
theorem update_internal_dofs_eq {dim spacedim : Nat} (m : MappingFEField dim spacedim)
    (cell : Cell dim spacedim) (data data' : InternalData dim spacedim)
    (h : m.update_internal_dofs cell data = Except.ok data') :
    data' = { data with
      local_dof_indices := if m.uses_level_dofs then cell.mg_dof_indices else cell.dof_indices
      local_dof_values := (
        assign_each data.local_dof_values.length
          (fun i => (if m.uses_level_dofs then m.euler_vector.getD cell.level []
              else m.euler_vector.getD 0 []).getD
            ((if m.uses_level_dofs then cell.mg_dof_indices else cell.dof_indices).getD i 0) 0)
          data.local_dof_values) } := by
  unfold MappingFEField.update_internal_dofs at h
  by_cases c1 : ¬ (m.uses_level_dofs || cell.is_active) = true
  · rw [if_pos c1] at h
    cases h
  rw [if_neg c1] at h
  by_cases c2 : m.uses_level_dofs = true ∧ ¬ cell.level < m.euler_vector.length
  · rw [if_pos c2] at h
    cases h
  rw [if_neg c2] at h
  by_cases c3 : m.uses_level_dofs = true ∧
      (m.euler_vector.getD cell.level []).length ≠ m.n_dofs_level cell.level
  · rw [if_pos c3] at h
    cases h
  rw [if_neg c3] at h
  by_cases c4 : ¬ m.uses_level_dofs = true ∧ (m.euler_vector.getD 0 []).length ≠ m.n_dofs
  · rw [if_pos c4] at h
    cases h
  rw [if_neg c4] at h
  injection h with h
  exact h.symm

/-- The rows of the contravariant matrices of a cell: with the cache of `get_data`
and the coefficients of the cell, row `d` at the point `q` is
`Σ_{i ∈ component_dofs[d]} coefficient(i) * ∇N_i(x_q)`. -/
theorem cell_contravariant_row {dim spacedim : Nat} (F : UpdateFlagValues) (sqrt : ℚ → ℚ)
    (m : MappingFEField dim spacedim) (cell : Cell dim spacedim) (update_flags : Nat)
    (quadrature : Quadrature dim) (data : InternalData dim spacedim)
    (h : m.update_internal_dofs cell (m.get_data F update_flags quadrature) = Except.ok data)
    (hc : requires_update_flags F update_flags &&& F.update_contravariant_transformation ≠ 0)
    (hcd : ∀ d : Fin spacedim, ∀ i ∈ m.component_dofs.get d, i < m.fe.n_dofs_per_cell)
    (q : Nat) (hq : q < quadrature.size) (d : Fin spacedim) :
    (maybe_update_Jacobians F sqrt 0 data m.component_dofs).contravariant.getD q 0 d =
      ((m.component_dofs.get d).map
        (fun i => (m.cell_dof_values cell).getD i 0 •
          m.fe.shape_grad i (quadrature.points.getD q 0))).sum := by
  have he := update_internal_dofs_eq m cell _ data h
  have hue : data.update_each = requires_update_flags F update_flags := by rw [he]; rfl
  have hcl : data.contravariant.length = quadrature.size := by
    rw [he]
    show ((InternalData.init spacedim m.fe m.fe_mask).reinit F
      (requires_update_flags F update_flags) quadrature).contravariant.length = _
    rw [reinit_contravariant, if_pos hc, resize_length]
  rw [maybe_update_Jacobians_contravariant_row F sqrt 0 data m.component_dofs q
    (by rw [hue]; exact hc) (by rw [hcl]; exact hq) d]
  congr 1
  apply List.map_congr_left
  intro i hi
  have hi2 := hcd d i hi
  congr 1
  · rw [(update_internal_dofs_ok m cell _ data h data).2.2.2.2.1 rfl]
  · rw [he]
    show ((InternalData.init spacedim m.fe m.fe_mask).reinit F
      (requires_update_flags F update_flags) quadrature).derivative (q + 0) i = _
    rw [Nat.add_zero, reinit_derivative F _ _ quadrature q i ?_ hq hi2]
    · rfl
    · exact land_lor_ne_zero_left _ _ _ (land_lor_ne_zero_left _ _ _ (land_lor_ne_zero_left _ _ _
        (land_lor_ne_zero_left _ _ _ (land_lor_ne_zero_left _ _ _ (land_lor_ne_zero_left _ _ _
          (land_lor_ne_zero_right _ _ _ hc))))))

theorem exampleScaling_update_ok (dim : Nat) (s : ℚ) (cell : Cell dim dim)
    (ha : cell.is_active = true) (data : InternalData dim dim) :
    ∃ data2, (exampleScalingMapping dim s).update_internal_dofs cell data = Except.ok data2 :=
  ⟨_, update_internal_dofs_active (exampleScalingMapping dim s) cell data rfl ha
    (by simp [exampleScalingMapping])⟩

theorem exampleScaling_cell_dof_values (dim : Nat) (s : ℚ) (cell : Cell dim dim)
    (hdofs : cell.dof_indices = List.range (2 ^ dim * dim)) (i : Nat)
    (hi : i < 2 ^ dim * dim) :
    ((exampleScalingMapping dim s).cell_dof_values cell).getD i 0
      = if (i / dim).testBit (i % dim) then s else 0 := by
  unfold MappingFEField.cell_dof_values
  have hn : (exampleScalingMapping dim s).fe.n_dofs_per_cell = 2 ^ dim * dim := rfl
  have hr : (List.range (2 ^ dim * dim)).getD i 0 = i := by
    rw [List.getD_eq_getElem _ _ (by simp [hi]), List.getElem_range]
  have hv : (exampleScalingMapping dim s).euler_vector.getD 0 []
      = (List.range (2 ^ dim * dim)).map
          (fun i => if (i / dim).testBit (i % dim) then s else 0) := rfl
  rw [hn, assign_each_getD _ _ _ _ _ hi (by simp [hi])]
  simp only [show (exampleScalingMapping dim s).uses_level_dofs = false from rfl,
    Bool.false_eq_true, if_false]
  rw [hv, hdofs, hr, List.getD_eq_getElem?_getD, List.getElem?_map, List.getElem?_range hi]
  rfl

/-- The sum over the shape functions of one component, for a list of them. -/
theorem exampleScaling_row_sum (dim : Nat) (s : ℚ) (cell : Cell dim dim)
    (hdofs : cell.dof_indices = List.range (2 ^ dim * dim)) (x : Point dim) (l : List Nat)
    (hl : ∀ i ∈ l, i < 2 ^ dim * dim) :
    (l.map (fun i => ((exampleScalingMapping dim s).cell_dof_values cell).getD i 0 •
          (exampleScalingMapping dim s).fe.shape_grad i x)).sum
      = (l.map (fun i => (if (i / dim).testBit (i % dim) then s else 0) •
          (fun j : Fin dim => exampleQ1_derivative (i / dim) x [j]))).sum := by
  congr 1
  apply List.map_congr_left
  intro i hi
  rw [exampleScaling_cell_dof_values dim s cell hdofs i (hl i hi)]
  rfl

theorem exampleScaling_component_dofs (dim : Nat) (s : ℚ) :
    (exampleScalingMapping dim s).component_dofs = (exampleScalingMapping dim 0).component_dofs :=
  rfl

theorem exampleScaling_row_two (s : ℚ) (cell : Cell 2 2)
    (hdofs : cell.dof_indices = List.range (2 ^ 2 * 2)) (x : Point 2) (d : Fin 2) :
    (((exampleScalingMapping 2 s).component_dofs.get d).map
        (fun i => ((exampleScalingMapping 2 s).cell_dof_values cell).getD i 0 •
          (exampleScalingMapping 2 s).fe.shape_grad i x)).sum
      = (s • (1 : Matrix (Fin 2) (Fin 2) ℚ)) d := by
  rw [exampleScaling_row_sum 2 s cell hdofs x _
    (by rw [exampleScaling_component_dofs]; revert d; decide)]
  have h0 : (exampleScalingMapping 2 s).component_dofs.get 0 = [0, 2, 4, 6] := rfl
  have h1 : (exampleScalingMapping 2 s).component_dofs.get 1 = [1, 3, 5, 7] := rfl
  fin_cases d
  · rw [show ((⟨0, by decide⟩ : Fin 2) : Nat) = 0 from rfl, h0]
    funext j
    fin_cases j <;>
      (simp +decide [exampleQ1_derivative, Fin.prod_univ_two, Matrix.one_apply]; try ring)
  · rw [show ((⟨1, by decide⟩ : Fin 2) : Nat) = 1 from rfl, h1]
    funext j
    fin_cases j <;>
      (simp +decide [exampleQ1_derivative, Fin.prod_univ_two, Matrix.one_apply]; try ring)

theorem exampleScaling_row_three (s : ℚ) (cell : Cell 3 3)
    (hdofs : cell.dof_indices = List.range (2 ^ 3 * 3)) (x : Point 3) (d : Fin 3) :
    (((exampleScalingMapping 3 s).component_dofs.get d).map
        (fun i => ((exampleScalingMapping 3 s).cell_dof_values cell).getD i 0 •
          (exampleScalingMapping 3 s).fe.shape_grad i x)).sum
      = (s • (1 : Matrix (Fin 3) (Fin 3) ℚ)) d := by
  rw [exampleScaling_row_sum 3 s cell hdofs x _
    (by rw [exampleScaling_component_dofs]; revert d; decide)]
  have h0 : (exampleScalingMapping 3 s).component_dofs.get 0
      = [0, 3, 6, 9, 12, 15, 18, 21] := rfl
  have h1 : (exampleScalingMapping 3 s).component_dofs.get 1
      = [1, 4, 7, 10, 13, 16, 19, 22] := rfl
  have h2 : (exampleScalingMapping 3 s).component_dofs.get 2
      = [2, 5, 8, 11, 14, 17, 20, 23] := rfl
  fin_cases d
  · rw [show ((⟨0, by decide⟩ : Fin 3) : Nat) = 0 from rfl, h0]
    funext j
    fin_cases j <;>
      (simp +decide [exampleQ1_derivative, Fin.prod_univ_three, Matrix.one_apply]; try ring)
  · rw [show ((⟨1, by decide⟩ : Fin 3) : Nat) = 1 from rfl, h1]
    funext j
    fin_cases j <;>
      (simp +decide [exampleQ1_derivative, Fin.prod_univ_three, Matrix.one_apply]; try ring)
  · rw [show ((⟨2, by decide⟩ : Fin 3) : Nat) = 2 from rfl, h2]
    funext j
    fin_cases j <;>
      (simp +decide [exampleQ1_derivative, Fin.prod_univ_three, Matrix.one_apply]; try ring)
theorem determinant_square {n : Nat} (sqrt : ℚ → ℚ) (J : DerivativeForm1 n n) :
    determinant sqrt J = J.det := by
  unfold determinant
  rw [dif_pos rfl]
  rfl

theorem determinant_codim {dim spacedim : Nat} (sqrt : ℚ → ℚ) (J : DerivativeForm1 dim spacedim)
    (h : dim ≠ spacedim) : determinant sqrt J = sqrt (J.transpose * J).det := by
  unfold determinant
  rw [dif_neg h]

/-- The sizes of the Jacobian tables of the cache of a cell. -/
theorem cell_cache_lengths {dim spacedim : Nat} (F : UpdateFlagValues)
    (m : MappingFEField dim spacedim) (cell : Cell dim spacedim) (update_flags : Nat)
    (quadrature : Quadrature dim) (data : InternalData dim spacedim)
    (h : m.update_internal_dofs cell (m.get_data F update_flags quadrature) = Except.ok data) :
    data.update_each = requires_update_flags F update_flags ∧
    data.quadrature_weights = quadrature.weights ∧
    (requires_update_flags F update_flags &&& F.update_contravariant_transformation ≠ 0 →
      data.contravariant.length = quadrature.size) ∧
    (requires_update_flags F update_flags &&& F.update_covariant_transformation ≠ 0 →
      data.covariant.length = quadrature.size) ∧
    (requires_update_flags F update_flags &&& F.update_volume_elements ≠ 0 →
      data.volume_elements.length = quadrature.size) := by
  have he := update_internal_dofs_eq m cell _ data h
  refine ⟨by rw [he]; rfl, by rw [he]; rfl, fun hc => ?_, fun hc => ?_, fun hc => ?_⟩
  · rw [he]
    show ((InternalData.init spacedim m.fe m.fe_mask).reinit F
      (requires_update_flags F update_flags) quadrature).contravariant.length = _
    rw [reinit_contravariant, if_pos hc, resize_length]
  · rw [he]
    show ((InternalData.init spacedim m.fe m.fe_mask).reinit F
      (requires_update_flags F update_flags) quadrature).covariant.length = _
    rw [reinit_covariant, if_pos hc, resize_length]
  · rw [he]
    show ((InternalData.init spacedim m.fe m.fe_mask).reinit F
      (requires_update_flags F update_flags) quadrature).volume_elements.length = _
    rw [reinit_volume_elements, if_pos hc, resize_length]

/-- The volume element written by `maybe_update_Jacobians` is the determinant of the
contravariant matrix it wrote. -/
theorem maybe_update_Jacobians_volume_element {dim spacedim : Nat} (F : UpdateFlagValues)
    (sqrt : ℚ → ℚ) (data_set : Nat) (data : InternalData dim spacedim)
    (component_dofs : ComponentDoFs) (q : Nat)
    (hv : data.update_each &&& F.update_volume_elements ≠ 0)
    (hq : q < data.contravariant.length) (hq2 : q < data.volume_elements.length) :
    (maybe_update_Jacobians F sqrt data_set data component_dofs).volume_elements.getD q 0 =
      determinant sqrt
        ((maybe_update_Jacobians F sqrt data_set data component_dofs).contravariant.getD q 0) := by
  rw [maybe_update_Jacobians_volume_elements, if_pos hv,
    assign_each_getD _ _ _ _ _ (by rw [maybe_update_Jacobians_contravariant_length]; exact hq)
      hq2]

/-- The contravariant matrices of the uniformly scaled unit square and cube. -/
theorem exampleScaling_jacobians (F : UpdateFlagValues) (sqrt : ℚ → ℚ) (dim : Nat)
    (hdim : dim = 2 ∨ dim = 3) (s : ℚ) (cell : Cell dim dim) (ha : cell.is_active = true)
    (hdofs : cell.dof_indices = List.range (2 ^ dim * dim)) (update_flags : Nat)
    (quadrature : Quadrature dim)
    (hc : requires_update_flags F update_flags &&& F.update_contravariant_transformation ≠ 0) :
    ∃ data, (exampleScalingMapping dim s).update_internal_dofs cell
        ((exampleScalingMapping dim s).get_data F update_flags quadrature) = Except.ok data ∧
      ∀ q, q < quadrature.size →
        (maybe_update_Jacobians F sqrt 0 data
            (exampleScalingMapping dim s).component_dofs).contravariant.getD q 0
          = s • (1 : Matrix (Fin dim) (Fin dim) ℚ) := by
  obtain ⟨data, h⟩ := exampleScaling_update_ok dim s cell ha
    ((exampleScalingMapping dim s).get_data F update_flags quadrature)
  refine ⟨data, h, fun q hq => ?_⟩
  have hcd : ∀ d : Fin dim, ∀ i ∈ (exampleScalingMapping dim s).component_dofs.get d,
      i < (exampleScalingMapping dim s).fe.n_dofs_per_cell := by
    rcases hdim with rfl | rfl
    · show ∀ d : Fin 2, ∀ i ∈ (exampleScalingMapping 2 0).component_dofs.get d, i < 2 ^ 2 * 2
      decide
    · show ∀ d : Fin 3, ∀ i ∈ (exampleScalingMapping 3 0).component_dofs.get d, i < 2 ^ 3 * 3
      decide
  funext d
  rw [cell_contravariant_row F sqrt _ cell update_flags quadrature data h hc hcd q hq d]
  rcases hdim with rfl | rfl
  · exact exampleScaling_row_two s cell hdofs _ d
  · exact exampleScaling_row_three s cell hdofs _ d

/-- The volume elements of a cell whose contravariant matrices are `s • 1`. -/
theorem scaled_volume_element {dim : Nat} (F : UpdateFlagValues) (sqrt : ℚ → ℚ)
    (m : MappingFEField dim dim) (cell : Cell dim dim) (update_flags : Nat)
    (quadrature : Quadrature dim) (data : InternalData dim dim) (s : ℚ)
    (h : m.update_internal_dofs cell (m.get_data F update_flags quadrature) = Except.ok data)
    (hc : requires_update_flags F update_flags &&& F.update_contravariant_transformation ≠ 0)
    (hv : requires_update_flags F update_flags &&& F.update_volume_elements ≠ 0)
    (q : Nat) (hq : q < quadrature.size)
    (hJ : (maybe_update_Jacobians F sqrt 0 data m.component_dofs).contravariant.getD q 0
      = s • (1 : Matrix (Fin dim) (Fin dim) ℚ)) :
    (maybe_update_Jacobians F sqrt 0 data m.component_dofs).volume_elements.getD q 0
      = s ^ dim := by
  obtain ⟨hue, -, hcl, -, hvl⟩ := cell_cache_lengths F m cell update_flags quadrature data h
  rw [maybe_update_Jacobians_volume_element F sqrt 0 data _ q (by rw [hue]; exact hv)
    (by rw [hcl hc]; exact hq) (by rw [hvl hv]; exact hq), hJ, determinant_square,
    Matrix.det_smul, Matrix.det_one, mul_one, Fintype.card_fin]

/-- C12: for the degree-1 interpolant of the uniform scaling `x ↦ s * x` of the unit
square (`dim = 2`) or cube (`dim = 3`), on an active cell and for every quadrature
rule, `update_internal_dofs` succeeds and at every quadrature point the contravariant
matrix computed by `maybe_update_Jacobians` is `s • 1` and the volume element is
`s ^ dim`. -/
theorem jacobian_of_uniform_scaling (F : UpdateFlagValues) (sqrt : ℚ → ℚ) (dim : Nat)
    (hdim : dim = 2 ∨ dim = 3) (s : ℚ) (cell : Cell dim dim) (ha : cell.is_active = true)
    (hdofs : cell.dof_indices = List.range (2 ^ dim * dim)) (update_flags : Nat)
    (quadrature : Quadrature dim)
    (hc : requires_update_flags F update_flags &&& F.update_contravariant_transformation ≠ 0)
    (hv : requires_update_flags F update_flags &&& F.update_volume_elements ≠ 0) :
    ∃ data, (exampleScalingMapping dim s).update_internal_dofs cell
        ((exampleScalingMapping dim s).get_data F update_flags quadrature) = Except.ok data ∧
      ∀ q, q < quadrature.size →
        (maybe_update_Jacobians F sqrt 0 data
            (exampleScalingMapping dim s).component_dofs).contravariant.getD q 0
          = s • (1 : Matrix (Fin dim) (Fin dim) ℚ) ∧
        (maybe_update_Jacobians F sqrt 0 data
            (exampleScalingMapping dim s).component_dofs).volume_elements.getD q 0
          = s ^ dim := by
  obtain ⟨data, h, hJ⟩ := exampleScaling_jacobians F sqrt dim hdim s cell ha hdofs update_flags
    quadrature hc
  exact ⟨data, h, fun q hq => ⟨hJ q hq,
    scaled_volume_element F sqrt _ cell update_flags quadrature data s h hc hv q hq (hJ q hq)⟩⟩

/-- Witness of C12: the unit square scaled by `2`, with the one-point rule at the
centre of the reference cell. -/
theorem jacobian_of_uniform_scaling_witness :
    exampleSquareCell.is_active = true ∧
    exampleSquareCell.dof_indices = List.range (2 ^ 2 * 2) ∧
    requires_update_flags dealiiFlags dealiiFlags.update_JxW_values
      &&& dealiiFlags.update_contravariant_transformation ≠ 0 ∧
    requires_update_flags dealiiFlags dealiiFlags.update_JxW_values
      &&& dealiiFlags.update_volume_elements ≠ 0 ∧
    ∃ data, (exampleScalingMapping 2 2).update_internal_dofs exampleSquareCell
        ((exampleScalingMapping 2 2).get_data dealiiFlags dealiiFlags.update_JxW_values
          (Quadrature.of_point (fun _ => 1 / 2))) = Except.ok data ∧
      (maybe_update_Jacobians dealiiFlags id 0 data
          (exampleScalingMapping 2 2).component_dofs).contravariant.getD 0 0
        = (2 : ℚ) • (1 : Matrix (Fin 2) (Fin 2) ℚ) ∧
      (maybe_update_Jacobians dealiiFlags id 0 data
          (exampleScalingMapping 2 2).component_dofs).volume_elements.getD 0 0 = 2 ^ 2 := by
  obtain ⟨data, h, hq⟩ := jacobian_of_uniform_scaling dealiiFlags id 2 (Or.inl rfl) 2
    exampleSquareCell rfl rfl dealiiFlags.update_JxW_values
    (Quadrature.of_point (fun _ => 1 / 2)) (by decide) (by decide)
  exact ⟨rfl, rfl, by decide, by decide, data, h, hq 0 (by decide)⟩

/-- C13: on a cache with `dim == spacedim` whose contravariant matrices are `s • 1`
and whose volume elements are `s ^ dim` at the points of the output, `s ≠ 0`, the
transform with kind `mapping_piola` succeeds and maps the constant reference vector
`v` to `v / s ^ (dim - 1)` at every point. -/
theorem piola_scaling {dim : Nat} (F : UpdateFlagValues) (s : ℚ) (hs : s ≠ 0)
    (v : Tensor1 dim) (u : List (Tensor1 dim)) (data : InternalData dim dim)
    (output : List (Tensor1 dim))
    (hc : data.update_each &&& F.update_contravariant_transformation ≠ 0)
    (hv : data.update_each &&& F.update_volume_elements ≠ 0)
    (hu : ∀ i, i < output.length → u.getD i 0 = v)
    (hJ : ∀ i, i < output.length →
      data.contravariant.getD i 0 = s • (1 : Matrix (Fin dim) (Fin dim) ℚ))
    (hvol : ∀ i, i < output.length → data.volume_elements.getD i 0 = s ^ dim) :
    ∃ out, MappingFEField.transform_Tensor1 F u .mapping_piola data output = .ok out ∧
      out.length = output.length ∧
      ∀ i, i < output.length → ∀ k, out.getD i 0 k = v k / s ^ (dim - 1) := by
  refine ⟨_, transform_fields_mapping_piola F u data output hc hv, assign_each_length _ _ _, ?_⟩
  intro i hi k
  rw [assign_each_getD _ _ _ _ _ hi hi, hu i hi, hJ i hi, hvol i hi]
  have hdim : dim = (dim - 1) + 1 := by
    have := k.isLt
    omega
  have h1 : apply_transformation (s • (1 : Matrix (Fin dim) (Fin dim) ℚ)) v k = s * v k := by
    unfold apply_transformation
    rw [Matrix.smul_mulVec_assoc, Matrix.one_mulVec]
    rfl
  have h2 : s ^ dim = s ^ (dim - 1) * s := by
    rw [← pow_succ, ← hdim]
  rw [h1, h2]
  have h3 : s ^ (dim - 1) ≠ 0 := pow_ne_zero _ hs
  field_simp
  ring

/-- Witness of C13: on the unit square scaled by `2` the Piola transform halves the
reference vector `(1, 3)`. -/
theorem piola_scaling_witness :
    ∃ data, (exampleScalingMapping 2 2).update_internal_dofs exampleSquareCell
        ((exampleScalingMapping 2 2).get_data dealiiFlags dealiiFlags.update_JxW_values
          (Quadrature.of_point (fun _ => 1 / 2))) = Except.ok data ∧
      ∃ out, MappingFEField.transform_Tensor1 dealiiFlags [![1, 3]] .mapping_piola
          (maybe_update_Jacobians dealiiFlags id 0 data
            (exampleScalingMapping 2 2).component_dofs) [0] = .ok out ∧
        out.length = 1 ∧ ∀ k, out.getD 0 0 k = ![1, 3] k / 2 ^ (2 - 1) := by
  obtain ⟨data, h, hq⟩ := exampleScaling_jacobians dealiiFlags id 2 (Or.inl rfl) 2
    exampleSquareCell rfl rfl dealiiFlags.update_JxW_values
    (Quadrature.of_point (fun _ => 1 / 2)) (by decide)
  have hvol := scaled_volume_element dealiiFlags id _ exampleSquareCell
    dealiiFlags.update_JxW_values (Quadrature.of_point (fun _ => 1 / 2)) data 2 h (by decide)
    (by decide) 0 (by decide) (hq 0 (by decide))
  have hue := (cell_cache_lengths dealiiFlags _ exampleSquareCell _ _ data h).1
  have hi : ∀ i, i < [(0 : Tensor1 2)].length → i = 0 := by
    intro i hi
    simpa using hi
  obtain ⟨out, h1, h2, h3⟩ := piola_scaling dealiiFlags 2 (by norm_num) ![1, 3] [![1, 3]]
    (maybe_update_Jacobians dealiiFlags id 0 data (exampleScalingMapping 2 2).component_dofs)
    [0]
    (by rw [maybe_update_Jacobians_update_each, hue]; decide)
    (by rw [maybe_update_Jacobians_update_each, hue]; decide)
    (fun i hi2 => by rw [hi i hi2]; rfl)
    (fun i hi2 => by rw [hi i hi2]; exact hq 0 (by decide))
    (fun i hi2 => by rw [hi i hi2]; exact hvol)
  exact ⟨data, h, out, h1, h2, h3 0 (by decide)⟩

/-! ## The volume-scaled weights of a cell -/

/-- A requested flag is in the resolved flags. -/
theorem requires_update_flags_of_request (F : UpdateFlagValues) (x a : Nat)
    (h : x &&& a ≠ 0) : requires_update_flags F x &&& a ≠ 0 := by
  obtain ⟨i, hi⟩ := Nat.ne_zero_implies_bit_true h
  rw [Nat.testBit_land, Bool.and_eq_true] at hi
  intro h0
  have h2 : (requires_update_flags F x).testBit i = true :=
    pass_iterate_testBit_le F i 5 x hi.1
  have h1 : (requires_update_flags F x &&& a).testBit i = true := by
    rw [Nat.testBit_land, h2, hi.2]
    rfl
  rw [h0, Nat.zero_testBit] at h1
  exact absurd h1 (by simp)

/-- With `JxW` values or normal vectors in the resolved flags, the boundary forms,
the contravariant transformation and the volume elements are in them as well. -/
theorem requires_update_flags_of_JxW (F : UpdateFlagValues) (x : Nat)
    (hbf : F.update_boundary_forms ≠ 0) (hct : F.update_contravariant_transformation ≠ 0)
    (hvol : F.update_volume_elements ≠ 0)
    (h : requires_update_flags F x &&& (F.update_JxW_values ||| F.update_normal_vectors) ≠ 0) :
    requires_update_flags F x &&& F.update_boundary_forms ≠ 0 ∧
    requires_update_flags F x &&& F.update_contravariant_transformation ≠ 0 ∧
    requires_update_flags F x &&& F.update_volume_elements ≠ 0 := by
  obtain ⟨h1, h2, -, h4, -⟩ :=
    pass_fixed_each F (requires_update_flags F x) (pass_requires_update_flags F x)
  have e1 := or_if_fixed_contains _ _ _ h1 h
  have n1 : requires_update_flags F x &&& F.update_boundary_forms ≠ 0 := by
    rw [e1]; exact hbf
  have e2 := or_if_fixed_contains _ _ _ h2
    (land_lor_ne_zero_left _ _ _ (land_lor_ne_zero_right _ _ _ n1))
  have n2 : requires_update_flags F x &&& F.update_contravariant_transformation ≠ 0 := by
    rw [e2]; exact hct
  have e4 := or_if_fixed_contains _ _ _ h4 n2
  exact ⟨n1, n2, by rw [e4]; exact hvol⟩

theorem for_loop_e_zero {σ : Type} (body : Nat → σ → Except Exc σ) (s : σ) :
    for_loop_e 0 body s = .ok s := rfl

theorem for_loop_e_succ {σ : Type} (n : Nat) (body : Nat → σ → Except Exc σ) (s : σ) :
    for_loop_e (n + 1) body s =
      match for_loop_e n body s with
      | .error e => .error e
      | .ok t => body n t := rfl

/-- A loop whose body raises at no index below `n` is the loop of the results. -/
theorem for_loop_e_ok {σ : Type} (n : Nat) (body : Nat → σ → Except Exc σ)
    (g : Nat → σ → σ) (s : σ) (h : ∀ i, i < n → ∀ t, body i t = .ok (g i t)) :
    for_loop_e n body s = .ok (for_loop n g s) := by
  induction n with
  | zero => rfl
  | succ n ih =>
    rw [for_loop_e_succ, ih (fun i hi t => h i (by omega) t), for_loop_succ]
    exact h n (by omega) _

/-- The first component of a loop on pairs whose body acts on it alone. -/
theorem for_loop_fst {α β : Type} (n : Nat) (g : Nat → α × β → α × β) (f : Nat → α → α)
    (s : α × β) (h : ∀ i t, (g i t).1 = f i t.1) :
    (for_loop n g s).1 = for_loop n f s.1 := by
  induction n with
  | zero => rfl
  | succ n ih => rw [for_loop_succ, for_loop_succ, h, ih]

/-- The first fundamental form of lines 1520-1523 is `Jᵀ J`. -/
theorem first_fundamental_form_eq {dim spacedim : Nat} (J : DerivativeForm1 dim spacedim) :
    (fun i j : Fin dim => scalar_product (DX_t J i) (DX_t J j)) = J.transpose * J := by
  funext i j
  simp [scalar_product, DX_t, Matrix.mul_apply, Matrix.transpose_apply]

theorem for_loop_pair_set {α β : Type} (n : Nat) (a : Nat → α) (x : List α) (y : β) :
    for_loop n (fun point (out : List α × β) => (out.1.set point (a point), out.2)) (x, y)
      = (assign_each n a x, y) := by
  unfold assign_each
  induction n with
  | zero => rfl
  | succ n ih => rw [for_loop_succ, for_loop_succ, ih]

/-- The loop of `fill_fe_values` for `dim == spacedim`, when no determinant is at or
below the tolerance. -/
theorem fill_fe_values_JxW_square {dim spacedim : Nat} (F : UpdateFlagValues) (sqrt : ℚ → ℚ)
    (cell : Cell dim spacedim) (n_q_points : Nat) (weights : List ℚ)
    (data : InternalData dim spacedim) (JxW_values : List ℚ)
    (normal_vectors : List (Tensor1 spacedim)) (hd : dim = spacedim)
    (hf : data.update_each &&& (F.update_normal_vectors ||| F.update_JxW_values) ≠ 0)
    (hdet : ∀ point, point < n_q_points →
      data.volume_elements.getD point 0 > 1e-12 * (cell.diameter / sqrt (dim : ℚ)) ^ dim) :
    fill_fe_values_JxW F sqrt cell n_q_points weights data JxW_values normal_vectors
      = .ok (assign_each n_q_points
          (fun point => weights.getD point 0 * data.volume_elements.getD point 0) JxW_values,
        normal_vectors) := by
  unfold fill_fe_values_JxW
  simp only []
  rw [if_pos hf, for_loop_e_ok n_q_points _
    (fun point out =>
      (out.1.set point (weights.getD point 0 * data.volume_elements.getD point 0), out.2)),
    for_loop_pair_set]
  intro i hi t
  rw [if_pos hd, if_neg (not_not.mpr (hdet i hi))]

theorem for_loop_e_pure {σ : Type} (n : Nat) (g : Nat → σ → σ) (s : σ) :
    for_loop_e n (fun i t => .ok (g i t)) s = .ok (for_loop n g s) :=
  for_loop_e_ok n _ g s (fun _ _ _ => rfl)

/-- The loop of `fill_fe_values` for `dim != spacedim`: it does not raise, and it
writes `sqrt(det(Jᵀ J)) * weight` at every point. -/
theorem fill_fe_values_JxW_codim {dim spacedim : Nat} (F : UpdateFlagValues) (sqrt : ℚ → ℚ)
    (cell : Cell dim spacedim) (n_q_points : Nat) (weights : List ℚ)
    (data : InternalData dim spacedim) (JxW_values : List ℚ)
    (normal_vectors : List (Tensor1 spacedim)) (hd : dim ≠ spacedim)
    (hf : data.update_each &&& (F.update_normal_vectors ||| F.update_JxW_values) ≠ 0) :
    ∃ out,
      fill_fe_values_JxW F sqrt cell n_q_points weights data JxW_values normal_vectors
        = .ok out ∧
      out.1 = assign_each n_q_points
        (fun point => sqrt ((data.contravariant.getD point 0).transpose
          * data.contravariant.getD point 0).det * weights.getD point 0) JxW_values := by
  unfold fill_fe_values_JxW
  simp only []
  rw [if_pos hf]
  by_cases hn : data.update_each &&& F.update_normal_vectors ≠ 0
  · simp only [if_neg hd, if_pos hn, first_fundamental_form_eq]
    rw [for_loop_e_pure]
    refine ⟨_, rfl, ?_⟩
    rw [for_loop_fst n_q_points _
      (fun point (out : List ℚ) => out.set point
        (sqrt ((data.contravariant.getD point 0).transpose
          * data.contravariant.getD point 0).det * weights.getD point 0)) _
      (fun i t => rfl)]
    rfl
  · simp only [if_neg hd, if_neg hn, first_fundamental_form_eq]
    rw [for_loop_e_pure, for_loop_pair_set]
    exact ⟨_, rfl, rfl⟩

/-- C11: in `fill_fe_values` with `JxW` values requested (the flags of the cache are
those `get_data` resolves from the request), on a cell whose coefficients
`update_internal_dofs` loads and, for `dim == spacedim`, whose determinants are above
the distortion tolerance, the call succeeds and for every quadrature point `q`:
`JxW_values[q] = weights[q] * det(contravariant[q])` when `dim == spacedim`, and
`JxW_values[q] = weights[q] * sqrt(det(Jᵀ J))` with `J = contravariant[q]` when
`dim != spacedim`; `contravariant` is the table `maybe_update_Jacobians` computed. -/
theorem fill_fe_values_JxW_spec {dim spacedim : Nat} (F : UpdateFlagValues) (sqrt : ℚ → ℚ)
    (m : MappingFEField dim spacedim) (cell : Cell dim spacedim) (update_flags : Nat)
    (quadrature : Quadrature dim) (output_data : MappingRelatedData dim spacedim)
    (data : InternalData dim spacedim)
    (hbf : F.update_boundary_forms ≠ 0) (hct : F.update_contravariant_transformation ≠ 0)
    (hvol : F.update_volume_elements ≠ 0)
    (hreq : update_flags &&& F.update_JxW_values ≠ 0)
    (h : m.update_internal_dofs cell (m.get_data F update_flags quadrature) = Except.ok data)
    (hlen : output_data.JxW_values.length = quadrature.size)
    (hdet : dim = spacedim → ∀ q, q < quadrature.size →
      determinant sqrt
          ((maybe_update_Jacobians F sqrt 0 data m.component_dofs).contravariant.getD q 0)
        > 1e-12 * (cell.diameter / sqrt (dim : ℚ)) ^ dim) :
    ∃ out, m.fill_fe_values F sqrt cell quadrature (m.get_data F update_flags quadrature)
          output_data
        = Except.ok (maybe_update_Jacobians F sqrt 0 data m.component_dofs, out) ∧
      out.JxW_values.length = quadrature.size ∧
      ∀ q, q < quadrature.size →
        (∀ hd : dim = spacedim, out.JxW_values.getD q 0 = quadrature.weights.getD q 0 *
          (((maybe_update_Jacobians F sqrt 0 data m.component_dofs).contravariant.getD q
            0).submatrix (Fin.cast hd) id).det) ∧
        (dim ≠ spacedim → out.JxW_values.getD q 0 = quadrature.weights.getD q 0 *
          sqrt (((maybe_update_Jacobians F sqrt 0 data m.component_dofs).contravariant.getD q
              0).transpose *
            (maybe_update_Jacobians F sqrt 0 data m.component_dofs).contravariant.getD q
              0).det) := by
  obtain ⟨hue, -, hcl, -, hvl⟩ := cell_cache_lengths F m cell update_flags quadrature data h
  have hJ : requires_update_flags F update_flags
      &&& (F.update_JxW_values ||| F.update_normal_vectors) ≠ 0 :=
    land_lor_ne_zero_left _ _ _ (requires_update_flags_of_request F _ _ hreq)
  obtain ⟨-, hc, hv⟩ := requires_update_flags_of_JxW F update_flags hbf hct hvol hJ
  have hf : (maybe_update_Jacobians F sqrt 0 data m.component_dofs).update_each
      &&& (F.update_normal_vectors ||| F.update_JxW_values) ≠ 0 := by
    rw [maybe_update_Jacobians_update_each, hue, Nat.lor_comm]
    exact hJ
  have hvq : ∀ q, q < quadrature.size →
      (maybe_update_Jacobians F sqrt 0 data m.component_dofs).volume_elements.getD q 0
        = determinant sqrt
          ((maybe_update_Jacobians F sqrt 0 data m.component_dofs).contravariant.getD q 0) :=
    fun q hq => maybe_update_Jacobians_volume_element F sqrt 0 data _ q (by rw [hue]; exact hv)
      (by rw [hcl hc]; exact hq) (by rw [hvl hv]; exact hq)
  unfold MappingFEField.fill_fe_values
  simp only [h]
  by_cases hd : dim = spacedim
  · rw [fill_fe_values_JxW_square F sqrt cell quadrature.size quadrature.weights _ _ _ hd hf
      (fun q hq => by rw [hvq q hq]; exact hdet hd q hq)]
    refine ⟨_, rfl, ?_, fun q hq => ⟨fun hd2 => ?_, fun hne => absurd hd hne⟩⟩
    · simp only [assign_each_length, hlen]
    · simp only []
      rw [assign_each_getD _ _ _ _ _ hq (by rw [hlen]; exact hq), hvq q hq]
      unfold determinant
      rw [dif_pos hd2]
  · obtain ⟨o, ho, ho1⟩ := fill_fe_values_JxW_codim F sqrt cell quadrature.size
      quadrature.weights (maybe_update_Jacobians F sqrt 0 data m.component_dofs)
      output_data.JxW_values output_data.normal_vectors hd hf
    rw [ho]
    refine ⟨_, rfl, ?_, fun q hq => ⟨fun hd2 => absurd hd2 hd, fun _ => ?_⟩⟩
    · simp only [ho1, assign_each_length, hlen]
    · simp only [ho1]
      rw [assign_each_getD _ _ _ _ _ hq (by rw [hlen]; exact hq), mul_comm]

/-- Witness of C11: on the unit square scaled by `2`, with the one-point rule of
weight `1`, the volume-scaled weight is `4`. -/
theorem fill_fe_values_JxW_spec_witness :
    ∃ data out, (exampleScalingMapping 2 2).update_internal_dofs exampleSquareCell
        ((exampleScalingMapping 2 2).get_data dealiiFlags dealiiFlags.update_JxW_values
          (Quadrature.of_point (fun _ => 1 / 2))) = Except.ok data ∧
      (exampleScalingMapping 2 2).fill_fe_values dealiiFlags id exampleSquareCell
          (Quadrature.of_point (fun _ => 1 / 2))
          ((exampleScalingMapping 2 2).get_data dealiiFlags dealiiFlags.update_JxW_values
            (Quadrature.of_point (fun _ => 1 / 2))) exampleSquareOutput
        = Except.ok (maybe_update_Jacobians dealiiFlags id 0 data
            (exampleScalingMapping 2 2).component_dofs, out) ∧
      out.JxW_values.getD 0 0 = 4 := by
  obtain ⟨data, h, hq⟩ := exampleScaling_jacobians dealiiFlags id 2 (Or.inl rfl) 2
    exampleSquareCell rfl rfl dealiiFlags.update_JxW_values
    (Quadrature.of_point (fun _ => 1 / 2)) (by decide)
  have hq0 := hq 0 (by decide)
  obtain ⟨out, h1, -, h3⟩ := fill_fe_values_JxW_spec dealiiFlags id (exampleScalingMapping 2 2)
    exampleSquareCell dealiiFlags.update_JxW_values (Quadrature.of_point (fun _ => 1 / 2))
    exampleSquareOutput data (by decide) (by decide) (by decide) (by decide) h rfl
    (fun _ q hq2 => by
      have hq3 : q = 0 := by simpa [Quadrature.size, Quadrature.of_point] using hq2
      subst hq3
      rw [hq0, determinant_square, Matrix.det_smul, Matrix.det_one]
      norm_num [exampleSquareCell])
  refine ⟨data, out, h, h1, ?_⟩
  rw [(h3 0 (by decide)).1 rfl, hq0]
  have hs : ((2 : ℚ) • (1 : Matrix (Fin 2) (Fin 2) ℚ)).submatrix (Fin.cast rfl) id
      = (2 : ℚ) • (1 : Matrix (Fin 2) (Fin 2) ℚ) := rfl
  rw [hs, Matrix.det_smul, Matrix.det_one]
  norm_num [Quadrature.of_point]

/-! ## Face data -/

/-- The second component of a loop on pairs whose body acts on it alone. -/
theorem for_loop_snd {α β : Type} (n : Nat) (g : Nat → α × β → α × β) (f : Nat → β → β)
    (s : α × β) (h : ∀ i t, (g i t).2 = f i t.2) :
    (for_loop n g s).2 = for_loop n f s.2 := by
  induction n with
  | zero => rfl
  | succ n ih => rw [for_loop_succ, for_loop_succ, h, ih]

/-- The volume-scaled weight `maybe_compute_face_data` writes at a point of the
face. -/
theorem maybe_compute_face_data_JxW_fst {dim spacedim : Nat} (F : UpdateFlagValues)
    (sqrt : ℚ → ℚ) (cell : Cell dim spacedim) (face_no subface_no data_set : Nat)
    (data : InternalData dim spacedim) (boundary_forms : List (Tensor1 spacedim))
    (JxW_values : List ℚ) (normal_vectors : List (Tensor1 spacedim)) (i : Nat)
    (hf : data.update_each &&& F.update_JxW_values ≠ 0)
    (hi : i < boundary_forms.length) (hi2 : i < JxW_values.length) :
    (maybe_compute_face_data_JxW F sqrt cell face_no subface_no data_set data boundary_forms
        JxW_values normal_vectors).1.getD i 0
      = if subface_no ≠ invalid_unsigned_int then
          norm sqrt (boundary_forms.getD i 0) * data.quadrature_weights.getD (i + data_set) 0
            * cell.subface_ratio face_no subface_no
        else
          norm sqrt (boundary_forms.getD i 0)
            * data.quadrature_weights.getD (i + data_set) 0 := by
  unfold maybe_compute_face_data_JxW
  simp only []
  rw [if_pos (land_lor_ne_zero_right _ _ _ hf),
    for_loop_fst boundary_forms.length _
      (fun i (out : List ℚ) => out.set i
        (if subface_no ≠ invalid_unsigned_int then
          norm sqrt (boundary_forms.getD i 0) * data.quadrature_weights.getD (i + data_set) 0
            * cell.subface_ratio face_no subface_no
        else
          norm sqrt (boundary_forms.getD i 0)
            * data.quadrature_weights.getD (i + data_set) 0)) _
      (fun i t => by simp only [if_pos hf])]
  exact assign_each_getD _ _ _ _ _ hi hi2

/-- The normal vector `maybe_compute_face_data` writes at a point of the face. -/
theorem maybe_compute_face_data_JxW_snd {dim spacedim : Nat} (F : UpdateFlagValues)
    (sqrt : ℚ → ℚ) (cell : Cell dim spacedim) (face_no subface_no data_set : Nat)
    (data : InternalData dim spacedim) (boundary_forms : List (Tensor1 spacedim))
    (JxW_values : List ℚ) (normal_vectors : List (Tensor1 spacedim)) (i : Nat)
    (hf : data.update_each &&& F.update_normal_vectors ≠ 0)
    (hi : i < boundary_forms.length) (hi2 : i < normal_vectors.length) :
    (maybe_compute_face_data_JxW F sqrt cell face_no subface_no data_set data boundary_forms
        JxW_values normal_vectors).2.getD i 0
      = fun k => boundary_forms.getD i 0 k / norm sqrt (boundary_forms.getD i 0) := by
  unfold maybe_compute_face_data_JxW
  simp only []
  rw [if_pos (land_lor_ne_zero_left _ _ _ hf),
    for_loop_snd boundary_forms.length _
      (fun i (out : List (Tensor1 spacedim)) => out.set i
        (fun k => boundary_forms.getD i 0 k / norm sqrt (boundary_forms.getD i 0))) _
      (fun i t => by simp only [if_pos hf])]
  exact assign_each_getD _ _ _ _ _ hi hi2

/-- The parts of a successful run of `maybe_compute_face_data` with boundary
forms requested. -/
theorem maybe_compute_face_data_ok {dim spacedim : Nat} (F : UpdateFlagValues)
    (sqrt : ℚ → ℚ) (cell : Cell dim spacedim) (face_no subface_no data_set : Nat)
    (data data2 : InternalData dim spacedim) (output_data out : MappingRelatedData dim spacedim)
    (hf : data.update_each &&& F.update_boundary_forms ≠ 0)
    (h : maybe_compute_face_data F sqrt cell face_no subface_no data_set data output_data
      = .ok (data2, out)) :
    ∃ aux, maybe_compute_face_data_tangentials F cell face_no data = .ok aux ∧
      data2 = { data with aux := aux } ∧
      maybe_compute_face_data_boundary_forms sqrt face_no data2 output_data.boundary_forms
        = .ok out.boundary_forms ∧
      out.JxW_values = (maybe_compute_face_data_JxW F sqrt cell face_no subface_no data_set
        data2 out.boundary_forms output_data.JxW_values output_data.normal_vectors).1 ∧
      out.normal_vectors = (maybe_compute_face_data_JxW F sqrt cell face_no subface_no
        data_set data2 out.boundary_forms output_data.JxW_values
        output_data.normal_vectors).2 := by
  unfold maybe_compute_face_data at h
  rw [if_pos hf] at h
  cases h1 : maybe_compute_face_data_tangentials F cell face_no data with
  | error e => rw [h1] at h; cases h
  | ok aux =>
    rw [h1] at h
    simp only [] at h
    cases h2 : maybe_compute_face_data_boundary_forms sqrt face_no { data with aux := aux }
        output_data.boundary_forms with
    | error e => rw [h2] at h; cases h
    | ok bf =>
      rw [h2] at h
      simp only [] at h
      injection h with h
      injection h with h3 h4
      subst h3
      subst h4
      exact ⟨aux, rfl, rfl, h2, rfl, rfl⟩

/-- A loop that rewrites entry `d` of a list from its own value at step `d`. -/
theorem for_loop_set_self_getElem? {α : Type} (n : Nat) (f : Nat → α → α) (z : α)
    (l : List α) (d : Nat) :
    (for_loop n (fun d (l : List α) => l.set d (f d (l.getD d z))) l)[d]?
      = if d < n then (l[d]?).map (f d) else l[d]? := by
  induction n with
  | zero => simp [for_loop_zero]
  | succ n ih =>
    rw [for_loop_succ, List.getElem?_set]
    by_cases hdn : n = d
    · subst hdn
      rw [if_pos rfl, if_pos (Nat.lt_succ_self _)]
      have hlen : (for_loop n (fun d (l : List α) => l.set d (f d (l.getD d z))) l).length
          = l.length := by
        clear ih
        induction n with
        | zero => rfl
        | succ m ihm => rw [for_loop_succ, List.length_set, ihm]
      rw [hlen]
      by_cases hl : n < l.length
      · rw [if_pos hl, List.getD_eq_getElem?_getD, ih, if_neg (Nat.lt_irrefl _),
          List.getElem?_eq_getElem hl]
        rfl
      · rw [if_neg hl, List.getElem?_eq_none (by omega)]
        rfl
    · rw [if_neg hdn, ih]
      by_cases h1 : d < n
      · rw [if_pos h1, if_pos (by omega)]
      · rw [if_neg h1, if_neg (by omega)]

theorem for_loop_set_self_getD {α : Type} (n : Nat) (f : Nat → α → α) (z : α)
    (l : List α) (d : Nat) (hd : d < n) (hl : d < l.length) :
    (for_loop n (fun d (l : List α) => l.set d (f d (l.getD d z))) l).getD d z
      = f d (l.getD d z) := by
  rw [List.getD_eq_getElem?_getD, for_loop_set_self_getElem?, if_pos hd,
    List.getElem?_eq_getElem hl, List.getD_eq_getElem _ _ hl]
  rfl

/-- The loop over the tangential directions succeeds when the cache holds the
contravariant transformation, and it writes `aux[d][i] = contravariant[i] · t` for
the unit tangentials `t = unit_tangentials[face_no + n_faces * d][i]`. -/
theorem maybe_compute_face_data_tangentials_eq {dim spacedim : Nat} (F : UpdateFlagValues)
    (cell : Cell dim spacedim) (face_no : Nat) (data : InternalData dim spacedim)
    (hc : data.update_each &&& F.update_contravariant_transformation ≠ 0) :
    maybe_compute_face_data_tangentials F cell face_no data
      = .ok (for_loop (dim - 1) (fun d (aux : List (List (Tensor1 spacedim))) =>
          aux.set d ((fun d (aux_d : List (Tensor1 spacedim)) =>
            assign_each aux_d.length (fun i =>
              apply_transformation (data.contravariant.getD i 0)
                ((data.unit_tangentials.getD (face_no + cell.n_faces * d) []).getD i 0))
              aux_d) d (aux.getD d []))) data.aux) := by
  unfold maybe_compute_face_data_tangentials
  apply for_loop_e_ok
  intro d _ aux
  unfold MappingFEField.transform_Tensor1
  rw [transform_fields_contravariant F _ data _ hc]

/-- The mapped tangential `aux[d][i]` after the loop. -/
theorem maybe_compute_face_data_tangentials_getD {dim spacedim : Nat} (F : UpdateFlagValues)
    (cell : Cell dim spacedim) (face_no : Nat) (data : InternalData dim spacedim)
    (aux : List (List (Tensor1 spacedim)))
    (hc : data.update_each &&& F.update_contravariant_transformation ≠ 0)
    (h : maybe_compute_face_data_tangentials F cell face_no data = .ok aux)
    (d i : Nat) (hd : d < dim - 1) (hd2 : d < data.aux.length)
    (hi : i < (data.aux.getD d []).length) :
    (aux.getD d []).getD i 0
      = (data.contravariant.getD i 0).mulVec
          ((data.unit_tangentials.getD (face_no + cell.n_faces * d) []).getD i 0) := by
  rw [maybe_compute_face_data_tangentials_eq F cell face_no data hc] at h
  injection h with h
  rw [← h, for_loop_set_self_getD (dim - 1)
    (fun d (aux_d : List (Tensor1 spacedim)) =>
      assign_each aux_d.length (fun i =>
        apply_transformation (data.contravariant.getD i 0)
          ((data.unit_tangentials.getD (face_no + cell.n_faces * d) []).getD i 0))
        aux_d) [] data.aux d hd hd2]
  rw [assign_each_getD _ _ _ _ _ hi hi]
  rfl

theorem for_loop_length {α : Type} (n : Nat) (g : Nat → List α → List α) (l : List α)
    (h : ∀ i t, (g i t).length = t.length) : (for_loop n g l).length = l.length := by
  induction n with
  | zero => rfl
  | succ n ih => rw [for_loop_succ, h, ih]

/-- The boundary forms are computed without failure in the implemented cases, and
their number is kept. -/
theorem maybe_compute_face_data_boundary_forms_ok {dim spacedim : Nat} (sqrt : ℚ → ℚ)
    (face_no : Nat) (data : InternalData dim spacedim)
    (boundary_forms : List (Tensor1 spacedim))
    (hdim : dim = spacedim → dim = 1 ∨ dim = 2 ∨ dim = 3) :
    ∃ out, maybe_compute_face_data_boundary_forms sqrt face_no data boundary_forms = .ok out ∧
      out.length = boundary_forms.length := by
  unfold maybe_compute_face_data_boundary_forms
  simp only []
  by_cases hd : dim = spacedim
  · rw [if_pos hd]
    rw [for_loop_e_ok boundary_forms.length _
      (fun i (boundary_forms : List (Tensor1 spacedim)) =>
        if dim = 1 then
          boundary_forms.set i (fun k =>
            if k.val = 0 then (if face_no = 0 then -1 else 1) else boundary_forms.getD i 0 k)
        else if dim = 2 then
          boundary_forms.set i (cross_product_2d ((data.aux.getD 0 []).getD i 0))
        else
          boundary_forms.set i
            (cross_product_3d ((data.aux.getD 0 []).getD i 0)
              ((data.aux.getD 1 []).getD i 0)))]
    · refine ⟨_, rfl, for_loop_length _ _ _ (fun i t => ?_)⟩
      split_ifs <;> exact List.length_set _ _ _
    · intro i _ t
      rcases hdim hd with h1 | h2 | h3
      · rw [if_pos h1, if_pos h1]
      · rw [if_neg (by omega), if_pos h2, if_neg (by omega), if_pos h2]
      · rw [if_neg (by omega), if_neg (by omega), if_pos h3, if_neg (by omega),
          if_neg (by omega)]
  · rw [if_neg hd]
    refine ⟨_, rfl, for_loop_length _ _ _ (fun i t => ?_)⟩
    split_ifs <;> simp only [List.length_set]

/-- The boundary form in the plane: the mapped tangential turned by a right angle. -/
theorem maybe_compute_face_data_boundary_forms_two (sqrt : ℚ → ℚ) (face_no : Nat)
    (data : InternalData 2 2) (boundary_forms : List (Tensor1 2)) :
    maybe_compute_face_data_boundary_forms sqrt face_no data boundary_forms
      = .ok (assign_each boundary_forms.length
          (fun i => cross_product_2d ((data.aux.getD 0 []).getD i 0)) boundary_forms) := by
  unfold maybe_compute_face_data_boundary_forms
  simp only []
  rw [if_pos trivial]
  exact for_loop_e_ok _ _ _ _ (fun i _ t => by simp)

/-- The boundary form in space: the vector product of the two mapped tangentials. -/
theorem maybe_compute_face_data_boundary_forms_three (sqrt : ℚ → ℚ) (face_no : Nat)
    (data : InternalData 3 3) (boundary_forms : List (Tensor1 3)) :
    maybe_compute_face_data_boundary_forms sqrt face_no data boundary_forms
      = .ok (assign_each boundary_forms.length
          (fun i => cross_product_3d ((data.aux.getD 0 []).getD i 0)
            ((data.aux.getD 1 []).getD i 0)) boundary_forms) := by
  unfold maybe_compute_face_data_boundary_forms
  simp only []
  rw [if_pos trivial]
  exact for_loop_e_ok _ _ _ _ (fun i _ t => by simp)

theorem cross_product_2d_orthogonal (a : Tensor1 2) :
    scalar_product (cross_product_2d a) a = 0 := by
  simp [scalar_product, cross_product_2d, tensor_component, Fin.sum_univ_two]
  ring

theorem cross_product_3d_orthogonal_left (a b : Tensor1 3) :
    scalar_product (cross_product_3d a b) a = 0 := by
  simp [scalar_product, cross_product_3d, tensor_component, Fin.sum_univ_three]
  ring

theorem cross_product_3d_orthogonal_right (a b : Tensor1 3) :
    scalar_product (cross_product_3d a b) b = 0 := by
  simp [scalar_product, cross_product_3d, tensor_component, Fin.sum_univ_three]
  ring

/-- A run of `maybe_compute_face_data` with boundary forms requested: the mapped
tangentials, the boundary forms, and from them the outputs. -/
theorem maybe_compute_face_data_eq {dim spacedim : Nat} (F : UpdateFlagValues) (sqrt : ℚ → ℚ)
    (cell : Cell dim spacedim) (face_no subface_no data_set : Nat)
    (data : InternalData dim spacedim) (output_data : MappingRelatedData dim spacedim)
    (hdim : dim = spacedim → dim = 1 ∨ dim = 2 ∨ dim = 3)
    (hbf : data.update_each &&& F.update_boundary_forms ≠ 0)
    (hc : data.update_each &&& F.update_contravariant_transformation ≠ 0) :
    ∃ aux bf JxW_values normal_vectors,
      maybe_compute_face_data_tangentials F cell face_no data = .ok aux ∧
      maybe_compute_face_data_boundary_forms sqrt face_no { data with aux := aux }
        output_data.boundary_forms = .ok bf ∧
      bf.length = output_data.boundary_forms.length ∧
      JxW_values = (maybe_compute_face_data_JxW F sqrt cell face_no subface_no data_set
        { data with aux := aux } bf output_data.JxW_values output_data.normal_vectors).1 ∧
      normal_vectors = (maybe_compute_face_data_JxW F sqrt cell face_no subface_no data_set
        { data with aux := aux } bf output_data.JxW_values output_data.normal_vectors).2 ∧
      maybe_compute_face_data F sqrt cell face_no subface_no data_set data output_data
        = .ok ({ data with aux := aux },
            { output_data with
              boundary_forms := bf
              JxW_values := JxW_values
              normal_vectors := normal_vectors }) := by
  have htan := maybe_compute_face_data_tangentials_eq F cell face_no data hc
  generalize for_loop (dim - 1) _ data.aux = aux at htan
  obtain ⟨bf, hbf2, hbflen⟩ := maybe_compute_face_data_boundary_forms_ok sqrt face_no
    { data with aux := aux } output_data.boundary_forms hdim
  refine ⟨aux, bf, _, _, htan, hbf2, hbflen, rfl, rfl, ?_⟩
  unfold maybe_compute_face_data
  rw [if_pos hbf, htan]
  simp only []
  rw [hbf2]

theorem maybe_update_Jacobians_unit_tangentials {dim spacedim : Nat} (F : UpdateFlagValues)
    (sqrt : ℚ → ℚ) (data_set : Nat) (data : InternalData dim spacedim)
    (component_dofs : ComponentDoFs) :
    (maybe_update_Jacobians F sqrt data_set data component_dofs).unit_tangentials =
      data.unit_tangentials := by
  unfold maybe_update_Jacobians
  simp only []
  split_ifs <;> rfl

theorem maybe_update_Jacobians_aux {dim spacedim : Nat} (F : UpdateFlagValues)
    (sqrt : ℚ → ℚ) (data_set : Nat) (data : InternalData dim spacedim)
    (component_dofs : ComponentDoFs) :
    (maybe_update_Jacobians F sqrt data_set data component_dofs).aux = data.aux := by
  unfold maybe_update_Jacobians
  simp only []
  split_ifs <;> rfl

/-- The rows of the contravariant matrices of a face or subface: with the cache of
`get_subface_data` and the coefficients of the cell, row `d` at the point `point` is
`Σ_{i ∈ component_dofs[d]} coefficient(i) * ∇N_i(x)` at the point
`x = q[point + data_set]` of the projected rule. -/
theorem subface_contravariant_row {dim spacedim : Nat} (F : UpdateFlagValues) (sqrt : ℚ → ℚ)
    (m : MappingFEField dim spacedim) (cell : Cell dim spacedim) (update_flags : Nat)
    (q : Quadrature dim) (n_original_q_points data_set : Nat)
    (data : InternalData dim spacedim)
    (h : m.update_internal_dofs cell
      (m.get_subface_data F update_flags q n_original_q_points) = Except.ok data)
    (hc : requires_update_flags F update_flags &&& F.update_contravariant_transformation ≠ 0)
    (hcd : ∀ d : Fin spacedim, ∀ i ∈ m.component_dofs.get d, i < m.fe.n_dofs_per_cell)
    (point : Nat) (hp : point < n_original_q_points) (hp2 : point + data_set < q.size)
    (d : Fin spacedim) :
    (maybe_update_Jacobians F sqrt data_set data m.component_dofs).contravariant.getD point 0 d =
      ((m.component_dofs.get d).map
        (fun i => (m.cell_dof_values cell).getD i 0 •
          m.fe.shape_grad i (q.points.getD (point + data_set) 0))).sum := by
  have he := update_internal_dofs_eq m cell _ data h
  have hue : data.update_each = requires_update_flags F update_flags := by rw [he]; rfl
  have hcl : data.contravariant.length = n_original_q_points := by
    rw [he]
    show (if requires_update_flags F update_flags &&& F.update_contravariant_transformation ≠ 0
      then resize _ n_original_q_points 0 else _).length = _
    rw [if_pos hc, resize_length]
  rw [maybe_update_Jacobians_contravariant_row F sqrt data_set data m.component_dofs point
    (by rw [hue]; exact hc) (by rw [hcl]; exact hp) d]
  congr 1
  apply List.map_congr_left
  intro i hi
  have hi2 := hcd d i hi
  congr 1
  · rw [(update_internal_dofs_ok m cell _ data h data).2.2.2.2.1 rfl]
  · rw [he]
    show ((InternalData.init spacedim m.fe m.fe_mask).reinit F
      (requires_update_flags F update_flags) q).derivative (point + data_set) i = _
    rw [reinit_derivative F _ _ q (point + data_set) i ?_ hp2 hi2]
    · rfl
    · exact land_lor_ne_zero_left _ _ _ (land_lor_ne_zero_left _ _ _ (land_lor_ne_zero_left _ _ _
        (land_lor_ne_zero_left _ _ _ (land_lor_ne_zero_left _ _ _ (land_lor_ne_zero_left _ _ _
          (land_lor_ne_zero_right _ _ _ hc))))))

/-- The face cache of the square scaled by `2` for the one-point rule, after the
coefficients of the cell are loaded. -/
theorem exampleSubface_cache (data : InternalData 2 2)
    (h : (exampleScalingMapping 2 2).update_internal_dofs exampleRefinedCell
      ((exampleScalingMapping 2 2).get_subface_data dealiiFlags dealiiFlags.update_JxW_values
        exampleSubfaceRule 1) = Except.ok data) :
    data.update_each = requires_update_flags dealiiFlags dealiiFlags.update_JxW_values ∧
    data.aux = [[0]] ∧
    data.unit_tangentials.getD 1 [] = [exampleHypercube_face_tangent_vector 2 1 0] ∧
    data.quadrature_weights = [1, 1, 1, 1, 1, 1, 1, 1] := by
  have he := update_internal_dofs_eq _ _ _ data h
  refine ⟨by rw [he]; rfl, ?_, ?_, by rw [he]; rfl⟩
  · rw [he]
    show (if 2 > 1 ∧ requires_update_flags dealiiFlags dealiiFlags.update_JxW_values
        &&& dealiiFlags.update_boundary_forms ≠ 0 then
      resize ([] : List (List (Tensor1 2))) (2 - 1) (List.replicate 1 0) else []) = [[0]]
    rw [if_pos (by decide)]
    rfl
  · rw [he]
    show (List.getD (if 2 > 1 ∧ requires_update_flags dealiiFlags dealiiFlags.update_JxW_values
        &&& dealiiFlags.update_boundary_forms ≠ 0 then
      for_loop (exampleScalingMapping 2 2).reference_cell_n_faces (fun i unit_tangentials =>
        let unit_tangentials := unit_tangentials.set i
          (List.replicate 1 ((exampleScalingMapping 2 2).reference_cell_face_tangent_vector i 0))
        if 2 > 2 then
          unit_tangentials.set ((exampleScalingMapping 2 2).reference_cell_n_faces + i)
            (List.replicate 1
              ((exampleScalingMapping 2 2).reference_cell_face_tangent_vector i 1))
        else unit_tangentials) (List.replicate (2 * 2 * (2 - 1)) [])
      else List.replicate (2 * 2 * (2 - 1)) []) 1 []) = _
    rw [if_pos (by decide)]
    rfl

/-- The subface fill is the face fill: `subface_no` reaches `do_fill_fe_face_values`
only through the offset `data_set`. -/
theorem fill_fe_subface_values_eq_face {dim spacedim : Nat} (F : UpdateFlagValues)
    (sqrt : ℚ → ℚ) (m : MappingFEField dim spacedim) (cell : Cell dim spacedim)
    (face_no subface_no data_set : Nat) (internal_data : InternalData dim spacedim)
    (output_data : MappingRelatedData dim spacedim) :
    m.fill_fe_subface_values F sqrt cell face_no subface_no data_set internal_data output_data
      = m.fill_fe_face_values F sqrt cell face_no data_set internal_data output_data := rfl

theorem exampleHypercube_tangent_square_face_one :
    exampleHypercube_face_tangent_vector 2 1 0 = ![0, 1] := by
  funext k
  fin_cases k <;> rfl

theorem exampleScaled_tangent :
    ((2 : ℚ) • (1 : Matrix (Fin 2) (Fin 2) ℚ)).mulVec ![0, 1] = ![0, 2] := by
  funext k
  fin_cases k <;> simp [Matrix.mulVec, Matrix.dotProduct, Fin.sum_univ_two, Matrix.one_apply]

/-- C17: on the unit square scaled by `2`, with the one-point rule of weight `1`,
`fill_fe_subface_values` on subface `0` of face `1`, which is half of the face,
succeeds with the boundary form `(2, 0)` of norm `2` and writes `JxW_values[0] = 2`,
the value for the whole face, not `2 * 1 * (1/2) = 1`. -/
theorem fill_fe_subface_values_drops_area_ratio :
    ∃ data out,
      (exampleScalingMapping 2 2).fill_fe_subface_values dealiiFlags exampleSqrt
          exampleRefinedCell 1 0 2
          ((exampleScalingMapping 2 2).get_subface_data dealiiFlags
            dealiiFlags.update_JxW_values exampleSubfaceRule 1) exampleFaceOutput
        = .ok (data, out) ∧
      out.boundary_forms.getD 0 0 = ![2, 0] ∧
      norm exampleSqrt (out.boundary_forms.getD 0 0) = 2 ∧
      data.quadrature_weights.getD (0 + 2) 0 = 1 ∧
      exampleRefinedCell.subface_ratio 1 0 = 1 / 2 ∧
      out.JxW_values.getD 0 0 = 2 ∧
      out.JxW_values.getD 0 0 ≠
        norm exampleSqrt (out.boundary_forms.getD 0 0) * data.quadrature_weights.getD (0 + 2) 0
          * exampleRefinedCell.subface_ratio 1 0 := by
  obtain ⟨data, hupd⟩ := exampleScaling_update_ok 2 2 exampleRefinedCell rfl
    ((exampleScalingMapping 2 2).get_subface_data dealiiFlags dealiiFlags.update_JxW_values
      exampleSubfaceRule 1)
  obtain ⟨hue, hauxd, hut, hw⟩ := exampleSubface_cache data hupd
  have hflag : ∀ a, requires_update_flags dealiiFlags dealiiFlags.update_JxW_values &&& a ≠ 0 →
      (maybe_update_Jacobians dealiiFlags exampleSqrt 2 data
        (exampleScalingMapping 2 2).component_dofs).update_each &&& a ≠ 0 := by
    intro a ha
    rw [maybe_update_Jacobians_update_each, hue]
    exact ha
  have hJ : (maybe_update_Jacobians dealiiFlags exampleSqrt 2 data
      (exampleScalingMapping 2 2).component_dofs).contravariant.getD 0 0
        = (2 : ℚ) • (1 : Matrix (Fin 2) (Fin 2) ℚ) := by
    funext d
    rw [subface_contravariant_row dealiiFlags exampleSqrt _ exampleRefinedCell _
      exampleSubfaceRule 1 2 data hupd (by decide)
      (by
        show ∀ d : Fin 2, ∀ i ∈ (exampleScalingMapping 2 0).component_dofs.get d, i < 2 ^ 2 * 2
        decide)
      0 (by decide) (by decide) d]
    exact exampleScaling_row_two 2 exampleRefinedCell rfl _ d
  obtain ⟨aux, bf, jxw, nv, htan, hbf2, -, hjxw, -, hrun⟩ := maybe_compute_face_data_eq
    dealiiFlags exampleSqrt exampleRefinedCell 1 invalid_unsigned_int 2
    (maybe_update_Jacobians dealiiFlags exampleSqrt 2 data
      (exampleScalingMapping 2 2).component_dofs)
    { exampleFaceOutput with
      quadrature_points :=
        maybe_compute_q_points dealiiFlags 2 data (exampleScalingMapping 2 2).component_dofs
          exampleFaceOutput.quadrature_points
      jacobians :=
        fill_fe_values_jacobians dealiiFlags
          (maybe_update_Jacobians dealiiFlags exampleSqrt 2 data
            (exampleScalingMapping 2 2).component_dofs)
          (maybe_update_Jacobians dealiiFlags exampleSqrt 2 data
            (exampleScalingMapping 2 2).component_dofs).contravariant.length
          exampleFaceOutput.jacobians
      inverse_jacobians :=
        fill_fe_values_inverse_jacobians dealiiFlags
          (maybe_update_Jacobians dealiiFlags exampleSqrt 2 data
            (exampleScalingMapping 2 2).component_dofs)
          (maybe_update_Jacobians dealiiFlags exampleSqrt 2 data
            (exampleScalingMapping 2 2).component_dofs).contravariant.length
          exampleFaceOutput.inverse_jacobians
      jacobian_grads :=
        maybe_update_jacobian_grads dealiiFlags 2
          (maybe_update_Jacobians dealiiFlags exampleSqrt 2 data
            (exampleScalingMapping 2 2).component_dofs)
          (exampleScalingMapping 2 2).component_dofs exampleFaceOutput.jacobian_grads
      jacobian_pushed_forward_grads :=
        maybe_update_jacobian_pushed_forward_grads dealiiFlags 2
          (maybe_update_Jacobians dealiiFlags exampleSqrt 2 data
            (exampleScalingMapping 2 2).component_dofs)
          (exampleScalingMapping 2 2).component_dofs exampleFaceOutput.jacobian_pushed_forward_grads
      jacobian_2nd_derivatives :=
        maybe_update_jacobian_2nd_derivatives dealiiFlags 2
          (maybe_update_Jacobians dealiiFlags exampleSqrt 2 data
            (exampleScalingMapping 2 2).component_dofs)
          (exampleScalingMapping 2 2).component_dofs exampleFaceOutput.jacobian_2nd_derivatives
      jacobian_pushed_forward_2nd_derivatives :=
        maybe_update_jacobian_pushed_forward_2nd_derivatives dealiiFlags 2
          (maybe_update_Jacobians dealiiFlags exampleSqrt 2 data
            (exampleScalingMapping 2 2).component_dofs)
          (exampleScalingMapping 2 2).component_dofs exampleFaceOutput.jacobian_pushed_forward_2nd_derivatives
      jacobian_3rd_derivatives :=
        maybe_update_jacobian_3rd_derivatives dealiiFlags 2
          (maybe_update_Jacobians dealiiFlags exampleSqrt 2 data
            (exampleScalingMapping 2 2).component_dofs)
          (exampleScalingMapping 2 2).component_dofs exampleFaceOutput.jacobian_3rd_derivatives
      jacobian_pushed_forward_3rd_derivatives :=
        maybe_update_jacobian_pushed_forward_3rd_derivatives dealiiFlags 2
          (maybe_update_Jacobians dealiiFlags exampleSqrt 2 data
            (exampleScalingMapping 2 2).component_dofs)
          (exampleScalingMapping 2 2).component_dofs exampleFaceOutput.jacobian_pushed_forward_3rd_derivatives }
    (fun _ => Or.inr (Or.inl rfl)) (hflag _ (by decide)) (hflag _ (by decide))
  have haux : (aux.getD 0 []).getD 0 0 = ![0, 2] := by
    rw [maybe_compute_face_data_tangentials_getD dealiiFlags exampleRefinedCell 1 _ aux
      (hflag _ (by decide)) htan 0 0 (by decide)
      (by rw [maybe_update_Jacobians_aux, hauxd]; decide)
      (by rw [maybe_update_Jacobians_aux, hauxd]; decide), hJ,
      maybe_update_Jacobians_unit_tangentials]
    have hn : 1 + exampleRefinedCell.n_faces * 0 = 1 := rfl
    rw [hn, hut]
    show ((2 : ℚ) • (1 : Matrix (Fin 2) (Fin 2) ℚ)).mulVec
      (exampleHypercube_face_tangent_vector 2 1 0) = ![0, 2]
    rw [exampleHypercube_tangent_square_face_one, exampleScaled_tangent]
  rw [maybe_compute_face_data_boundary_forms_two] at hbf2
  injection hbf2 with hbf2
  have hb1 : 0 < exampleFaceOutput.boundary_forms.length := by decide
  have hj1 : 0 < exampleFaceOutput.JxW_values.length := by decide
  have hbf0 : bf.getD 0 0 = ![2, 0] := by
    rw [← hbf2, assign_each_getD _ _ _ _ _ hb1 hb1]
    simp only []
    rw [haux]
    funext k
    fin_cases k <;> simp [cross_product_2d, tensor_component]
  have hbfl : 0 < bf.length := by
    rw [← hbf2, assign_each_length]
    exact hb1
  have hns : norm exampleSqrt ![2, 0] = 2 := by
    simp [norm, norm_square, Fin.sum_univ_two, exampleSqrt]
    norm_num
  have hwq : (maybe_update_Jacobians dealiiFlags exampleSqrt 2 data
      (exampleScalingMapping 2 2).component_dofs).quadrature_weights.getD (0 + 2) 0 = 1 := by
    rw [maybe_update_Jacobians_quadrature_weights, hw]
    rfl
  have hjxw0 : jxw.getD 0 0 = 2 := by
    rw [hjxw, maybe_compute_face_data_JxW_fst dealiiFlags exampleSqrt exampleRefinedCell 1
      invalid_unsigned_int 2
      { maybe_update_Jacobians dealiiFlags exampleSqrt 2 data
          (exampleScalingMapping 2 2).component_dofs with aux := aux } bf _ _ 0
      (hflag _ (by decide)) hbfl hj1, hbf0, hns, if_neg (by simp)]
    show 2 * (maybe_update_Jacobians dealiiFlags exampleSqrt 2 data
      (exampleScalingMapping 2 2).component_dofs).quadrature_weights.getD (0 + 2) 0 = 2
    rw [hwq]
    norm_num
  have hD : ∃ data2 out,
      do_fill_fe_face_values dealiiFlags exampleSqrt exampleRefinedCell 1 invalid_unsigned_int 2
        data (exampleScalingMapping 2 2).component_dofs exampleFaceOutput = .ok (data2, out) ∧
      out.boundary_forms = bf ∧ out.JxW_values = jxw ∧
      data2.quadrature_weights = (maybe_update_Jacobians dealiiFlags exampleSqrt 2 data
        (exampleScalingMapping 2 2).component_dofs).quadrature_weights :=
    ⟨_, _, hrun, rfl, rfl, rfl⟩
  obtain ⟨data2, out, hr, e1, e2, e3⟩ := hD
  have hrun2 : (exampleScalingMapping 2 2).fill_fe_subface_values dealiiFlags exampleSqrt
      exampleRefinedCell 1 0 2
      ((exampleScalingMapping 2 2).get_subface_data dealiiFlags
        dealiiFlags.update_JxW_values exampleSubfaceRule 1) exampleFaceOutput
        = .ok (data2, out) := by
    unfold MappingFEField.fill_fe_subface_values
    rw [hupd]
    exact hr
  refine ⟨data2, out, hrun2, ?_, ?_, ?_, rfl, ?_, ?_⟩
  · rw [e1, hbf0]
  · rw [e1, hbf0, hns]
  · rw [e3, hwq]
  · rw [e2, hjxw0]
  · rw [e1, e2, e3, hjxw0, hbf0, hns, hwq]
    norm_num [exampleRefinedCell]


/-! ## The rule block reaches the least closed superset -/

theorem land_ne_zero_of_sub (a y c : Nat) (hay : a ||| y = y) (h : a &&& c ≠ 0) :
    y &&& c ≠ 0 := by
  obtain ⟨i, hi⟩ := Nat.ne_zero_implies_bit_true h
  intro hz
  have hy : (y &&& c).testBit i = false := by rw [hz]; exact Nat.zero_testBit i
  have hyi : (a ||| y).testBit i = y.testBit i := by rw [hay]
  rw [Nat.testBit_land] at hi hy
  rw [Nat.testBit_lor] at hyi
  cases ha : a.testBit i <;> cases hc : c.testBit i <;> cases hyy : y.testBit i <;> simp_all

theorem or_if_sub_closed (cond add a y : Nat) (hay : a ||| y = y)
    (hclosed : y &&& cond ≠ 0 → y ||| add = y) : or_if cond add a ||| y = y := by
  unfold or_if
  split
  · rename_i hc
    have hadd := hclosed (land_ne_zero_of_sub a y cond hay hc)
    rw [Nat.lor_assoc, Nat.lor_comm add y, hadd, hay]
  · exact hay

theorem pass_sub_closed (F : UpdateFlagValues) (a y : Nat) (hay : a ||| y = y)
    (hy : closed_under_rules F y) : requires_update_flags_pass F a ||| y = y := by
  obtain ⟨h1, h2, h3, h4, h5⟩ := hy
  unfold requires_update_flags_pass
  exact or_if_sub_closed _ _ _ y (or_if_sub_closed _ _ _ y (or_if_sub_closed _ _ _ y
    (or_if_sub_closed _ _ _ y (or_if_sub_closed _ _ _ y hay h1) h2) h3) h4) h5

theorem pass_iterate_sub_closed (F : UpdateFlagValues) (y : Nat)
    (hy : closed_under_rules F y) :
    ∀ (n a : Nat), a ||| y = y → (requires_update_flags_pass F)^[n] a ||| y = y := by
  intro n
  induction n with
  | zero => intro a hay; exact hay
  | succ n ih =>
    intro a hay
    rw [Function.iterate_succ_apply]
    exact ih _ (pass_sub_closed F a y hay hy)

theorem or_if_fixed_closed (cond add r : Nat) (hfix : or_if cond add r = r)
    (hc : r &&& cond ≠ 0) : r ||| add = r := by
  rw [or_if_eq_or cond add r hc] at hfix
  exact hfix

theorem pass_iterate_superset (F : UpdateFlagValues) :
    ∀ (n a : Nat), a ||| (requires_update_flags_pass F)^[n] a =
      (requires_update_flags_pass F)^[n] a := by
  intro n a
  apply Nat.eq_of_testBit_eq
  intro i
  rw [Nat.testBit_lor]
  cases ha : a.testBit i
  · simp
  · simp [pass_iterate_testBit_le F i n a ha]

/-- C30: the rule block of `requires_update_flags` converges within four passes:
a further pass leaves the result of four passes unchanged, so the five-pass loop
returns that result; it contains the input, it is closed under the rules, and it is
contained in every set of flags that contains the input and is closed under the
rules. -/
theorem requires_update_flags_least_fixed_point (F : UpdateFlagValues) (x : Nat) :
    requires_update_flags_pass F ((requires_update_flags_pass F)^[4] x) =
      (requires_update_flags_pass F)^[4] x ∧
    requires_update_flags F x = (requires_update_flags_pass F)^[4] x ∧
    x ||| requires_update_flags F x = requires_update_flags F x ∧
    closed_under_rules F (requires_update_flags F x) ∧
    ∀ y : Nat, x ||| y = y → closed_under_rules F y →
      requires_update_flags F x ||| y = y := by
  have hfour := pass_four_fixed F x
  have heq : requires_update_flags F x = (requires_update_flags_pass F)^[4] x := by
    unfold requires_update_flags
    rw [Function.iterate_succ_apply']
    exact hfour
  refine ⟨hfour, heq, ?_, ?_, ?_⟩
  · exact pass_iterate_superset F 5 x
  · rw [heq]
    obtain ⟨h1, h2, h3, h4, h5⟩ := pass_fixed_each F _ hfour
    exact ⟨or_if_fixed_closed _ _ _ h1, or_if_fixed_closed _ _ _ h2,
      or_if_fixed_closed _ _ _ h3, or_if_fixed_closed _ _ _ h4, or_if_fixed_closed _ _ _ h5⟩
  · intro y hxy hy
    exact pass_iterate_sub_closed F y hy 5 x hxy


/-! ## The per-cell refresh of the coefficient snapshot -/

theorem for_loop_local_dof_values {dim spacedim : Nat} (value : Nat → ℚ) (n : Nat)
    (data : InternalData dim spacedim) :
    for_loop n (fun i data =>
      ({ data with local_dof_values := data.local_dof_values.set i (value i) } :
        InternalData dim spacedim)) data =
    { data with local_dof_values := assign_each n value data.local_dof_values } := by
  induction n with
  | zero => rfl
  | succ n ih =>
    rw [for_loop_succ, ih]
    unfold assign_each
    rw [for_loop_succ]

theorem for_loop_local_dof_indices {dim spacedim : Nat} (n : Nat)
    (body : Nat → InternalData dim spacedim → InternalData dim spacedim)
    (hbody : ∀ i d, (body i d).local_dof_indices = d.local_dof_indices)
    (data : InternalData dim spacedim) :
    (for_loop n body data).local_dof_indices = data.local_dof_indices := by
  induction n with
  | zero => rfl
  | succ n ih => rw [for_loop_succ, hbody, ih]

/-- The loop of `update_internal_dofs` reads `data.local_dof_indices`, which it does
not write. -/
theorem for_loop_local_dof_values_read {dim spacedim : Nat} (vector : List ℚ) (n : Nat)
    (data : InternalData dim spacedim) :
    for_loop n (fun i data =>
      ({ data with
        local_dof_values :=
          data.local_dof_values.set i (vector.getD (data.local_dof_indices.getD i 0) 0) } :
        InternalData dim spacedim)) data =
    { data with
      local_dof_values := assign_each n
        (fun i => vector.getD (data.local_dof_indices.getD i 0) 0) data.local_dof_values } := by
  induction n with
  | zero => rfl
  | succ n ih =>
    rw [for_loop_succ, ih]
    unfold assign_each
    rw [for_loop_succ]

/-- The two embeddings of `update_internal_dofs` agree: the call succeeds with the
cache `data'` exactly when the transformer ends normally in the state `data'`, and it
fails with the same exception. -/
theorem update_internal_dofs_run_eq {dim spacedim : Nat} (m : MappingFEField dim spacedim)
    (cell : Cell dim spacedim) (data : InternalData dim spacedim) :
    m.update_internal_dofs cell data =
      match (m.update_internal_dofs_run cell data).1 with
      | Except.ok _ => Except.ok (m.update_internal_dofs_run cell data).2
      | Except.error e => Except.error e := by
  unfold MappingFEField.update_internal_dofs MappingFEField.update_internal_dofs_run
  by_cases c1 : ¬ (m.uses_level_dofs || cell.is_active) = true
  · rw [if_pos c1, if_pos c1]
  rw [if_neg c1, if_neg c1]
  by_cases c2 : m.uses_level_dofs = true ∧ ¬ cell.level < m.euler_vector.length
  · rw [if_pos c2, if_pos c2]
  rw [if_neg c2, if_neg c2]
  by_cases c3 : m.uses_level_dofs = true ∧
      (m.euler_vector.getD cell.level []).length ≠ m.n_dofs_level cell.level
  · rw [if_pos c3, if_pos c3]
  rw [if_neg c3, if_neg c3]
  by_cases c4 : ¬ m.uses_level_dofs = true ∧ (m.euler_vector.getD 0 []).length ≠ m.n_dofs
  · rw [if_pos c4, if_pos c4]
  rw [if_neg c4, if_neg c4]
  simp only []
  rw [for_loop_local_dof_values_read]

/-- C22: after a successful `update_internal_dofs(cell, data)` on a cache whose
snapshot has `n_dofs_per_cell` entries, `local_dof_indices` is the cell's dof index
list (the level indices when level dofs are used), and for every
`i < n_dofs_per_cell` the entry `local_dof_values[i]` is the entry of the owning
coefficient vector of the mapping (the vector of the cell's level when level dofs are
used, the single vector otherwise) at `local_dof_indices[i]`.  The vectors are read
from the mapping, which the function does not change. -/
theorem update_internal_dofs_refresh {dim spacedim : Nat} (m : MappingFEField dim spacedim)
    (cell : Cell dim spacedim) (data data' : InternalData dim spacedim)
    (hsize : data.local_dof_values.length = m.fe.n_dofs_per_cell)
    (h : m.update_internal_dofs cell data = Except.ok data') :
    data'.local_dof_indices =
      (if m.uses_level_dofs then cell.mg_dof_indices else cell.dof_indices) ∧
    data'.local_dof_values.length = m.fe.n_dofs_per_cell ∧
    ∀ i, i < m.fe.n_dofs_per_cell →
      data'.local_dof_values.getD i 0 =
        (if m.uses_level_dofs then m.euler_vector.getD cell.level []
          else m.euler_vector.getD 0 []).getD (data'.local_dof_indices.getD i 0) 0 := by
  have he := update_internal_dofs_eq m cell data data' h
  subst he
  refine ⟨rfl, ?_, ?_⟩
  · show (assign_each _ _ _).length = _
    rw [assign_each_length, hsize]
  · intro i hi
    show (assign_each _ _ _).getD i 0 = _
    rw [assign_each_getD _ _ _ _ _ (by rw [hsize]; exact hi) (by rw [hsize]; exact hi)]

/-- Witness of C22: on the active unit cell the cache of `exampleScaledMapping` is
refreshed with the entries `0` and `1/1000` of the single coefficient vector. -/
theorem update_internal_dofs_refresh_witness :
    ∃ data', exampleScaledMapping.update_internal_dofs exampleUnitCell
        (exampleScaledMapping.get_data dealiiFlags dealiiFlags.update_quadrature_points
          (Quadrature.of_point (pt 0))) = Except.ok data' ∧
      data'.local_dof_indices = [0, 1] ∧
      data'.local_dof_values.getD 1 0 = 1 / 1000 := by
  have h := update_internal_dofs_active exampleScaledMapping exampleUnitCell
    (exampleScaledMapping.get_data dealiiFlags dealiiFlags.update_quadrature_points
      (Quadrature.of_point (pt 0))) rfl rfl rfl
  obtain ⟨h1, -, h3⟩ := update_internal_dofs_refresh exampleScaledMapping exampleUnitCell
    (exampleScaledMapping.get_data dealiiFlags dealiiFlags.update_quadrature_points
      (Quadrature.of_point (pt 0))) _ rfl h
  refine ⟨_, h, h1, ?_⟩
  rw [h3 1 (by decide), h1]
  rfl

/-- C23: `update_internal_dofs` fails with `ExcInactiveCell` exactly when the mapping
does not use level dofs and the cell is not active; a mapping with level dofs whose
vector of the cell's level exists and has the size of the DoF handler's count for that
level succeeds on every cell, active or not; with the earlier assertions passed, a
vector whose size differs from the count for the level (with level dofs) or from the
global count (without) fails with `ExcDimensionMismatch`; and whenever the call fails,
the cache is as it was before the call. -/
theorem update_internal_dofs_failure {dim spacedim : Nat} (m : MappingFEField dim spacedim)
    (cell : Cell dim spacedim) (data : InternalData dim spacedim) :
    (m.update_internal_dofs cell data = Except.error Exc.ExcInactiveCell ↔
      m.uses_level_dofs = false ∧ cell.is_active = false) ∧
    (m.uses_level_dofs = true → cell.level < m.euler_vector.length →
      (m.euler_vector.getD cell.level []).length = m.n_dofs_level cell.level →
      ∃ data', m.update_internal_dofs cell data = Except.ok data') ∧
    (m.uses_level_dofs = true → cell.level < m.euler_vector.length →
      (m.euler_vector.getD cell.level []).length ≠ m.n_dofs_level cell.level →
      m.update_internal_dofs cell data = Except.error Exc.ExcDimensionMismatch) ∧
    (m.uses_level_dofs = false → cell.is_active = true →
      (m.euler_vector.getD 0 []).length ≠ m.n_dofs →
      m.update_internal_dofs cell data = Except.error Exc.ExcDimensionMismatch) ∧
    (∀ e, m.update_internal_dofs cell data = Except.error e →
      (m.update_internal_dofs_run cell data).1 = Except.error e ∧
      (m.update_internal_dofs_run cell data).2 = data) := by
  refine ⟨?_, ?_, ?_, ?_, ?_⟩
  · unfold MappingFEField.update_internal_dofs
    by_cases c1 : ¬ (m.uses_level_dofs || cell.is_active) = true
    · rw [if_pos c1]
      simp only [true_iff]
      simpa using c1
    · rw [if_neg c1]
      have hn : ¬ (m.uses_level_dofs = false ∧ cell.is_active = false) := by
        simpa using c1
      simp only [hn, iff_false]
      split_ifs <;> simp
  · intro hl hlev hlen
    unfold MappingFEField.update_internal_dofs
    rw [if_neg (by simp [hl]), if_neg (fun c => c.2 hlev), if_neg (fun c => c.2 hlen),
      if_neg (fun c => c.1 hl)]
    exact ⟨_, rfl⟩
  · intro hl hlev hlen
    unfold MappingFEField.update_internal_dofs
    rw [if_neg (by simp [hl]), if_neg (fun c => c.2 hlev), if_pos ⟨hl, hlen⟩]
  · intro hl ha hlen
    unfold MappingFEField.update_internal_dofs
    rw [if_neg (by simp [ha]), if_neg (by simp [hl]), if_neg (by simp [hl]),
      if_pos ⟨by simp [hl], hlen⟩]
  · intro e he
    rw [update_internal_dofs_run_eq] at he
    unfold MappingFEField.update_internal_dofs_run at he ⊢
    by_cases c1 : ¬ (m.uses_level_dofs || cell.is_active) = true
    · rw [if_pos c1] at he ⊢
      exact ⟨by simpa using he, rfl⟩
    rw [if_neg c1] at he ⊢
    by_cases c2 : m.uses_level_dofs = true ∧ ¬ cell.level < m.euler_vector.length
    · rw [if_pos c2] at he ⊢
      exact ⟨by simpa using he, rfl⟩
    rw [if_neg c2] at he ⊢
    by_cases c3 : m.uses_level_dofs = true ∧
        (m.euler_vector.getD cell.level []).length ≠ m.n_dofs_level cell.level
    · rw [if_pos c3] at he ⊢
      exact ⟨by simpa using he, rfl⟩
    rw [if_neg c3] at he ⊢
    by_cases c4 : ¬ m.uses_level_dofs = true ∧ (m.euler_vector.getD 0 []).length ≠ m.n_dofs
    · rw [if_pos c4] at he ⊢
      exact ⟨by simpa using he, rfl⟩
    rw [if_neg c4] at he
    cases he

/-- Witness of C23: without level dofs the refined cell is refused with
`ExcInactiveCell`; with level dofs the same cell is accepted; vectors with one entry
too many are refused with `ExcDimensionMismatch`; and the refused call leaves the
cache as it was. -/
theorem update_internal_dofs_failure_witness :
    exampleScaledMapping.update_internal_dofs exampleParentCell exampleData =
      Except.error Exc.ExcInactiveCell ∧
    (∃ data', exampleLevelMapping.update_internal_dofs exampleParentCell exampleData =
      Except.ok data') ∧
    exampleLongLevelVectorMapping.update_internal_dofs exampleParentCell exampleData =
      Except.error Exc.ExcDimensionMismatch ∧
    exampleLongVectorMapping.update_internal_dofs exampleUnitCell exampleData =
      Except.error Exc.ExcDimensionMismatch ∧
    (exampleScaledMapping.update_internal_dofs_run exampleParentCell exampleData).2 =
      exampleData :=
  ⟨(update_internal_dofs_failure exampleScaledMapping exampleParentCell exampleData).1.2
      ⟨rfl, rfl⟩,
   (update_internal_dofs_failure exampleLevelMapping exampleParentCell exampleData).2.1
      rfl (by decide) rfl,
   (update_internal_dofs_failure exampleLongLevelVectorMapping exampleParentCell
      exampleData).2.2.1 rfl (by decide) (by decide),
   (update_internal_dofs_failure exampleLongVectorMapping exampleUnitCell
      exampleData).2.2.2.1 rfl rfl (by decide),
   ((update_internal_dofs_failure exampleScaledMapping exampleParentCell
      exampleData).2.2.2.2 Exc.ExcInactiveCell
      ((update_internal_dofs_failure exampleScaledMapping exampleParentCell exampleData).1.2
        ⟨rfl, rfl⟩)).2⟩


/-! ## The Newton update -/

theorem newton_delta_eq {dim spacedim : Nat} (component_dofs : ComponentDoFs)
    (mdata : InternalData dim spacedim) (p_minus_F : Tensor1 spacedim) :
    newton_delta component_dofs mdata p_minus_F =
      (-((newton_jacobian component_dofs mdata).transpose *
        newton_jacobian component_dofs mdata))⁻¹.mulVec
        ((newton_jacobian component_dofs mdata).transpose.mulVec p_minus_F) := by
  unfold newton_delta
  simp only []
  rw [invert_eq_inv]
  have hDF : ∀ (j : Fin dim) (d : Fin spacedim),
      (component_dofs.get d).foldl
        (fun DF_j_d i => DF_j_d + mdata.local_dof_values.getD i 0 * mdata.derivative 0 i j) 0 =
      newton_jacobian component_dofs mdata d j := by
    intro j d
    rw [foldl_add_eq_sum, zero_add]
    rfl
  have hdf : (fun j l : Fin dim => -scalar_product
      (fun d : Fin spacedim => (component_dofs.get d).foldl
        (fun DF_j_d i => DF_j_d + mdata.local_dof_values.getD i 0 * mdata.derivative 0 i j) 0)
      (fun d : Fin spacedim => (component_dofs.get d).foldl
        (fun DF_j_d i => DF_j_d + mdata.local_dof_values.getD i 0 * mdata.derivative 0 i l)
        0)) =
      -((newton_jacobian component_dofs mdata).transpose *
        newton_jacobian component_dofs mdata) := by
    funext j l
    simp only [scalar_product, hDF, Matrix.neg_apply, Matrix.mul_apply, Matrix.transpose_apply]
  have hf : (fun j : Fin dim => scalar_product
      (fun d : Fin spacedim => (component_dofs.get d).foldl
        (fun DF_j_d i => DF_j_d + mdata.local_dof_values.getD i 0 * mdata.derivative 0 i j) 0)
      p_minus_F) =
      (newton_jacobian component_dofs mdata).transpose.mulVec p_minus_F := by
    funext j
    simp only [scalar_product, hDF, Matrix.mulVec, Matrix.dotProduct, Matrix.transpose_apply]
  rw [hdf, hf]

theorem neg_inv_mulVec {n : Nat} (A : Matrix (Fin n) (Fin n) ℚ) (h : IsUnit A.det)
    (v : Fin n → ℚ) : A.mulVec ((-A)⁻¹.mulVec v) = -v := by
  have hinv : (-A)⁻¹ = -A⁻¹ := by
    apply Matrix.inv_eq_right_inv
    rw [neg_mul_neg, Matrix.mul_nonsing_inv A h]
  rw [hinv, Matrix.mulVec_mulVec, Matrix.mul_neg, Matrix.mul_nonsing_inv A h,
    Matrix.neg_mulVec, Matrix.one_mulVec]

/-- C25: the solver starts its loop in a state that satisfies the loop invariant
(the cache is the one re-initialised at the current iterate `x = s.p_unit`,
`p_real = map(x)` is read from it and `p_minus_F = p - p_real`).  In every state `s`
that satisfies the invariant and in which an iteration is executed, with `J` the
Jacobian read from the cache and `JᵀJ` invertible, the update `delta` the iteration
computes satisfies `(JᵀJ) · delta = Jᵀ · (map(x) - p)`; the iteration runs the line
search with this `delta`, every pass of the line search evaluates the map at the trial
point `x - step_length · delta`, and the next iterate, when a trial is accepted, is such
a trial point and satisfies the invariant again. -/
theorem newton_update_spec {dim spacedim : Nat} (F : UpdateFlagValues)
    (component_dofs : ComponentDoFs) (diameter : ℚ) (p : Point spacedim)
    (starting_guess : Point dim) (mdata : InternalData dim spacedim)
    (s : NewtonState dim spacedim)
    (hinv : cache_consistent F component_dofs p mdata s)
    (hres : norm_square s.p_minus_F > (1e-12 * diameter) * (1e-12 * diameter))
    (hJ : IsUnit ((newton_jacobian component_dofs s.mdata).transpose *
      newton_jacobian component_dofs s.mdata).det) :
    (do_transform_real_to_unit_cell F component_dofs diameter p starting_guess mdata =
        newton_loop F component_dofs p (1e-12 * diameter)
          (newton_state_at F component_dofs p mdata starting_guess 0 []) ∧
      cache_consistent F component_dofs p mdata
        (newton_state_at F component_dofs p mdata starting_guess 0 [])) ∧
    ∃ delta : Tensor1 dim,
      ((newton_jacobian component_dofs s.mdata).transpose *
          newton_jacobian component_dofs s.mdata).mulVec delta =
        (newton_jacobian component_dofs s.mdata).transpose.mulVec
          (do_transform_unit_to_real_cell component_dofs s.mdata - p) ∧
      newton_loop F component_dofs p (1e-12 * diameter) s =
        (match line_search F component_dofs p s.p_unit s.p_minus_F delta 1 s.mdata [] with
        | LineSearchResult.accepted trials p_unit p_real p_minus_F mdata =>
          if s.newton_iteration + 1 > newton_iteration_limit then
            SolverResult.failure
              ⟨p_unit, p_real, p_minus_F, s.newton_iteration + 1, mdata, s.trials ++ [trials]⟩
          else
            newton_loop F component_dofs p (1e-12 * diameter)
              ⟨p_unit, p_real, p_minus_F, s.newton_iteration + 1, mdata, s.trials ++ [trials]⟩
        | LineSearchResult.failure trials mdata =>
          SolverResult.failure
            ⟨s.p_unit, s.p_real, s.p_minus_F, s.newton_iteration, mdata,
              s.trials ++ [trials]⟩) ∧
      (∀ (step_length : ℚ) (trials : List ℚ),
        line_search F component_dofs p s.p_unit s.p_minus_F delta step_length s.mdata trials =
          if norm_square (p - do_transform_unit_to_real_cell component_dofs
              (s.mdata.reinit F s.mdata.update_each
                (Quadrature.of_point (fun i => s.p_unit i - step_length * delta i)))) <
              norm_square s.p_minus_F then
            LineSearchResult.accepted (trials ++ [step_length])
              (fun i => s.p_unit i - step_length * delta i)
              (do_transform_unit_to_real_cell component_dofs
                (s.mdata.reinit F s.mdata.update_each
                  (Quadrature.of_point (fun i => s.p_unit i - step_length * delta i))))
              (p - do_transform_unit_to_real_cell component_dofs
                (s.mdata.reinit F s.mdata.update_each
                  (Quadrature.of_point (fun i => s.p_unit i - step_length * delta i))))
              (s.mdata.reinit F s.mdata.update_each
                (Quadrature.of_point (fun i => s.p_unit i - step_length * delta i)))
          else if step_length > 0.05 then
            line_search F component_dofs p s.p_unit s.p_minus_F delta (step_length / 2)
              s.mdata (trials ++ [step_length])
          else
            LineSearchResult.failure (trials ++ [step_length])
              (s.mdata.reinit F s.mdata.update_each
                (Quadrature.of_point (fun i => s.p_unit i - step_length * delta i)))) ∧
      ∀ trials p_unit p_real p_minus_F mdata',
        line_search F component_dofs p s.p_unit s.p_minus_F delta 1 s.mdata [] =
          LineSearchResult.accepted trials p_unit p_real p_minus_F mdata' →
        (∃ step_length ∈ trials, p_unit = fun i => s.p_unit i - step_length * delta i) ∧
        cache_consistent F component_dofs p mdata
          ⟨p_unit, p_real, p_minus_F, s.newton_iteration + 1, mdata', s.trials ++ [trials]⟩ := by
  refine ⟨⟨rfl, ⟨rfl, rfl, rfl⟩⟩, newton_delta component_dofs s.mdata s.p_minus_F, ?_, ?_, ?_, ?_⟩
  · rw [newton_delta_eq, neg_inv_mulVec _ hJ, hinv.2.2, hinv.2.1, ← Matrix.mulVec_neg, neg_sub]
  · rw [newton_loop, if_pos hres]
    rfl
  · intro step_length trials
    exact line_search_step F component_dofs p s.p_unit s.p_minus_F _ step_length s.mdata trials
  · intro trials p_unit p_real p_minus_F mdata' hls
    obtain ⟨hm, hr, hf, -, -, ht⟩ := line_search_accepted_inv _ _ _ _ _ _ _ _ _ _ _ _ hls
    refine ⟨ht, ?_, hr, hf⟩
    show mdata' = cache_at F mdata p_unit
    rw [hm, hinv.1, cache_at_cache_at]

theorem exampleQ2_jacobian (a : ℚ) :
    newton_jacobian exampleQ2ComponentDoFs (cache_at dealiiFlags exampleQ2Data (pt a)) =
      fun _ _ => 2 * a := by
  have h0 := cache_at_derivative dealiiFlags exampleQ2Data (pt a) 0 (by decide) (by decide)
  have h1 := cache_at_derivative dealiiFlags exampleQ2Data (pt a) 1 (by decide) (by decide)
  have h2 := cache_at_derivative dealiiFlags exampleQ2Data (pt a) 2 (by decide) (by decide)
  have hl : (cache_at dealiiFlags exampleQ2Data (pt a)).local_dof_values = [0, 1, 1 / 4] := rfl
  funext d j
  unfold newton_jacobian
  have hd : ((d : Fin 1) : Nat) = 0 := by omega
  rw [hd, exampleQ2_get]
  simp only [List.map_cons, List.map_nil, List.sum_cons, List.sum_nil, h0, h1, h2, hl]
  simp [exampleQ2, exampleQ2Data, InternalData.init, pt]
  ring

/-- Witness of C25: on the quadratic example (forward map `x ↦ x²`) with target `0`, at
the iterate `x = 1` the Jacobian is `2`, the residual `map(x) - p` is `1`, and the
update of the first iteration solves `4 · delta = 2`. -/
theorem newton_update_spec_witness :
    ∃ delta : Tensor1 1,
      ((newton_jacobian exampleQ2ComponentDoFs
            (newton_state_at dealiiFlags exampleQ2ComponentDoFs (pt 0) exampleQ2Data (pt 1) 0
              []).mdata).transpose *
          newton_jacobian exampleQ2ComponentDoFs
            (newton_state_at dealiiFlags exampleQ2ComponentDoFs (pt 0) exampleQ2Data (pt 1) 0
              []).mdata).mulVec delta =
        (newton_jacobian exampleQ2ComponentDoFs
            (newton_state_at dealiiFlags exampleQ2ComponentDoFs (pt 0) exampleQ2Data (pt 1) 0
              []).mdata).transpose.mulVec
          (do_transform_unit_to_real_cell exampleQ2ComponentDoFs
            (newton_state_at dealiiFlags exampleQ2ComponentDoFs (pt 0) exampleQ2Data (pt 1) 0
              []).mdata - pt 0) ∧
      delta = pt (1 / 2) := by
  have hres : norm_square (newton_state_at dealiiFlags exampleQ2ComponentDoFs (pt 0)
      exampleQ2Data (pt 1) 0 []).p_minus_F > (1e-12 * 1) * (1e-12 * 1) := by
    rw [exampleQ2_state]
    simp only [norm_square_pt]
    norm_num
  have hJ : IsUnit ((newton_jacobian exampleQ2ComponentDoFs
      (newton_state_at dealiiFlags exampleQ2ComponentDoFs (pt 0) exampleQ2Data (pt 1) 0
        []).mdata).transpose *
      newton_jacobian exampleQ2ComponentDoFs
        (newton_state_at dealiiFlags exampleQ2ComponentDoFs (pt 0) exampleQ2Data (pt 1) 0
          []).mdata).det := by
    rw [exampleQ2_state, exampleQ2_jacobian, Matrix.det_fin_one, isUnit_iff_ne_zero]
    simp [Matrix.mul_apply]
  obtain ⟨-, delta, h1, -⟩ := newton_update_spec dealiiFlags exampleQ2ComponentDoFs 1 (pt 0)
    (pt 1) exampleQ2Data _ (newton_state_at_consistent _ _ _ _ _ _ _) hres hJ
  refine ⟨delta, h1, ?_⟩
  rw [exampleQ2_state] at h1
  simp only [exampleQ2_jacobian, exampleQ2_transform] at h1
  have h := congrFun h1 0
  simp [Matrix.mulVec, Matrix.dotProduct, Matrix.mul_apply, pt] at h
  funext i
  have hi : i = 0 := Subsingleton.elim _ _
  subst hi
  simp only [pt]
  linarith


/-! ## The pushed-forward derivatives of the Jacobian -/

theorem array_write_self (a : MultiArray) (idx : List Nat) (value : ℚ) :
    array_write a idx value idx = value := by
  unfold array_write
  rw [if_pos rfl]

theorem array_write_of_ne (a : MultiArray) (idx x : List Nat) (value : ℚ) (h : x ≠ idx) :
    array_write a idx value x = a x := by
  unfold array_write
  rw [if_neg h]

theorem array_write_write (a : MultiArray) (idx : List Nat) (u v : ℚ) :
    array_write (array_write a idx u) idx v = array_write a idx v := by
  funext x
  unfold array_write
  split_ifs <;> rfl

/-- The accumulation of `n > 0` terms in an entry leaves their sum in the entry. -/
theorem accumulate_eq (a : MultiArray) (idx : List Nat) (n : Nat) (f : Nat → ℚ)
    (hn : 0 < n) : accumulate a idx n f = array_write a idx ((Finset.range n).sum f) := by
  unfold accumulate
  have h : ∀ k, for_loop k (fun r a => array_write a idx (a idx + f (r + 1)))
      (array_write a idx (f 0)) = array_write a idx ((Finset.range (k + 1)).sum f) := by
    intro k
    induction k with
    | zero => simp [for_loop_zero]
    | succ k ih =>
      rw [for_loop_succ, ih, array_write_write, array_write_self, Finset.sum_range_succ _ (k + 1)]
  rw [h (n - 1), Nat.sub_add_cancel hn]

/-- A loop whose `i`-th iteration overwrites the entries of the set `A i` with the
values `w` and leaves the others overwrites the union of the sets. -/
theorem for_loop_family {ι : Type} (n : Nat) (body : Nat → (ι → ℚ) → (ι → ℚ))
    (A : Nat → ι → Prop) (w : ι → ℚ)
    (h1 : ∀ i s x, A i x → body i s x = w x)
    (h2 : ∀ i s x, ¬ A i x → body i s x = s x) (s : ι → ℚ) (x : ι) :
    ((∃ i, i < n ∧ A i x) → for_loop n body s x = w x) ∧
    ((¬ ∃ i, i < n ∧ A i x) → for_loop n body s x = s x) := by
  induction n with
  | zero =>
    refine ⟨?_, fun _ => rfl⟩
    rintro ⟨i, hi, -⟩
    omega
  | succ n ih =>
    rw [for_loop_succ]
    by_cases hA : A n x
    · exact ⟨fun _ => h1 n _ x hA, fun hne => absurd ⟨n, Nat.lt_succ_self n, hA⟩ hne⟩
    · rw [h2 n _ x hA]
      constructor
      · rintro ⟨i, hi, hAi⟩
        have hin : i ≠ n := fun e => hA (e ▸ hAi)
        exact ih.1 ⟨i, by omega, hAi⟩
      · intro hne
        exact ih.2 (fun ⟨i, hi, hAi⟩ => hne ⟨i, by omega, hAi⟩)

/-- One loop that accumulates a contraction in the entry of the loop
indices, after the fixed indices `pre`: the entries of the index range hold the sum,
the others are unchanged. -/
theorem nest1_accumulate (pre : List Nat) (b1 n : Nat) (hn : 0 < n)
    (g : List Nat → Nat → ℚ) (s : MultiArray) (x : List Nat) :
    ((∃ i1, i1 < b1 ∧ x = pre ++ [i1]) →
      for_loop b1 (fun i1 s => accumulate s (pre ++ [i1]) n (g (pre ++ [i1]))) s x =
        (Finset.range n).sum (g x)) ∧
    ((¬ ∃ i1, i1 < b1 ∧ x = pre ++ [i1]) →
      for_loop b1 (fun i1 s => accumulate s (pre ++ [i1]) n (g (pre ++ [i1]))) s x = s x) := by
  refine for_loop_family b1 (fun i1 s => accumulate s (pre ++ [i1]) n (g (pre ++ [i1])))
    (fun i1 x => x = pre ++ [i1]) (fun x => (Finset.range n).sum (g x)) ?_ ?_ s x
  · intro i1 s x hx
    beta_reduce at hx ⊢
    rw [accumulate_eq _ _ _ _ hn, hx, array_write_self]
  · intro i1 s x hx
    beta_reduce at hx ⊢
    rw [accumulate_eq _ _ _ _ hn, array_write_of_ne _ _ _ _ hx]

/-- Two nested loops that accumulate a contraction in the entry of the loop
indices, after the fixed indices `pre`: the entries of the index range hold the sum,
the others are unchanged. -/
theorem nest2_accumulate (pre : List Nat) (b1 b2 n : Nat) (hn : 0 < n)
    (g : List Nat → Nat → ℚ) (s : MultiArray) (x : List Nat) :
    ((∃ i1, i1 < b1 ∧ ∃ i2, i2 < b2 ∧ x = pre ++ [i1, i2]) →
      for_loop b1 (fun i1 s => for_loop b2 (fun i2 s => accumulate s (pre ++ [i1, i2]) n (g (pre ++ [i1, i2]))) s) s x =
        (Finset.range n).sum (g x)) ∧
    ((¬ ∃ i1, i1 < b1 ∧ ∃ i2, i2 < b2 ∧ x = pre ++ [i1, i2]) →
      for_loop b1 (fun i1 s => for_loop b2 (fun i2 s => accumulate s (pre ++ [i1, i2]) n (g (pre ++ [i1, i2]))) s) s x = s x) := by
  have hin : ∀ (i1 : Nat) (s : MultiArray) (x : List Nat),
      ((∃ i2, i2 < b2 ∧ x = pre ++ [i1] ++ [i2]) →
        for_loop b2 (fun i2 s => accumulate s (pre ++ [i1] ++ [i2]) n (g (pre ++ [i1] ++ [i2]))) s x = (Finset.range n).sum (g x)) ∧
      ((¬ ∃ i2, i2 < b2 ∧ x = pre ++ [i1] ++ [i2]) →
        for_loop b2 (fun i2 s => accumulate s (pre ++ [i1] ++ [i2]) n (g (pre ++ [i1] ++ [i2]))) s x = s x) :=
    fun i1 s x => nest1_accumulate (pre ++ [i1]) b2 n hn g s x
  simp only [List.append_assoc, List.singleton_append] at hin
  exact for_loop_family b1 _ (fun i1 x => ∃ i2, i2 < b2 ∧ x = pre ++ i1 :: [i2])
    (fun x => (Finset.range n).sum (g x)) (fun i1 s x hx => (hin i1 s x).1 hx)
    (fun i1 s x hx => (hin i1 s x).2 hx) s x

/-- Three nested loops that accumulate a contraction in the entry of the loop
indices, after the fixed indices `pre`: the entries of the index range hold the sum,
the others are unchanged. -/
theorem nest3_accumulate (pre : List Nat) (b1 b2 b3 n : Nat) (hn : 0 < n)
    (g : List Nat → Nat → ℚ) (s : MultiArray) (x : List Nat) :
    ((∃ i1, i1 < b1 ∧ ∃ i2, i2 < b2 ∧ ∃ i3, i3 < b3 ∧ x = pre ++ [i1, i2, i3]) →
      for_loop b1 (fun i1 s => for_loop b2 (fun i2 s => for_loop b3 (fun i3 s => accumulate s (pre ++ [i1, i2, i3]) n (g (pre ++ [i1, i2, i3]))) s) s) s x =
        (Finset.range n).sum (g x)) ∧
    ((¬ ∃ i1, i1 < b1 ∧ ∃ i2, i2 < b2 ∧ ∃ i3, i3 < b3 ∧ x = pre ++ [i1, i2, i3]) →
      for_loop b1 (fun i1 s => for_loop b2 (fun i2 s => for_loop b3 (fun i3 s => accumulate s (pre ++ [i1, i2, i3]) n (g (pre ++ [i1, i2, i3]))) s) s) s x = s x) := by
  have hin : ∀ (i1 : Nat) (s : MultiArray) (x : List Nat),
      ((∃ i2, i2 < b2 ∧ ∃ i3, i3 < b3 ∧ x = pre ++ [i1] ++ [i2, i3]) →
        for_loop b2 (fun i2 s => for_loop b3 (fun i3 s => accumulate s (pre ++ [i1] ++ [i2, i3]) n (g (pre ++ [i1] ++ [i2, i3]))) s) s x = (Finset.range n).sum (g x)) ∧
      ((¬ ∃ i2, i2 < b2 ∧ ∃ i3, i3 < b3 ∧ x = pre ++ [i1] ++ [i2, i3]) →
        for_loop b2 (fun i2 s => for_loop b3 (fun i3 s => accumulate s (pre ++ [i1] ++ [i2, i3]) n (g (pre ++ [i1] ++ [i2, i3]))) s) s x = s x) :=
    fun i1 s x => nest2_accumulate (pre ++ [i1]) b2 b3 n hn g s x
  simp only [List.append_assoc, List.singleton_append] at hin
  exact for_loop_family b1 _ (fun i1 x => ∃ i2, i2 < b2 ∧ ∃ i3, i3 < b3 ∧ x = pre ++ i1 :: [i2, i3])
    (fun x => (Finset.range n).sum (g x)) (fun i1 s x hx => (hin i1 s x).1 hx)
    (fun i1 s x hx => (hin i1 s x).2 hx) s x

/-- Four nested loops that accumulate a contraction in the entry of the loop
indices, after the fixed indices `pre`: the entries of the index range hold the sum,
the others are unchanged. -/
theorem nest4_accumulate (pre : List Nat) (b1 b2 b3 b4 n : Nat) (hn : 0 < n)
    (g : List Nat → Nat → ℚ) (s : MultiArray) (x : List Nat) :
    ((∃ i1, i1 < b1 ∧ ∃ i2, i2 < b2 ∧ ∃ i3, i3 < b3 ∧ ∃ i4, i4 < b4 ∧ x = pre ++ [i1, i2, i3, i4]) →
      for_loop b1 (fun i1 s => for_loop b2 (fun i2 s => for_loop b3 (fun i3 s => for_loop b4 (fun i4 s => accumulate s (pre ++ [i1, i2, i3, i4]) n (g (pre ++ [i1, i2, i3, i4]))) s) s) s) s x =
        (Finset.range n).sum (g x)) ∧
    ((¬ ∃ i1, i1 < b1 ∧ ∃ i2, i2 < b2 ∧ ∃ i3, i3 < b3 ∧ ∃ i4, i4 < b4 ∧ x = pre ++ [i1, i2, i3, i4]) →
      for_loop b1 (fun i1 s => for_loop b2 (fun i2 s => for_loop b3 (fun i3 s => for_loop b4 (fun i4 s => accumulate s (pre ++ [i1, i2, i3, i4]) n (g (pre ++ [i1, i2, i3, i4]))) s) s) s) s x = s x) := by
  have hin : ∀ (i1 : Nat) (s : MultiArray) (x : List Nat),
      ((∃ i2, i2 < b2 ∧ ∃ i3, i3 < b3 ∧ ∃ i4, i4 < b4 ∧ x = pre ++ [i1] ++ [i2, i3, i4]) →
        for_loop b2 (fun i2 s => for_loop b3 (fun i3 s => for_loop b4 (fun i4 s => accumulate s (pre ++ [i1] ++ [i2, i3, i4]) n (g (pre ++ [i1] ++ [i2, i3, i4]))) s) s) s x = (Finset.range n).sum (g x)) ∧
      ((¬ ∃ i2, i2 < b2 ∧ ∃ i3, i3 < b3 ∧ ∃ i4, i4 < b4 ∧ x = pre ++ [i1] ++ [i2, i3, i4]) →
        for_loop b2 (fun i2 s => for_loop b3 (fun i3 s => for_loop b4 (fun i4 s => accumulate s (pre ++ [i1] ++ [i2, i3, i4]) n (g (pre ++ [i1] ++ [i2, i3, i4]))) s) s) s x = s x) :=
    fun i1 s x => nest3_accumulate (pre ++ [i1]) b2 b3 b4 n hn g s x
  simp only [List.append_assoc, List.singleton_append] at hin
  exact for_loop_family b1 _ (fun i1 x => ∃ i2, i2 < b2 ∧ ∃ i3, i3 < b3 ∧ ∃ i4, i4 < b4 ∧ x = pre ++ i1 :: [i2, i3, i4])
    (fun x => (Finset.range n).sum (g x)) (fun i1 s x hx => (hin i1 s x).1 hx)
    (fun i1 s x hx => (hin i1 s x).2 hx) s x

/-- Five nested loops that accumulate a contraction in the entry of the loop
indices, after the fixed indices `pre`: the entries of the index range hold the sum,
the others are unchanged. -/
theorem nest5_accumulate (pre : List Nat) (b1 b2 b3 b4 b5 n : Nat) (hn : 0 < n)
    (g : List Nat → Nat → ℚ) (s : MultiArray) (x : List Nat) :
    ((∃ i1, i1 < b1 ∧ ∃ i2, i2 < b2 ∧ ∃ i3, i3 < b3 ∧ ∃ i4, i4 < b4 ∧ ∃ i5, i5 < b5 ∧ x = pre ++ [i1, i2, i3, i4, i5]) →
      for_loop b1 (fun i1 s => for_loop b2 (fun i2 s => for_loop b3 (fun i3 s => for_loop b4 (fun i4 s => for_loop b5 (fun i5 s => accumulate s (pre ++ [i1, i2, i3, i4, i5]) n (g (pre ++ [i1, i2, i3, i4, i5]))) s) s) s) s) s x =
        (Finset.range n).sum (g x)) ∧
    ((¬ ∃ i1, i1 < b1 ∧ ∃ i2, i2 < b2 ∧ ∃ i3, i3 < b3 ∧ ∃ i4, i4 < b4 ∧ ∃ i5, i5 < b5 ∧ x = pre ++ [i1, i2, i3, i4, i5]) →
      for_loop b1 (fun i1 s => for_loop b2 (fun i2 s => for_loop b3 (fun i3 s => for_loop b4 (fun i4 s => for_loop b5 (fun i5 s => accumulate s (pre ++ [i1, i2, i3, i4, i5]) n (g (pre ++ [i1, i2, i3, i4, i5]))) s) s) s) s) s x = s x) := by
  have hin : ∀ (i1 : Nat) (s : MultiArray) (x : List Nat),
      ((∃ i2, i2 < b2 ∧ ∃ i3, i3 < b3 ∧ ∃ i4, i4 < b4 ∧ ∃ i5, i5 < b5 ∧ x = pre ++ [i1] ++ [i2, i3, i4, i5]) →
        for_loop b2 (fun i2 s => for_loop b3 (fun i3 s => for_loop b4 (fun i4 s => for_loop b5 (fun i5 s => accumulate s (pre ++ [i1] ++ [i2, i3, i4, i5]) n (g (pre ++ [i1] ++ [i2, i3, i4, i5]))) s) s) s) s x = (Finset.range n).sum (g x)) ∧
      ((¬ ∃ i2, i2 < b2 ∧ ∃ i3, i3 < b3 ∧ ∃ i4, i4 < b4 ∧ ∃ i5, i5 < b5 ∧ x = pre ++ [i1] ++ [i2, i3, i4, i5]) →
        for_loop b2 (fun i2 s => for_loop b3 (fun i3 s => for_loop b4 (fun i4 s => for_loop b5 (fun i5 s => accumulate s (pre ++ [i1] ++ [i2, i3, i4, i5]) n (g (pre ++ [i1] ++ [i2, i3, i4, i5]))) s) s) s) s x = s x) :=
    fun i1 s x => nest4_accumulate (pre ++ [i1]) b2 b3 b4 b5 n hn g s x
  simp only [List.append_assoc, List.singleton_append] at hin
  exact for_loop_family b1 _ (fun i1 x => ∃ i2, i2 < b2 ∧ ∃ i3, i3 < b3 ∧ ∃ i4, i4 < b4 ∧ ∃ i5, i5 < b5 ∧ x = pre ++ i1 :: [i2, i3, i4, i5])
    (fun x => (Finset.range n).sum (g x)) (fun i1 s x hx => (hin i1 s x).1 hx)
    (fun i1 s x hx => (hin i1 s x).2 hx) s x

theorem DerivativeForm1_entry_fin {dim spacedim : Nat} (t : DerivativeForm1 dim spacedim)
    (i : Fin spacedim) (j : Fin dim) : DerivativeForm1_entry t i j = t i j := by
  unfold DerivativeForm1_entry
  rw [dif_pos ⟨i.isLt, j.isLt⟩]

theorem DerivativeForm2_entry_fin {dim spacedim : Nat} (t : DerivativeForm2 dim spacedim)
    (d : Fin spacedim) (j l : Fin dim) : DerivativeForm2_entry t d j l = t d j l := by
  unfold DerivativeForm2_entry
  rw [dif_pos ⟨d.isLt, j.isLt, l.isLt⟩]

theorem DerivativeForm3_entry_fin {dim spacedim : Nat} (t : DerivativeForm3 dim spacedim)
    (d : Fin spacedim) (j l m : Fin dim) : DerivativeForm3_entry t d j l m = t d j l m := by
  unfold DerivativeForm3_entry
  rw [dif_pos ⟨d.isLt, j.isLt, l.isLt, m.isLt⟩]

theorem DerivativeForm4_entry_fin {dim spacedim : Nat} (t : DerivativeForm4 dim spacedim)
    (d : Fin spacedim) (j l m n : Fin dim) :
    DerivativeForm4_entry t d j l m n = t d j l m n := by
  unfold DerivativeForm4_entry
  rw [dif_pos ⟨d.isLt, j.isLt, l.isLt, m.isLt, n.isLt⟩]

theorem jacobian_grads_result_eq {dim spacedim : Nat} (data_set : Nat)
    (data : InternalData dim spacedim) (component_dofs : ComponentDoFs) (point : Nat) :
    jacobian_grads_result data_set data component_dofs point =
      raw_second_derivatives data_set data component_dofs point := by
  funext d j l
  unfold jacobian_grads_result raw_second_derivatives
  rw [foldl_add_eq_sum, zero_add]
  congr 1
  apply List.map_congr_left
  intro i _
  rw [mul_comm, Nat.add_zero]

theorem jacobian_2nd_derivatives_result_eq {dim spacedim : Nat} (data_set : Nat)
    (data : InternalData dim spacedim) (component_dofs : ComponentDoFs) (point : Nat) :
    jacobian_2nd_derivatives_result data_set data component_dofs point =
      raw_third_derivatives data_set data component_dofs point := by
  funext d j l m
  unfold jacobian_2nd_derivatives_result raw_third_derivatives
  rw [foldl_add_eq_sum, zero_add]
  congr 1
  apply List.map_congr_left
  intro i _
  rw [mul_comm, Nat.add_zero]

theorem jacobian_3rd_derivatives_result_eq {dim spacedim : Nat} (data_set : Nat)
    (data : InternalData dim spacedim) (component_dofs : ComponentDoFs) (point : Nat) :
    jacobian_3rd_derivatives_result data_set data component_dofs point =
      raw_fourth_derivatives data_set data component_dofs point := by
  funext d j l m n
  unfold jacobian_3rd_derivatives_result raw_fourth_derivatives
  rw [foldl_add_eq_sum, zero_add]
  congr 1
  apply List.map_congr_left
  intro i _
  rw [mul_comm, Nat.add_zero]

/-- A loop over the points whose body writes the value `V point` to the entry of the
point, whatever the scratch state is, assigns these values. -/
theorem for_loop_point_set {σ α : Type} (n : Nat) (g : Nat → σ × List α → σ × List α)
    (V : Nat → α) (h : ∀ point s, (g point s).2 = s.2.set point (V point))
    (s : σ × List α) : (for_loop n g s).2 = assign_each n V s.2 :=
  for_loop_snd n g (fun point out => out.set point (V point)) s h

/-- The two stages of the push-forward of the second derivatives at a point. -/
theorem pushed_forward_grads_point {dim spacedim : Nat} (hdim : 0 < dim)
    (R : DerivativeForm2 dim spacedim) (C : DerivativeForm1 dim spacedim)
    (tmp out : MultiArray) (i j l : Fin spacedim) :
    for_loop spacedim (fun i out =>
      for_loop spacedim (fun j out =>
        for_loop spacedim (fun l out =>
          accumulate out [i, j, l] dim (fun lr =>
            (for_loop spacedim (fun i tmp =>
              for_loop spacedim (fun j tmp =>
                for_loop dim (fun l tmp =>
                  accumulate tmp [i, j, l] dim (fun jr =>
                    DerivativeForm2_entry R i jr l * DerivativeForm1_entry C j jr))
                  tmp) tmp) tmp) [i, j, lr] * DerivativeForm1_entry C l lr))
          out) out) out [i, j, l] =
      simultaneous_contraction_2 R C i j l := by
  generalize htmp : (for_loop spacedim (fun i tmp =>
      for_loop spacedim (fun j tmp =>
        for_loop dim (fun l tmp =>
          accumulate tmp [i, j, l] dim (fun jr =>
            DerivativeForm2_entry R i jr l * DerivativeForm1_entry C j jr))
          tmp) tmp) tmp) = tmp1
  have h1 : ∀ (i j : Fin spacedim) (lr : Fin dim),
      tmp1 [i, j, lr] = ∑ jr : Fin dim, R i jr lr * C j jr := by
    intro i j lr
    rw [← htmp]
    have h := (nest3_accumulate [] spacedim spacedim dim dim hdim
      (fun x jr => DerivativeForm2_entry R (x.getD 0 0) jr (x.getD 2 0) *
        DerivativeForm1_entry C (x.getD 1 0) jr) tmp [i, j, lr]).1
      ⟨i, i.isLt, j, j.isLt, lr, lr.isLt, rfl⟩
    refine h.trans ?_
    rw [Finset.sum_range]
    apply Finset.sum_congr rfl
    intro jr _
    show DerivativeForm2_entry R i jr lr * DerivativeForm1_entry C j jr = _
    rw [DerivativeForm2_entry_fin, DerivativeForm1_entry_fin]
  have h2 := (nest3_accumulate [] spacedim spacedim spacedim dim hdim
      (fun x lr => tmp1 [x.getD 0 0, x.getD 1 0, lr] *
        DerivativeForm1_entry C (x.getD 2 0) lr) out [i, j, l]).1
      ⟨i, i.isLt, j, j.isLt, l, l.isLt, rfl⟩
  refine h2.trans ?_
  rw [Finset.sum_range]
  unfold simultaneous_contraction_2
  rw [Finset.sum_comm]
  apply Finset.sum_congr rfl
  intro lr _
  show tmp1 [i, j, lr] * DerivativeForm1_entry C l lr = _
  rw [h1, DerivativeForm1_entry_fin, Finset.sum_mul]


/-- The three stages of the push-forward of the third derivatives at a point: the
output entry is the scratch array of the first stage and the destination of the
third. -/
theorem pushed_forward_2nd_derivatives_point {dim spacedim : Nat} (hdim : 0 < dim)
    (R : DerivativeForm3 dim spacedim) (C : DerivativeForm1 dim spacedim)
    (tmp out o1 tmp1 o2 : MultiArray)
    (ho1 : o1 = for_loop spacedim (fun i out =>
      for_loop spacedim (fun j out =>
        for_loop dim (fun l out =>
          for_loop dim (fun m out =>
            accumulate out [i, j, l, m] dim (fun jr =>
              DerivativeForm3_entry R i jr l m * DerivativeForm1_entry C j jr))
            out) out) out) out)
    (htmp1 : tmp1 = for_loop spacedim (fun i tmp =>
      for_loop spacedim (fun j tmp =>
        for_loop spacedim (fun l tmp =>
          for_loop dim (fun m tmp =>
            accumulate tmp [i, j, l, m] dim (fun lr =>
              o1 [i, j, lr, m] * DerivativeForm1_entry C l lr))
            tmp) tmp) tmp) tmp)
    (ho2 : o2 = for_loop spacedim (fun i out =>
      for_loop spacedim (fun j out =>
        for_loop spacedim (fun l out =>
          for_loop spacedim (fun m out =>
            accumulate out [i, j, l, m] dim (fun mr =>
              tmp1 [i, j, l, mr] * DerivativeForm1_entry C m mr))
            out) out) out) o1)
    (i j l m : Fin spacedim) :
    o2 [i, j, l, m] = simultaneous_contraction_3 R C i j l m := by
  have h1 : ∀ (i j : Fin spacedim) (lr mr : Fin dim),
      o1 [i, j, lr, mr] = ∑ jr : Fin dim, R i jr lr mr * C j jr := by
    intro i j lr mr
    rw [ho1]
    have h := (nest4_accumulate [] spacedim spacedim dim dim dim hdim
      (fun x jr => DerivativeForm3_entry R (x.getD 0 0) jr (x.getD 2 0) (x.getD 3 0) *
        DerivativeForm1_entry C (x.getD 1 0) jr) out [i, j, lr, mr]).1
      ⟨i, i.isLt, j, j.isLt, lr, lr.isLt, mr, mr.isLt, rfl⟩
    refine h.trans ?_
    rw [Finset.sum_range]
    apply Finset.sum_congr rfl
    intro jr _
    show DerivativeForm3_entry R i jr lr mr * DerivativeForm1_entry C j jr = _
    rw [DerivativeForm3_entry_fin, DerivativeForm1_entry_fin]
  have h2 : ∀ (i j l : Fin spacedim) (mr : Fin dim),
      tmp1 [i, j, l, mr] = ∑ lr : Fin dim, (∑ jr : Fin dim, R i jr lr mr * C j jr) * C l lr := by
    intro i j l mr
    rw [htmp1]
    have h := (nest4_accumulate [] spacedim spacedim spacedim dim dim hdim
      (fun x lr => o1 [x.getD 0 0, x.getD 1 0, lr, x.getD 3 0] *
        DerivativeForm1_entry C (x.getD 2 0) lr) tmp [i, j, l, mr]).1
      ⟨i, i.isLt, j, j.isLt, l, l.isLt, mr, mr.isLt, rfl⟩
    refine h.trans ?_
    rw [Finset.sum_range]
    apply Finset.sum_congr rfl
    intro lr _
    show o1 [i, j, lr, mr] * DerivativeForm1_entry C l lr = _
    rw [h1, DerivativeForm1_entry_fin]
  rw [ho2]
  have h3 := (nest4_accumulate [] spacedim spacedim spacedim spacedim dim hdim
      (fun x mr => tmp1 [x.getD 0 0, x.getD 1 0, x.getD 2 0, mr] *
        DerivativeForm1_entry C (x.getD 3 0) mr) o1 [i, j, l, m]).1
      ⟨i, i.isLt, j, j.isLt, l, l.isLt, m, m.isLt, rfl⟩
  refine h3.trans ?_
  rw [Finset.sum_range]
  unfold simultaneous_contraction_3
  have e : ∀ mr : Fin dim,
      tmp1 [(i : Nat), (j : Nat), (l : Nat), (mr : Nat)] * DerivativeForm1_entry C m mr =
      ∑ lr : Fin dim, ∑ jr : Fin dim, R i jr lr mr * C j jr * C l lr * C m mr := by
    intro mr
    rw [h2, DerivativeForm1_entry_fin, Finset.sum_mul]
    apply Finset.sum_congr rfl
    intro lr _
    rw [Finset.sum_mul, Finset.sum_mul]
  calc ∑ mr : Fin dim, tmp1 [(i : Nat), (j : Nat), (l : Nat), (mr : Nat)] *
        DerivativeForm1_entry C m mr
      = ∑ mr : Fin dim, ∑ lr : Fin dim, ∑ jr : Fin dim,
          R i jr lr mr * C j jr * C l lr * C m mr := Finset.sum_congr rfl (fun mr _ => e mr)
    _ = ∑ lr : Fin dim, ∑ mr : Fin dim, ∑ jr : Fin dim,
          R i jr lr mr * C j jr * C l lr * C m mr := Finset.sum_comm
    _ = ∑ lr : Fin dim, ∑ jr : Fin dim, ∑ mr : Fin dim,
          R i jr lr mr * C j jr * C l lr * C m mr :=
        Finset.sum_congr rfl (fun lr _ => Finset.sum_comm)
    _ = ∑ jr : Fin dim, ∑ lr : Fin dim, ∑ mr : Fin dim,
          R i jr lr mr * C j jr * C l lr * C m mr := Finset.sum_comm

theorem sum_reverse_3 {n : Nat} (X : Fin n → Fin n → Fin n → ℚ) :
    ∑ m, ∑ l, ∑ j, X j l m = ∑ j, ∑ l, ∑ m, X j l m :=
  calc ∑ m, ∑ l, ∑ j, X j l m
      = ∑ l, ∑ m, ∑ j, X j l m := Finset.sum_comm
    _ = ∑ l, ∑ j, ∑ m, X j l m := Finset.sum_congr rfl (fun _ _ => Finset.sum_comm)
    _ = ∑ j, ∑ l, ∑ m, X j l m := Finset.sum_comm

theorem sum_reverse_4 {n : Nat} (X : Fin n → Fin n → Fin n → Fin n → ℚ) :
    ∑ k, ∑ m, ∑ l, ∑ j, X j l m k = ∑ j, ∑ l, ∑ m, ∑ k, X j l m k :=
  calc ∑ k, ∑ m, ∑ l, ∑ j, X j l m k
      = ∑ k, ∑ j, ∑ l, ∑ m, X j l m k :=
        Finset.sum_congr rfl (fun k _ => sum_reverse_3 (fun j l m => X j l m k))
    _ = ∑ j, ∑ k, ∑ l, ∑ m, X j l m k := Finset.sum_comm
    _ = ∑ j, ∑ l, ∑ k, ∑ m, X j l m k := Finset.sum_congr rfl (fun _ _ => Finset.sum_comm)
    _ = ∑ j, ∑ l, ∑ m, ∑ k, X j l m k :=
        Finset.sum_congr rfl (fun _ _ => Finset.sum_congr rfl (fun _ _ => Finset.sum_comm))

/-- The four stages of the push-forward of the fourth derivatives at a point: the
local array and the output entry take turns as source and destination. -/
theorem pushed_forward_3rd_derivatives_point {dim spacedim : Nat} (hdim : 0 < dim)
    (R : DerivativeForm4 dim spacedim) (C : DerivativeForm1 dim spacedim)
    (tmp out tmp1 o1 tmp2 o2 : MultiArray)
    (htmp1 : tmp1 = for_loop spacedim (fun i tmp =>
      for_loop spacedim (fun j tmp =>
        for_loop dim (fun l tmp =>
          for_loop dim (fun m tmp =>
            for_loop dim (fun n tmp =>
              accumulate tmp [i, j, l, m, n] dim (fun jr =>
                DerivativeForm4_entry R i jr l m n * DerivativeForm1_entry C j jr))
              tmp) tmp) tmp) tmp) tmp)
    (ho1 : o1 = for_loop spacedim (fun i out =>
      for_loop spacedim (fun j out =>
        for_loop spacedim (fun l out =>
          for_loop dim (fun m out =>
            for_loop dim (fun n out =>
              accumulate out [i, j, l, m, n] dim (fun lr =>
                tmp1 [i, j, lr, m, n] * DerivativeForm1_entry C l lr))
              out) out) out) out) out)
    (htmp2 : tmp2 = for_loop spacedim (fun i tmp =>
      for_loop spacedim (fun j tmp =>
        for_loop spacedim (fun l tmp =>
          for_loop spacedim (fun m tmp =>
            for_loop dim (fun n tmp =>
              accumulate tmp [i, j, l, m, n] dim (fun mr =>
                o1 [i, j, l, mr, n] * DerivativeForm1_entry C m mr))
              tmp) tmp) tmp) tmp) tmp1)
    (ho2 : o2 = for_loop spacedim (fun i out =>
      for_loop spacedim (fun j out =>
        for_loop spacedim (fun l out =>
          for_loop spacedim (fun m out =>
            for_loop spacedim (fun n out =>
              accumulate out [i, j, l, m, n] dim (fun nr =>
                tmp2 [i, j, l, m, nr] * DerivativeForm1_entry C n nr))
              out) out) out) out) o1)
    (i j l m n : Fin spacedim) :
    o2 [i, j, l, m, n] = simultaneous_contraction_4 R C i j l m n := by
  have h1 : ∀ (i j : Fin spacedim) (lr mr nr : Fin dim),
      tmp1 [i, j, lr, mr, nr] = ∑ jr : Fin dim, R i jr lr mr nr * C j jr := by
    intro i j lr mr nr
    rw [htmp1]
    have h := (nest5_accumulate [] spacedim spacedim dim dim dim dim hdim
      (fun x jr =>
        DerivativeForm4_entry R (x.getD 0 0) jr (x.getD 2 0) (x.getD 3 0) (x.getD 4 0) *
          DerivativeForm1_entry C (x.getD 1 0) jr) tmp [i, j, lr, mr, nr]).1
      ⟨i, i.isLt, j, j.isLt, lr, lr.isLt, mr, mr.isLt, nr, nr.isLt, rfl⟩
    refine h.trans ?_
    rw [Finset.sum_range]
    apply Finset.sum_congr rfl
    intro jr _
    show DerivativeForm4_entry R i jr lr mr nr * DerivativeForm1_entry C j jr = _
    rw [DerivativeForm4_entry_fin, DerivativeForm1_entry_fin]
  have h2 : ∀ (i j l : Fin spacedim) (mr nr : Fin dim),
      o1 [i, j, l, mr, nr] =
        ∑ lr : Fin dim, (∑ jr : Fin dim, R i jr lr mr nr * C j jr) * C l lr := by
    intro i j l mr nr
    rw [ho1]
    have h := (nest5_accumulate [] spacedim spacedim spacedim dim dim dim hdim
      (fun x lr => tmp1 [x.getD 0 0, x.getD 1 0, lr, x.getD 3 0, x.getD 4 0] *
        DerivativeForm1_entry C (x.getD 2 0) lr) out [i, j, l, mr, nr]).1
      ⟨i, i.isLt, j, j.isLt, l, l.isLt, mr, mr.isLt, nr, nr.isLt, rfl⟩
    refine h.trans ?_
    rw [Finset.sum_range]
    apply Finset.sum_congr rfl
    intro lr _
    show tmp1 [i, j, lr, mr, nr] * DerivativeForm1_entry C l lr = _
    rw [h1, DerivativeForm1_entry_fin]
  have h3 : ∀ (i j l m : Fin spacedim) (nr : Fin dim),
      tmp2 [i, j, l, m, nr] =
        ∑ mr : Fin dim, (∑ lr : Fin dim, (∑ jr : Fin dim, R i jr lr mr nr * C j jr) * C l lr) *
          C m mr := by
    intro i j l m nr
    rw [htmp2]
    have h := (nest5_accumulate [] spacedim spacedim spacedim spacedim dim dim hdim
      (fun x mr => o1 [x.getD 0 0, x.getD 1 0, x.getD 2 0, mr, x.getD 4 0] *
        DerivativeForm1_entry C (x.getD 3 0) mr) tmp1 [i, j, l, m, nr]).1
      ⟨i, i.isLt, j, j.isLt, l, l.isLt, m, m.isLt, nr, nr.isLt, rfl⟩
    refine h.trans ?_
    rw [Finset.sum_range]
    apply Finset.sum_congr rfl
    intro mr _
    show o1 [i, j, l, mr, nr] * DerivativeForm1_entry C m mr = _
    rw [h2, DerivativeForm1_entry_fin]
  rw [ho2]
  have h4 := (nest5_accumulate [] spacedim spacedim spacedim spacedim spacedim dim hdim
      (fun x nr => tmp2 [x.getD 0 0, x.getD 1 0, x.getD 2 0, x.getD 3 0, nr] *
        DerivativeForm1_entry C (x.getD 4 0) nr) o1 [i, j, l, m, n]).1
      ⟨i, i.isLt, j, j.isLt, l, l.isLt, m, m.isLt, n, n.isLt, rfl⟩
  refine h4.trans ?_
  rw [Finset.sum_range]
  unfold simultaneous_contraction_4
  have e : ∀ nr : Fin dim,
      tmp2 [(i : Nat), (j : Nat), (l : Nat), (m : Nat), (nr : Nat)] *
        DerivativeForm1_entry C n nr =
      ∑ mr : Fin dim, ∑ lr : Fin dim, ∑ jr : Fin dim,
        R i jr lr mr nr * C j jr * C l lr * C m mr * C n nr := by
    intro nr
    rw [h3, DerivativeForm1_entry_fin, Finset.sum_mul]
    apply Finset.sum_congr rfl
    intro mr _
    rw [Finset.sum_mul, Finset.sum_mul]
    apply Finset.sum_congr rfl
    intro lr _
    rw [Finset.sum_mul, Finset.sum_mul, Finset.sum_mul]
  refine (Finset.sum_congr rfl (fun nr _ => e nr)).trans ?_
  exact sum_reverse_4 (fun jr lr mr nr => R i jr lr mr nr * C j jr * C l lr * C m mr * C n nr)

/-- C26: for each order and every point of the output, the pushed-forward tensor the
routine writes, by contracting one reference index after the other through the local
array `tmp` and the output entry, is the raw derivative tensor with all its reference
indices contracted with the covariant matrix at once; this holds whatever the local
array contains on entry. -/
theorem pushed_forward_derivatives_spec {dim spacedim : Nat} (F : UpdateFlagValues)
    (data_set : Nat) (data : InternalData dim spacedim) (component_dofs : ComponentDoFs)
    (tmp : MultiArray) (hdim : 0 < dim) :
    (∀ (out : List (Tensor3 spacedim)) (point : Nat),
      data.update_each &&& F.update_jacobian_pushed_forward_grads ≠ 0 → point < out.length →
      (maybe_update_jacobian_pushed_forward_grads_run F data_set data component_dofs tmp
        out).2.getD point 0 =
      simultaneous_contraction_2 (raw_second_derivatives data_set data component_dofs point)
        (data.covariant.getD point 0)) ∧
    (∀ (out : List (Tensor4 spacedim)) (point : Nat),
      data.update_each &&& F.update_jacobian_pushed_forward_2nd_derivatives ≠ 0 →
      point < out.length →
      (maybe_update_jacobian_pushed_forward_2nd_derivatives_run F data_set data component_dofs
        tmp out).2.getD point 0 =
      simultaneous_contraction_3 (raw_third_derivatives data_set data component_dofs point)
        (data.covariant.getD point 0)) ∧
    (∀ (out : List (Tensor5 spacedim)) (point : Nat),
      data.update_each &&& F.update_jacobian_pushed_forward_3rd_derivatives ≠ 0 →
      point < out.length →
      (maybe_update_jacobian_pushed_forward_3rd_derivatives_run F data_set data component_dofs
        tmp out).2.getD point 0 =
      simultaneous_contraction_4 (raw_fourth_derivatives data_set data component_dofs point)
        (data.covariant.getD point 0)) := by
  refine ⟨?_, ?_, ?_⟩
  · intro out point hflag hpoint
    unfold maybe_update_jacobian_pushed_forward_grads_run
    simp only []
    rw [if_pos hflag, for_loop_point_set out.length _
      (fun point => simultaneous_contraction_2
        (raw_second_derivatives data_set data component_dofs point)
        (data.covariant.getD point 0))]
    · exact assign_each_getD _ _ _ _ _ hpoint hpoint
    · intro point s
      show s.2.set point _ = s.2.set point _
      congr 1
      funext i j l
      rw [← jacobian_grads_result_eq]
      exact pushed_forward_grads_point hdim _ _ _ _ i j l
  · intro out point hflag hpoint
    unfold maybe_update_jacobian_pushed_forward_2nd_derivatives_run
    simp only []
    rw [if_pos hflag, for_loop_point_set out.length _
      (fun point => simultaneous_contraction_3
        (raw_third_derivatives data_set data component_dofs point)
        (data.covariant.getD point 0))]
    · exact assign_each_getD _ _ _ _ _ hpoint hpoint
    · intro point s
      show s.2.set point _ = s.2.set point _
      congr 1
      funext i j l m
      rw [← jacobian_2nd_derivatives_result_eq]
      exact pushed_forward_2nd_derivatives_point hdim _ _ s.1 _ _ _ _ rfl rfl rfl i j l m
  · intro out point hflag hpoint
    unfold maybe_update_jacobian_pushed_forward_3rd_derivatives_run
    simp only []
    rw [if_pos hflag, for_loop_point_set out.length _
      (fun point => simultaneous_contraction_4
        (raw_fourth_derivatives data_set data component_dofs point)
        (data.covariant.getD point 0))]
    · exact assign_each_getD _ _ _ _ _ hpoint hpoint
    · intro point s
      show s.2.set point _ = s.2.set point _
      congr 1
      funext i j l m n
      rw [← jacobian_3rd_derivatives_result_eq]
      exact pushed_forward_3rd_derivatives_point hdim _ _ s.1 _ _ _ _ _ rfl rfl rfl rfl
        i j l m n

/-- Witness of C26: for the map `x ↦ x⁴` at `x = 1`, with the derivatives `12, 24, 24`
and the covariant matrix `1/4`, the pushed-forward tensors are `12/4²`, `24/4³` and
`24/4⁴`. -/
theorem pushed_forward_derivatives_spec_witness :
    (maybe_update_jacobian_pushed_forward_grads dealiiFlags 0 exampleQuarticData
      exampleQuarticComponentDoFs [0]).getD 0 0 0 0 0 = 3 / 4 ∧
    (maybe_update_jacobian_pushed_forward_2nd_derivatives dealiiFlags 0 exampleQuarticData
      exampleQuarticComponentDoFs [0]).getD 0 0 0 0 0 0 = 3 / 8 ∧
    (maybe_update_jacobian_pushed_forward_3rd_derivatives dealiiFlags 0 exampleQuarticData
      exampleQuarticComponentDoFs [0]).getD 0 0 0 0 0 0 0 = 3 / 32 := by
  have h := pushed_forward_derivatives_spec dealiiFlags 0 exampleQuarticData
    exampleQuarticComponentDoFs (fun _ => 0) (by decide)
  have hget : exampleQuarticComponentDoFs.get 0 = [0] := by decide
  have hd : ∀ d : Fin 1, ((d : Fin 1) : Nat) = 0 := fun d => by omega
  refine ⟨?_, ?_, ?_⟩
  · have h1 := h.1 [0] 0 (by decide) (by decide)
    unfold maybe_update_jacobian_pushed_forward_grads
    rw [h1]
    simp only [simultaneous_contraction_2, raw_second_derivatives, hd, hget]
    simp [exampleQuarticData]
    norm_num
  · have h2 := h.2.1 [0] 0 (by decide) (by decide)
    unfold maybe_update_jacobian_pushed_forward_2nd_derivatives
    rw [h2]
    simp only [simultaneous_contraction_3, raw_third_derivatives, hd, hget]
    simp [exampleQuarticData]
    norm_num
  · have h3 := h.2.2 [0] 0 (by decide) (by decide)
    unfold maybe_update_jacobian_pushed_forward_3rd_derivatives
    rw [h3]
    simp only [simultaneous_contraction_4, raw_fourth_derivatives, hd, hget]
    simp [exampleQuarticData]
    norm_num


/-! ## The immersed-surface fill -/

/-- C28, at a cache whose update flags hold `update_jacobians` and neither
`update_JxW_values` nor `update_normal_vectors` (the request `update_jacobians`,
resolved): on the unit square scaled by `2`, `fill_fe_immersed_surface_values` returns
with the output `jacobians[0]` as it was, the zero matrix, although `contravariant[0]`
is twice the identity; `fill_fe_values` on the same inputs writes twice the identity. -/
theorem fill_fe_immersed_surface_values_skips_jacobians :
    ∃ data out out2,
      (exampleScalingMapping 2 2).fill_fe_immersed_surface_values dealiiFlags id
          exampleSquareCell exampleSurfaceRule
          ((exampleScalingMapping 2 2).get_data dealiiFlags dealiiFlags.update_jacobians
            (Quadrature.of_point (fun _ => 1 / 2))) exampleSquareOutput
        = Except.ok (data, out) ∧
      data.update_each &&& dealiiFlags.update_jacobians ≠ 0 ∧
      data.contravariant.getD 0 0 = (2 : ℚ) • (1 : Matrix (Fin 2) (Fin 2) ℚ) ∧
      out.jacobians.getD 0 0 = 0 ∧
      (exampleScalingMapping 2 2).fill_fe_values dealiiFlags id exampleSquareCell
          (Quadrature.of_point (fun _ => 1 / 2))
          ((exampleScalingMapping 2 2).get_data dealiiFlags dealiiFlags.update_jacobians
            (Quadrature.of_point (fun _ => 1 / 2))) exampleSquareOutput
        = Except.ok (data, out2) ∧
      out2.jacobians.getD 0 0 = (2 : ℚ) • (1 : Matrix (Fin 2) (Fin 2) ℚ) := by
  obtain ⟨data, h, hq⟩ := exampleScaling_jacobians dealiiFlags id 2 (Or.inl rfl) 2
    exampleSquareCell rfl rfl dealiiFlags.update_jacobians
    (Quadrature.of_point (fun _ => 1 / 2)) (by decide)
  have hq0 := hq 0 (by decide)
  obtain ⟨hue, -, -, -, -⟩ := cell_cache_lengths dealiiFlags (exampleScalingMapping 2 2)
    exampleSquareCell dealiiFlags.update_jacobians (Quadrature.of_point (fun _ => 1 / 2)) data h
  have hue2 : (maybe_update_Jacobians dealiiFlags id 0 data
      (exampleScalingMapping 2 2).component_dofs).update_each
      = requires_update_flags dealiiFlags dealiiFlags.update_jacobians := by
    rw [maybe_update_Jacobians_update_each, hue]
  have hguard : ¬ ((maybe_update_Jacobians dealiiFlags id 0 data
      (exampleScalingMapping 2 2).component_dofs).update_each
      &&& (dealiiFlags.update_normal_vectors ||| dealiiFlags.update_JxW_values) ≠ 0) := by
    rw [hue2]
    decide
  have hjac : (maybe_update_Jacobians dealiiFlags id 0 data
      (exampleScalingMapping 2 2).component_dofs).update_each
      &&& dealiiFlags.update_jacobians ≠ 0 := by
    rw [hue2]
    decide
  have h1 : (exampleScalingMapping 2 2).fill_fe_immersed_surface_values dealiiFlags id
      exampleSquareCell exampleSurfaceRule
      ((exampleScalingMapping 2 2).get_data dealiiFlags dealiiFlags.update_jacobians
        (Quadrature.of_point (fun _ => 1 / 2))) exampleSquareOutput
      = Except.ok (maybe_update_Jacobians dealiiFlags id 0 data
          (exampleScalingMapping 2 2).component_dofs,
        { exampleSquareOutput with
          quadrature_points := maybe_compute_q_points dealiiFlags 0 data
            (exampleScalingMapping 2 2).component_dofs exampleSquareOutput.quadrature_points }) := by
    unfold MappingFEField.fill_fe_immersed_surface_values
    rw [if_neg (by decide), h]
    simp only []
    rw [if_neg hguard]
  have h2 : fill_fe_values_JxW dealiiFlags id exampleSquareCell
      (Quadrature.of_point (fun _ => (1 : ℚ) / 2) : Quadrature 2).size
      (Quadrature.of_point (fun _ => (1 : ℚ) / 2) : Quadrature 2).weights
      (maybe_update_Jacobians dealiiFlags id 0 data (exampleScalingMapping 2 2).component_dofs)
      exampleSquareOutput.JxW_values exampleSquareOutput.normal_vectors
      = Except.ok (exampleSquareOutput.JxW_values, exampleSquareOutput.normal_vectors) := by
    unfold fill_fe_values_JxW
    simp only []
    rw [if_neg hguard]
  have h3 : ∃ out2, (exampleScalingMapping 2 2).fill_fe_values dealiiFlags id exampleSquareCell
      (Quadrature.of_point (fun _ => 1 / 2))
      ((exampleScalingMapping 2 2).get_data dealiiFlags dealiiFlags.update_jacobians
        (Quadrature.of_point (fun _ => 1 / 2))) exampleSquareOutput
      = Except.ok (maybe_update_Jacobians dealiiFlags id 0 data
          (exampleScalingMapping 2 2).component_dofs, out2) ∧
      out2.jacobians = fill_fe_values_jacobians dealiiFlags
        (maybe_update_Jacobians dealiiFlags id 0 data (exampleScalingMapping 2 2).component_dofs)
        1 exampleSquareOutput.jacobians := by
    unfold MappingFEField.fill_fe_values
    rw [h]
    simp only []
    rw [h2]
    exact ⟨_, rfl, rfl⟩
  obtain ⟨out2, h4, h5⟩ := h3
  refine ⟨_, _, out2, h1, hjac, hq0, rfl, h4, ?_⟩
  rw [h5]
  unfold fill_fe_values_jacobians
  rw [if_pos hjac, assign_each_getD _ _ _ _ _ (by decide) (by decide), hq0]


/-! ## The detection of distorted cells -/

/-- A loop whose body raises exactly at the indices of a set, whatever the state is,
ends with the exception of the first such index. -/
theorem for_loop_e_first_error {σ : Type} (n : Nat) (body : Nat → σ → Except Exc σ)
    (P : Nat → Prop) (E : Nat → Exc) (g : Nat → σ → σ)
    (h1 : ∀ i t, P i → body i t = .error (E i))
    (h2 : ∀ i t, ¬ P i → body i t = .ok (g i t))
    (s : σ) (q : Nat) (hq : q < n) (hP : P q) :
    ∃ point, point ≤ q ∧ P point ∧ (∀ p, p < point → ¬ P p) ∧
      for_loop_e n body s = .error (E point) := by
  classical
  have hex : ∃ k, P k := ⟨q, hP⟩
  refine ⟨Nat.find hex, Nat.find_min' hex hP, Nat.find_spec hex,
    fun p hp => Nat.find_min hex hp, ?_⟩
  have hA : for_loop_e (Nat.find hex) body s = .ok (for_loop (Nat.find hex) g s) :=
    for_loop_e_ok _ body g s (fun i hi t => h2 i t (Nat.find_min hex hi))
  have hB : ∀ k, for_loop_e (Nat.find hex + 1 + k) body s = .error (E (Nat.find hex)) := by
    intro k
    induction k with
    | zero =>
      rw [Nat.add_zero, for_loop_e_succ, hA]
      exact h1 _ _ (Nat.find_spec hex)
    | succ k ih =>
      rw [← Nat.add_assoc, for_loop_e_succ, ih]
  have hle : Nat.find hex ≤ q := Nat.find_min' hex hP
  have hn : n = Nat.find hex + 1 + (n - (Nat.find hex + 1)) := by omega
  rw [hn]
  exact hB _

/-- C21: for a cell with `dim == spacedim` whose update flags hold `update_JxW_values`
or `update_normal_vectors`, on which `update_internal_dofs` succeeds and whose
tolerance `1e-12 * (diameter / sqrt(dim))^dim` is not negative: if the Jacobian
determinant at some quadrature point `q` is zero or negative, `fill_fe_values` raises
`ExcDistortedMappedCell` with the cell centre, and with the determinant and the index
of the first quadrature point whose determinant does not exceed the tolerance, which
is `q` or a point before it. -/
theorem fill_fe_values_distorted_cell {dim : Nat} (F : UpdateFlagValues) (sqrt : ℚ → ℚ)
    (m : MappingFEField dim dim) (cell : Cell dim dim) (update_flags : Nat)
    (quadrature : Quadrature dim) (output_data : MappingRelatedData dim dim)
    (data : InternalData dim dim)
    (hbf : F.update_boundary_forms ≠ 0) (hct : F.update_contravariant_transformation ≠ 0)
    (hvol : F.update_volume_elements ≠ 0)
    (hreq : update_flags &&& (F.update_JxW_values ||| F.update_normal_vectors) ≠ 0)
    (h : m.update_internal_dofs cell (m.get_data F update_flags quadrature) = Except.ok data)
    (htol : 0 ≤ 1e-12 * (cell.diameter / sqrt (dim : ℚ)) ^ dim)
    (q : Nat) (hq : q < quadrature.size)
    (hdet : ((maybe_update_Jacobians F sqrt 0 data m.component_dofs).contravariant.getD q
      0).det ≤ 0) :
    ∃ point, point ≤ q ∧
      ¬ (((maybe_update_Jacobians F sqrt 0 data m.component_dofs).contravariant.getD point
        0).det > 1e-12 * (cell.diameter / sqrt (dim : ℚ)) ^ dim) ∧
      (∀ p, p < point →
        ((maybe_update_Jacobians F sqrt 0 data m.component_dofs).contravariant.getD p 0).det
          > 1e-12 * (cell.diameter / sqrt (dim : ℚ)) ^ dim) ∧
      m.fill_fe_values F sqrt cell quadrature (m.get_data F update_flags quadrature)
          output_data
        = Except.error (Exc.ExcDistortedMappedCell (List.ofFn cell.center)
          ((maybe_update_Jacobians F sqrt 0 data m.component_dofs).contravariant.getD point
            0).det point) := by
  obtain ⟨hue, -, hcl, -, hvl⟩ := cell_cache_lengths F m cell update_flags quadrature data h
  have hJ : requires_update_flags F update_flags
      &&& (F.update_JxW_values ||| F.update_normal_vectors) ≠ 0 :=
    requires_update_flags_of_request F _ _ hreq
  obtain ⟨-, hc, hv⟩ := requires_update_flags_of_JxW F update_flags hbf hct hvol hJ
  have hf : (maybe_update_Jacobians F sqrt 0 data m.component_dofs).update_each
      &&& (F.update_normal_vectors ||| F.update_JxW_values) ≠ 0 := by
    rw [maybe_update_Jacobians_update_each, hue, Nat.lor_comm]
    exact hJ
  have hvq : ∀ p, p < quadrature.size →
      (maybe_update_Jacobians F sqrt 0 data m.component_dofs).volume_elements.getD p 0
        = ((maybe_update_Jacobians F sqrt 0 data m.component_dofs).contravariant.getD p
          0).det := by
    intro p hp
    rw [maybe_update_Jacobians_volume_element F sqrt 0 data _ p (by rw [hue]; exact hv)
      (by rw [hcl hc]; exact hp) (by rw [hvl hv]; exact hp), determinant_square]
  generalize hD : maybe_update_Jacobians F sqrt 0 data m.component_dofs = D at hf hvq hdet ⊢
  obtain ⟨point, hpq, hP, hmin, hrun⟩ := for_loop_e_first_error quadrature.size
    (fun point (out : List ℚ × List (Tensor1 dim)) =>
      if dim = dim then
        if ¬ (D.volume_elements.getD point 0 > 1e-12 * (cell.diameter / sqrt (dim : ℚ)) ^ dim)
        then Except.error (Exc.ExcDistortedMappedCell (List.ofFn cell.center)
          (D.volume_elements.getD point 0) point)
        else Except.ok (out.1.set point (quadrature.weights.getD point 0 *
          D.volume_elements.getD point 0), out.2)
      else
        Except.ok out)
    (fun point => ¬ (D.volume_elements.getD point 0
      > 1e-12 * (cell.diameter / sqrt (dim : ℚ)) ^ dim))
    (fun point => Exc.ExcDistortedMappedCell (List.ofFn cell.center)
      (D.volume_elements.getD point 0) point)
    (fun point out => (out.1.set point (quadrature.weights.getD point 0 *
      D.volume_elements.getD point 0), out.2))
    (fun i t hi => by
      beta_reduce at hi ⊢
      rw [if_pos rfl, if_pos hi])
    (fun i t hi => by
      beta_reduce at hi ⊢
      rw [if_pos rfl, if_neg hi])
    (output_data.JxW_values, output_data.normal_vectors) q hq
    (by
      beta_reduce
      rw [hvq q hq]
      exact not_lt.mpr (le_trans hdet htol))
  have hpoint : point < quadrature.size := lt_of_le_of_lt hpq hq
  refine ⟨point, hpq, ?_, ?_, ?_⟩
  · rw [← hvq point hpoint]
    exact hP
  · intro p hp
    have := hmin p hp
    rw [← hvq p (lt_trans hp hpoint)]
    exact not_not.mp this
  · have hJxW : fill_fe_values_JxW F sqrt cell quadrature.size quadrature.weights D
        output_data.JxW_values output_data.normal_vectors
        = Except.error (Exc.ExcDistortedMappedCell (List.ofFn cell.center)
          (D.volume_elements.getD point 0) point) := by
      unfold fill_fe_values_JxW
      simp only []
      rw [if_pos hf]
      refine Eq.trans ?_ hrun
      congr 1
      funext point out
      rw [if_pos trivial, if_pos rfl]
    unfold MappingFEField.fill_fe_values
    rw [h]
    simp only []
    rw [hD, hJxW, hvq point hpoint]

theorem det_neg_one_three :
    ((-1 : ℚ) • (1 : Matrix (Fin 3) (Fin 3) ℚ)).det = -1 := by
  rw [Matrix.det_smul, Matrix.det_one, Fintype.card_fin]
  norm_num

/-- Witness of C21: on the unit cube reflected through the origin (`x ↦ -x`, Jacobian
determinant `-1`) with `update_JxW_values` requested, `fill_fe_values` raises
`ExcDistortedMappedCell` with the cell centre, the determinant `-1` and the point
`0`. -/
theorem fill_fe_values_distorted_cell_witness :
    (exampleScalingMapping 3 (-1)).fill_fe_values dealiiFlags id exampleCubeCell
        (Quadrature.of_point (fun _ => 1 / 2))
        ((exampleScalingMapping 3 (-1)).get_data dealiiFlags dealiiFlags.update_JxW_values
          (Quadrature.of_point (fun _ => 1 / 2))) exampleCubeOutput
      = Except.error (Exc.ExcDistortedMappedCell (List.ofFn exampleCubeCell.center) (-1) 0) := by
  obtain ⟨data, h, hq⟩ := exampleScaling_jacobians dealiiFlags id 3 (Or.inr rfl) (-1)
    exampleCubeCell rfl rfl dealiiFlags.update_JxW_values
    (Quadrature.of_point (fun _ => 1 / 2)) (by decide)
  have hq0 := hq 0 (by decide)
  obtain ⟨point, hp, -, -, hrun⟩ := fill_fe_values_distorted_cell dealiiFlags id
    (exampleScalingMapping 3 (-1)) exampleCubeCell dealiiFlags.update_JxW_values
    (Quadrature.of_point (fun _ => 1 / 2)) exampleCubeOutput data (by decide) (by decide)
    (by decide) (by decide) h (by norm_num [exampleCubeCell]) 0 (by decide)
    (by rw [hq0, det_neg_one_three]; norm_num)
  have hp0 : point = 0 := by omega
  subst hp0
  rw [hrun, hq0, det_neg_one_three]

/-- Counterexample to C21: on the same reflected cube with only `update_jacobians`
requested, the volume element is computed (the resolved flags hold
`update_volume_elements`, and its value at the point is the determinant `-1`), and
`fill_fe_values` returns normally. -/
theorem distorted_cell_not_detected :
    ∃ data out,
      (exampleScalingMapping 3 (-1)).fill_fe_values dealiiFlags id exampleCubeCell
          (Quadrature.of_point (fun _ => 1 / 2))
          ((exampleScalingMapping 3 (-1)).get_data dealiiFlags dealiiFlags.update_jacobians
            (Quadrature.of_point (fun _ => 1 / 2))) exampleCubeOutput
        = Except.ok (data, out) ∧
      data.update_each &&& dealiiFlags.update_volume_elements ≠ 0 ∧
      (data.contravariant.getD 0 0).det = -1 ∧
      data.volume_elements.getD 0 0 = -1 := by
  obtain ⟨data, h, hq⟩ := exampleScaling_jacobians dealiiFlags id 3 (Or.inr rfl) (-1)
    exampleCubeCell rfl rfl dealiiFlags.update_jacobians
    (Quadrature.of_point (fun _ => 1 / 2)) (by decide)
  have hq0 := hq 0 (by decide)
  obtain ⟨hue, -, -, -, -⟩ := cell_cache_lengths dealiiFlags (exampleScalingMapping 3 (-1))
    exampleCubeCell dealiiFlags.update_jacobians (Quadrature.of_point (fun _ => 1 / 2)) data h
  have hue2 : (maybe_update_Jacobians dealiiFlags id 0 data
      (exampleScalingMapping 3 (-1)).component_dofs).update_each
      = requires_update_flags dealiiFlags dealiiFlags.update_jacobians := by
    rw [maybe_update_Jacobians_update_each, hue]
  have hguard : ¬ ((maybe_update_Jacobians dealiiFlags id 0 data
      (exampleScalingMapping 3 (-1)).component_dofs).update_each
      &&& (dealiiFlags.update_normal_vectors ||| dealiiFlags.update_JxW_values) ≠ 0) := by
    rw [hue2]
    decide
  have hvol : (maybe_update_Jacobians dealiiFlags id 0 data
      (exampleScalingMapping 3 (-1)).component_dofs).update_each
      &&& dealiiFlags.update_volume_elements ≠ 0 := by
    rw [hue2]
    decide
  have hv := scaled_volume_element dealiiFlags id (exampleScalingMapping 3 (-1))
    exampleCubeCell dealiiFlags.update_jacobians (Quadrature.of_point (fun _ => 1 / 2)) data
    (-1) h (by decide) (by decide) 0 (by decide) hq0
  have h2 : fill_fe_values_JxW dealiiFlags id exampleCubeCell
      (Quadrature.of_point (fun _ => (1 : ℚ) / 2) : Quadrature 3).size
      (Quadrature.of_point (fun _ => (1 : ℚ) / 2) : Quadrature 3).weights
      (maybe_update_Jacobians dealiiFlags id 0 data
        (exampleScalingMapping 3 (-1)).component_dofs)
      exampleCubeOutput.JxW_values exampleCubeOutput.normal_vectors
      = Except.ok (exampleCubeOutput.JxW_values, exampleCubeOutput.normal_vectors) := by
    unfold fill_fe_values_JxW
    simp only []
    rw [if_neg hguard]
  have h3 : ∃ out, (exampleScalingMapping 3 (-1)).fill_fe_values dealiiFlags id
      exampleCubeCell (Quadrature.of_point (fun _ => 1 / 2))
      ((exampleScalingMapping 3 (-1)).get_data dealiiFlags dealiiFlags.update_jacobians
        (Quadrature.of_point (fun _ => 1 / 2))) exampleCubeOutput
      = Except.ok (maybe_update_Jacobians dealiiFlags id 0 data
          (exampleScalingMapping 3 (-1)).component_dofs, out) := by
    unfold MappingFEField.fill_fe_values
    rw [h]
    simp only []
    rw [h2]
    exact ⟨_, rfl⟩
  obtain ⟨out, h4⟩ := h3
  refine ⟨_, out, h4, hvol, ?_, ?_⟩
  · rw [hq0, det_neg_one_three]
  · rw [hv]
    norm_num


/-! ## The orientation of the face normals -/

/-- The boundary forms at the end points of a curve (lines 1313-1321). -/
theorem maybe_compute_face_data_boundary_forms_curve (sqrt : ℚ → ℚ) (face_no : Nat)
    (data : InternalData 1 2) (boundary_forms : List (Tensor1 2)) :
    maybe_compute_face_data_boundary_forms sqrt face_no data boundary_forms
      = .ok (assign_each boundary_forms.length
          (fun point k => DX_t (data.contravariant.getD point 0) 0 k /
            ((if face_no = 0 then -1 else 1) *
              norm sqrt (DX_t (data.contravariant.getD point 0) 0))) boundary_forms) := by
  unfold maybe_compute_face_data_boundary_forms
  rw [if_neg (by decide)]
  rfl

/-- C27: with boundary forms and normal vectors requested, `maybe_compute_face_data`,
which computes the face data of `fill_fe_face_values` and `fill_fe_subface_values`,
writes to every normal vector the boundary form of the point divided by its norm; the
result is the same whatever the direction flag of the cell is. -/
theorem face_normal_orientation {dim spacedim : Nat} (F : UpdateFlagValues) (sqrt : ℚ → ℚ)
    (cell : Cell dim spacedim) (face_no subface_no data_set : Nat)
    (data : InternalData dim spacedim) (output_data : MappingRelatedData dim spacedim)
    (hdim : dim = spacedim → dim = 1 ∨ dim = 2 ∨ dim = 3)
    (hbf : data.update_each &&& F.update_boundary_forms ≠ 0)
    (hn : data.update_each &&& F.update_normal_vectors ≠ 0)
    (hc : data.update_each &&& F.update_contravariant_transformation ≠ 0)
    (hlen : output_data.normal_vectors.length = output_data.boundary_forms.length) :
    ∃ data2 out,
      maybe_compute_face_data F sqrt cell face_no subface_no data_set data output_data
        = .ok (data2, out) ∧
      out.boundary_forms.length = output_data.boundary_forms.length ∧
      (∀ i, i < output_data.boundary_forms.length →
        out.normal_vectors.getD i 0
          = fun k => out.boundary_forms.getD i 0 k / norm sqrt (out.boundary_forms.getD i 0)) ∧
      ∀ direction_flag : Bool,
        maybe_compute_face_data F sqrt { cell with direction_flag := direction_flag } face_no
          subface_no data_set data output_data = .ok (data2, out) := by
  obtain ⟨aux, bf, JxW_values, normal_vectors, -, -, hl, -, hnv, hrun⟩ :=
    maybe_compute_face_data_eq F sqrt cell face_no subface_no data_set data output_data
      hdim hbf hc
  refine ⟨_, _, hrun, hl, ?_, ?_⟩
  · intro i hi
    show normal_vectors.getD i 0 = fun k => bf.getD i 0 k / norm sqrt (bf.getD i 0)
    rw [hnv]
    exact maybe_compute_face_data_JxW_snd F sqrt cell face_no subface_no data_set
      { data with aux := aux } bf _ _ i hn (by rw [hl]; exact hi) (by rw [hlen]; exact hi)
  · intro direction_flag
    rw [← hrun]
    rfl

theorem exampleCurveFace_run :
    ∃ data2 out,
      maybe_compute_face_data dealiiFlags exampleSqrt exampleFlippedCurveCell 1
        invalid_unsigned_int 1 exampleCurveFaceData exampleCurveFaceOutput = .ok (data2, out) ∧
      out.boundary_forms.getD 0 0 = ![3 / 5, 4 / 5] ∧
      out.normal_vectors = (maybe_compute_face_data_JxW dealiiFlags exampleSqrt
        exampleFlippedCurveCell 1 invalid_unsigned_int 1 data2 out.boundary_forms
        exampleCurveFaceOutput.JxW_values exampleCurveFaceOutput.normal_vectors).2 := by
  obtain ⟨aux, bf, jxw, nv, -, hbf2, hl, -, hnv, hrun⟩ := maybe_compute_face_data_eq dealiiFlags
    exampleSqrt exampleFlippedCurveCell 1 invalid_unsigned_int 1 exampleCurveFaceData
    exampleCurveFaceOutput (fun h => absurd h (by decide)) (by decide) (by decide)
  rw [maybe_compute_face_data_boundary_forms_curve] at hbf2
  injection hbf2 with hbf2
  have hns : norm exampleSqrt (DX_t (!![3; 4] : Matrix (Fin 2) (Fin 1) ℚ) 0) = 5 := by
    simp [norm, norm_square, Fin.sum_univ_two, exampleSqrt, DX_t]
    norm_num
  have hbf0 : bf.getD 0 0 = ![3 / 5, 4 / 5] := by
    rw [← hbf2, assign_each_getD _ _ _ _ _ (by decide) (by decide)]
    show (fun k => DX_t (!![3; 4] : Matrix (Fin 2) (Fin 1) ℚ) 0 k /
      ((if (1 : Nat) = 0 then -1 else 1) *
        norm exampleSqrt (DX_t (!![3; 4] : Matrix (Fin 2) (Fin 1) ℚ) 0))) = _
    rw [hns]
    funext k
    fin_cases k <;> simp [DX_t]
  exact ⟨_, _, hrun, hbf0, hnv⟩

theorem exampleCurveFace_norm : norm exampleSqrt ![3 / 5, 4 / 5] = 1 := by
  simp [norm, norm_square, Fin.sum_univ_two, exampleSqrt]
  norm_num

/-- Witness of C27: at the end point `1` of the straight curve with tangent `(3, 4)`,
on a cell whose direction flag is `false`, the boundary form is `(3/5, 4/5)` and the
normal vector is the boundary form divided by its norm `1`. -/
theorem face_normal_orientation_witness :
    exampleFlippedCurveCell.direction_flag = false ∧
    ∃ data2 out,
      maybe_compute_face_data dealiiFlags exampleSqrt exampleFlippedCurveCell 1
        invalid_unsigned_int 1 exampleCurveFaceData exampleCurveFaceOutput = .ok (data2, out) ∧
      out.boundary_forms.getD 0 0 = ![3 / 5, 4 / 5] ∧
      out.normal_vectors.getD 0 0 = fun k => (![3 / 5, 4 / 5] : Tensor1 2) k / 1 := by
  obtain ⟨data2, out, hrun, -, hall, -⟩ := face_normal_orientation dealiiFlags exampleSqrt
    exampleFlippedCurveCell 1 invalid_unsigned_int 1 exampleCurveFaceData
    exampleCurveFaceOutput (fun h => absurd h (by decide)) (by decide) (by decide) (by decide)
    rfl
  obtain ⟨data3, out3, hrun3, hbf0, -⟩ := exampleCurveFace_run
  rw [hrun] at hrun3
  injection hrun3 with hrun3
  injection hrun3 with h1 h2
  subst h1 h2
  refine ⟨rfl, _, _, hrun, hbf0, ?_⟩
  rw [hall 0 (by decide), hbf0, exampleCurveFace_norm]

/-- Counterexample to C27 as stated: at the end point `1` of the straight curve with
tangent `(3, 4)`, on a cell whose direction flag is `false`, the normal vector is the
boundary form `(3/5, 4/5)` divided by its norm, not its negative. -/
theorem face_normal_not_negated :
    exampleFlippedCurveCell.direction_flag = false ∧
    ∃ data2 out,
      maybe_compute_face_data dealiiFlags exampleSqrt exampleFlippedCurveCell 1
        invalid_unsigned_int 1 exampleCurveFaceData exampleCurveFaceOutput = .ok (data2, out) ∧
      out.boundary_forms.getD 0 0 = ![3 / 5, 4 / 5] ∧
      out.normal_vectors.getD 0 0 = ![3 / 5, 4 / 5] ∧
      out.normal_vectors.getD 0 0 ≠
        fun k => -(out.boundary_forms.getD 0 0 k / norm exampleSqrt (out.boundary_forms.getD 0 0))
      := by
  obtain ⟨data2, out, hrun, hbf0, hnv⟩ := exampleCurveFace_run
  have hbfl : 0 < out.boundary_forms.length := by
    by_contra hcon
    have hz : out.boundary_forms.length = 0 := by omega
    have h0 : out.boundary_forms.getD 0 0 = 0 := by
      rw [List.length_eq_zero] at hz
      rw [hz]
      rfl
    rw [hbf0] at h0
    have := congrFun h0 0
    simp at this
  have hue : data2.update_each &&& dealiiFlags.update_normal_vectors ≠ 0 := by
    obtain ⟨aux, -, hd2, -⟩ := maybe_compute_face_data_ok dealiiFlags exampleSqrt
      exampleFlippedCurveCell 1 invalid_unsigned_int 1 exampleCurveFaceData data2
      exampleCurveFaceOutput out (by decide) hrun
    rw [hd2]
    show exampleCurveFaceData.update_each &&& dealiiFlags.update_normal_vectors ≠ 0
    decide
  have hnv0 : out.normal_vectors.getD 0 0 = ![3 / 5, 4 / 5] := by
    rw [hnv, maybe_compute_face_data_JxW_snd dealiiFlags exampleSqrt exampleFlippedCurveCell 1
      invalid_unsigned_int 1 data2 out.boundary_forms _ _ 0 hue hbfl (by decide), hbf0,
      exampleCurveFace_norm]
    funext k
    fin_cases k <;> simp
  refine ⟨rfl, data2, out, hrun, hbf0, hnv0, ?_⟩
  rw [hnv0, hbf0, exampleCurveFace_norm]
  intro h
  have := congrFun h 0
  norm_num at this


/-! ## The frame of the fill routines -/

/-- A property of the state that every normally ending iteration preserves holds
after a normally ending loop. -/
theorem for_loop_e_invariant {σ : Type} (P : σ → Prop) (n : Nat)
    (body : Nat → σ → Except Exc σ)
    (hbody : ∀ i s t, body i s = .ok t → P s → P t) (s t : σ)
    (h : for_loop_e n body s = .ok t) (hs : P s) : P t := by
  induction n generalizing t with
  | zero =>
    rw [for_loop_e_zero] at h
    injection h with h
    rw [← h]
    exact hs
  | succ n ih =>
    rw [for_loop_e_succ] at h
    cases hn : for_loop_e n body s with
    | error e =>
      rw [hn] at h
      cases h
    | ok u =>
      rw [hn] at h
      exact hbody n u t h (ih u hn)

theorem for_loop_const {σ : Type} (n : Nat) (s : σ) : for_loop n (fun _ t => t) s = s := by
  induction n with
  | zero => rfl
  | succ n ih => rw [for_loop_succ, ih]

/-- The frame of the loop of `fill_fe_values` on `JxW_values` and the normals. -/
theorem fill_fe_values_JxW_frame {dim spacedim : Nat} (F : UpdateFlagValues) (sqrt : ℚ → ℚ)
    (cell : Cell dim spacedim) (n_q_points : Nat) (weights : List ℚ)
    (data : InternalData dim spacedim) (JxW_values : List ℚ)
    (normal_vectors : List (Tensor1 spacedim)) (out : List ℚ × List (Tensor1 spacedim))
    (h : fill_fe_values_JxW F sqrt cell n_q_points weights data JxW_values normal_vectors
      = .ok out) :
    (data.update_each &&& (F.update_JxW_values ||| F.update_normal_vectors) = 0 →
      out.1 = JxW_values) ∧
    (data.update_each &&& F.update_normal_vectors = 0 → out.2 = normal_vectors) := by
  unfold fill_fe_values_JxW at h
  simp only [] at h
  by_cases hg : data.update_each &&& (F.update_normal_vectors ||| F.update_JxW_values) ≠ 0
  · rw [if_pos hg] at h
    refine ⟨fun h0 => absurd (by rw [Nat.lor_comm]; exact h0) hg, fun hn => ?_⟩
    refine for_loop_e_invariant (fun s => s.2 = normal_vectors) n_q_points _ ?_ _ out h rfl
    intro i s t hb hs
    beta_reduce at hb
    by_cases hd : dim = spacedim
    · rw [if_pos hd] at hb
      by_cases hdet : ¬ (data.volume_elements.getD i 0
          > 1e-12 * (cell.diameter / sqrt (dim : ℚ)) ^ dim)
      · rw [if_pos hdet] at hb
        cases hb
      · rw [if_neg hdet] at hb
        injection hb with hb
        rw [← hb]
        exact hs
    · rw [if_neg hd, if_neg (not_not.mpr hn)] at hb
      injection hb with hb
      rw [← hb]
      exact hs
  · rw [if_neg hg] at h
    injection h with h
    rw [← h]
    exact ⟨fun _ => rfl, fun _ => rfl⟩

/-- The frame of the loop of `maybe_compute_face_data` on `JxW_values` and the
normals. -/
theorem maybe_compute_face_data_JxW_frame {dim spacedim : Nat} (F : UpdateFlagValues)
    (sqrt : ℚ → ℚ) (cell : Cell dim spacedim) (face_no subface_no data_set : Nat)
    (data : InternalData dim spacedim) (boundary_forms : List (Tensor1 spacedim))
    (JxW_values : List ℚ) (normal_vectors : List (Tensor1 spacedim)) :
    (data.update_each &&& F.update_JxW_values = 0 →
      (maybe_compute_face_data_JxW F sqrt cell face_no subface_no data_set data boundary_forms
        JxW_values normal_vectors).1 = JxW_values) ∧
    (data.update_each &&& F.update_normal_vectors = 0 →
      (maybe_compute_face_data_JxW F sqrt cell face_no subface_no data_set data boundary_forms
        JxW_values normal_vectors).2 = normal_vectors) := by
  unfold maybe_compute_face_data_JxW
  simp only []
  by_cases hg : data.update_each &&& (F.update_normal_vectors ||| F.update_JxW_values) ≠ 0
  · rw [if_pos hg]
    constructor
    · intro h0
      rw [for_loop_fst boundary_forms.length _ (fun _ t => t) _
        (fun i t => by beta_reduce; rw [if_neg (not_not.mpr h0)]), for_loop_const]
    · intro h0
      rw [for_loop_snd boundary_forms.length _ (fun _ t => t) _
        (fun i t => by beta_reduce; rw [if_neg (not_not.mpr h0)]), for_loop_const]
  · rw [if_neg hg]
    exact ⟨fun _ => rfl, fun _ => rfl⟩

theorem maybe_compute_q_points_skip {dim spacedim : Nat} (F : UpdateFlagValues)
    (data_set : Nat) (data : InternalData dim spacedim) (component_dofs : ComponentDoFs)
    (quadrature_points : List (Point spacedim))
    (h : data.update_each &&& F.update_quadrature_points = 0) :
    maybe_compute_q_points F data_set data component_dofs quadrature_points
      = quadrature_points := by
  unfold maybe_compute_q_points
  simp only []
  rw [if_neg (not_not.mpr h)]

theorem fill_fe_values_jacobians_skip {dim spacedim : Nat} (F : UpdateFlagValues)
    (data : InternalData dim spacedim) (n_q_points : Nat)
    (jacobians : List (DerivativeForm1 dim spacedim))
    (h : data.update_each &&& F.update_jacobians = 0) :
    fill_fe_values_jacobians F data n_q_points jacobians = jacobians := by
  unfold fill_fe_values_jacobians
  rw [if_neg (not_not.mpr h)]

theorem fill_fe_values_inverse_jacobians_skip {dim spacedim : Nat} (F : UpdateFlagValues)
    (data : InternalData dim spacedim) (n_q_points : Nat)
    (inverse_jacobians : List (DerivativeForm1 spacedim dim))
    (h : data.update_each &&& F.update_inverse_jacobians = 0) :
    fill_fe_values_inverse_jacobians F data n_q_points inverse_jacobians
      = inverse_jacobians := by
  unfold fill_fe_values_inverse_jacobians
  rw [if_neg (not_not.mpr h)]

/-- Each of the six routines for the derivatives of the Jacobian leaves its output as
it is when its flag is absent. -/
theorem maybe_update_jacobian_derivatives_skip {dim spacedim : Nat} (F : UpdateFlagValues)
    (data_set : Nat) (data : InternalData dim spacedim) (component_dofs : ComponentDoFs) :
    (∀ out, data.update_each &&& F.update_jacobian_grads = 0 →
      maybe_update_jacobian_grads F data_set data component_dofs out = out) ∧
    (∀ out, data.update_each &&& F.update_jacobian_pushed_forward_grads = 0 →
      maybe_update_jacobian_pushed_forward_grads F data_set data component_dofs out = out) ∧
    (∀ out, data.update_each &&& F.update_jacobian_2nd_derivatives = 0 →
      maybe_update_jacobian_2nd_derivatives F data_set data component_dofs out = out) ∧
    (∀ out, data.update_each &&& F.update_jacobian_pushed_forward_2nd_derivatives = 0 →
      maybe_update_jacobian_pushed_forward_2nd_derivatives F data_set data component_dofs out
        = out) ∧
    (∀ out, data.update_each &&& F.update_jacobian_3rd_derivatives = 0 →
      maybe_update_jacobian_3rd_derivatives F data_set data component_dofs out = out) ∧
    (∀ out, data.update_each &&& F.update_jacobian_pushed_forward_3rd_derivatives = 0 →
      maybe_update_jacobian_pushed_forward_3rd_derivatives F data_set data component_dofs out
        = out) := by
  refine ⟨?_, ?_, ?_, ?_, ?_, ?_⟩
  · intro out h
    unfold maybe_update_jacobian_grads
    simp only []
    rw [if_neg (not_not.mpr h)]
  · intro out h
    unfold maybe_update_jacobian_pushed_forward_grads
      maybe_update_jacobian_pushed_forward_grads_run
    simp only []
    rw [if_neg (not_not.mpr h)]
  · intro out h
    unfold maybe_update_jacobian_2nd_derivatives
    simp only []
    rw [if_neg (not_not.mpr h)]
  · intro out h
    unfold maybe_update_jacobian_pushed_forward_2nd_derivatives
      maybe_update_jacobian_pushed_forward_2nd_derivatives_run
    simp only []
    rw [if_neg (not_not.mpr h)]
  · intro out h
    unfold maybe_update_jacobian_3rd_derivatives
    simp only []
    rw [if_neg (not_not.mpr h)]
  · intro out h
    unfold maybe_update_jacobian_pushed_forward_3rd_derivatives
      maybe_update_jacobian_pushed_forward_3rd_derivatives_run
    simp only []
    rw [if_neg (not_not.mpr h)]

/-- What `maybe_compute_face_data` leaves as it is: every slot but the boundary
forms, `JxW_values` and the normals, and these when their flag is absent. -/
theorem maybe_compute_face_data_frame {dim spacedim : Nat} (F : UpdateFlagValues)
    (sqrt : ℚ → ℚ) (cell : Cell dim spacedim) (face_no subface_no data_set : Nat)
    (data data2 : InternalData dim spacedim) (output_data out : MappingRelatedData dim spacedim)
    (h : maybe_compute_face_data F sqrt cell face_no subface_no data_set data output_data
      = .ok (data2, out)) :
    out.quadrature_points = output_data.quadrature_points ∧
    out.jacobians = output_data.jacobians ∧
    out.inverse_jacobians = output_data.inverse_jacobians ∧
    out.jacobian_grads = output_data.jacobian_grads ∧
    out.jacobian_pushed_forward_grads = output_data.jacobian_pushed_forward_grads ∧
    out.jacobian_2nd_derivatives = output_data.jacobian_2nd_derivatives ∧
    out.jacobian_pushed_forward_2nd_derivatives =
      output_data.jacobian_pushed_forward_2nd_derivatives ∧
    out.jacobian_3rd_derivatives = output_data.jacobian_3rd_derivatives ∧
    out.jacobian_pushed_forward_3rd_derivatives =
      output_data.jacobian_pushed_forward_3rd_derivatives ∧
    (data.update_each &&& F.update_boundary_forms = 0 →
      out.boundary_forms = output_data.boundary_forms) ∧
    (data.update_each &&& F.update_JxW_values = 0 →
      out.JxW_values = output_data.JxW_values) ∧
    (data.update_each &&& F.update_normal_vectors = 0 →
      out.normal_vectors = output_data.normal_vectors) := by
  unfold maybe_compute_face_data at h
  by_cases hbf : data.update_each &&& F.update_boundary_forms ≠ 0
  · rw [if_pos hbf] at h
    cases htan : maybe_compute_face_data_tangentials F cell face_no data with
    | error e =>
      rw [htan] at h
      cases h
    | ok aux =>
      rw [htan] at h
      simp only [] at h
      cases hb : maybe_compute_face_data_boundary_forms sqrt face_no { data with aux := aux }
          output_data.boundary_forms with
      | error e =>
        rw [hb] at h
        cases h
      | ok bf =>
        rw [hb] at h
        simp only [] at h
        injection h with h
        injection h with h1 h2
        rw [← h2]
        refine ⟨rfl, rfl, rfl, rfl, rfl, rfl, rfl, rfl, rfl, fun h0 => absurd h0 hbf, ?_, ?_⟩
        · intro h0
          exact (maybe_compute_face_data_JxW_frame F sqrt cell face_no subface_no data_set
            { data with aux := aux } bf output_data.JxW_values output_data.normal_vectors).1 h0
        · intro h0
          exact (maybe_compute_face_data_JxW_frame F sqrt cell face_no subface_no data_set
            { data with aux := aux } bf output_data.JxW_values output_data.normal_vectors).2 h0
  · rw [if_neg hbf] at h
    injection h with h
    injection h with h1 h2
    rw [← h2]
    exact ⟨rfl, rfl, rfl, rfl, rfl, rfl, rfl, rfl, rfl, fun _ => rfl, fun _ => rfl,
      fun _ => rfl⟩

theorem do_fill_fe_face_values_frame {dim spacedim : Nat} (F : UpdateFlagValues)
    (sqrt : ℚ → ℚ) (cell : Cell dim spacedim) (face_no subface_no data_set : Nat)
    (data data2 : InternalData dim spacedim) (component_dofs : ComponentDoFs)
    (output_data out : MappingRelatedData dim spacedim)
    (h : do_fill_fe_face_values F sqrt cell face_no subface_no data_set data component_dofs
      output_data = .ok (data2, out)) :
    slots_unchanged F data.update_each F.update_JxW_values output_data out := by
  unfold do_fill_fe_face_values at h
  have hue := maybe_update_Jacobians_update_each F sqrt data_set data component_dofs
  obtain ⟨h1, h2, h3, h4, h5, h6, h7, h8, h9, h10, h11, h12⟩ :=
    maybe_compute_face_data_frame F sqrt cell face_no subface_no data_set _ data2 _ out h
  obtain ⟨d1, d2, d3, d4, d5, d6⟩ := maybe_update_jacobian_derivatives_skip F data_set
    (maybe_update_Jacobians F sqrt data_set data component_dofs) component_dofs
  rw [hue] at h10 h11 h12 d1 d2 d3 d4 d5 d6
  refine ⟨?_, h11, h12, h10, ?_, ?_, ?_, ?_, ?_, ?_, ?_, ?_⟩
  · intro h0
    rw [h1]
    exact maybe_compute_q_points_skip F data_set data component_dofs _ h0
  · intro h0
    rw [h2]
    exact fill_fe_values_jacobians_skip F _ _ _ (by rw [hue]; exact h0)
  · intro h0
    rw [h3]
    exact fill_fe_values_inverse_jacobians_skip F _ _ _ (by rw [hue]; exact h0)
  · intro h0
    rw [h4]
    exact d1 _ h0
  · intro h0
    rw [h5]
    exact d2 _ h0
  · intro h0
    rw [h6]
    exact d3 _ h0
  · intro h0
    rw [h7]
    exact d4 _ h0
  · intro h0
    rw [h8]
    exact d5 _ h0
  · intro h0
    rw [h9]
    exact d6 _ h0

/-- C24: when a fill routine returns, every slot of the output bundle whose flag is
absent from the update flags of the cache holds what it held before the call: for
`fill_fe_face_values` and `fill_fe_subface_values` with the flag of the slot itself for
all twelve slots, and for `fill_fe_values` likewise except that `JxW_values` is
unchanged when both `update_JxW_values` and `update_normal_vectors` are absent. -/
theorem fill_output_frame {dim spacedim : Nat} (F : UpdateFlagValues) (sqrt : ℚ → ℚ)
    (m : MappingFEField dim spacedim) (cell : Cell dim spacedim)
    (internal_data : InternalData dim spacedim)
    (output_data : MappingRelatedData dim spacedim) :
    (∀ quadrature data out,
      m.fill_fe_values F sqrt cell quadrature internal_data output_data = .ok (data, out) →
      slots_unchanged F internal_data.update_each
        (F.update_JxW_values ||| F.update_normal_vectors) output_data out) ∧
    (∀ face_no data_set data out,
      m.fill_fe_face_values F sqrt cell face_no data_set internal_data output_data
        = .ok (data, out) →
      slots_unchanged F internal_data.update_each F.update_JxW_values output_data out) ∧
    (∀ face_no subface_no data_set data out,
      m.fill_fe_subface_values F sqrt cell face_no subface_no data_set internal_data
        output_data = .ok (data, out) →
      slots_unchanged F internal_data.update_each F.update_JxW_values output_data out) := by
  refine ⟨?_, ?_, ?_⟩
  · intro quadrature data out h
    unfold MappingFEField.fill_fe_values at h
    cases hup : m.update_internal_dofs cell internal_data with
    | error e =>
      rw [hup] at h
      cases h
    | ok d0 =>
      rw [hup] at h
      simp only [] at h
      have hu0 : d0.update_each = internal_data.update_each :=
        (update_internal_dofs_ok m cell internal_data d0 hup internal_data).2.2.2.1
      have hue : (maybe_update_Jacobians F sqrt 0 d0 m.component_dofs).update_each
          = internal_data.update_each := by
        rw [maybe_update_Jacobians_update_each, hu0]
      cases hj : fill_fe_values_JxW F sqrt cell quadrature.size quadrature.weights
          (maybe_update_Jacobians F sqrt 0 d0 m.component_dofs) output_data.JxW_values
          output_data.normal_vectors with
      | error e =>
        rw [hj] at h
        cases h
      | ok o =>
        rw [hj] at h
        simp only [] at h
        injection h with h
        injection h with h1 h2
        rw [← h2]
        obtain ⟨f1, f2⟩ := fill_fe_values_JxW_frame F sqrt cell _ _ _ _ _ o hj
        obtain ⟨d1, d2, d3, d4, d5, d6⟩ := maybe_update_jacobian_derivatives_skip F 0
          (maybe_update_Jacobians F sqrt 0 d0 m.component_dofs) m.component_dofs
        rw [hue] at f1 f2 d1 d2 d3 d4 d5 d6
        refine ⟨?_, f1, f2, fun _ => rfl, ?_, ?_, fun h0 => d1 _ h0, fun h0 => d2 _ h0,
          fun h0 => d3 _ h0, fun h0 => d4 _ h0, fun h0 => d5 _ h0, fun h0 => d6 _ h0⟩
        · intro h0
          exact maybe_compute_q_points_skip F 0 d0 m.component_dofs _ (by rw [hu0]; exact h0)
        · intro h0
          exact fill_fe_values_jacobians_skip F _ _ _ (by rw [hue]; exact h0)
        · intro h0
          exact fill_fe_values_inverse_jacobians_skip F _ _ _ (by rw [hue]; exact h0)
  · intro face_no data_set data out h
    unfold MappingFEField.fill_fe_face_values at h
    cases hup : m.update_internal_dofs cell internal_data with
    | error e =>
      rw [hup] at h
      cases h
    | ok d0 =>
      rw [hup] at h
      have hu0 : d0.update_each = internal_data.update_each :=
        (update_internal_dofs_ok m cell internal_data d0 hup internal_data).2.2.2.1
      rw [← hu0]
      exact do_fill_fe_face_values_frame F sqrt cell face_no invalid_unsigned_int data_set d0
        data m.component_dofs output_data out h
  · intro face_no subface_no data_set data out h
    unfold MappingFEField.fill_fe_subface_values at h
    cases hup : m.update_internal_dofs cell internal_data with
    | error e =>
      rw [hup] at h
      cases h
    | ok d0 =>
      rw [hup] at h
      have hu0 : d0.update_each = internal_data.update_each :=
        (update_internal_dofs_ok m cell internal_data d0 hup internal_data).2.2.2.1
      rw [← hu0]
      exact do_fill_fe_face_values_frame F sqrt cell face_no invalid_unsigned_int data_set d0
        data m.component_dofs output_data out h

theorem exampleNormals_run :
    ∃ data out,
      (exampleScalingMapping 2 2).fill_fe_values dealiiFlags id exampleSquareCell
          (Quadrature.of_point (fun _ => 1 / 2))
          ((exampleScalingMapping 2 2).get_data dealiiFlags dealiiFlags.update_normal_vectors
            (Quadrature.of_point (fun _ => 1 / 2))) exampleSquareOutput
        = Except.ok (data, out) ∧
      out.JxW_values.getD 0 0 = 4 := by
  obtain ⟨data, h, hq⟩ := exampleScaling_jacobians dealiiFlags id 2 (Or.inl rfl) 2
    exampleSquareCell rfl rfl dealiiFlags.update_normal_vectors
    (Quadrature.of_point (fun _ => 1 / 2)) (by decide)
  have hq0 := hq 0 (by decide)
  obtain ⟨hue, -, -, -, -⟩ := cell_cache_lengths dealiiFlags (exampleScalingMapping 2 2)
    exampleSquareCell dealiiFlags.update_normal_vectors (Quadrature.of_point (fun _ => 1 / 2))
    data h
  have hue2 : (maybe_update_Jacobians dealiiFlags id 0 data
      (exampleScalingMapping 2 2).component_dofs).update_each
      = requires_update_flags dealiiFlags dealiiFlags.update_normal_vectors := by
    rw [maybe_update_Jacobians_update_each, hue]
  have hguard : (maybe_update_Jacobians dealiiFlags id 0 data
      (exampleScalingMapping 2 2).component_dofs).update_each
      &&& (dealiiFlags.update_normal_vectors ||| dealiiFlags.update_JxW_values) ≠ 0 := by
    rw [hue2]
    decide
  have hv := scaled_volume_element dealiiFlags id (exampleScalingMapping 2 2)
    exampleSquareCell dealiiFlags.update_normal_vectors (Quadrature.of_point (fun _ => 1 / 2))
    data 2 h (by decide) (by decide) 0 (by decide) hq0
  have hJ := fill_fe_values_JxW_square dealiiFlags id exampleSquareCell
    (Quadrature.of_point (fun _ => (1 : ℚ) / 2) : Quadrature 2).size
    (Quadrature.of_point (fun _ => (1 : ℚ) / 2) : Quadrature 2).weights
    (maybe_update_Jacobians dealiiFlags id 0 data (exampleScalingMapping 2 2).component_dofs)
    exampleSquareOutput.JxW_values exampleSquareOutput.normal_vectors rfl hguard
    (fun point hp => by
      have hp0 : point = 0 := by
        simpa [Quadrature.size, Quadrature.of_point] using hp
      subst hp0
      rw [hv]
      norm_num [exampleSquareCell])
  have h3 : ∃ out, (exampleScalingMapping 2 2).fill_fe_values dealiiFlags id exampleSquareCell
      (Quadrature.of_point (fun _ => 1 / 2))
      ((exampleScalingMapping 2 2).get_data dealiiFlags dealiiFlags.update_normal_vectors
        (Quadrature.of_point (fun _ => 1 / 2))) exampleSquareOutput
      = Except.ok (maybe_update_Jacobians dealiiFlags id 0 data
          (exampleScalingMapping 2 2).component_dofs, out) ∧
      out.JxW_values = assign_each 1
        (fun point => (Quadrature.of_point (fun _ => (1 : ℚ) / 2) : Quadrature 2).weights.getD
            point 0 *
          (maybe_update_Jacobians dealiiFlags id 0 data
            (exampleScalingMapping 2 2).component_dofs).volume_elements.getD point 0)
        exampleSquareOutput.JxW_values := by
    unfold MappingFEField.fill_fe_values
    rw [h]
    simp only []
    rw [hJ]
    exact ⟨_, rfl, rfl⟩
  obtain ⟨out, h4, h5⟩ := h3
  refine ⟨_, out, h4, ?_⟩
  rw [h5, assign_each_getD _ _ _ _ _ (by decide) (by decide), hv]
  norm_num [Quadrature.of_point]

/-- Counterexample to C24 as stated: `update_JxW_values` is absent from the flags of
the cache obtained for the request `update_normal_vectors`, the slot `JxW_values[0]`
holds `0` before `fill_fe_values` on the unit square scaled by `2`, and `4` after. -/
theorem fill_fe_values_writes_JxW_for_normals :
    ((exampleScalingMapping 2 2).get_data dealiiFlags dealiiFlags.update_normal_vectors
      (Quadrature.of_point (fun _ => 1 / 2))).update_each &&& dealiiFlags.update_JxW_values
      = 0 ∧
    exampleSquareOutput.JxW_values.getD 0 0 = 0 ∧
    ∃ data out,
      (exampleScalingMapping 2 2).fill_fe_values dealiiFlags id exampleSquareCell
          (Quadrature.of_point (fun _ => 1 / 2))
          ((exampleScalingMapping 2 2).get_data dealiiFlags dealiiFlags.update_normal_vectors
            (Quadrature.of_point (fun _ => 1 / 2))) exampleSquareOutput
        = Except.ok (data, out) ∧
      out.JxW_values.getD 0 0 = 4 ∧ out.JxW_values ≠ exampleSquareOutput.JxW_values := by
  obtain ⟨data, out, hrun, h4⟩ := exampleNormals_run
  refine ⟨?_, rfl, data, out, hrun, h4, ?_⟩
  · show requires_update_flags dealiiFlags dealiiFlags.update_normal_vectors
      &&& dealiiFlags.update_JxW_values = 0
    decide
  · intro he
    rw [he] at h4
    have h0 : exampleSquareOutput.JxW_values.getD 0 0 = (0 : ℚ) := rfl
    rw [h0] at h4
    norm_num at h4

/-- Witness of C24: in the same call the flags of the quadrature points and of the
Jacobians are absent, and these slots hold after the call what they held before. -/
theorem fill_output_frame_witness :
    ∃ data out,
      (exampleScalingMapping 2 2).fill_fe_values dealiiFlags id exampleSquareCell
          (Quadrature.of_point (fun _ => 1 / 2))
          ((exampleScalingMapping 2 2).get_data dealiiFlags dealiiFlags.update_normal_vectors
            (Quadrature.of_point (fun _ => 1 / 2))) exampleSquareOutput
        = Except.ok (data, out) ∧
      out.quadrature_points = exampleSquareOutput.quadrature_points ∧
      out.jacobians = exampleSquareOutput.jacobians := by
  obtain ⟨data, out, hrun, -⟩ := exampleNormals_run
  have hf := (fill_output_frame dealiiFlags id (exampleScalingMapping 2 2) exampleSquareCell
    ((exampleScalingMapping 2 2).get_data dealiiFlags dealiiFlags.update_normal_vectors
      (Quadrature.of_point (fun _ => 1 / 2))) exampleSquareOutput).1 _ data out hrun
  have hflags : ((exampleScalingMapping 2 2).get_data dealiiFlags
      dealiiFlags.update_normal_vectors (Quadrature.of_point (fun _ => 1 / 2))).update_each
      = 0x11090 := by
    show requires_update_flags dealiiFlags dealiiFlags.update_normal_vectors = 0x11090
    decide
  unfold slots_unchanged at hf
  rw [hflags] at hf
  exact ⟨data, out, hrun, hf.1 (by decide), hf.2.2.2.2.1 (by decide)⟩


/-! ## Elements that are not primitive -/

theorem get_vertices_ok {dim spacedim : Nat} (m : MappingFEField dim spacedim)
    (cell : Cell dim spacedim) (vertices : List (Point spacedim))
    (h : m.get_vertices cell = .ok vertices) :
    vertices = (List.range cell.n_vertices).map (fun v (d : Fin spacedim) =>
      (m.component_dofs.get d).foldl
        (fun vertices_v_d i =>
          if m.component_dofs.all_components_primitive then
            vertices_v_d + cell.fe_values_shape_value i v *
              (if m.uses_level_dofs then m.euler_vector.getD cell.level []
                else m.euler_vector.getD 0 []).getD
                ((if m.uses_level_dofs then cell.mg_dof_indices
                  else cell.dof_indices).getD i 0) 0
          else
            vertices_v_d + cell.fe_values_shape_value_component i v d *
              (if m.uses_level_dofs then m.euler_vector.getD cell.level []
                else m.euler_vector.getD 0 []).getD
                ((if m.uses_level_dofs then cell.mg_dof_indices
                  else cell.dof_indices).getD i 0) 0) 0) := by
  unfold MappingFEField.get_vertices at h
  by_cases c1 : ¬ (m.uses_level_dofs || cell.is_active) = true
  · rw [if_pos c1] at h
    cases h
  rw [if_neg c1] at h
  by_cases c0 : cell.n_vertices ≠ m.fe_values_n_quadrature_points
  · rw [if_pos c0] at h
    cases h
  rw [if_neg c0] at h
  by_cases c2 : m.uses_level_dofs = true ∧ ¬ cell.level < m.euler_vector.length
  · rw [if_pos c2] at h
    cases h
  rw [if_neg c2] at h
  by_cases c3 : m.uses_level_dofs = true ∧
      (m.euler_vector.getD cell.level []).length ≠ m.n_dofs_level cell.level
  · rw [if_pos c3] at h
    cases h
  rw [if_neg c3] at h
  by_cases c4 : ¬ m.uses_level_dofs = true ∧ (m.euler_vector.getD 0 []).length ≠ m.n_dofs
  · rw [if_pos c4] at h
    cases h
  rw [if_neg c4] at h
  injection h with h
  exact h.symm

theorem get_vertices_active {dim spacedim : Nat} (m : MappingFEField dim spacedim)
    (cell : Cell dim spacedim) (hl : m.uses_level_dofs = false) (ha : cell.is_active = true)
    (hv : cell.n_vertices = m.fe_values_n_quadrature_points)
    (hn : (m.euler_vector.getD 0 []).length = m.n_dofs) :
    ∃ vertices, m.get_vertices cell = .ok vertices := by
  unfold MappingFEField.get_vertices
  rw [if_neg (by simp [ha]), if_neg (not_not.mpr hv), if_neg (by simp [hl]),
    if_neg (by simp [hl]), if_neg (fun h => h.2 hn)]
  exact ⟨_, rfl⟩

theorem foldl_sum_if {ι : Type} (l : List ι) (b : Prop) [Decidable b] (f g : ι → ℚ) :
    l.foldl (fun acc i => if b then acc + f i else acc + g i) 0
      = (l.map (fun i => if b then f i else g i)).sum := by
  by_cases hb : b
  · simp only [if_pos hb]
    rw [foldl_add_eq_sum, zero_add]
  · simp only [if_neg hb]
    rw [foldl_add_eq_sum, zero_add]

theorem get_vertices_getD {dim spacedim : Nat} (m : MappingFEField dim spacedim)
    (cell : Cell dim spacedim) (vertices : List (Point spacedim))
    (h : m.get_vertices cell = .ok vertices) (v : Nat) (hv : v < cell.n_vertices)
    (d : Fin spacedim) :
    vertices.getD v 0 d = ((m.component_dofs.get d).map (fun i =>
      (if m.component_dofs.all_components_primitive then cell.fe_values_shape_value i v
        else cell.fe_values_shape_value_component i v d) *
      (if m.uses_level_dofs then m.euler_vector.getD cell.level []
        else m.euler_vector.getD 0 []).getD
        ((if m.uses_level_dofs then cell.mg_dof_indices
          else cell.dof_indices).getD i 0) 0)).sum := by
  have hv2 := get_vertices_ok m cell vertices h
  subst hv2
  rw [List.getD_eq_getElem _ _ (by simp [hv]), List.getElem_map, List.getElem_range]
  rw [foldl_sum_if]
  congr 1
  apply List.map_congr_left
  intro i _
  split_ifs <;> rfl

/-- C29: a failing input of `get_vertices`, and what the evaluators of the quadrature
points do.  The element `exampleNonPrimitive` has the shape functions `(1 - x, x)` and
`(x, 1 - x)` in one base element that is not primitive; for the mask `(false, true)`
the constructor returns the component index with `component_dofs[0] = {0, 1}` and
`all_components_primitive = false`, and the selected component of the coordinate
`d = 0` is the component `1`.  With the coefficients `1` and `2`, the field in the
selected component `1` has the values `2` and `1` at the two vertices, while
`get_vertices` returns the vertices `1` and `2`: the sums of the coefficients times the
values in the component `0`, the spatial index `d` passed to `shape_value_component`.
In general, `get_vertices` accumulates in `vertices[v][d]` the coefficients of the shape
functions `i` of `component_dofs[d]` times `shape_value(i, v)` when all selected
components are primitive and times `shape_value_component(i, v, d)` otherwise, while
`maybe_compute_q_points` and `do_transform_unit_to_real_cell` multiply each coefficient
by the cached scalar shape value whether or not the components are primitive; on the
example the forward point map returns the coefficients times whatever the scalar
evaluator `shape_value` of the element returns. -/
theorem get_vertices_component_of_spatial_index :
    (∀ e : FiniteElement 1,
      ComponentDoFs.init 1 (exampleNonPrimitive e) [false, true]
        = .ok exampleNonPrimitiveComponentDoFs) ∧
    exampleNonPrimitiveComponentDoFs.all_components_primitive = false ∧
    exampleNonPrimitiveComponentDoFs.get 0 = [0, 1] ∧
    (selected_components [false, true]).getD 0 0 = 1 ∧
    (∀ (e : FiniteElement 1) (shape_value : Nat → Nat → ℚ), ∃ vertices,
      (exampleNonPrimitiveMapping e).get_vertices (exampleNonPrimitiveCell shape_value)
        = .ok vertices ∧
      vertices.length = 2 ∧ vertices.getD 0 0 0 = 1 ∧ vertices.getD 1 0 0 = 2) ∧
    (((exampleNonPrimitiveComponentDoFs.get 0).map (fun i =>
        exampleNonPrimitive_shape_value_component i (pt 0) 1 * [1, 2].getD i 0)).sum = 2 ∧
      ((exampleNonPrimitiveComponentDoFs.get 0).map (fun i =>
        exampleNonPrimitive_shape_value_component i (pt 1) 1 * [1, 2].getD i 0)).sum = 1) ∧
    (((exampleNonPrimitiveComponentDoFs.get 0).map (fun i =>
        exampleNonPrimitive_shape_value_component i (pt 0) 0 * [1, 2].getD i 0)).sum = 1 ∧
      ((exampleNonPrimitiveComponentDoFs.get 0).map (fun i =>
        exampleNonPrimitive_shape_value_component i (pt 1) 0 * [1, 2].getD i 0)).sum = 2) ∧
    (∀ (e : FiniteElement 1) (shape_value : Nat → Nat → ℚ) (p : Point 1),
      (exampleNonPrimitiveMapping e).transform_unit_to_real_cell dealiiFlags
          (exampleNonPrimitiveCell shape_value) p
        = .ok (fun _ => 1 * e.shape_value 0 p + 2 * e.shape_value 1 p)) ∧
    (∀ (dim spacedim : Nat) (m : MappingFEField dim spacedim) (cell : Cell dim spacedim)
        (vertices : List (Point spacedim)),
      m.get_vertices cell = .ok vertices →
      vertices.length = cell.n_vertices ∧
      ∀ v, v < cell.n_vertices → ∀ d : Fin spacedim,
        vertices.getD v 0 d = ((m.component_dofs.get d).map (fun i =>
          (if m.component_dofs.all_components_primitive then cell.fe_values_shape_value i v
            else cell.fe_values_shape_value_component i v d) *
          (if m.uses_level_dofs then m.euler_vector.getD cell.level []
            else m.euler_vector.getD 0 []).getD
            ((if m.uses_level_dofs then cell.mg_dof_indices
              else cell.dof_indices).getD i 0) 0)).sum) ∧
    (∀ (dim spacedim : Nat) (F : UpdateFlagValues) (data_set : Nat)
        (data : InternalData dim spacedim) (component_dofs : ComponentDoFs)
        (quadrature_points : List (Point spacedim)),
      data.update_each &&& F.update_quadrature_points ≠ 0 →
      ∀ point, point < quadrature_points.length → ∀ d : Fin spacedim,
        (maybe_compute_q_points F data_set data component_dofs quadrature_points).getD
            point 0 d
          = ((component_dofs.get d).map (fun i =>
              data.local_dof_values.getD i 0 * data.shape (point + data_set) i)).sum) ∧
    (∀ (dim spacedim : Nat) (data : InternalData dim spacedim)
        (component_dofs : ComponentDoFs) (d : Fin spacedim),
      do_transform_unit_to_real_cell component_dofs data d
        = ((component_dofs.get d).map (fun i =>
            data.local_dof_values.getD i 0 * data.shape 0 i)).sum) := by
  have hget : exampleNonPrimitiveComponentDoFs.get 0 = [0, 1] := by decide
  refine ⟨fun e => rfl, rfl, hget, by decide, ?_, ?_, ?_, ?_, ?_, ?_, ?_⟩
  · intro e shape_value
    obtain ⟨vertices, h⟩ := get_vertices_active (exampleNonPrimitiveMapping e)
      (exampleNonPrimitiveCell shape_value) rfl rfl rfl rfl
    have hv := get_vertices_ok _ _ vertices h
    refine ⟨vertices, h, ?_, ?_, ?_⟩
    · rw [hv]
      simp [exampleNonPrimitiveCell]
    · rw [get_vertices_getD _ _ _ h 0 (show 0 < 2 ^ 1 by decide) 0]
      show ((exampleNonPrimitiveComponentDoFs.get 0).map _).sum = 1
      rw [hget]
      simp [exampleNonPrimitiveMapping, exampleNonPrimitiveCell,
        exampleNonPrimitiveComponentDoFs, exampleNonPrimitive_shape_value_component, pt]
    · rw [get_vertices_getD _ _ _ h 1 (show 1 < 2 ^ 1 by decide) 0]
      show ((exampleNonPrimitiveComponentDoFs.get 0).map _).sum = 2
      rw [hget]
      simp [exampleNonPrimitiveMapping, exampleNonPrimitiveCell,
        exampleNonPrimitiveComponentDoFs, exampleNonPrimitive_shape_value_component, pt]
  · rw [hget]
    constructor <;> simp [exampleNonPrimitive_shape_value_component, pt]
  · rw [hget]
    constructor <;> simp [exampleNonPrimitive_shape_value_component, pt]
  · intro e shape_value p
    have hup := update_internal_dofs_active (exampleNonPrimitiveMapping e)
      (exampleNonPrimitiveCell shape_value)
      ((exampleNonPrimitiveMapping e).get_data dealiiFlags
        (dealiiFlags.update_quadrature_points ||| dealiiFlags.update_jacobians)
        (Quadrature.of_point p)) rfl rfl rfl
    have hcd : ∀ d : Fin 1, ∀ i ∈ (exampleNonPrimitiveMapping e).component_dofs.get d,
        i < (exampleNonPrimitiveMapping e).fe.n_dofs_per_cell := by
      intro d i hi
      fin_cases d
      have hi2 : i ∈ [0, 1] := hi
      simp only [List.mem_cons, List.mem_singleton, List.not_mem_nil, or_false] at hi2
      rcases hi2 with rfl | rfl
      · exact Nat.zero_lt_two
      · exact Nat.one_lt_two
    rw [transform_unit_to_real_cell_eq dealiiFlags _ _ p (by decide) hcd _ hup]
    congr 1
    funext d
    fin_cases d
    show (((exampleNonPrimitiveComponentDoFs.get 0).map _).sum : ℚ) = _
    rw [hget]
    simp [MappingFEField.cell_dof_values, exampleNonPrimitiveMapping, exampleNonPrimitiveCell,
      exampleNonPrimitive, assign_each, for_loop, List.range_succ]
  · intro dim spacedim m cell vertices h
    refine ⟨?_, fun v hv d => get_vertices_getD m cell vertices h v hv d⟩
    rw [get_vertices_ok m cell vertices h]
    simp
  · intro dim spacedim F data_set data component_dofs quadrature_points hflag point hpoint d
    unfold maybe_compute_q_points
    simp only []
    rw [if_pos hflag, assign_each_getD _ _ _ _ _ hpoint hpoint, foldl_add_eq_sum, zero_add]
    simp only [InternalData.shape, Nat.add_zero]
  · intro dim spacedim data component_dofs d
    unfold do_transform_unit_to_real_cell
    rw [foldl_add_eq_sum, zero_add]

/-! ## The resolver and the union of flag sets -/

/-- The result of `requires_update_flags` is closed under the rules. -/
theorem requires_update_flags_closed_under_rules (F : UpdateFlagValues) (x : Nat) :
    closed_under_rules F (requires_update_flags F x) := by
  obtain ⟨h1, h2, h3, h4, h5⟩ :=
    pass_fixed_each F (requires_update_flags F x) (pass_requires_update_flags F x)
  exact ⟨or_if_fixed_closed _ _ _ h1, or_if_fixed_closed _ _ _ h2,
    or_if_fixed_closed _ _ _ h3, or_if_fixed_closed _ _ _ h4, or_if_fixed_closed _ _ _ h5⟩

theorem lor_land_ne_zero (x y c : Nat) (h : (x ||| y) &&& c ≠ 0) :
    x &&& c ≠ 0 ∨ y &&& c ≠ 0 := by
  by_contra hcon
  push_neg at hcon
  apply h
  rw [Nat.and_comm, Nat.and_or_distrib_left, Nat.and_comm c x, Nat.and_comm c y, hcon.1, hcon.2]
  rfl

/-- A rule `if (out & cond) out |= add;` that two flag sets satisfy is satisfied by
their union. -/
theorem rule_closed_lor (x y cond add : Nat) (hx : x &&& cond ≠ 0 → x ||| add = x)
    (hy : y &&& cond ≠ 0 → y ||| add = y) (h : (x ||| y) &&& cond ≠ 0) :
    (x ||| y) ||| add = x ||| y := by
  rcases lor_land_ne_zero x y cond h with h1 | h1
  · rw [Nat.lor_assoc, Nat.lor_comm y add, ← Nat.lor_assoc, hx h1]
  · rw [Nat.lor_assoc, hy h1]

theorem closed_under_rules_lor (F : UpdateFlagValues) (x y : Nat)
    (hx : closed_under_rules F x) (hy : closed_under_rules F y) :
    closed_under_rules F (x ||| y) := by
  obtain ⟨x1, x2, x3, x4, x5⟩ := hx
  obtain ⟨y1, y2, y3, y4, y5⟩ := hy
  exact ⟨rule_closed_lor _ _ _ _ x1 y1, rule_closed_lor _ _ _ _ x2 y2,
    rule_closed_lor _ _ _ _ x3 y3, rule_closed_lor _ _ _ _ x4 y4,
    rule_closed_lor _ _ _ _ x5 y5⟩

theorem lor_sub_left (a b : Nat) : a ||| (a ||| b) = a ||| b := by
  rw [← Nat.lor_assoc, Nat.or_self]

theorem lor_sub_right (a b : Nat) : b ||| (a ||| b) = a ||| b := by
  rw [Nat.lor_comm a b, ← Nat.lor_assoc, Nat.or_self]

theorem lor_sub_lor (a b c d : Nat) (hac : a ||| c = c) (hbd : b ||| d = d) :
    (a ||| b) ||| (c ||| d) = c ||| d := by
  rw [Nat.lor_assoc, ← Nat.lor_assoc b c d, Nat.lor_comm b c, Nat.lor_assoc c b d, hbd,
    ← Nat.lor_assoc, hac]

/-- The resolver is monotone. -/
theorem requires_update_flags_mono (F : UpdateFlagValues) (a b : Nat) (hab : a ||| b = b) :
    requires_update_flags F a ||| requires_update_flags F b = requires_update_flags F b :=
  pass_iterate_sub_closed F (requires_update_flags F b)
    (requires_update_flags_closed_under_rules F b) 5 a
    (lor_sub_trans a b _ hab (pass_iterate_superset F 5 b))

/-- C32: `requires_update_flags` distributes over the union of flag sets, whatever
the numeric values of the flags are; in particular it is monotone for the inclusion of
flag sets (`a ||| b = b` says that `a` is contained in `b`), and it maps the empty flag
set to itself. -/
theorem requires_update_flags_union (F : UpdateFlagValues) (a b : Nat) :
    requires_update_flags F (a ||| b) =
      requires_update_flags F a ||| requires_update_flags F b ∧
    (a ||| b = b →
      requires_update_flags F a ||| requires_update_flags F b = requires_update_flags F b) ∧
    requires_update_flags F 0 = 0 := by
  refine ⟨?_, requires_update_flags_mono F a b, ?_⟩
  · apply lor_sub_antisymm
    · exact pass_iterate_sub_closed F _
        (closed_under_rules_lor F _ _ (requires_update_flags_closed_under_rules F a)
          (requires_update_flags_closed_under_rules F b)) 5 (a ||| b)
        (lor_sub_lor a b _ _ (pass_iterate_superset F 5 a) (pass_iterate_superset F 5 b))
    · have h1 := requires_update_flags_mono F a (a ||| b) (lor_sub_left a b)
      have h2 := requires_update_flags_mono F b (a ||| b) (lor_sub_right a b)
      have h3 := lor_sub_lor _ _ _ _ h1 h2
      rw [Nat.or_self] at h3
      exact h3
  · have h := pass_iterate_sub_closed F 0
      (by
        unfold closed_under_rules
        simp) 5 0 rfl
    rw [Nat.or_zero] at h
    exact h

/-! ## The sizes of the tables of the cache -/

theorem get_data_contravariant_length {dim spacedim : Nat} (F : UpdateFlagValues)
    (m : MappingFEField dim spacedim) (update_flags : Nat) (quadrature : Quadrature dim) :
    (m.get_data F update_flags quadrature).contravariant.length =
      if requires_update_flags F update_flags &&& F.update_contravariant_transformation ≠ 0
      then quadrature.size else 0 := by
  unfold MappingFEField.get_data
  rw [reinit_contravariant]
  split_ifs
  · exact resize_length _ _ _
  · rfl

theorem get_data_covariant_length {dim spacedim : Nat} (F : UpdateFlagValues)
    (m : MappingFEField dim spacedim) (update_flags : Nat) (quadrature : Quadrature dim) :
    (m.get_data F update_flags quadrature).covariant.length =
      if requires_update_flags F update_flags &&& F.update_covariant_transformation ≠ 0
      then quadrature.size else 0 := by
  unfold MappingFEField.get_data
  rw [reinit_covariant]
  split_ifs
  · exact resize_length _ _ _
  · rfl

theorem get_data_volume_elements_length {dim spacedim : Nat} (F : UpdateFlagValues)
    (m : MappingFEField dim spacedim) (update_flags : Nat) (quadrature : Quadrature dim) :
    (m.get_data F update_flags quadrature).volume_elements.length =
      if requires_update_flags F update_flags &&& F.update_volume_elements ≠ 0
      then quadrature.size else 0 := by
  unfold MappingFEField.get_data
  rw [reinit_volume_elements]
  split_ifs
  · exact resize_length _ _ _
  · rfl

/-- With the covariant transformation in the resolved flags, the contravariant
transformation is in them as well. -/
theorem requires_update_flags_of_covariant (F : UpdateFlagValues) (x : Nat)
    (hct : F.update_contravariant_transformation ≠ 0)
    (h : requires_update_flags F x &&& F.update_covariant_transformation ≠ 0) :
    requires_update_flags F x &&& F.update_contravariant_transformation ≠ 0 := by
  obtain ⟨-, h2, -, -, -⟩ :=
    pass_fixed_each F (requires_update_flags F x) (pass_requires_update_flags F x)
  have e2 := or_if_fixed_contains _ _ _ h2
    (land_lor_ne_zero_left _ _ _ (land_lor_ne_zero_left _ _ _ (land_lor_ne_zero_left _ _ _
      (land_lor_ne_zero_left _ _ _ h))))
  rw [e2]
  exact hct

/-- With the contravariant transformation in the resolved flags, the volume elements
are in them as well. -/
theorem requires_update_flags_of_contravariant (F : UpdateFlagValues) (x : Nat)
    (hvol : F.update_volume_elements ≠ 0)
    (h : requires_update_flags F x &&& F.update_contravariant_transformation ≠ 0) :
    requires_update_flags F x &&& F.update_volume_elements ≠ 0 := by
  obtain ⟨-, -, -, h4, -⟩ :=
    pass_fixed_each F (requires_update_flags F x) (pass_requires_update_flags F x)
  rw [or_if_fixed_contains _ _ _ h4 h]
  exact hvol

/-- C33, at a request for which the claim fails: `requires_update_flags` has no rule
that adds `update_contravariant_transformation` to a request of
`update_volume_elements`, so for this request and the one-point rule `get_data` sizes
`volume_elements` to one entry and leaves `contravariant` empty, and the
`AssertDimension(data.contravariant.size(), data.volume_elements.size())` of
`maybe_update_Jacobians` fails with a dimension mismatch.  The other assertion named
by the claim holds for every request: with `update_covariant_transformation` in the
resolved flags `covariant` and `contravariant` have one entry per point; and the
failing one holds whenever `update_contravariant_transformation` is in the resolved
flags. -/
theorem get_data_volume_elements_without_contravariant :
    requires_update_flags dealiiFlags dealiiFlags.update_volume_elements =
      dealiiFlags.update_volume_elements ∧
    exampleVolumeElementsCache.update_each &&& dealiiFlags.update_volume_elements ≠ 0 ∧
    exampleVolumeElementsCache.volume_elements.length = 1 ∧
    exampleVolumeElementsCache.contravariant.length = 0 ∧
    maybe_update_Jacobians_assertions dealiiFlags 0 exampleVolumeElementsCache =
      .error .ExcDimensionMismatch ∧
    (∀ (dim spacedim : Nat) (F : UpdateFlagValues) (m : MappingFEField dim spacedim)
        (update_flags : Nat) (quadrature : Quadrature dim),
      F.update_contravariant_transformation ≠ 0 →
      requires_update_flags F update_flags &&& F.update_covariant_transformation ≠ 0 →
      (m.get_data F update_flags quadrature).covariant.length =
        (m.get_data F update_flags quadrature).contravariant.length) ∧
    (∀ (dim spacedim : Nat) (F : UpdateFlagValues) (m : MappingFEField dim spacedim)
        (update_flags : Nat) (quadrature : Quadrature dim),
      requires_update_flags F update_flags &&& F.update_contravariant_transformation ≠ 0 →
      requires_update_flags F update_flags &&& F.update_volume_elements ≠ 0 →
      (m.get_data F update_flags quadrature).contravariant.length =
        (m.get_data F update_flags quadrature).volume_elements.length) := by
  refine ⟨by decide, by decide, rfl, rfl, rfl, ?_, ?_⟩
  · intro dim spacedim F m update_flags quadrature hct hcov
    rw [get_data_covariant_length, get_data_contravariant_length, if_pos hcov,
      if_pos (requires_update_flags_of_covariant F update_flags hct hcov)]
  · intro dim spacedim F m update_flags quadrature hc hv
    rw [get_data_contravariant_length, get_data_volume_elements_length, if_pos hc, if_pos hv]

/-! ## The flag check of the covariant transform -/

/-- C34, at a cache for which the claim fails: for the request `update_jacobians`
the resolved flags hold `update_contravariant_transformation` and not
`update_covariant_transformation`, so `get_data` leaves the table `covariant` empty;
`transform` with the kind `mapping_covariant` asserts the contravariant flag, passes,
and reads `data.covariant[0]` for its one-entry output, for fields and for
differential forms.  The sibling case `mapping_covariant_gradient`, which reads the
same table, asserts `update_covariant_transformation` and rejects this cache; and for
every request with `update_covariant_transformation` in the resolved flags the table
has one entry per point of the rule. -/
theorem transform_covariant_reads_empty_table :
    exampleJacobiansCache.update_each &&& dealiiFlags.update_contravariant_transformation ≠ 0 ∧
    exampleJacobiansCache.update_each &&& dealiiFlags.update_covariant_transformation = 0 ∧
    exampleJacobiansCache.covariant.length = 0 ∧
    (∃ output, transform_fields dealiiFlags [pt 1] MappingKind.mapping_covariant
      exampleJacobiansCache [0] = Except.ok output ∧ output.length = 1) ∧
    (∃ output, transform_differential_forms dealiiFlags [0] MappingKind.mapping_covariant
      exampleJacobiansCache [0] = Except.ok output ∧ output.length = 1) ∧
    MappingFEField.transform_DerivativeForm2 dealiiFlags [0]
      MappingKind.mapping_covariant_gradient exampleJacobiansCache [0] =
        Except.error Exc.ExcAccessToUninitializedField ∧
    (∀ (dim spacedim : Nat) (F : UpdateFlagValues) (m : MappingFEField dim spacedim)
        (update_flags : Nat) (quadrature : Quadrature dim),
      (m.get_data F update_flags quadrature).update_each &&&
          F.update_covariant_transformation ≠ 0 →
      (m.get_data F update_flags quadrature).covariant.length = quadrature.size) := by
  have h1 : exampleJacobiansCache.update_each
      &&& dealiiFlags.update_contravariant_transformation ≠ 0 := by decide
  have h2 : exampleJacobiansCache.update_each
      &&& dealiiFlags.update_covariant_transformation = 0 := by decide
  refine ⟨h1, h2, rfl,
    ⟨_, transform_fields_covariant dealiiFlags [pt 1] exampleJacobiansCache [0] h1, ?_⟩,
    ⟨assign_each 1 (fun i => apply_transformation_DerivativeForm
      (exampleJacobiansCache.covariant.getD i 0) (([0] : List (DerivativeForm1 1 1)).getD i 0))
      [0], ?_, ?_⟩, ?_, ?_⟩
  · rw [assign_each_length]
    rfl
  · unfold transform_differential_forms
    simp only []
    rw [if_neg h1]
    rfl
  · rw [assign_each_length]
    rfl
  · unfold MappingFEField.transform_DerivativeForm2
    simp only []
    rw [if_pos h2]
  · intro dim spacedim F m update_flags quadrature hcov
    rw [get_data_update_each] at hcov
    rw [get_data_covariant_length, if_pos hcov]

/-! ## The tables read by the immersed-surface fill -/

/-- C35, amended: for `dim == spacedim`, every request that contains
`update_JxW_values` or `update_normal_vectors` and every immersed-surface rule with
`n` points, in the cache built by `get_data` the table `volume_elements` holds `n`
entries; the table `covariant` holds `n` entries when the resolved flags contain
`update_covariant_transformation`, and it is empty otherwise.  The flag values are
those of an enumeration in which the flags added by the rules are not zero. -/
theorem immersed_surface_table_sizes {dim : Nat} (F : UpdateFlagValues)
    (m : MappingFEField dim dim) (update_flags : Nat)
    (quadrature : ImmersedSurfaceQuadrature dim)
    (hbf : F.update_boundary_forms ≠ 0) (hct : F.update_contravariant_transformation ≠ 0)
    (hvol : F.update_volume_elements ≠ 0)
    (hreq : update_flags &&& (F.update_JxW_values ||| F.update_normal_vectors) ≠ 0) :
    (m.get_data F update_flags ⟨quadrature.points, quadrature.weights⟩).update_each &&&
      (F.update_normal_vectors ||| F.update_JxW_values) ≠ 0 ∧
    (m.get_data F update_flags ⟨quadrature.points, quadrature.weights⟩).volume_elements.length
      = quadrature.size ∧
    ((m.get_data F update_flags ⟨quadrature.points, quadrature.weights⟩).update_each &&&
        F.update_covariant_transformation ≠ 0 →
      (m.get_data F update_flags ⟨quadrature.points, quadrature.weights⟩).covariant.length
        = quadrature.size) ∧
    ((m.get_data F update_flags ⟨quadrature.points, quadrature.weights⟩).update_each &&&
        F.update_covariant_transformation = 0 →
      (m.get_data F update_flags ⟨quadrature.points, quadrature.weights⟩).covariant.length
        = 0) := by
  have hclosed := requires_update_flags_of_request F update_flags _ hreq
  obtain ⟨-, -, hv⟩ := requires_update_flags_of_JxW F update_flags hbf hct hvol hclosed
  refine ⟨?_, ?_, ?_, ?_⟩
  · rw [get_data_update_each, Nat.lor_comm]
    exact hclosed
  · rw [get_data_volume_elements_length, if_pos hv]
    rfl
  · intro hcov
    rw [get_data_update_each] at hcov
    rw [get_data_covariant_length, if_pos hcov]
    rfl
  · intro hcov
    rw [get_data_update_each] at hcov
    rw [get_data_covariant_length, if_neg (not_not.mpr hcov)]

/-- Witness of C35: for the request `update_JxW_values | update_inverse_jacobians` on
the unit square scaled by `2` and the one-point surface rule, both tables hold one
entry. -/
theorem immersed_surface_table_sizes_witness :
    (0x440 : Nat) &&& (dealiiFlags.update_JxW_values ||| dealiiFlags.update_normal_vectors) ≠ 0 ∧
    ((exampleScalingMapping 2 2).get_data dealiiFlags 0x440
      ⟨exampleSurfaceRule.points, exampleSurfaceRule.weights⟩).volume_elements.length = 1 ∧
    ((exampleScalingMapping 2 2).get_data dealiiFlags 0x440
      ⟨exampleSurfaceRule.points, exampleSurfaceRule.weights⟩).covariant.length = 1 := by
  obtain ⟨-, h1, h2, -⟩ := immersed_surface_table_sizes dealiiFlags (exampleScalingMapping 2 2)
    0x440 exampleSurfaceRule (by decide) (by decide) (by decide) (by decide)
  exact ⟨by decide, h1, h2 (by decide)⟩

/-- Counterexample to C35 as stated: for the request `update_JxW_values` on the unit
square scaled by `2` and the one-point surface rule, the resolved flags contain
`update_JxW_values`, so that `fill_fe_immersed_surface_values` enters its loop and reads
`data.volume_elements[0]` and `data.covariant[0]`; the table `volume_elements` holds
one entry and the table `covariant` holds none. -/
theorem immersed_surface_covariant_table_empty :
    dealiiFlags.update_JxW_values &&&
      (dealiiFlags.update_JxW_values ||| dealiiFlags.update_normal_vectors) ≠ 0 ∧
    exampleSurfaceRule.size = 1 ∧
    exampleJxWCache.update_each &&&
      (dealiiFlags.update_normal_vectors ||| dealiiFlags.update_JxW_values) ≠ 0 ∧
    exampleJxWCache.update_each &&& dealiiFlags.update_covariant_transformation = 0 ∧
    exampleJxWCache.volume_elements.length = 1 ∧
    exampleJxWCache.covariant.length = 0 :=
  ⟨by decide, rfl, by decide, by decide, rfl, rfl⟩

/-! ## The reads of the pushed-forward derivative routines -/

/-- A loop of assertions that all hold raises nothing. -/
theorem for_loop_e_assertions_ok (n : Nat) (check : Nat → Except Exc Unit)
    (h : ∀ i, i < n → check i = .ok ()) :
    for_loop_e n (fun point _ => check point) () = .ok () := by
  induction n with
  | zero => rfl
  | succ n ih =>
    rw [for_loop_e_succ, ih (fun i hi => h i (by omega))]
    exact h n (by omega)

theorem get_data_n_shape_functions {dim spacedim : Nat} (F : UpdateFlagValues)
    (m : MappingFEField dim spacedim) (update_flags : Nat) (quadrature : Quadrature dim) :
    (m.get_data F update_flags quadrature).n_shape_functions = m.fe.n_dofs_per_cell := rfl

theorem get_data_shape_derivatives_length {dim spacedim : Nat} (F : UpdateFlagValues)
    (m : MappingFEField dim spacedim) (update_flags : Nat) (quadrature : Quadrature dim)
    (h : requires_update_flags F update_flags &&&
      (F.update_covariant_transformation ||| F.update_contravariant_transformation |||
        F.update_JxW_values ||| F.update_boundary_forms ||| F.update_normal_vectors |||
        F.update_jacobians ||| F.update_jacobian_grads ||| F.update_inverse_jacobians) ≠ 0) :
    (m.get_data F update_flags quadrature).shape_derivatives.length =
      m.fe.n_dofs_per_cell * quadrature.size := by
  unfold MappingFEField.get_data
  rw [reinit_shape_derivatives, if_pos h, fill_table_length, resize_length]
  rfl

theorem get_data_shape_second_derivatives_length {dim spacedim : Nat} (F : UpdateFlagValues)
    (m : MappingFEField dim spacedim) (update_flags : Nat) (quadrature : Quadrature dim)
    (h : requires_update_flags F update_flags &&&
      (F.update_jacobian_grads ||| F.update_jacobian_pushed_forward_grads) ≠ 0) :
    (m.get_data F update_flags quadrature).shape_second_derivatives.length =
      m.fe.n_dofs_per_cell * quadrature.size := by
  unfold MappingFEField.get_data
  rw [reinit_shape_second_derivatives, if_pos h, fill_table_length, resize_length]
  rfl

theorem get_data_shape_third_derivatives_length {dim spacedim : Nat} (F : UpdateFlagValues)
    (m : MappingFEField dim spacedim) (update_flags : Nat) (quadrature : Quadrature dim)
    (h : requires_update_flags F update_flags &&&
      (F.update_jacobian_2nd_derivatives |||
        F.update_jacobian_pushed_forward_2nd_derivatives) ≠ 0) :
    (m.get_data F update_flags quadrature).shape_third_derivatives.length =
      m.fe.n_dofs_per_cell * quadrature.size := by
  unfold MappingFEField.get_data
  rw [reinit_shape_third_derivatives, if_pos h, fill_table_length, resize_length]
  rfl

theorem get_data_shape_fourth_derivatives_length {dim spacedim : Nat} (F : UpdateFlagValues)
    (m : MappingFEField dim spacedim) (update_flags : Nat) (quadrature : Quadrature dim)
    (h : requires_update_flags F update_flags &&&
      (F.update_jacobian_3rd_derivatives |||
        F.update_jacobian_pushed_forward_3rd_derivatives) ≠ 0) :
    (m.get_data F update_flags quadrature).shape_fourth_derivatives.length =
      m.fe.n_dofs_per_cell * quadrature.size := by
  unfold MappingFEField.get_data
  rw [reinit_shape_fourth_derivatives, if_pos h, fill_table_length, resize_length]
  rfl

/-- Entry `i` of the row of the point `point` of a flattened table with
`n_shape_functions` entries per point lies in the table. -/
theorem table_index_lt (n_shape_functions n_q_points point i : Nat) (hp : point < n_q_points)
    (hi : i < n_shape_functions) :
    (point + 0) * n_shape_functions + 0 + i < n_shape_functions * n_q_points := by
  calc (point + 0) * n_shape_functions + 0 + i
      < point * n_shape_functions + n_shape_functions := by
        rw [Nat.add_zero, Nat.add_zero]
        omega
    _ = n_shape_functions * (point + 1) := by ring
    _ ≤ n_shape_functions * n_q_points := Nat.mul_le_mul_left _ hp

/-- With a pushed-forward flag in the request, the covariant and the contravariant
transformation are in the resolved flags. -/
theorem requires_update_flags_of_pushed_forward (F : UpdateFlagValues) (x : Nat)
    (hcov : F.update_covariant_transformation ≠ 0)
    (hct : F.update_contravariant_transformation ≠ 0)
    (h : x &&& (F.update_jacobian_pushed_forward_grads |||
      F.update_jacobian_pushed_forward_2nd_derivatives |||
      F.update_jacobian_pushed_forward_3rd_derivatives) ≠ 0) :
    requires_update_flags F x &&& F.update_covariant_transformation ≠ 0 ∧
    requires_update_flags F x &&& F.update_contravariant_transformation ≠ 0 := by
  have hclosed := requires_update_flags_of_request F x _ h
  obtain ⟨-, -, h3, -, -⟩ :=
    pass_fixed_each F (requires_update_flags F x) (pass_requires_update_flags F x)
  have hc : requires_update_flags F x &&&
      (F.update_inverse_jacobians ||| F.update_jacobian_pushed_forward_grads |||
        F.update_jacobian_pushed_forward_2nd_derivatives |||
        F.update_jacobian_pushed_forward_3rd_derivatives) ≠ 0 := by
    rcases land_lor_ne_zero _ _ _ hclosed with h12 | h3'
    · rcases land_lor_ne_zero _ _ _ h12 with h1' | h2'
      · exact land_lor_ne_zero_left _ _ _ (land_lor_ne_zero_left _ _ _
          (land_lor_ne_zero_right _ _ _ h1'))
      · exact land_lor_ne_zero_left _ _ _ (land_lor_ne_zero_right _ _ _ h2')
    · exact land_lor_ne_zero_right _ _ _ h3'
  have e3 := or_if_fixed_contains _ _ _ h3 hc
  have n3 : requires_update_flags F x &&& F.update_covariant_transformation ≠ 0 := by
    rw [e3]; exact hcov
  exact ⟨n3, requires_update_flags_of_covariant F x hct n3⟩

/-- The assertions of `maybe_update_Jacobians` on a cell (`data_set = 0`) for a cache
whose tables have the sizes of its flags. -/
theorem maybe_update_Jacobians_assertions_cell {dim spacedim : Nat} (F : UpdateFlagValues)
    (data : InternalData dim spacedim) (n : Nat)
    (hct : data.update_each &&& F.update_contravariant_transformation ≠ 0)
    (hlc : data.contravariant.length = n)
    (hlcov : data.update_each &&& F.update_covariant_transformation ≠ 0 →
      data.covariant.length = n)
    (hlvol : data.update_each &&& F.update_volume_elements ≠ 0 →
      data.volume_elements.length = n)
    (hder : data.shape_derivatives.length = data.n_shape_functions * n) :
    (0 < data.n_shape_functions → maybe_update_Jacobians_assertions F 0 data = .ok ()) ∧
    (data.n_shape_functions = 0 →
      maybe_update_Jacobians_assertions F 0 data = .error .ExcInternalError) := by
  constructor
  · intro hpos
    unfold maybe_update_Jacobians_assertions
    simp only []
    rw [if_pos hct, if_neg (not_not.mpr hpos), for_loop_e_assertions_ok]
    · simp only []
      rw [if_neg, if_neg]
      · rintro ⟨hv, hne⟩
        exact hne (by rw [hlc, hlvol hv])
      · rintro ⟨hv, hne⟩
        exact hne (by rw [hlc, hlcov hv])
    · intro point hp
      unfold InternalData.derivative_AssertIndexRange
      rw [if_pos]
      rw [hder]
      have := table_index_lt data.n_shape_functions n point 0 (by rw [← hlc]; exact hp) hpos
      simpa using this
  · intro hzero
    unfold maybe_update_Jacobians_assertions
    simp only []
    rw [if_pos hct, if_pos (by omega)]

/-- C36: for every request that contains a pushed-forward flag of a derivative of the
Jacobian and every rule with `n` points, the cache built by `get_data` has
`covariant.size() == contravariant.size() == n`; with the flag of order `k` in the
request the table of the shape derivatives of order `k + 1` has
`n_shape_functions * n` entries.  On a cell (`data_set = 0`) the run of
`maybe_update_Jacobians` first asserts `n_shape_functions > 0`; when that holds, every
assertion of `maybe_update_Jacobians` and every index-range assertion of the matching
routine for an output of `n` points holds, and so does the bound of every entry
`(point, i)`, `i < n_shape_functions`, read through the pointers to the rows of the
tables, and of `covariant[point]`.  The flag values are those of an enumeration in
which the two transformation flags are not zero. -/
theorem pushed_forward_reads_in_range {dim spacedim : Nat} (F : UpdateFlagValues)
    (m : MappingFEField dim spacedim) (update_flags : Nat) (quadrature : Quadrature dim)
    (hcov : F.update_covariant_transformation ≠ 0)
    (hct : F.update_contravariant_transformation ≠ 0)
    (hreq : update_flags &&& (F.update_jacobian_pushed_forward_grads |||
      F.update_jacobian_pushed_forward_2nd_derivatives |||
      F.update_jacobian_pushed_forward_3rd_derivatives) ≠ 0) :
    (m.get_data F update_flags quadrature).covariant.length = quadrature.size ∧
    (m.get_data F update_flags quadrature).contravariant.length = quadrature.size ∧
    (m.get_data F update_flags quadrature).shape_derivatives.length =
      (m.get_data F update_flags quadrature).n_shape_functions * quadrature.size ∧
    (0 < (m.get_data F update_flags quadrature).n_shape_functions →
      maybe_update_Jacobians_assertions F 0 (m.get_data F update_flags quadrature) = .ok ()) ∧
    ((m.get_data F update_flags quadrature).n_shape_functions = 0 →
      maybe_update_Jacobians_assertions F 0 (m.get_data F update_flags quadrature) =
        .error .ExcInternalError) ∧
    (∀ point i, point < quadrature.size →
      i < (m.get_data F update_flags quadrature).n_shape_functions →
      (point + 0) * (m.get_data F update_flags quadrature).n_shape_functions + 0 + i <
        (m.get_data F update_flags quadrature).shape_derivatives.length ∧
      point < (m.get_data F update_flags quadrature).covariant.length ∧
      point < (m.get_data F update_flags quadrature).contravariant.length) ∧
    (update_flags &&& F.update_jacobian_pushed_forward_grads ≠ 0 →
      (m.get_data F update_flags quadrature).shape_second_derivatives.length =
        (m.get_data F update_flags quadrature).n_shape_functions * quadrature.size ∧
      (∀ output : List (Tensor3 spacedim), output.length = quadrature.size →
        0 < (m.get_data F update_flags quadrature).n_shape_functions →
        maybe_update_jacobian_pushed_forward_grads_assertions F 0
          (m.get_data F update_flags quadrature) output = .ok ()) ∧
      ∀ point i, point < quadrature.size →
        i < (m.get_data F update_flags quadrature).n_shape_functions →
        (point + 0) * (m.get_data F update_flags quadrature).n_shape_functions + 0 + i <
          (m.get_data F update_flags quadrature).shape_second_derivatives.length) ∧
    (update_flags &&& F.update_jacobian_pushed_forward_2nd_derivatives ≠ 0 →
      (m.get_data F update_flags quadrature).shape_third_derivatives.length =
        (m.get_data F update_flags quadrature).n_shape_functions * quadrature.size ∧
      (∀ output : List (Tensor4 spacedim), output.length = quadrature.size →
        0 < (m.get_data F update_flags quadrature).n_shape_functions →
        maybe_update_jacobian_pushed_forward_2nd_derivatives_assertions F 0
          (m.get_data F update_flags quadrature) output = .ok ()) ∧
      ∀ point i, point < quadrature.size →
        i < (m.get_data F update_flags quadrature).n_shape_functions →
        (point + 0) * (m.get_data F update_flags quadrature).n_shape_functions + 0 + i <
          (m.get_data F update_flags quadrature).shape_third_derivatives.length) ∧
    (update_flags &&& F.update_jacobian_pushed_forward_3rd_derivatives ≠ 0 →
      (m.get_data F update_flags quadrature).shape_fourth_derivatives.length =
        (m.get_data F update_flags quadrature).n_shape_functions * quadrature.size ∧
      (∀ output : List (Tensor5 spacedim), output.length = quadrature.size →
        0 < (m.get_data F update_flags quadrature).n_shape_functions →
        maybe_update_jacobian_pushed_forward_3rd_derivatives_assertions F 0
          (m.get_data F update_flags quadrature) output = .ok ()) ∧
      ∀ point i, point < quadrature.size →
        i < (m.get_data F update_flags quadrature).n_shape_functions →
        (point + 0) * (m.get_data F update_flags quadrature).n_shape_functions + 0 + i <
          (m.get_data F update_flags quadrature).shape_fourth_derivatives.length) := by
  obtain ⟨hc1, hc2⟩ := requires_update_flags_of_pushed_forward F update_flags hcov hct hreq
  have hlcov : (m.get_data F update_flags quadrature).covariant.length = quadrature.size := by
    rw [get_data_covariant_length, if_pos hc1]
  have hlct : (m.get_data F update_flags quadrature).contravariant.length
      = quadrature.size := by
    rw [get_data_contravariant_length, if_pos hc2]
  have hder : (m.get_data F update_flags quadrature).shape_derivatives.length =
      (m.get_data F update_flags quadrature).n_shape_functions * quadrature.size :=
    get_data_shape_derivatives_length F m update_flags quadrature
      (land_lor_ne_zero_left _ _ _ (land_lor_ne_zero_left _ _ _ (land_lor_ne_zero_left _ _ _
        (land_lor_ne_zero_left _ _ _ (land_lor_ne_zero_left _ _ _ (land_lor_ne_zero_left _ _ _
          (land_lor_ne_zero_left _ _ _ hc1)))))))
  obtain ⟨hok, hzero⟩ := maybe_update_Jacobians_assertions_cell F
    (m.get_data F update_flags quadrature) quadrature.size hc2 hlct (fun _ => hlcov)
    (fun hv => by
      rw [get_data_update_each] at hv
      rw [get_data_volume_elements_length, if_pos hv]) hder
  refine ⟨hlcov, hlct, hder, hok, hzero, ?_, ?_, ?_, ?_⟩
  · intro point i hp hi
    refine ⟨?_, by rw [hlcov]; exact hp, by rw [hlct]; exact hp⟩
    rw [hder]
    exact table_index_lt _ _ point i hp hi
  · intro hk
    have hlen := get_data_shape_second_derivatives_length F m update_flags quadrature
      (land_lor_ne_zero_right _ _ _ (requires_update_flags_of_request F update_flags _ hk))
    have hlen2 : (m.get_data F update_flags quadrature).shape_second_derivatives.length =
        (m.get_data F update_flags quadrature).n_shape_functions * quadrature.size := hlen
    refine ⟨hlen2, ?_, ?_⟩
    · intro output hout hpos
      unfold maybe_update_jacobian_pushed_forward_grads_assertions
      simp only []
      rw [if_pos (by
        rw [get_data_update_each]
        exact requires_update_flags_of_request F update_flags _ hk)]
      apply for_loop_e_assertions_ok
      intro point hp
      unfold InternalData.second_derivative_AssertIndexRange
      rw [if_pos]
      rw [hlen2]
      have := table_index_lt (m.get_data F update_flags quadrature).n_shape_functions
        quadrature.size point 0 (by rw [← hout]; exact hp) hpos
      simpa using this
    · intro point i hp hi
      rw [hlen2]
      exact table_index_lt _ _ point i hp hi
  · intro hk
    have hlen := get_data_shape_third_derivatives_length F m update_flags quadrature
      (land_lor_ne_zero_right _ _ _ (requires_update_flags_of_request F update_flags _ hk))
    have hlen2 : (m.get_data F update_flags quadrature).shape_third_derivatives.length =
        (m.get_data F update_flags quadrature).n_shape_functions * quadrature.size := hlen
    refine ⟨hlen2, ?_, ?_⟩
    · intro output hout hpos
      unfold maybe_update_jacobian_pushed_forward_2nd_derivatives_assertions
      simp only []
      rw [if_pos (by
        rw [get_data_update_each]
        exact requires_update_flags_of_request F update_flags _ hk)]
      apply for_loop_e_assertions_ok
      intro point hp
      unfold InternalData.third_derivative_AssertIndexRange
      rw [if_pos]
      rw [hlen2]
      have := table_index_lt (m.get_data F update_flags quadrature).n_shape_functions
        quadrature.size point 0 (by rw [← hout]; exact hp) hpos
      simpa using this
    · intro point i hp hi
      rw [hlen2]
      exact table_index_lt _ _ point i hp hi
  · intro hk
    have hlen := get_data_shape_fourth_derivatives_length F m update_flags quadrature
      (land_lor_ne_zero_right _ _ _ (requires_update_flags_of_request F update_flags _ hk))
    have hlen2 : (m.get_data F update_flags quadrature).shape_fourth_derivatives.length =
        (m.get_data F update_flags quadrature).n_shape_functions * quadrature.size := hlen
    refine ⟨hlen2, ?_, ?_⟩
    · intro output hout hpos
      unfold maybe_update_jacobian_pushed_forward_3rd_derivatives_assertions
      simp only []
      rw [if_pos (by
        rw [get_data_update_each]
        exact requires_update_flags_of_request F update_flags _ hk)]
      apply for_loop_e_assertions_ok
      intro point hp
      unfold InternalData.fourth_derivative_AssertIndexRange
      rw [if_pos]
      rw [hlen2]
      have := table_index_lt (m.get_data F update_flags quadrature).n_shape_functions
        quadrature.size point 0 (by rw [← hout]; exact hp) hpos
      simpa using this
    · intro point i hp hi
      rw [hlen2]
      exact table_index_lt _ _ point i hp hi

/-- Witness of C36: for the request `update_jacobian_pushed_forward_grads` over
`exampleScaledMapping` (two shape functions) and the one-point rule `{1/2}`, the
covariant and the contravariant table have one entry, the table of the second
derivatives has two, and the assertions of the two routines hold. -/
theorem pushed_forward_reads_in_range_witness :
    dealiiFlags.update_jacobian_pushed_forward_grads &&&
      (dealiiFlags.update_jacobian_pushed_forward_grads |||
        dealiiFlags.update_jacobian_pushed_forward_2nd_derivatives |||
        dealiiFlags.update_jacobian_pushed_forward_3rd_derivatives) ≠ 0 ∧
    (exampleScaledMapping.get_data dealiiFlags dealiiFlags.update_jacobian_pushed_forward_grads
      (Quadrature.of_point (pt (1 / 2)))).covariant.length = 1 ∧
    (exampleScaledMapping.get_data dealiiFlags dealiiFlags.update_jacobian_pushed_forward_grads
      (Quadrature.of_point (pt (1 / 2)))).shape_second_derivatives.length = 2 * 1 ∧
    maybe_update_Jacobians_assertions dealiiFlags 0
      (exampleScaledMapping.get_data dealiiFlags dealiiFlags.update_jacobian_pushed_forward_grads
        (Quadrature.of_point (pt (1 / 2)))) = .ok () ∧
    maybe_update_jacobian_pushed_forward_grads_assertions dealiiFlags 0
      (exampleScaledMapping.get_data dealiiFlags dealiiFlags.update_jacobian_pushed_forward_grads
        (Quadrature.of_point (pt (1 / 2)))) [0] = .ok () := by
  obtain ⟨h1, -, -, h4, -, -, h7, -, -⟩ := pushed_forward_reads_in_range dealiiFlags
    exampleScaledMapping dealiiFlags.update_jacobian_pushed_forward_grads
    (Quadrature.of_point (pt (1 / 2))) (by decide) (by decide) (by decide)
  obtain ⟨h8, h9, -⟩ := h7 (by decide)
  exact ⟨by decide, h1, h8, h4 (by decide), h9 [0] rfl (by decide)⟩

/-! ## The two evaluators of the forward map -/

/-- C37: for every cache (whatever its coefficient snapshot `local_dof_values` is),
every set of flags that holds `update_quadrature_points` and every reference point
`p`, on the cache initialised at the one-point rule `{p}` the single quadrature point
that `maybe_compute_q_points` writes for the data set of a cell (offset `0`) is the
point that `do_transform_unit_to_real_cell` returns; when the indices of
`component_dofs` are shape-function indices, both are the forward map at `p`. -/
theorem forward_map_evaluators_agree {dim spacedim : Nat} (F : UpdateFlagValues)
    (component_dofs : ComponentDoFs) (mdata : InternalData dim spacedim) (update_flags : Nat)
    (p : Point dim) (quadrature_point : Point spacedim)
    (hq : update_flags &&& F.update_quadrature_points ≠ 0) :
    maybe_compute_q_points F 0 (mdata.reinit F update_flags (Quadrature.of_point p))
        component_dofs [quadrature_point] =
      [do_transform_unit_to_real_cell component_dofs
        (mdata.reinit F update_flags (Quadrature.of_point p))] ∧
    ((∀ d : Fin spacedim, ∀ i ∈ component_dofs.get d, i < mdata.n_shape_functions) →
      do_transform_unit_to_real_cell component_dofs
          (mdata.reinit F update_flags (Quadrature.of_point p)) =
        forward_map spacedim mdata.fe mdata.local_dof_values component_dofs p) := by
  constructor
  · unfold maybe_compute_q_points
    simp only []
    rw [if_pos (by rw [reinit_update_each]; exact hq)]
    show [quadrature_point].set 0 _ = _
    rw [List.set_cons_zero]
    unfold do_transform_unit_to_real_cell InternalData.shape
    simp only [Nat.add_zero, Nat.zero_mul, Nat.zero_add, List.length_nil]
  · intro hcd
    funext d
    unfold do_transform_unit_to_real_cell forward_map
    rw [foldl_add_eq_sum, zero_add]
    congr 1
    apply List.map_congr_left
    intro i hi
    rw [reinit_shape_at F mdata update_flags p i hq (hcd d i hi)]
    rfl

/-- Witness of C37: on the quadratic example (forward map `x ↦ x²`) at the point
`1/2`. -/
theorem forward_map_evaluators_agree_witness :
    exampleQ2Data.update_each &&& dealiiFlags.update_quadrature_points ≠ 0 ∧
    maybe_compute_q_points dealiiFlags 0
        (exampleQ2Data.reinit dealiiFlags exampleQ2Data.update_each
          (Quadrature.of_point (pt (1 / 2))))
        exampleQ2ComponentDoFs [0] =
      [do_transform_unit_to_real_cell exampleQ2ComponentDoFs
        (exampleQ2Data.reinit dealiiFlags exampleQ2Data.update_each
          (Quadrature.of_point (pt (1 / 2))))] :=
  ⟨by decide, (forward_map_evaluators_agree dealiiFlags exampleQ2ComponentDoFs exampleQ2Data
    exampleQ2Data.update_each (pt (1 / 2)) 0 (by decide)).1⟩

/-! ## The invariant of the Newton loop -/

/-- A pass through the body of the loop that comes back to the head: the run of the
loop goes on from the new state, the counter has advanced by one, the invariant holds
again, and the residual has decreased strictly. -/
theorem newton_step_some {dim spacedim : Nat} (F : UpdateFlagValues)
    (component_dofs : ComponentDoFs) (p : Point spacedim) (eps : ℚ)
    (mdata : InternalData dim spacedim) (t s : NewtonState dim spacedim)
    (hinv : cache_consistent F component_dofs p mdata t)
    (h : newton_step F component_dofs p eps t = some s) :
    cache_consistent F component_dofs p mdata s ∧
    newton_loop F component_dofs p eps t = newton_loop F component_dofs p eps s ∧
    s.newton_iteration = t.newton_iteration + 1 ∧
    norm_square s.p_minus_F < norm_square t.p_minus_F ∧
    norm_square t.p_minus_F > eps * eps := by
  unfold newton_step at h
  by_cases hgt : norm_square t.p_minus_F > eps * eps
  · rw [if_pos hgt] at h
    cases hls : line_search F component_dofs p t.p_unit t.p_minus_F
        (newton_delta component_dofs t.mdata t.p_minus_F) 1 t.mdata [] with
    | accepted trials p_unit p_real p_minus_F mdata' =>
      rw [hls] at h
      simp only [] at h
      by_cases hlim : t.newton_iteration + 1 > newton_iteration_limit
      · rw [if_pos hlim] at h
        cases h
      · rw [if_neg hlim] at h
        injection h with h
        subst h
        obtain ⟨hm, hr, hf, hdec, -, -⟩ :=
          line_search_accepted_inv _ _ _ _ _ _ _ _ _ _ _ _ hls
        refine ⟨⟨?_, hr, hf⟩, ?_, rfl, hdec, hgt⟩
        · show mdata' = cache_at F mdata p_unit
          rw [hm, hinv.1, cache_at_cache_at]
        · rw [newton_loop_of_accepted F component_dofs p eps t hgt _ _ _ _ _ hls, if_neg hlim]
    | failure trials mdata' =>
      rw [hls] at h
      cases h
  · rw [if_neg hgt] at h
    cases h

/-- Every head of the loop satisfies the invariant, and the run goes through it. -/
theorem newton_head_invariant {dim spacedim : Nat} (F : UpdateFlagValues)
    (component_dofs : ComponentDoFs) (p : Point spacedim) (eps : ℚ)
    (mdata : InternalData dim spacedim) (s0 : NewtonState dim spacedim)
    (h0 : cache_consistent F component_dofs p mdata s0) :
    ∀ (k : Nat) (s : NewtonState dim spacedim),
      newton_head F component_dofs p eps s0 k = some s →
      cache_consistent F component_dofs p mdata s ∧
      newton_loop F component_dofs p eps s0 = newton_loop F component_dofs p eps s ∧
      s.newton_iteration = s0.newton_iteration + k := by
  intro k
  induction k with
  | zero =>
    intro s h
    injection h with h
    subst h
    exact ⟨h0, rfl, rfl⟩
  | succ k ih =>
    intro s h
    rw [newton_head] at h
    cases ht : newton_head F component_dofs p eps s0 k with
    | none =>
      rw [ht] at h
      cases h
    | some t =>
      rw [ht] at h
      simp only [] at h
      obtain ⟨h1, h2, h3⟩ := ih t ht
      obtain ⟨g1, g2, g3, -, -⟩ := newton_step_some F component_dofs p eps mdata t s h1 h
      exact ⟨g1, h2.trans g2, by rw [g3, h3]; omega⟩

/-- C38: let `s` be the state at the head of the Newton iteration number `k` of
`do_transform_real_to_unit_cell` (the run of the solver goes through `s`, and its
counter is `k`).  The cache is the one re-initialised at the current iterate
`s.p_unit`, which is the accepted trial point and not a rejected one: with
`update_quadrature_points` in the flags its shape values are those of the shape
functions at `s.p_unit`, and with a flag for which `reinit` evaluates the gradients
its derivatives are those at `s.p_unit`; `p_real` is the map read from this cache and
the stored residual is `p - p_real`, which is `p - map(s.p_unit)` when the indices of
`component_dofs` are shape-function indices.  And the squared norm of the residual at
the next head, when the run comes to it, is strictly smaller. -/
theorem newton_loop_head_invariant {dim spacedim : Nat} (F : UpdateFlagValues)
    (component_dofs : ComponentDoFs) (diameter : ℚ) (p : Point spacedim)
    (starting_guess : Point dim) (mdata : InternalData dim spacedim) (k : Nat)
    (s : NewtonState dim spacedim)
    (h : newton_head F component_dofs p (1e-12 * diameter)
      (newton_state_at F component_dofs p mdata starting_guess 0 []) k = some s) :
    do_transform_real_to_unit_cell F component_dofs diameter p starting_guess mdata =
      newton_loop F component_dofs p (1e-12 * diameter) s ∧
    s.newton_iteration = k ∧
    s.mdata = cache_at F mdata s.p_unit ∧
    s.p_real = do_transform_unit_to_real_cell component_dofs s.mdata ∧
    s.p_minus_F = p - s.p_real ∧
    (mdata.update_each &&& F.update_quadrature_points ≠ 0 →
      ∀ i, i < mdata.n_shape_functions →
        s.mdata.shape 0 i = mdata.fe.shape_value i s.p_unit) ∧
    (mdata.update_each &&&
        (F.update_covariant_transformation ||| F.update_contravariant_transformation |||
          F.update_JxW_values ||| F.update_boundary_forms ||| F.update_normal_vectors |||
          F.update_jacobians ||| F.update_jacobian_grads ||| F.update_inverse_jacobians) ≠ 0 →
      ∀ i, i < mdata.n_shape_functions →
        s.mdata.derivative 0 i = mdata.fe.shape_grad i s.p_unit) ∧
    (mdata.update_each &&& F.update_quadrature_points ≠ 0 →
      (∀ d : Fin spacedim, ∀ i ∈ component_dofs.get d, i < mdata.n_shape_functions) →
      s.p_minus_F =
        p - forward_map spacedim mdata.fe mdata.local_dof_values component_dofs s.p_unit) ∧
    (∀ s', newton_head F component_dofs p (1e-12 * diameter)
        (newton_state_at F component_dofs p mdata starting_guess 0 []) (k + 1) = some s' →
      norm_square s'.p_minus_F < norm_square s.p_minus_F) := by
  obtain ⟨⟨hm, hr, hf⟩, hrun, hk⟩ := newton_head_invariant F component_dofs p
    (1e-12 * diameter) mdata _
    (newton_state_at_consistent F component_dofs p mdata starting_guess 0 []) k s h
  refine ⟨?_, ?_, hm, hr, hf, ?_, ?_, ?_, ?_⟩
  · rw [do_transform_real_to_unit_cell_eq]
    exact hrun
  · rw [hk]
    show 0 + k = k
    omega
  · intro hq i hi
    rw [hm]
    exact cache_at_shape F mdata s.p_unit i hq hi
  · intro hd i hi
    rw [hm]
    exact cache_at_derivative F mdata s.p_unit i hd hi
  · intro hq hcd
    rw [hf, hr, hm, do_transform_cache_at F component_dofs mdata s.p_unit hq hcd]
  · intro s' hs'
    rw [newton_head, h] at hs'
    exact (newton_step_some F component_dofs p (1e-12 * diameter) mdata s s' ⟨hm, hr, hf⟩
      hs').2.2.2.1


theorem newton_step_of_accepted {dim spacedim : Nat} (F : UpdateFlagValues)
    (component_dofs : ComponentDoFs) (p : Point spacedim) (eps : ℚ)
    (s : NewtonState dim spacedim) (h : norm_square s.p_minus_F > eps * eps)
    (trials : List ℚ) (p_unit : Point dim) (p_real : Point spacedim)
    (p_minus_F : Tensor1 spacedim) (mdata : InternalData dim spacedim)
    (hls : line_search F component_dofs p s.p_unit s.p_minus_F
        (newton_delta component_dofs s.mdata s.p_minus_F) 1 s.mdata [] =
      LineSearchResult.accepted trials p_unit p_real p_minus_F mdata) :
    newton_step F component_dofs p eps s =
      if s.newton_iteration + 1 > newton_iteration_limit then none
      else some ⟨p_unit, p_real, p_minus_F, s.newton_iteration + 1, mdata,
        s.trials ++ [trials]⟩ := by
  unfold newton_step
  rw [if_pos h, hls]

/-- On the quadratic example with target `0`, the line search from `a > 0` accepts the
full step, which halves the iterate. -/
theorem exampleQ2_line_search (a : ℚ) (ha : 0 < a) :
    line_search dealiiFlags exampleQ2ComponentDoFs (pt 0) (pt a) (pt (0 - a ^ 2))
      (newton_delta exampleQ2ComponentDoFs (cache_at dealiiFlags exampleQ2Data (pt a))
        (pt (0 - a ^ 2))) 1 (cache_at dealiiFlags exampleQ2Data (pt a)) [] =
      LineSearchResult.accepted [1] (pt (a / 2)) (pt ((a / 2) ^ 2)) (pt (0 - (a / 2) ^ 2))
        (cache_at dealiiFlags exampleQ2Data (pt (a / 2))) := by
  have hne : a ≠ 0 := ne_of_gt ha
  rw [line_search_cache_at, line_search_from_one, exampleQ2_delta _ _ hne, exampleQ2_residual,
    norm_square_pt, norm_square_pt]
  have e : a - 1 * (-(0 - a ^ 2) / (2 * a)) = a / 2 := by
    field_simp
    ring
  rw [e]
  have hlt : (0 - (a / 2) ^ 2) * (0 - (a / 2) ^ 2) < (0 - a ^ 2) * (0 - a ^ 2) := by
    have h4 : 0 < a ^ 4 := by positivity
    nlinarith
  rw [if_pos hlt]
  unfold line_search_accept
  rw [trial_point_pt, exampleQ2_residual, exampleQ2_transform, e]

/-- On the quadratic example with target `0`, a pass through the body of the loop
from the head at `a > 0` comes back to the head at `a / 2`. -/
theorem exampleQ2_step (eps a : ℚ) (k : Nat) (trials : List (List ℚ)) (ha : 0 < a)
    (hgt : (a ^ 2) * (a ^ 2) > eps * eps) (hk : ¬ k + 1 > newton_iteration_limit) :
    newton_step dealiiFlags exampleQ2ComponentDoFs (pt 0) eps
        (newton_state_at dealiiFlags exampleQ2ComponentDoFs (pt 0) exampleQ2Data (pt a) k
          trials) =
      some (newton_state_at dealiiFlags exampleQ2ComponentDoFs (pt 0) exampleQ2Data (pt (a / 2))
        (k + 1) (trials ++ [[1]])) := by
  rw [exampleQ2_state, exampleQ2_state]
  rw [newton_step_of_accepted dealiiFlags exampleQ2ComponentDoFs (pt 0) eps _
    (by rw [norm_square_pt]; simpa using hgt) _ _ _ _ _ (exampleQ2_line_search a ha)]
  exact if_neg hk

/-- Witness of C38: on the quadratic example (forward map `x ↦ x²`) with target `0`,
starting guess `1` and diameter `1/2`, the head of iteration `1` is at the iterate
`1/2`, with the cache re-initialised at `1/2` and the residual `0 - (1/2)²`. -/
theorem newton_loop_head_invariant_witness :
    newton_head dealiiFlags exampleQ2ComponentDoFs (pt 0) (1e-12 * (1 / 2))
        (newton_state_at dealiiFlags exampleQ2ComponentDoFs (pt 0) exampleQ2Data (pt 1) 0 []) 1 =
      some (newton_state_at dealiiFlags exampleQ2ComponentDoFs (pt 0) exampleQ2Data
        (pt (1 / 2)) 1 [[1]]) ∧
    (newton_state_at dealiiFlags exampleQ2ComponentDoFs (pt 0) exampleQ2Data
        (pt (1 / 2)) 1 [[1]]).mdata =
      cache_at dealiiFlags exampleQ2Data
        (newton_state_at dealiiFlags exampleQ2ComponentDoFs (pt 0) exampleQ2Data
          (pt (1 / 2)) 1 [[1]]).p_unit ∧
    (newton_state_at dealiiFlags exampleQ2ComponentDoFs (pt 0) exampleQ2Data
        (pt (1 / 2)) 1 [[1]]).p_minus_F = pt (0 - (1 / 2) ^ 2) := by
  have hhead : newton_head dealiiFlags exampleQ2ComponentDoFs (pt 0) (1e-12 * (1 / 2))
        (newton_state_at dealiiFlags exampleQ2ComponentDoFs (pt 0) exampleQ2Data (pt 1) 0 []) 1 =
      some (newton_state_at dealiiFlags exampleQ2ComponentDoFs (pt 0) exampleQ2Data
        (pt (1 / 2)) 1 [[1]]) := by
    rw [newton_head, newton_head]
    simp only []
    have h := exampleQ2_step (1e-12 * (1 / 2)) 1 0 [] (by norm_num) (by norm_num)
      (by simp only [newton_iteration_limit]; omega)
    simpa using h
  refine ⟨hhead, (newton_loop_head_invariant dealiiFlags exampleQ2ComponentDoFs (1 / 2) (pt 0)
    (pt 1) exampleQ2Data 1 _ hhead).2.2.1, ?_⟩
  rw [exampleQ2_state]

/-! ## The solver on affine maps -/

/-- The number of line searches the Newton loop starts: from a state that has
completed as many iterations as it has started line searches, in the end at most
`newton_iteration_limit + 1` line searches have been started, each completed
iteration has started one, and at most one was started and not completed. -/
theorem newton_loop_trials_length {dim spacedim : Nat} (F : UpdateFlagValues)
    (component_dofs : ComponentDoFs) (p : Point spacedim) (eps : ℚ)
    (s : NewtonState dim spacedim) :
    s.trials.length = s.newton_iteration → s.newton_iteration ≤ newton_iteration_limit →
      (newton_loop F component_dofs p eps s).state.trials.length ≤ newton_iteration_limit + 1 ∧
      (newton_loop F component_dofs p eps s).state.newton_iteration ≤
        (newton_loop F component_dofs p eps s).state.trials.length ∧
      (newton_loop F component_dofs p eps s).state.trials.length ≤
        (newton_loop F component_dofs p eps s).state.newton_iteration + 1 := by
  refine newton_loop.induct F component_dofs p eps
    (motive := fun s => s.trials.length = s.newton_iteration →
      s.newton_iteration ≤ newton_iteration_limit →
      (newton_loop F component_dofs p eps s).state.trials.length ≤ newton_iteration_limit + 1 ∧
      (newton_loop F component_dofs p eps s).state.newton_iteration ≤
        (newton_loop F component_dofs p eps s).state.trials.length ∧
      (newton_loop F component_dofs p eps s).state.trials.length ≤
        (newton_loop F component_dofs p eps s).state.newton_iteration + 1)
    ?_ ?_ ?_ ?_ s
  · intro s hgt DF f df delta trials p_unit p_real p_minus_F mdata' hls newton_iteration hlim
      hlen hle
    have hls' : line_search F component_dofs p s.p_unit s.p_minus_F
        (newton_delta component_dofs s.mdata s.p_minus_F) 1 s.mdata [] =
        LineSearchResult.accepted trials p_unit p_real p_minus_F mdata' := hls
    rw [newton_loop_of_accepted F component_dofs p eps s hgt _ _ _ _ _ hls', if_pos hlim]
    simp only [SolverResult.state, List.length_append, List.length_singleton]
    omega
  · intro s hgt DF f df delta trials p_unit p_real p_minus_F mdata' hls newton_iteration hlim
      ih hlen hle
    have hls' : line_search F component_dofs p s.p_unit s.p_minus_F
        (newton_delta component_dofs s.mdata s.p_minus_F) 1 s.mdata [] =
        LineSearchResult.accepted trials p_unit p_real p_minus_F mdata' := hls
    rw [newton_loop_of_accepted F component_dofs p eps s hgt _ _ _ _ _ hls', if_neg hlim]
    have hn : newton_iteration = s.newton_iteration + 1 := rfl
    exact ih (by simp only [List.length_append, List.length_singleton]; omega)
      (by
        show s.newton_iteration + 1 ≤ newton_iteration_limit
        rw [hn] at hlim
        omega)
  · intro s hgt DF f df delta trials mdata' hls hlen hle
    have hls' : line_search F component_dofs p s.p_unit s.p_minus_F
        (newton_delta component_dofs s.mdata s.p_minus_F) 1 s.mdata [] =
        LineSearchResult.failure trials mdata' := hls
    rw [newton_loop_of_failure F component_dofs p eps s hgt _ _ hls']
    simp only [SolverResult.state, List.length_append, List.length_singleton]
    omega
  · intro s hconv hlen hle
    rw [newton_loop_of_converged F component_dofs p eps s hconv]
    simp only [SolverResult.state]
    omega

theorem sum_lengths_le (l : List (List ℚ)) (h : ∀ tr ∈ l, tr.length ≤ 6) :
    (l.map List.length).sum ≤ 6 * l.length := by
  induction l with
  | nil => simp
  | cons a l ih =>
    have h1 := h a (List.mem_cons_self a l)
    have h2 := ih (fun tr htr => h tr (List.mem_cons_of_mem a htr))
    simp only [List.map_cons, List.sum_cons, List.length_cons]
    omega

/-- C40: the embedded solver is a total function, its two loops being defined by
well-founded recursion on `⌈20 * step_length⌉` and on
`newton_iteration_limit + 1 - newton_iteration`; for every input it returns or fails.
Every line search, entered with the step length `1`, is left by acceptance at one of
the step lengths `1, 1/2, …, 1/32` or by failure after all six, so it evaluates at
least one and at most six trial points; the solver starts at most
`newton_iteration_limit + 1` line searches and completes at most as many Newton
iterations, hence it evaluates at most `6 * (newton_iteration_limit + 1)` trial
points.  The ghost variable `trials` holds, for every line search started, the step
lengths of the trial points it evaluated. -/
theorem do_transform_real_to_unit_cell_terminates {dim spacedim : Nat} (F : UpdateFlagValues)
    (component_dofs : ComponentDoFs) (diameter : ℚ) (p : Point spacedim)
    (starting_guess : Point dim) (mdata : InternalData dim spacedim) :
    (∃ s, do_transform_real_to_unit_cell F component_dofs diameter p starting_guess mdata =
        SolverResult.returned s ∨
      do_transform_real_to_unit_cell F component_dofs diameter p starting_guess mdata =
        SolverResult.failure s) ∧
    (∀ (p_unit : Point dim) (p_minus_F : Tensor1 spacedim) (delta : Tensor1 dim)
        (cache : InternalData dim spacedim),
      ∃ k, k < 6 ∧
        (line_search F component_dofs p p_unit p_minus_F delta 1 cache [] =
            line_search_accept F component_dofs p p_unit delta cache
              (halving_steps.take (k + 1)) (halving_steps.getD k 0) ∨
          line_search F component_dofs p p_unit p_minus_F delta 1 cache [] =
            LineSearchResult.failure halving_steps
              (cache_at F cache (trial_point p_unit delta (1 / 32))))) ∧
    (∀ tr ∈ (do_transform_real_to_unit_cell F component_dofs diameter p starting_guess
        mdata).state.trials, 1 ≤ tr.length ∧ tr.length ≤ 6) ∧
    (do_transform_real_to_unit_cell F component_dofs diameter p starting_guess
      mdata).state.trials.length ≤ newton_iteration_limit + 1 ∧
    (do_transform_real_to_unit_cell F component_dofs diameter p starting_guess
      mdata).state.newton_iteration ≤
        (do_transform_real_to_unit_cell F component_dofs diameter p starting_guess
          mdata).state.trials.length ∧
    ((do_transform_real_to_unit_cell F component_dofs diameter p starting_guess
      mdata).state.trials.map List.length).sum ≤ 6 * (newton_iteration_limit + 1) := by
  have hadm := (newton_loop_invariant F component_dofs p (1e-12 * diameter) mdata
    (newton_state_at F component_dofs p mdata starting_guess 0 [])
    (newton_state_at_consistent F component_dofs p mdata starting_guess 0 [])
    (by intro tr htr; simp [newton_state_at] at htr)).1
  obtain ⟨hlen, hiter, -⟩ := newton_loop_trials_length F component_dofs p (1e-12 * diameter)
    (newton_state_at F component_dofs p mdata starting_guess 0 []) rfl (Nat.zero_le _)
  rw [← do_transform_real_to_unit_cell_eq] at hadm hlen hiter
  have hbound : ∀ tr ∈ (do_transform_real_to_unit_cell F component_dofs diameter p
      starting_guess mdata).state.trials, 1 ≤ tr.length ∧ tr.length ≤ 6 := by
    intro tr htr
    obtain ⟨h1, h2⟩ := hadm tr htr
    refine ⟨?_, ?_⟩
    · cases tr with
      | nil => exact absurd rfl h1
      | cons a l => simp
    · have := h2.length_le
      simpa [halving_steps] using this
  refine ⟨?_, ?_, hbound, hlen, hiter, ?_⟩
  · cases h : do_transform_real_to_unit_cell F component_dofs diameter p starting_guess mdata with
    | returned s => exact ⟨s, Or.inl rfl⟩
    | failure s => exact ⟨s, Or.inr rfl⟩
  · intro p_unit p_minus_F delta cache
    obtain ⟨k, hk, -, h⟩ := line_search_cases F component_dofs p p_unit p_minus_F delta cache
    refine ⟨k, hk, ?_⟩
    rcases h with ⟨-, h⟩ | ⟨-, -, h⟩
    · exact Or.inl h
    · exact Or.inr h
  · refine le_trans (sum_lengths_le _ (fun tr htr => (hbound tr htr).2)) ?_
    exact Nat.mul_le_mul_left 6 hlen

/-! ## The boundary forms as vector products -/

/-- The loop of `compute_face_data` over the faces: slot `f` holds the first entry
for the face `f`, and slot `n_faces + f` the second one when it is written. -/
theorem unit_tangentials_loop {α : Type} (n_faces : Nat) (a b : Nat → α) (second : Prop)
    [Decidable second] (l : List α) (hl : n_faces ≤ l.length)
    (hl2 : second → 2 * n_faces ≤ l.length) :
    ∀ k, k ≤ n_faces →
      (for_loop k (fun i (ut : List α) =>
          if second then (ut.set i (a i)).set (n_faces + i) (b i) else ut.set i (a i))
        l).length = l.length ∧
      ∀ f, f < k →
        (for_loop k (fun i (ut : List α) =>
            if second then (ut.set i (a i)).set (n_faces + i) (b i) else ut.set i (a i))
          l)[f]? = some (a f) ∧
        (second →
          (for_loop k (fun i (ut : List α) =>
              if second then (ut.set i (a i)).set (n_faces + i) (b i) else ut.set i (a i))
            l)[n_faces + f]? = some (b f)) := by
  intro k
  induction k with
  | zero =>
    intro _
    exact ⟨rfl, fun f hf => absurd hf (by omega)⟩
  | succ k ih =>
    intro hk
    obtain ⟨hlen, hprev⟩ := ih (by omega)
    rw [for_loop_succ]
    generalize for_loop k (fun i (ut : List α) =>
      if second then (ut.set i (a i)).set (n_faces + i) (b i) else ut.set i (a i)) l = L
      at hlen hprev
    by_cases hs : second
    · simp only [if_pos hs]
      refine ⟨by rw [List.length_set, List.length_set, hlen], ?_⟩
      intro f hf
      have h2 := hl2 hs
      by_cases hfk : f = k
      · subst hfk
        refine ⟨?_, fun _ => ?_⟩
        · rw [List.getElem?_set, if_neg (by omega), List.getElem?_set, if_pos rfl,
            if_pos (by omega)]
        · rw [List.getElem?_set, if_pos rfl, if_pos (by rw [List.length_set]; omega)]
      · obtain ⟨p1, p2⟩ := hprev f (by omega)
        refine ⟨?_, fun _ => ?_⟩
        · rw [List.getElem?_set, if_neg (by omega), List.getElem?_set, if_neg (by omega), p1]
        · rw [List.getElem?_set, if_neg (by omega), List.getElem?_set, if_neg (by omega),
            p2 hs]
    · simp only [if_neg hs]
      refine ⟨by rw [List.length_set, hlen], ?_⟩
      intro f hf
      by_cases hfk : f = k
      · subst hfk
        refine ⟨?_, fun h => absurd h hs⟩
        rw [List.getElem?_set, if_pos rfl, if_pos (by omega)]
      · obtain ⟨p1, -⟩ := hprev f (by omega)
        refine ⟨?_, fun h => absurd h hs⟩
        rw [List.getElem?_set, if_neg (by omega), p1]

/-- With the boundary forms in the resolved flags, the contravariant transformation
is in them as well. -/
theorem requires_update_flags_of_boundary_forms (F : UpdateFlagValues) (x : Nat)
    (hct : F.update_contravariant_transformation ≠ 0)
    (h : requires_update_flags F x &&& F.update_boundary_forms ≠ 0) :
    requires_update_flags F x &&& F.update_contravariant_transformation ≠ 0 := by
  obtain ⟨-, h2, -, -, -⟩ :=
    pass_fixed_each F (requires_update_flags F x) (pass_requires_update_flags F x)
  rw [or_if_fixed_contains _ _ _ h2
    (land_lor_ne_zero_left _ _ _ (land_lor_ne_zero_right _ _ _ h))]
  exact hct

/-- The unit tangentials and the buffers `aux` of the cache of `get_face_data`, for
`dim > 1` and with the boundary forms in the resolved flags. -/
theorem get_face_data_tangentials {dim spacedim : Nat} (F : UpdateFlagValues)
    (m : MappingFEField dim spacedim) (update_flags : Nat) (q : Quadrature dim)
    (n_original_q_points face_no d : Nat)
    (hbf : requires_update_flags F update_flags &&& F.update_boundary_forms ≠ 0)
    (hface : face_no < m.reference_cell_n_faces) (hnf : m.reference_cell_n_faces ≤ 2 * dim)
    (hd : d < dim - 1) (hdim : dim ≤ 3) :
    (m.get_face_data F update_flags q n_original_q_points).unit_tangentials.getD
        (face_no + m.reference_cell_n_faces * d) [] =
      List.replicate n_original_q_points (m.reference_cell_face_tangent_vector face_no d) ∧
    d < (m.get_face_data F update_flags q n_original_q_points).aux.length ∧
    ((m.get_face_data F update_flags q n_original_q_points).aux.getD d []).length =
      n_original_q_points := by
  have hdim1 : dim > 1 := by omega
  have hcond : dim > 1 ∧ requires_update_flags F update_flags &&& F.update_boundary_forms ≠ 0 :=
    ⟨hdim1, hbf⟩
  have haux : (m.get_face_data F update_flags q n_original_q_points).aux =
      List.replicate (dim - 1) (List.replicate n_original_q_points 0) := by
    show (if dim > 1 ∧ requires_update_flags F update_flags &&& F.update_boundary_forms ≠ 0
      then resize ([] : List (List (Tensor1 spacedim))) (dim - 1)
        (List.replicate n_original_q_points 0) else []) = _
    rw [if_pos hcond]
    simp [resize]
  refine ⟨?_, by rw [haux, List.length_replicate]; exact hd, ?_⟩
  · have hloop := unit_tangentials_loop m.reference_cell_n_faces
      (fun i => List.replicate n_original_q_points (m.reference_cell_face_tangent_vector i 0))
      (fun i => List.replicate n_original_q_points (m.reference_cell_face_tangent_vector i 1))
      (dim > 2) (List.replicate (2 * dim * (dim - 1)) ([] : List (Tensor1 dim)))
      (by
        rw [List.length_replicate]
        have : 1 ≤ dim - 1 := by omega
        calc m.reference_cell_n_faces ≤ 2 * dim := hnf
          _ = 2 * dim * 1 := by ring
          _ ≤ 2 * dim * (dim - 1) := Nat.mul_le_mul_left _ this)
      (by
        intro h3
        rw [List.length_replicate]
        have : 2 ≤ dim - 1 := by omega
        calc 2 * m.reference_cell_n_faces ≤ 2 * (2 * dim) := Nat.mul_le_mul_left _ hnf
          _ = 2 * dim * 2 := by ring
          _ ≤ 2 * dim * (dim - 1) := Nat.mul_le_mul_left _ this)
      m.reference_cell_n_faces (le_refl _)
    have hut : (m.get_face_data F update_flags q n_original_q_points).unit_tangentials =
        for_loop m.reference_cell_n_faces (fun i (ut : List (List (Tensor1 dim))) =>
          if dim > 2 then
            (ut.set i (List.replicate n_original_q_points
              (m.reference_cell_face_tangent_vector i 0))).set (m.reference_cell_n_faces + i)
              (List.replicate n_original_q_points (m.reference_cell_face_tangent_vector i 1))
          else ut.set i (List.replicate n_original_q_points
            (m.reference_cell_face_tangent_vector i 0)))
          (List.replicate (2 * dim * (dim - 1)) []) := by
      show (if dim > 1 ∧ requires_update_flags F update_flags &&& F.update_boundary_forms ≠ 0
        then _ else _) = _
      rw [if_pos hcond]
      rfl
    rw [hut, List.getD_eq_getElem?_getD]
    obtain ⟨-, hf⟩ := hloop
    obtain ⟨p1, p2⟩ := hf face_no hface
    have hd01 : d = 0 ∨ (d = 1 ∧ dim > 2) := by omega
    rcases hd01 with rfl | ⟨rfl, h3⟩
    · rw [Nat.mul_zero, Nat.add_zero, p1]
      rfl
    · rw [Nat.mul_one, Nat.add_comm, p2 h3]
      rfl
  · rw [haux, List.getD_eq_getElem?_getD, List.getElem?_replicate, if_pos hd]
    simp


/-- The boundary form on the line: its single component is `-1` on face `0` and `+1`
on the other face. -/
theorem maybe_compute_face_data_boundary_forms_one (sqrt : ℚ → ℚ) (face_no : Nat)
    (data : InternalData 1 1) (boundary_forms : List (Tensor1 1)) :
    maybe_compute_face_data_boundary_forms sqrt face_no data boundary_forms
      = .ok (for_loop boundary_forms.length (fun i (boundary_forms : List (Tensor1 1)) =>
          boundary_forms.set i ((fun (_ : Nat) (old : Tensor1 1) (k : Fin 1) =>
            if k.val = 0 then (if face_no = 0 then (-1 : ℚ) else 1) else old k) i
              (boundary_forms.getD i 0))) boundary_forms) := by
  unfold maybe_compute_face_data_boundary_forms
  simp only []
  rw [if_pos trivial]
  exact for_loop_e_ok _ _ _ _ (fun i _ t => by simp)

/-- The face fill is `maybe_compute_face_data` on the cache with the Jacobians of the
face, for an output bundle with the same buffer of boundary forms. -/
theorem do_fill_fe_face_values_eq {dim spacedim : Nat} (F : UpdateFlagValues) (sqrt : ℚ → ℚ)
    (cell : Cell dim spacedim) (face_no subface_no data_set : Nat)
    (data : InternalData dim spacedim) (component_dofs : ComponentDoFs)
    (output_data : MappingRelatedData dim spacedim) :
    ∃ od : MappingRelatedData dim spacedim,
      do_fill_fe_face_values F sqrt cell face_no subface_no data_set data component_dofs
          output_data =
        maybe_compute_face_data F sqrt cell face_no subface_no data_set
          (maybe_update_Jacobians F sqrt data_set data component_dofs) od ∧
      od.boundary_forms = output_data.boundary_forms := by
  unfold do_fill_fe_face_values
  exact ⟨_, rfl, rfl⟩

theorem getD_replicate_of_lt {α : Type} (n i : Nat) (a z : α) (h : i < n) :
    (List.replicate n a).getD i z = a := by
  rw [List.getD_eq_getElem?_getD, List.getElem?_replicate, if_pos h]
  rfl

/-- C31: for `dim == spacedim` in `{1, 2, 3}`, with the boundary forms in the resolved
flags, on a cell on which `update_internal_dofs` succeeds and whose number of faces is
that of the reference cell, `fill_fe_face_values` on the cache of `get_face_data`
succeeds, and at every point `i` of the face, with `J = contravariant[i]` of the cache
and `t0`, `t1` the tangent vectors of the reference cell for the face: for `dim == 3`
the boundary form is the vector product `(J·t0) × (J·t1)`; for `dim == 2` it is the
2D cross product of `J·t0`; for `dim == 1` its single component is `-1` on face `0`
and `+1` otherwise; and it is orthogonal to every mapped tangential `J·t`. -/
theorem boundary_form_cross_product {dim : Nat} (F : UpdateFlagValues) (sqrt : ℚ → ℚ)
    (m : MappingFEField dim dim) (cell : Cell dim dim) (update_flags : Nat)
    (q : Quadrature dim) (n_original_q_points face_no data_set : Nat)
    (output_data : MappingRelatedData dim dim)
    (hdim : dim = 1 ∨ dim = 2 ∨ dim = 3)
    (hbf : requires_update_flags F update_flags &&& F.update_boundary_forms ≠ 0)
    (hct : F.update_contravariant_transformation ≠ 0)
    (hupd : ∃ data, m.update_internal_dofs cell
      (m.get_face_data F update_flags q n_original_q_points) = Except.ok data)
    (hfaces : cell.n_faces = m.reference_cell_n_faces)
    (hface : face_no < m.reference_cell_n_faces)
    (hnf : m.reference_cell_n_faces ≤ 2 * dim)
    (hn : output_data.boundary_forms.length ≤ n_original_q_points) :
    ∃ data2 out,
      m.fill_fe_face_values F sqrt cell face_no data_set
        (m.get_face_data F update_flags q n_original_q_points) output_data
          = .ok (data2, out) ∧
      out.boundary_forms.length = output_data.boundary_forms.length ∧
      ∀ i, i < output_data.boundary_forms.length →
        (dim = 1 → ∀ k : Fin dim, k.val = 0 →
          out.boundary_forms.getD i 0 k = if face_no = 0 then -1 else 1) ∧
        (dim = 2 → out.boundary_forms.getD i 0 =
          cross_product_2d ((data2.contravariant.getD i 0).mulVec
            (m.reference_cell_face_tangent_vector face_no 0))) ∧
        (dim = 3 → out.boundary_forms.getD i 0 =
          cross_product_3d
            ((data2.contravariant.getD i 0).mulVec
              (m.reference_cell_face_tangent_vector face_no 0))
            ((data2.contravariant.getD i 0).mulVec
              (m.reference_cell_face_tangent_vector face_no 1))) ∧
        (∀ d, d < dim - 1 →
          scalar_product (out.boundary_forms.getD i 0)
            ((data2.contravariant.getD i 0).mulVec
              (m.reference_cell_face_tangent_vector face_no d)) = 0) := by
  obtain ⟨data, hupd⟩ := hupd
  have he := update_internal_dofs_eq m cell _ data hupd
  have hue : data.update_each = requires_update_flags F update_flags := by rw [he]; rfl
  have hut : data.unit_tangentials =
      (m.get_face_data F update_flags q n_original_q_points).unit_tangentials := by
    rw [he]
  have hauxd : data.aux = (m.get_face_data F update_flags q n_original_q_points).aux := by
    rw [he]
  have hueJ : (maybe_update_Jacobians F sqrt data_set data m.component_dofs).update_each =
      requires_update_flags F update_flags := by
    rw [maybe_update_Jacobians_update_each, hue]
  have hc := requires_update_flags_of_boundary_forms F update_flags hct hbf
  clear he
  obtain ⟨od, hdo, hod⟩ := do_fill_fe_face_values_eq F sqrt cell face_no invalid_unsigned_int
    data_set data m.component_dofs output_data
  obtain ⟨aux, bf, jxw, nv, htan, hbf2, hbflen, -, -, hrun⟩ := maybe_compute_face_data_eq F
    sqrt cell face_no invalid_unsigned_int data_set
    (maybe_update_Jacobians F sqrt data_set data m.component_dofs) od
    (fun _ => hdim) (by rw [hueJ]; exact hbf) (by rw [hueJ]; exact hc)
  have hfill : m.fill_fe_face_values F sqrt cell face_no data_set
      (m.get_face_data F update_flags q n_original_q_points) output_data
        = .ok ({ maybe_update_Jacobians F sqrt data_set data m.component_dofs with aux := aux },
            { od with boundary_forms := bf, JxW_values := jxw, normal_vectors := nv }) := by
    unfold MappingFEField.fill_fe_face_values
    rw [hupd]
    simp only []
    rw [hdo, hrun]
  rw [hod] at hbflen hbf2
  refine ⟨_, _, hfill, hbflen, ?_⟩
  intro i hi
  -- the mapped tangentials
  have hmapped : ∀ d, d < dim - 1 →
      (aux.getD d []).getD i 0 =
        ((maybe_update_Jacobians F sqrt data_set data m.component_dofs).contravariant.getD i
          0).mulVec (m.reference_cell_face_tangent_vector face_no d) := by
    intro d hd
    obtain ⟨t1, t2, t3⟩ := get_face_data_tangentials F m update_flags q n_original_q_points
      face_no d hbf hface hnf hd (by omega)
    rw [maybe_compute_face_data_tangentials_getD F cell face_no _ aux
      (by rw [hueJ]; exact hc) htan d i hd
      (by rw [maybe_update_Jacobians_aux, hauxd]; exact t2)
      (by rw [maybe_update_Jacobians_aux, hauxd, t3]; omega),
      maybe_update_Jacobians_unit_tangentials, hut, hfaces, t1,
      getD_replicate_of_lt _ _ _ _ (by omega)]
  have hbfi : ∀ value : Nat → Tensor1 dim,
      bf = assign_each output_data.boundary_forms.length value output_data.boundary_forms →
      bf.getD i 0 = value i := fun value hv => by
    rw [hv, assign_each_getD _ _ _ _ _ hi hi]
  show (dim = 1 → ∀ k : Fin dim, k.val = 0 → bf.getD i 0 k = if face_no = 0 then -1 else 1) ∧
    (dim = 2 → bf.getD i 0 = cross_product_2d
      (((maybe_update_Jacobians F sqrt data_set data m.component_dofs).contravariant.getD i
        0).mulVec (m.reference_cell_face_tangent_vector face_no 0))) ∧
    (dim = 3 → bf.getD i 0 = cross_product_3d
      (((maybe_update_Jacobians F sqrt data_set data m.component_dofs).contravariant.getD i
        0).mulVec (m.reference_cell_face_tangent_vector face_no 0))
      (((maybe_update_Jacobians F sqrt data_set data m.component_dofs).contravariant.getD i
        0).mulVec (m.reference_cell_face_tangent_vector face_no 1))) ∧
    (∀ d, d < dim - 1 → scalar_product (bf.getD i 0)
      (((maybe_update_Jacobians F sqrt data_set data m.component_dofs).contravariant.getD i
        0).mulVec (m.reference_cell_face_tangent_vector face_no d)) = 0)
  rcases hdim with h1 | h2 | h3
  · subst h1
    rw [maybe_compute_face_data_boundary_forms_one] at hbf2
    injection hbf2 with hbf2
    refine ⟨?_, fun h => absurd h (by decide), fun h => absurd h (by decide),
      fun d hd => absurd hd (by omega)⟩
    intro _ k hk
    rw [← hbf2, for_loop_set_self_getD output_data.boundary_forms.length
      (fun (_ : Nat) (old : Tensor1 1) (k : Fin 1) =>
        if k.val = 0 then (if face_no = 0 then (-1 : ℚ) else 1) else old k) 0
      output_data.boundary_forms i hi hi]
    simp only []
    rw [if_pos hk]
  · subst h2
    rw [maybe_compute_face_data_boundary_forms_two] at hbf2
    injection hbf2 with hbf2
    have hb := hbfi _ hbf2.symm
    simp only [] at hb
    rw [hmapped 0 (by omega)] at hb
    refine ⟨fun h => absurd h (by decide), fun _ => hb, fun h => absurd h (by decide), ?_⟩
    intro d hd
    have hd0 : d = 0 := by omega
    subst hd0
    rw [hb]
    exact cross_product_2d_orthogonal _
  · subst h3
    rw [maybe_compute_face_data_boundary_forms_three] at hbf2
    injection hbf2 with hbf2
    have hb := hbfi _ hbf2.symm
    simp only [] at hb
    rw [hmapped 0 (by omega), hmapped 1 (by omega)] at hb
    refine ⟨fun h => absurd h (by decide), fun h => absurd h (by decide), fun _ => hb, ?_⟩
    intro d hd
    have hd01 : d = 0 ∨ d = 1 := by omega
    rw [hb]
    rcases hd01 with rfl | rfl
    · exact cross_product_3d_orthogonal_left _ _
    · exact cross_product_3d_orthogonal_right _ _


/-- Witness of C31: on face `1` of the unit square scaled by `2`, for the request
`update_boundary_forms` and a one-point face rule, the boundary form at the point is
the 2D cross product of the mapped tangent vector of the face. -/
theorem boundary_form_cross_product_witness :
    requires_update_flags dealiiFlags dealiiFlags.update_boundary_forms
      &&& dealiiFlags.update_boundary_forms ≠ 0 ∧
    ∃ data2 out,
      (exampleScalingMapping 2 2).fill_fe_face_values dealiiFlags exampleSqrt exampleSquareCell
        1 1 ((exampleScalingMapping 2 2).get_face_data dealiiFlags
          dealiiFlags.update_boundary_forms exampleSubfaceRule 1) exampleFaceOutput
          = .ok (data2, out) ∧
      out.boundary_forms.getD 0 0 =
        cross_product_2d ((data2.contravariant.getD 0 0).mulVec
          ((exampleScalingMapping 2 2).reference_cell_face_tangent_vector 1 0)) ∧
      scalar_product (out.boundary_forms.getD 0 0)
        ((data2.contravariant.getD 0 0).mulVec
          ((exampleScalingMapping 2 2).reference_cell_face_tangent_vector 1 0)) = 0 := by
  obtain ⟨data2, out, hrun, -, hall⟩ := boundary_form_cross_product dealiiFlags exampleSqrt
    (exampleScalingMapping 2 2) exampleSquareCell dealiiFlags.update_boundary_forms
    exampleSubfaceRule 1 1 1 exampleFaceOutput (Or.inr (Or.inl rfl)) (by decide) (by decide)
    (exampleScaling_update_ok 2 2 exampleSquareCell rfl _) rfl (by decide) (by decide)
    (by decide)
  obtain ⟨-, h2, -, h4⟩ := hall 0 (by decide)
  exact ⟨by decide, data2, out, hrun, h2 rfl, h4 0 (by decide)⟩

end dealii
